import Mathlib

/-!
SEMS PostgreSQL connection pool: the scheduling core of `Worker`.

A shallow embedding of `apps/postgresql/ConnectionPool.cpp` (classes `Worker` and
`ConnectionPool`) together with the parts of `Connection.h` it relies on, and of the
structured value `AmArg` (`core/AmArg.h`, `core/AmArg.cpp`) as far as `Worker::getConfig` and
`AmArg::assertArrayFmt` need it.

Conventions of the embedding:

* Pointers to transactions and connections are natural numbers (`id`); the pointee of a
  transaction pointer is stored next to the pointer, inside the record that holds it.
* `time(0)` is the explicit argument `now`; `time_t` values are integers, the `uint32_t`
  tunables are natural numbers.
* A pool pointer (`ConnectionPool*`) is `Option PoolType`: `none` is the null pointer,
  `some .Master` / `some .Slave` the address of the master / slave pool of the Worker.
* Calls that leave the Worker (posting an event, `delete`, `cancel()`, `reset()`) are
  recorded in logs kept in the Worker state (`posted`, `deleted`, `cancelled`, `resetCalls`).
* `new` and `clone()` take the next unused pointer from the counter `nextId`.
* Loops that the source does not obviously bound take an iteration bound as first argument.
-/

namespace PgPool

/-! ## Data model -/

inductive PoolType where
  | Master
  | Slave
  deriving DecidableEq, Repr

inductive ConnStatusType where
  | CONNECTION_OK
  | CONNECTION_BAD
  deriving DecidableEq, Repr

inductive TransactionType where
  | TR_NON
  | TR_POLICY
  | TR_PREPARED
  | TR_CONFIG
  deriving DecidableEq, Repr

inductive TransactionStatus where
  | IDLE
  | RUNNING
  | CANCELING
  | DONE
  | FAILED
  deriving DecidableEq, Repr

/-- Modelled from the spec: `IPGTransaction` / `IPGQuery` (Transaction.h and Query.h are not
part of the sources). A transaction has a kind, a status, the connection it runs on, and a
query that is a chain of statements with a cursor on the statement being executed; its size
is its statement count. `id` is the pointer value. -/
structure IPGTransaction where
  id : Nat
  type : TransactionType
  policy : Nat
  queries : List String
  current : Nat
  status : TransactionStatus
  conn : Option Nat
  deriving DecidableEq, Repr

/-- Statement count: `trans->get_size()`, equal to `trans->get_query()->get_size()`. -/
def IPGTransaction.get_size (t : IPGTransaction) : Nat := t.queries.length

/-- The statement under the cursor: `get_query()->get_current_query()`. -/
def IPGTransaction.get_current_query (t : IPGTransaction) : Option String :=
  t.queries.get? t.current

/-- Effect of `QueryChain::removeQuery(get_current_query())`: the statement under the cursor
leaves the chain. -/
def IPGTransaction.removeCurrentQuery (t : IPGTransaction) : IPGTransaction :=
  { t with queries := t.queries.eraseIdx t.current }

/-- Modelled from the spec: `clone()` is an independent deep copy; the copy has the pointer
`newId`, is idle and is bound to no connection. -/
def IPGTransaction.cloneAs (t : IPGTransaction) (newId : Nat) : IPGTransaction :=
  { t with id := newId, status := .IDLE, conn := none }

/-- Modelled from the spec: `merge(other)` appends the statements of `other` when the two are
compatible; compatibility is decided by the transaction classes, which are not part of the
sources, and is the parameter `canMerge`. -/
def IPGTransaction.merge (canMerge : IPGTransaction → IPGTransaction → Bool)
    (t other : IPGTransaction) : Option IPGTransaction :=
  if canMerge t other then some { t with queries := t.queries ++ other.queries } else none

/-- Modelled from the spec: effect of `IPGConnection::runTransaction` on the transaction
(Connection.cpp is not part of the sources): it runs on connection `c`. -/
def IPGTransaction.startOn (t : IPGTransaction) (c : Nat) : IPGTransaction :=
  { t with status := .RUNNING, conn := some c }

/-- Modelled from the spec: `cancel()` is cooperative, it marks the transaction Canceling. -/
def IPGTransaction.cancel (t : IPGTransaction) : IPGTransaction :=
  { t with status := .CANCELING }

/-- The fields of `IPGConnection` (Connection.h) the Worker reads. -/
structure IPGConnection where
  id : Nat
  status : ConnStatusType
  cur_transaction : Option Nat
  planned : Option Nat
  is_pipeline : Bool
  disconnected_time : Int
  deriving DecidableEq, Repr

/-- `bool isBusy() { return cur_transaction ? true : (status != CONNECTION_OK); }` -/
def IPGConnection.isBusy (c : IPGConnection) : Bool :=
  if c.cur_transaction.isSome then true else c.status != .CONNECTION_OK

/-- Modelled from the spec: `IPGConnection::runTransaction(tx)` fails if the connection is
busy and otherwise makes `tx` its current transaction. -/
def IPGConnection.runTransaction (c : IPGConnection) (h : Nat) : IPGConnection :=
  if c.isBusy then c else { c with cur_transaction := some h }

structure ConnectionPool where
  connections : List IPGConnection
  type : PoolType
  connected : Int
  deriving DecidableEq, Repr

/-- `ConnectionPool::getFreeConnection`. -/
def ConnectionPool.getFreeConnection (p : ConnectionPool) : Option IPGConnection :=
  p.connections.find? (fun conn => !conn.isBusy && conn.status == .CONNECTION_OK)

/-- Apply `f` to the connection with pointer `cid`. -/
def ConnectionPool.updateConn (p : ConnectionPool) (cid : Nat)
    (f : IPGConnection → IPGConnection) : ConnectionPool :=
  { p with connections := p.connections.map (fun c => if c.id = cid then f c else c) }

/-- The events posted through `AmEventDispatcher` to a producer. -/
inductive PGEvent where
  | PGResponse (result token : String)
  | PGResponseError (error token : String)
  | PGTimeout (token : String)
  deriving DecidableEq, Repr

def PGEvent.token : PGEvent → String
  | .PGResponse _ t => t
  | .PGResponseError _ t => t
  | .PGTimeout t => t

/-- `Worker::TransContainer`; `sendTime` (a steady-clock stamp used only for the
`finished_time` metric) is left out. -/
structure TransContainer where
  trans : IPGTransaction
  currentPool : Option PoolType
  createdTime : Int
  token : String
  sender_id : String
  deriving DecidableEq, Repr

/-- The constructor `TransContainer(trans, pool, sender, token)`, with `createdTime(time(0))`. -/
def TransContainer.create (now : Int) (trans : IPGTransaction) (pool : Option PoolType)
    (sender token : String) : TransContainer :=
  { trans := trans, currentPool := pool, createdTime := now, token := token, sender_id := sender }

/-- Modelled from the spec: `PGPrepareData` (PostgreSqlAPI.h is not part of the sources), a
prepared statement of the administrative set: the fields `Worker::runPrepared` reads. -/
structure PGPrepareData where
  stmt : String
  query : String
  oids : List Nat
  sql_types : List String
  deriving DecidableEq, Repr

/-- Modelled from the spec: `AtomicCounter` (AmStatistics.h is not part of the sources) is a
gauge with `inc`, `dec` and `get`; the six counters are integers here. -/
structure Worker where
  failover_to_slave : Bool
  retransmit_enable : Bool
  use_pipeline : Bool
  retransmit_interval : Nat
  reconnect_interval : Nat
  trans_wait_time : Nat
  batch_timeout : Nat
  batch_size : Nat
  max_queue_length : Nat
  workTimer : Int
  master : Option ConnectionPool
  slave : Option ConnectionPool
  resetConnections : List (Option Nat)
  tr_size : Int
  finished : Int
  queue_size : Int
  ret_size : Int
  dropped : Int
  transactions : List TransContainer
  reconnect_errors : List String
  prepareds : List (String × PGPrepareData)
  search_pathes : List String
  init_queries : List String
  retransmit_q : List TransContainer
  queue : List TransContainer
  erased : List Nat
  retransmit_next_time : Int
  wait_next_time : Int
  reset_next_time : Int
  send_next_time : Int
  nextId : Nat
  posted : List (String × PGEvent)
  deleted : List Nat
  cancelled : List Nat
  resetCalls : List (Option Nat)
  deriving DecidableEq, Repr

/-- `AmEventDispatcher::instance()->post(address, event)`. -/
def Worker.post (w : Worker) (address : String) (ev : PGEvent) : Worker :=
  { w with posted := w.posted ++ [(address, ev)] }

/-- `delete trans`. -/
def Worker.delete (w : Worker) (h : Nat) : Worker :=
  { w with deleted := w.deleted ++ [h] }

/-- The pointer `nextId` has been handed out by `new` or `clone()`. -/
def Worker.alloc (w : Worker) : Worker :=
  { w with nextId := w.nextId + 1 }

/-- Pointer comparison `p == master`. -/
def Worker.isMaster (w : Worker) (p : Option PoolType) : Bool :=
  match p with
  | none => w.master.isNone
  | some .Master => w.master.isSome
  | some .Slave => false

/-- Dereference a pool pointer. -/
def Worker.poolAt (w : Worker) (p : Option PoolType) : Option ConnectionPool :=
  match p with
  | none => none
  | some .Master => w.master
  | some .Slave => w.slave

/-- Apply `f` to the connection with pointer `cid` of the pool `pool` points to. -/
def Worker.updateConn (w : Worker) (pool : Option PoolType) (cid : Nat)
    (f : IPGConnection → IPGConnection) : Worker :=
  match pool with
  | none => w
  | some .Master => { w with master := w.master.map (fun p => p.updateConn cid f) }
  | some .Slave => { w with slave := w.slave.map (fun p => p.updateConn cid f) }

/-- Sum of `get_size()` over a list of records. -/
def sizeSum (l : List TransContainer) : Int :=
  (l.map (fun r => (r.trans.get_size : Int))).sum

/-- The transaction pointers held by a list of records. -/
def handles (l : List TransContainer) : List Nat := l.map (fun r => r.trans.id)

/-! ## Worker operations -/

/-- `Worker::setWorkTimer`; `workTimer` keeps the value handed to `workTimer.set`. -/
def Worker.setWorkTimer (w : Worker) (current : Int) (immediately : Bool) : Worker :=
  if immediately then { w with workTimer := 1 }
  else
    let interval : Int := 0
    let interval :=
      if w.reset_next_time ≠ 0 ∧
          (interval = 0 ∨ w.reset_next_time < current ∨ w.reset_next_time - current < interval)
      then (if w.reset_next_time - current > 0 then w.reset_next_time - current else 1)
      else interval
    let interval :=
      if w.retransmit_next_time ≠ 0 ∧
          (interval = 0 ∨ w.retransmit_next_time < current ∨
            w.retransmit_next_time - current < interval)
      then (if w.retransmit_next_time - current > 0 then w.retransmit_next_time - current else 1)
      else interval
    let interval :=
      if w.wait_next_time ≠ 0 ∧
          (interval = 0 ∨ w.wait_next_time < current ∨ w.wait_next_time - current < interval)
      then (if w.wait_next_time - current > 0 then w.wait_next_time - current else 1)
      else interval
    let interval :=
      if w.send_next_time ≠ 0 ∧
          (interval = 0 ∨ w.send_next_time < current ∨ w.send_next_time - current < interval)
      then (if w.send_next_time - current > 0 then w.send_next_time - current else 1)
      else interval
    { w with workTimer := interval * 1000000 }

/-- Result of `Worker::getFreeConnection`: the out-parameters `*conn` and `*pool`, and
whether the error callback `func("worker not found")` was invoked. -/
structure FreeConnection where
  conn : Option IPGConnection
  pool : Option PoolType
  failed : Bool
  deriving DecidableEq, Repr

/-- `Worker::getFreeConnection(&conn, &pool, func)` with `*conn == 0` on entry. The body of
the `do ... while(!*pool)` loop runs once: `continue` jumps to the loop test, and `*pool` is
not null once a pool was assigned. -/
def Worker.getFreeConnection (w : Worker) (pool : Option PoolType) : FreeConnection :=
  if pool.isNone && w.master.isSome then
    { conn := w.master.bind ConnectionPool.getFreeConnection, pool := some .Master,
      failed := false }
  else if w.slave.isSome && (pool.isNone || w.isMaster pool) then
    { conn := w.slave.bind ConnectionPool.getFreeConnection, pool := some .Slave,
      failed := false }
  else
    { conn := none, pool := pool, failed := true }

/-- The two places of `retransmitTransaction` that start a transaction:
`transactions.emplace_back(trans.trans, pool, sender_id, token); tr_size.inc(size);
wait_next_time = transactions.front().createdTime + trans_wait_time;
conn->runTransaction(trans.trans); setWorkTimer(false);` -/
def Worker.startTransaction (w : Worker) (now : Int) (trans : TransContainer)
    (conn : IPGConnection) (pool : Option PoolType) : Worker :=
  let started := trans.trans.startOn conn.id
  let w := { w with
    transactions := w.transactions ++
      [TransContainer.create now started pool trans.sender_id trans.token],
    tr_size := w.tr_size + trans.trans.get_size }
  let w := { w with
    wait_next_time :=
      (match w.transactions.head? with
       | some front => front.createdTime
       | none => now) + w.trans_wait_time }
  let w := w.updateConn pool conn.id (fun c => c.runTransaction trans.trans.id)
  w.setWorkTimer now false

/-- The assignment `retransmit_next_time = t`. -/
def Worker.setRetransmitNextTime (w : Worker) (t : Int) : Worker :=
  { w with retransmit_next_time := t }

/-- `Worker::retransmitTransaction(trans)`; `trans` is passed by reference, so the record is
returned next to the result code. The first argument bounds the recursion depth. -/
def Worker.retransmitTransactionAux (fuel : Nat) (w0 : Worker) (now : Int)
    (trans : TransContainer) : Option (Int × Worker × TransContainer) :=
  match fuel with
  | 0 => none
  | fuel + 1 =>
    let w := w0.setRetransmitNextTime 0
    let recurse := retransmitTransactionAux fuel w now { trans with currentPool := none }
    let generic : Option (Int × Worker × TransContainer) :=
      if !w.retransmit_enable then some (0, w.delete trans.trans.id, trans)
      else if now - trans.createdTime < w.retransmit_interval then
        some (1, w.setRetransmitNextTime (trans.createdTime + w.retransmit_interval), trans)
      else recurse
    if trans.currentPool.isNone then
      let r := w.getFreeConnection none
      let w := if r.failed && trans.sender_id != "" then
          w.post trans.sender_id (.PGResponseError "worker not found" trans.token)
        else w
      match r.conn with
      | none => some (-1, w, trans)
      | some conn =>
        some (0, w.startTransaction now trans conn r.pool,
          { trans with trans := trans.trans.startOn conn.id })
    else if w.isMaster trans.currentPool then
      if !w.failover_to_slave && !w.retransmit_enable then
        some (0, w.delete trans.trans.id, trans)
      else if now - trans.createdTime < w.retransmit_interval then
        some (1, w.setRetransmitNextTime (trans.createdTime + w.retransmit_interval), trans)
      else
        -- the error callback captures the local `sender_id = ""` and posts nothing
        let r := w.getFreeConnection (some .Master)
        if w.failover_to_slave && w.slave.isSome && r.conn.isNone then some (1, w, trans)
        else
          match r.conn with
          | some conn =>
            if w.failover_to_slave then
              some (0, w.startTransaction now trans conn r.pool,
                { trans with trans := trans.trans.startOn conn.id })
            else if !w.retransmit_enable then some (0, w.delete trans.trans.id, trans)
            else recurse
          | none =>
            if (w.failover_to_slave && w.slave.isNone) || !w.failover_to_slave then
              if !w.retransmit_enable then some (0, w.delete trans.trans.id, trans)
              else recurse
            else generic
    else generic

/-- `Worker::retransmitTransaction`, run with recursion depth two (one recursive call). -/
def Worker.retransmitTransaction (w : Worker) (now : Int) (trans : TransContainer) :
    Int × Worker × TransContainer :=
  match w.retransmitTransactionAux 2 now trans with
  | some r => r
  | none => (-1, w, trans)

/-- `Worker::runTransaction(trans, sender_id, token)`. -/
def Worker.runTransaction (w : Worker) (now : Int) (trans : IPGTransaction)
    (sender_id token : String) : Worker :=
  let sender := if w.batch_size > 1 ∧ sender_id ≠ "" then "" else sender_id
  if w.max_queue_length ≠ 0 ∧ w.queue_size ≥ (w.max_queue_length : Int) then
    let w := if sender ≠ "" then w.post sender (.PGResponseError "queue is full" token) else w
    let w := { w with dropped := w.dropped + trans.get_size }
    w.delete trans.id
  else
    let w := { w with
      queue := w.queue ++ [TransContainer.create now trans none sender token],
      queue_size := w.queue_size + trans.get_size }
    let w := if w.send_next_time = 0 then { w with send_next_time := now + w.batch_timeout }
      else w
    w.setWorkTimer now false

/-- The retry-queue loop of `Worker::checkQueue`. `kept` holds the entries the iterator has
passed, `rest` the entries from the iterator on. -/
def Worker.drainRetry (w : Worker) (now : Int) (kept rest : List TransContainer) : Worker :=
  match rest with
  | [] => { w with retransmit_q := kept }
  | entry :: tl =>
    let size := entry.trans.get_size
    let r := w.retransmitTransaction now entry
    if r.1 < 0 then { r.2.1 with retransmit_q := kept ++ r.2.2 :: tl }
    else if r.1 > 0 then Worker.drainRetry r.2.1 now (kept ++ [r.2.2]) tl
    else Worker.drainRetry { r.2.1 with ret_size := r.2.1.ret_size - size } now kept tl

/-- The loop variables of the batching loop of `Worker::checkQueue` after the first
`if / else if / else` of its body. -/
structure BatchCursor where
  w : Worker
  trans : IPGTransaction
  count : Nat
  need_send : Bool
  cur : TransContainer
  consumed : List TransContainer
  next : List TransContainer

/-- First `if / else if / else` of the batching loop body at `*trans_it = x`. `pre` are the
queue entries before the iterator, `tl` those after it; `consumed` is `[queue.begin(),
next_it)` and `next` is `[next_it, queue.end())`. After a failed merge the iterator steps
back, so `cur` is the last entry of `pre`. -/
def Worker.batchFold (cm : IPGTransaction → IPGTransaction → Bool) (w : Worker)
    (acc : Option IPGTransaction) (count : Nat) (pre : List TransContainer)
    (x : TransContainer) (tl : List TransContainer) : BatchCursor :=
  match acc with
  | none =>
    { w := w.alloc, trans := x.trans.cloneAs w.nextId,
      count := count + x.trans.get_size, need_send := false, cur := x,
      consumed := pre ++ [x], next := tl }
  | some a =>
    match a.merge cm x.trans with
    | none =>
      { w := w, trans := a, count := count, need_send := true, cur := pre.getLast?.getD x,
        consumed := pre, next := x :: tl }
    | some merged =>
      { w := w, trans := merged, count := count + x.trans.get_size, need_send := false,
        cur := x, consumed := pre ++ [x], next := tl }

/-- The batching loop of `Worker::checkQueue`: `acc` is the accumulator `trans`, `pre` and
`rest` split the admission queue at the iterator. The first argument bounds the number of
iterations. -/
def Worker.batchLoop (cm : IPGTransaction → IPGTransaction → Bool) (fuel : Nat) (w : Worker)
    (now : Int) (acc : Option IPGTransaction) (count : Nat)
    (pre rest : List TransContainer) : Worker :=
  match fuel with
  | 0 => w
  | fuel + 1 =>
    match rest with
    | [] => w
    | x :: tl =>
      let s := w.batchFold cm acc count pre x tl
      if s.count ≥ w.batch_size ∨ s.need_send = true ∨ s.next = [] then
        let tr := TransContainer.create now s.trans none s.cur.sender_id s.cur.token
        let r := s.w.retransmitTransaction now tr
        if r.1 < 0 then r.2.1.delete s.trans.id
        else
          let w2 := r.2.1
          let w3 := { w2 with
            deleted := w2.deleted ++ handles s.consumed,
            queue := w2.queue.drop s.consumed.length,
            queue_size := w2.queue_size - s.count }
          Worker.batchLoop cm fuel w3 now none 0 [] s.next
      else
        Worker.batchLoop cm fuel s.w now (some s.trans) s.count s.consumed s.next

/-- Iterations the batching loop still needs: two per queue entry from the iterator on, one
more while an accumulator is open. -/
def batchMeasure (acc : Option IPGTransaction) (rest : List TransContainer) : Nat :=
  2 * rest.length + (if acc.isSome then 1 else 0)

/-- `Worker::checkQueue`. Every iteration of the batching loop either moves the iterator
forward or resets the accumulator, so `2 * queue.size() + 1` iterations are enough. -/
def Worker.checkQueue (cm : IPGTransaction → IPGTransaction → Bool) (w : Worker) (now : Int) :
    Worker :=
  let w := w.drainRetry now [] w.retransmit_q
  if w.send_next_time > now ∧ w.queue.length < w.batch_size then w
  else
    let w := w.batchLoop cm (2 * w.queue.length + 1) now none 0 [] w.queue
    if w.queue.length = 0 then { w with send_next_time := 0 }
    else { w with send_next_time := now + w.batch_timeout }

/-- Modelled from the spec: `new NonTransaction(this)` or `createDbTransaction(this, il, wp)`
followed by `exec(query)`: a fresh idle transaction holding that one query. -/
def IPGTransaction.create (id : Nat) (type : TransactionType) (policy : Nat)
    (query : Option String) : IPGTransaction :=
  { id := id, type := type, policy := policy, queries := query.toList, current := 0,
    status := .IDLE, conn := none }

/-- `retransmit_q.emplace_back(trans_, trans.currentPool, trans.sender_id, trans.token);
ret_size.inc(size);` as it appears four times in `onErrorTransaction`. -/
def Worker.pushRetry (w : Worker) (now : Int) (trans_ : IPGTransaction)
    (trans : TransContainer) (size : Nat) : Worker :=
  { w with
    retransmit_q := w.retransmit_q ++
      [TransContainer.create now trans_ trans.currentPool trans.sender_id trans.token],
    ret_size := w.ret_size + size }

/-- `Worker::onErrorTransaction(trans, error)`. The record is passed by const reference, but
`removeQuery` changes the transaction it points to: the transaction is returned as well. -/
def Worker.onErrorTransaction (w : Worker) (now : Int) (trans : TransContainer)
    (error : String) : Worker × IPGTransaction :=
  if !w.retransmit_enable && !w.failover_to_slave && trans.sender_id != "" then
    (w.post trans.sender_id (.PGResponseError error trans.token), trans.trans)
  else if trans.trans.type == .TR_NON && !w.use_pipeline then
    (w.alloc.pushRetry now
        (IPGTransaction.create w.nextId .TR_NON 0 trans.trans.get_current_query) trans
        (IPGTransaction.create w.nextId .TR_NON 0 trans.trans.get_current_query).get_size,
      trans.trans)
  else if trans.trans.type == .TR_POLICY || (trans.trans.type == .TR_NON && w.use_pipeline) then
    if trans.trans.get_size > 1 then
      let q_ret := trans.trans.get_current_query
      let t := trans.trans.removeCurrentQuery
      let w := w.alloc.pushRetry now (t.cloneAs w.nextId) trans t.get_size
      let trans_ :=
        if t.type == .TR_POLICY then IPGTransaction.create w.nextId .TR_POLICY t.policy q_ret
        else IPGTransaction.create w.nextId .TR_NON 0 q_ret
      (w.alloc.pushRetry now trans_ trans trans_.get_size, t)
    else
      (w.alloc.pushRetry now (trans.trans.cloneAs w.nextId) trans trans.trans.get_size,
        trans.trans)
  else
    (w.alloc.pushRetry now (trans.trans.cloneAs w.nextId) trans trans.trans.get_size,
      trans.trans)

/-- `Worker::onError(trans, error)`; `Worker::onPQError(trans, error)` has the same body. -/
def Worker.onError (w : Worker) (now : Int) (trans : Nat) (error : String) : Worker :=
  match w.transactions.find? (fun tr => tr.trans.id == trans) with
  | none => w
  | some tr =>
    let r := w.onErrorTransaction now tr error
    { r.1 with
      tr_size := r.1.tr_size - r.2.get_size,
      transactions := r.1.transactions.eraseP (fun tr => tr.trans.id == trans) }

/-- `Worker::onPQError(IPGTransaction*, error)`. -/
def Worker.onPQError (w : Worker) (now : Int) (trans : Nat) (error : String) : Worker :=
  w.onError now trans error

/-- `Worker::onStopTransaction(trans)`. -/
def Worker.onStopTransaction (w : Worker) (now : Int) (trans : Nat) : Worker :=
  match w.transactions.find? (fun tr => tr.trans.id == trans) with
  | none => w
  | some tr =>
    { w with
      retransmit_q := w.retransmit_q ++
        [TransContainer.create now tr.trans none tr.sender_id tr.token],
      tr_size := w.tr_size - tr.trans.get_size,
      ret_size := w.ret_size + tr.trans.get_size,
      transactions := w.transactions.eraseP (fun tr => tr.trans.id == trans) }

/-- `Worker::onFinish(trans, result)`; the `finished_time` metric is left out. -/
def Worker.onFinish (w : Worker) (now : Int) (trans : Nat) (result : String) : Worker :=
  let w := w.setWorkTimer now true
  let w := { w with erased := w.erased ++ [trans] }
  match w.transactions.find? (fun tr => tr.trans.id == trans) with
  | none => w
  | some tr =>
    let w := if tr.sender_id != "" then w.post tr.sender_id (.PGResponse result tr.token) else w
    { w with
      finished := w.finished + tr.trans.get_size,
      tr_size := w.tr_size - tr.trans.get_size,
      transactions := w.transactions.eraseP (fun tr => tr.trans.id == trans) }

/-- Look a connection pointer up in the two pools. -/
def Worker.findConn (w : Worker) (cid : Nat) : Option IPGConnection :=
  match w.master.bind (fun p => p.connections.find? (fun c => c.id == cid)) with
  | some c => some c
  | none => w.slave.bind (fun p => p.connections.find? (fun c => c.id == cid))

/-- `conn->getDisconnectedTime()`; a pointer that is null or outside both pools reads 0. -/
def Worker.getDisconnectedTime (w : Worker) (conn : Option Nat) : Int :=
  match conn.bind w.findConn with
  | some c => c.disconnected_time
  | none => 0

/-- The loop of `Worker::onTimer` over the copy `conns` of the pending-reset list; returns
the Worker and what is left of `conns`. `reset()` is asynchronous and only recorded. -/
def Worker.resetWalk (w : Worker) (current : Int) (conns : List (Option Nat)) :
    Worker × List (Option Nat) :=
  match conns with
  | [] => (w, [])
  | conn :: tl =>
    if w.getDisconnectedTime conn + w.reconnect_interval < current then
      Worker.resetWalk { w with resetCalls := w.resetCalls ++ [conn] } current tl
    else
      ({ w with
          reset_next_time := current - w.getDisconnectedTime conn + w.reconnect_interval },
        conn :: tl)

/-- `Worker::onFireTransaction(trans)` for the active record at position `i`. -/
def Worker.onFireTransaction (w : Worker) (i : Nat) (trans : TransContainer) : Worker :=
  let w := if !w.retransmit_enable && !w.failover_to_slave && trans.sender_id != "" then
      w.post trans.sender_id (.PGTimeout trans.token)
    else w
  { w with
    cancelled := w.cancelled ++ [trans.trans.id],
    transactions := w.transactions.set i { trans with trans := trans.trans.cancel } }

/-- The loop of `Worker::onTimer` over the active table, the iterator at position `i`. The
iterator moves only in the last branch, so the loop need not end: the first argument bounds
the number of iterations and the flag tells whether the loop ended. -/
def Worker.timerWalk (fuel : Nat) (w : Worker) (current : Int) (i : Nat) : Worker × Bool :=
  match fuel with
  | 0 => (w, false)
  | fuel + 1 =>
    match w.transactions.get? i with
    | none => (w, true)
    | some tr =>
      if current - tr.createdTime > (w.trans_wait_time : Int) ∧
          tr.trans.status ≠ .CANCELING then
        Worker.timerWalk fuel (w.onFireTransaction i tr) current i
      else if current - tr.createdTime > ((w.trans_wait_time * 2 % 2 ^ 32 : Nat) : Int) ∧
          tr.trans.status = .CANCELING then
        Worker.timerWalk fuel { w with resetConnections := w.resetConnections ++ [tr.trans.conn] }
          current i
      else
        Worker.timerWalk fuel { w with wait_next_time := tr.createdTime + w.trans_wait_time }
          current (i + 1)

/-- First part of `Worker::onTimer`: free the deferred-delete list and walk the
pending-reset list. -/
def Worker.onTimerResets (w : Worker) (current : Int) : Worker :=
  let w := { w with deleted := w.deleted ++ w.erased, erased := [] }
  let conns := w.resetConnections
  let w := { w with resetConnections := [], reset_next_time := 0 }
  let r := w.resetWalk current conns
  { r.1 with resetConnections := r.2 ++ r.1.resetConnections }

/-- `Worker::onTimer`. The flag is false when the walk over the active table did not end
within `fuel` iterations; `checkQueue` and `setWorkTimer` are then not reached. -/
def Worker.onTimer (cm : IPGTransaction → IPGTransaction → Bool) (fuel : Nat) (w : Worker)
    (current : Int) : Worker × Bool :=
  let r := (w.onTimerResets current).timerWalk fuel current 0
  if r.2 then ((r.1.checkQueue cm current).setWorkTimer current false, true)
  else (r.1, false)

/-- The calls a Worker receives from producers, its timer and the connection driver. -/
inductive Op where
  | runTransaction (trans : IPGTransaction) (sender_id token : String)
  | onTimer (fuel : Nat)
  | onFinish (trans : Nat) (result : String)
  | onError (trans : Nat) (error : String)
  | onPQError (trans : Nat) (error : String)
  | onStopTransaction (trans : Nat)

/-- One call at time `now`. -/
def Worker.step (cm : IPGTransaction → IPGTransaction → Bool) (w : Worker) (now : Int) :
    Op → Worker
  | .runTransaction t sender_id token => w.runTransaction now t sender_id token
  | .onTimer fuel => (w.onTimer cm fuel now).1
  | .onFinish t result => w.onFinish now t result
  | .onError t error => w.onError now t error
  | .onPQError t error => w.onPQError now t error
  | .onStopTransaction t => w.onStopTransaction now t

/-- A sequence of calls, each with its time. -/
def Worker.run (cm : IPGTransaction → IPGTransaction → Bool) (w : Worker) :
    List (Int × Op) → Worker
  | [] => w
  | (now, op) :: ops => Worker.run cm (w.step cm now op) ops

/-- `Worker::Worker` with explicit tunables: no pools, empty collections, zero counters. -/
def Worker.init (failover retransmit pipeline : Bool)
    (retransmit_interval reconnect_interval trans_wait_time batch_timeout batch_size
      max_queue_length : Nat) : Worker :=
  { failover_to_slave := failover, retransmit_enable := retransmit, use_pipeline := pipeline,
    retransmit_interval := retransmit_interval, reconnect_interval := reconnect_interval,
    trans_wait_time := trans_wait_time, batch_timeout := batch_timeout,
    batch_size := batch_size, max_queue_length := max_queue_length,
    workTimer := 0, master := none, slave := none, resetConnections := [],
    tr_size := 0, finished := 0, queue_size := 0, ret_size := 0, dropped := 0,
    transactions := [], reconnect_errors := [], prepareds := [], search_pathes := [],
    init_queries := [], retransmit_q := [], queue := [], erased := [],
    retransmit_next_time := 0, wait_next_time := 0, reset_next_time := 0, send_next_time := 0,
    nextId := 0, posted := [], deleted := [], cancelled := [], resetCalls := [] }

/-! ## Predicates used in the statements -/

/-- An event posted to a non-empty address that `P` relates to the event's token. -/
def PostedFor (P : String → String → Prop) (p : String × PGEvent) : Prop :=
  p.1 ≠ "" ∧ P p.1 p.2.token

/-- Every record of the list either has no producer address or carries an address and token
related by `P`. -/
def RecordsFor (P : String → String → Prop) (l : List TransContainer) : Prop :=
  ∀ r ∈ l, r.sender_id ≠ "" → P r.sender_id r.token

/-- All events posted so far, and all records the Worker holds, belong to `P`. -/
structure Worker.OutcomesFor (P : String → String → Prop) (w : Worker) : Prop where
  posted : ∀ p ∈ w.posted, PostedFor P p
  queue : RecordsFor P w.queue
  transactions : RecordsFor P w.transactions
  retransmit_q : RecordsFor P w.retransmit_q

/-- The transaction pointers held by the four collections of a Worker. -/
def Worker.held (w : Worker) : List Nat :=
  handles w.queue ++ handles w.transactions ++ handles w.retransmit_q ++ w.erased

/-- No pointer is held twice, and every held pointer has been handed out. -/
def Worker.HeldOnce (w : Worker) : Prop :=
  w.held.Nodup ∧ ∀ h ∈ w.held, h < w.nextId

/-- Side condition of a call: a submitted transaction is new to the Worker, and a finished
transaction is not waiting in the admission queue, the retry queue or the deferred-delete
list. Both pointers have been handed out. -/
def Worker.Accepts (w : Worker) : Op → Prop
  | .runTransaction t _ _ => t.id < w.nextId ∧ t.id ∉ w.held
  | .onFinish h _ =>
    h < w.nextId ∧ h ∉ handles w.queue ∧ h ∉ handles w.retransmit_q ∧ h ∉ w.erased
  | _ => True

/-! ## Connection bookkeeping -/

/-- `ConnectionPool::checkConnection(conn, connect)`: the pool afterwards and the result; the
gauge moves once, at the first member that is `conn`. -/
def ConnectionPool.checkConnection (p : ConnectionPool) (conn : Option Nat) (connect : Bool) :
    ConnectionPool × Bool :=
  if p.connections.any (fun c => some c.id == conn) then
    ({ p with connected := if connect then p.connected + 1 else p.connected - 1 }, true)
  else (p, false)

/-- The statement
`if(master && !master->checkConnection(conn, connect) && slave) slave->checkConnection(conn, connect);`
of `onConnect`, `onReset`, `onDisconnect` and `onErrorCode`. -/
def Worker.checkConnection (w : Worker) (conn : Option Nat) (connect : Bool) : Worker :=
  match w.master with
  | none => w
  | some m =>
    let r := m.checkConnection conn connect
    let w := { w with master := some r.1 }
    if !r.2 then
      match w.slave with
      | some s => { w with slave := some (s.checkConnection conn connect).1 }
      | none => w
    else w

/-- Apply `f` to the connection with pointer `cid`, in whichever pool holds it. -/
def Worker.updateConnAny (w : Worker) (cid : Nat) (f : IPGConnection → IPGConnection) :
    Worker :=
  { w with
    master := w.master.map (fun p => p.updateConn cid f),
    slave := w.slave.map (fun p => p.updateConn cid f) }

/-- Modelled from the spec: `IPGConnection::startPipeline()` (Connection.cpp is not part of
the sources) switches pipelining on. -/
def IPGConnection.startPipeline (c : IPGConnection) : IPGConnection :=
  { c with is_pipeline := true }

/-- Modelled from the spec: `IPGConnection::exitPipeline()` (Connection.cpp is not part of
the sources) switches pipelining off. -/
def IPGConnection.exitPipeline (c : IPGConnection) : IPGConnection :=
  { c with is_pipeline := false }

/-- Modelled from the spec: `IPGConnection::addPlannedTransaction(tx)` (Connection.cpp is not
part of the sources) fails if the planned slot is occupied and fills it otherwise. -/
def IPGConnection.addPlannedTransaction (c : IPGConnection) (h : Nat) : IPGConnection :=
  if c.planned.isSome then c else { c with planned := some h }

/-- `Worker::onConnect(conn)`. The `ConfigTransaction` takes the next unused pointer; it is
deleted when the connection refuses it. A pointer outside both pools has no state here: the
transaction is then deleted as well. -/
def Worker.onConnect (w : Worker) (now : Int) (conn : Nat) : Worker :=
  let w := w.checkConnection (some conn) true
  let w := if w.use_pipeline then w.updateConnAny conn IPGConnection.startPipeline else w
  if !w.prepareds.isEmpty || !w.search_pathes.isEmpty || !w.init_queries.isEmpty then
    let trans := w.nextId
    let w := w.alloc
    match w.findConn conn with
    | some c =>
      if c.isBusy then w.delete trans
      else w.updateConnAny conn (fun c => c.runTransaction trans)
    | none => w.delete trans
  else w.setWorkTimer now true

/-- `Worker::onErrorCode(trans, error)`; `trans` is the transaction pointed to. -/
def Worker.onErrorCode (w : Worker) (now : Int) (trans : IPGTransaction) (error : String) :
    Worker :=
  if w.reconnect_errors.isEmpty || w.reconnect_errors.contains error then
    let w := w.checkConnection trans.conn false
    let w := { w with resetConnections := w.resetConnections ++ [trans.conn] }
    let w := { w with
      reset_next_time := w.getDisconnectedTime (w.resetConnections.head?.bind id) }
    w.setWorkTimer now false
  else w

/-! ## Reconfiguration -/

/-- The loop of `ConnectionPool::runTransactionForPool(trans)`: every connection whose status
is `CONNECTION_OK` gets its own clone of `trans` (the next unused pointers, from `nextId`
on), as current transaction when it is not busy and as planned transaction otherwise.
Returns the connections and the next unused pointer. -/
def runTransactionForPoolLoop (nextId : Nat) : List IPGConnection → List IPGConnection × Nat
  | [] => ([], nextId)
  | c :: rest =>
    if c.status == .CONNECTION_OK then
      ((if !c.isBusy then c.runTransaction nextId else c.addPlannedTransaction nextId) ::
          (runTransactionForPoolLoop (nextId + 1) rest).1,
        (runTransactionForPoolLoop (nextId + 1) rest).2)
    else
      (c :: (runTransactionForPoolLoop nextId rest).1, (runTransactionForPoolLoop nextId rest).2)

/-- `ConnectionPool::runTransactionForPool(trans)`. -/
def ConnectionPool.runTransactionForPool (p : ConnectionPool) (nextId : Nat) :
    ConnectionPool × Nat :=
  ({ p with connections := (runTransactionForPoolLoop nextId p.connections).1 },
    (runTransactionForPoolLoop nextId p.connections).2)

/-- The statements
`if(master) master->runTransactionForPool(trans); if(slave) slave->runTransactionForPool(trans);`. -/
def Worker.runTransactionForPools (w : Worker) : Worker :=
  let w := match w.master with
    | some m =>
      { w with master := some (m.runTransactionForPool w.nextId).1,
               nextId := (m.runTransactionForPool w.nextId).2 }
    | none => w
  match w.slave with
  | some s =>
    { w with slave := some (s.runTransactionForPool w.nextId).1,
             nextId := (s.runTransactionForPool w.nextId).2 }
  | none => w

/-- `Worker::setSearchPath(search_path)`. The `NonTransaction` built for a non-empty path
takes the next unused pointer and is never deleted; connections keep pointers only, so the
text of its query is not represented. -/
def Worker.setSearchPath (w : Worker) (search_path : List String) : Worker :=
  let w := { w with search_pathes := search_path }
  if search_path.isEmpty then w else w.alloc.runTransactionForPools

/-- `Worker::setReconnectErrors(errors)`. -/
def Worker.setReconnectErrors (w : Worker) (errors : List String) : Worker :=
  { w with reconnect_errors := errors }

/-- `Worker::runPrepared(prepared)`. Modelled from the spec: `pg_typname2oid` (pqtypes-int.h
is not part of the sources) is the parameter `typname2oid`, `none` standing for `INVALIDOID`.
`std::map::emplace` keeps an entry that already has the key. The `unique_ptr` deletes the
transaction when the function returns. -/
def Worker.runPrepared (typname2oid : String → Option Nat) (w : Worker)
    (prepared : PGPrepareData) : Worker :=
  let w := { w with
    prepareds :=
      if w.prepareds.any (fun x => x.1 == prepared.stmt) then w.prepareds
      else w.prepareds ++ [(prepared.stmt, prepared)] }
  if prepared.sql_types.all (fun t => (typname2oid t).isSome) then
    (w.alloc.runTransactionForPools).delete w.nextId
  else w

/-- `ConnectionPool::usePipeline(is_pipeline)`. -/
def ConnectionPool.usePipeline (p : ConnectionPool) (is_pipeline : Bool) : ConnectionPool :=
  { p with
    connections :=
      p.connections.map (fun c => if is_pipeline then c.startPipeline else c.exitPipeline) }

/-- Modelled from the spec: `PGWorkerConfig` (PostgreSqlAPI.h is not part of the sources),
the fields `Worker::configure` reads, each with the type of the Worker field it is assigned
to. -/
structure PGWorkerConfig where
  failover_to_slave : Bool
  retransmit_enable : Bool
  use_pipeline : Bool
  trans_wait_time : Nat
  retransmit_interval : Nat
  reconnect_interval : Nat
  batch_size : Nat
  batch_timeout : Nat
  max_queue_length : Nat
  search_pathes : List String
  reconnect_errors : List String
  prepeared : List PGPrepareData
  deriving DecidableEq, Repr

/-- `Worker::configure(e)`. -/
def Worker.configure (typname2oid : String → Option Nat) (w : Worker) (now : Int)
    (e : PGWorkerConfig) : Worker :=
  let w := { w with prepareds := [], search_pathes := [], init_queries := [],
                    reconnect_errors := [] }
  let w := { w with
    failover_to_slave := e.failover_to_slave,
    retransmit_enable := e.retransmit_enable,
    use_pipeline := e.use_pipeline,
    trans_wait_time := e.trans_wait_time,
    retransmit_interval := e.retransmit_interval,
    reconnect_interval := e.reconnect_interval,
    batch_size := e.batch_size,
    batch_timeout := e.batch_timeout,
    max_queue_length := e.max_queue_length }
  let w := w.setSearchPath e.search_pathes
  let w := w.setReconnectErrors e.reconnect_errors
  let w := e.prepeared.foldl (Worker.runPrepared typname2oid) w
  let w := { w with
    master := w.master.map (fun (p : ConnectionPool) => p.usePipeline w.use_pipeline),
    slave := w.slave.map (fun (p : ConnectionPool) => p.usePipeline w.use_pipeline) }
  let w := { w with reset_next_time := 0, resetConnections := [], retransmit_next_time := 0,
                    wait_next_time := 0 }
  w.setWorkTimer now false
/-- The connected gauges of the primary and of the secondary pool. -/
def Worker.gauges (w : Worker) : Option Int × Option Int :=
  (w.master.map (fun p => p.connected), w.slave.map (fun p => p.connected))

/-- Membership test of the loop of `ConnectionPool::checkConnection`. -/
def ConnectionPool.hasConn (p : ConnectionPool) (conn : Nat) : Bool :=
  p.connections.any (fun c => c.id == conn)

/-! ## The structured value `AmArg` (core/AmArg.h, core/AmArg.cpp) -/

/-- `enum AmArg::Type`. -/
inductive AmArgType where
  | Undef
  | Int
  | LongLong
  | Bool
  | Double
  | CStr
  | AObject
  | ADynInv
  | Blob
  | Array
  | Struct
  | Reference
  deriving DecidableEq, Repr

/-- The exceptions `AmArg` throws. -/
inductive AmArgException where
  | OutOfBoundsException
  | TypeMismatchException
  deriving DecidableEq, Repr

/-- An `AmArg` value: the type tag with the member of the union it selects. A double is its
bit pattern, objects are pointers, a struct (`std::map<std::string, AmArg>`) is a list of
entries with distinct keys whose order has no meaning. -/
inductive AmArg where
  | undef
  | int (v : Int)
  | longLong (v : Int)
  | bool (v : Bool)
  | double (bits : Nat)
  | cstr (v : String)
  | aobject (ptr : Nat)
  | adyninv (ptr : Nat)
  | blob (data : List Nat)
  | array (v : List AmArg)
  | struct (v : List (String × AmArg))
  | reference (ptr : Nat)

/-- `AmArg::getType()`. -/
def AmArg.getType : AmArg → AmArgType
  | .undef => .Undef
  | .int _ => .Int
  | .longLong _ => .LongLong
  | .bool _ => .Bool
  | .double _ => .Double
  | .cstr _ => .CStr
  | .aobject _ => .AObject
  | .adyninv _ => .ADynInv
  | .blob _ => .Blob
  | .array _ => .Array
  | .struct _ => .Struct
  | .reference _ => .Reference

/-- `AmArg::get(size_t idx) const`: `assertArray()` of a const value throws
`TypeMismatchException` unless the type is `Array`; an index past the end throws
`OutOfBoundsException`. -/
def AmArg.get (a : AmArg) (idx : Nat) : Except AmArgException AmArg :=
  match a with
  | .array v =>
    match v.get? idx with
    | some x => .ok x
    | none => .error .OutOfBoundsException
  | _ => .error .TypeMismatchException

/-- The type a format letter of `assertArrayFmt` stands for: the `case` labels of its
`switch`; `none` is the `default` label. -/
def AmArg.fmtType (c : Char) : Option AmArgType :=
  if c = 'i' then some .Int
  else if c = 'l' then some .LongLong
  else if c = 't' then some .Bool
  else if c = 'f' then some .Double
  else if c = 's' then some .CStr
  else if c = 'o' then some .AObject
  else if c = 'd' then some .ADynInv
  else if c = 'a' then some .Array
  else if c = 'b' then some .Blob
  else if c = 'u' then some .Struct
  else none

/-- The loop of `AmArg::assertArrayFmt` from index `i` on, `format` being the letters not
yet looked at. A letter with a `case` label reads `get(i)` and tests its type
(`assertArgInt(get(i))` and the like); any other letter is logged and ignored. The `catch`
block logs and rethrows. -/
def AmArg.assertArrayFmtFrom (a : AmArg) : List Char → Nat → Except AmArgException Unit
  | [], _ => .ok ()
  | c :: format, i =>
    match AmArg.fmtType c with
    | some ty =>
      match a.get i with
      | .ok x =>
        if x.getType = ty then AmArg.assertArrayFmtFrom a format (i + 1)
        else .error .TypeMismatchException
      | .error e => .error e
    | none => AmArg.assertArrayFmtFrom a format (i + 1)

/-- `AmArg::assertArrayFmt(format)`; `strlen` ends the format at its first NUL. -/
def AmArg.assertArrayFmt (a : AmArg) (format : String) : Except AmArgException Unit :=
  a.assertArrayFmtFrom (format.toList.takeWhile (fun c => c ≠ Char.ofNat 0)) 0

/-- `std::map::operator[]` followed by an assignment: the entry of `key` is overwritten, or
added when the key is new. -/
def AmArg.mapAssign (m : List (String × AmArg)) (key : String) (v : AmArg) :
    List (String × AmArg) :=
  if m.any (fun e => e.1 == key) then m.map (fun e => if e.1 == key then (key, v) else e)
  else m ++ [(key, v)]

/-- `a[key] = v` for a non-const `a`: `assertStruct()` turns an undefined value into an empty
struct and throws `TypeMismatchException` for any other type than `Struct`. -/
def AmArg.assign (a : AmArg) (key : String) (v : AmArg) : Except AmArgException AmArg :=
  match a with
  | .undef => .ok (.struct [(key, v)])
  | .struct m => .ok (.struct (AmArg.mapAssign m key v))
  | _ => .error .TypeMismatchException

/-- The member `key` of a struct, if there is one. -/
def AmArg.member? (a : AmArg) (key : String) : Option AmArg :=
  match a with
  | .struct m => (m.find? (fun e => e.1 == key)).map (fun e => e.2)
  | _ => none

/-- The keys of a struct. -/
def AmArg.keys (a : AmArg) : List String :=
  match a with
  | .struct m => m.map (fun e => e.1)
  | _ => []

/-- `Worker::getConfig(ret)`: the `uint32_t` tunables are converted by
`AmArg(const unsigned int&)`, which makes a `LongLong`, the flags by `AmArg(const bool&)`. -/
def Worker.getConfig (w : Worker) (ret : AmArg) : Except AmArgException AmArg := do
  let ret ← ret.assign "max_queue_length" (.longLong w.max_queue_length)
  let ret ← ret.assign "batch_size" (.longLong w.batch_size)
  let ret ← ret.assign "batch_timeout" (.longLong w.batch_timeout)
  let ret ← ret.assign "trans_wait_time" (.longLong w.trans_wait_time)
  let ret ← ret.assign "reconnect_interval" (.longLong w.reconnect_interval)
  let ret ← ret.assign "retransmit_interval" (.longLong w.retransmit_interval)
  let ret ← ret.assign "retransmit_enable" (.bool w.retransmit_enable)
  let ret ← ret.assign "failover_to_slave" (.bool w.failover_to_slave)
  ret.assign "use_pipeline" (.bool w.use_pipeline)

/-- The format letters as the comment above the declaration of `assertArrayFmt` in AmArg.h
documents them, in the order of that comment. -/
def AmArg.documentedFormat : List (Char × AmArgType) :=
  [('i', .Int), ('l', .LongLong), ('t', .Bool), ('f', .Double), ('s', .CStr),
   ('o', .AObject), ('d', .ADynInv), ('b', .Blob), ('a', .Array), ('u', .Struct)]

/-- The documented type of a format letter. -/
def AmArg.documentedType (c : Char) : Option AmArgType :=
  AmArg.documentedFormat.lookup c

/-- An array conforms to a format when it has an element at every index of the format and
that element has the documented type of the letter at that index. -/
def AmArg.ConformsTo (v : List AmArg) (format : List Char) : Prop :=
  ∀ i c, format.get? i = some c →
    ∃ x, v.get? i = some x ∧ AmArg.documentedType c = some x.getType

/-- The accumulator `checkQueue` builds from the queue entries `x :: tl`: a clone of the
transaction of `x` (with pointer `id`) into which the transactions of `tl` are merged in
queue order. -/
def batchOf (cm : IPGTransaction → IPGTransaction → Bool) (id : Nat) (x : TransContainer)
    (tl : List TransContainer) : IPGTransaction :=
  tl.foldl (fun a y => (a.merge cm y.trans).getD a) (x.trans.cloneAs id)

/-- Every merge the batching loop performs on the entries `l`, starting from the accumulator
`a`, succeeds: the first entry merges into `a`, the second into the result, and so on. -/
def mergesInto (cm : IPGTransaction → IPGTransaction → Bool) (a : IPGTransaction) :
    List TransContainer → Bool
  | [] => true
  | y :: l => cm a y.trans && mergesInto cm ((a.merge cm y.trans).getD a) l

/-- What identifies a retry record apart from its recorded pool. -/
def TransContainer.payload (r : TransContainer) : IPGTransaction × Int × String × String :=
  (r.trans, r.createdTime, r.token, r.sender_id)

/-- One of the four `if` statements of `Worker::setWorkTimer`: the interval after the
deadline `deadline` was examined. -/
def nextInterval (current interval deadline : Int) : Int :=
  if deadline ≠ 0 ∧ (interval = 0 ∨ deadline < current ∨ deadline - current < interval) then
    (if deadline - current > 0 then deadline - current else 1)
  else interval

/-- The four deadlines of a Worker in the order `setWorkTimer` examines them. -/
def Worker.deadlines (w : Worker) : List Int :=
  [w.reset_next_time, w.retransmit_next_time, w.wait_next_time, w.send_next_time]

/-- The test of the first branch of the walk of `onTimer` over the active table: the record is
older than `wait` and its transaction is not Canceling. -/
def TransContainer.timedOut (tr : TransContainer) (now : Int) (wait : Nat) : Bool :=
  decide (now - tr.createdTime > (wait : Int)) && tr.trans.status != .CANCELING

/-- The events `onFireTransaction` posts for the records `l`: a `PGTimeout` with the token of
the record to its producer address, for the records that have one, when neither retry nor
failover is enabled. -/
def Worker.timeoutEvents (w : Worker) (l : List TransContainer) : List (String × PGEvent) :=
  if !w.retransmit_enable && !w.failover_to_slave then
    (l.filter (fun tr => tr.sender_id != "")).map
      (fun tr => (tr.sender_id, PGEvent.PGTimeout tr.token))
  else []

/-- The record after `cancel()` was called on its transaction. -/
def TransContainer.fired (tr : TransContainer) : TransContainer :=
  { tr with trans := tr.trans.cancel }

/-! ## Concrete states used to exercise the model -/

/-- Every pair of transactions can be merged. -/
def mergeAll : IPGTransaction → IPGTransaction → Bool := fun _ _ => true

/-- A merge predicate that looks at the accumulator: only transactions of the accumulator's
type merge into it. -/
def mergeSameType : IPGTransaction → IPGTransaction → Bool :=
  fun a b => decide (a.type = b.type)

/-- A connected connection with no current transaction. -/
def idleConn (id : Nat) : IPGConnection :=
  { id := id, status := .CONNECTION_OK, cur_transaction := none, planned := none,
    is_pipeline := false, disconnected_time := 0 }

/-- A connected connection that is running transaction `h`. -/
def busyConn (id h : Nat) : IPGConnection :=
  { id := id, status := .CONNECTION_OK, cur_transaction := some h, planned := none,
    is_pipeline := false, disconnected_time := 0 }

/-- An idle transaction with pointer `id` holding the given statements. -/
def idleTrans (id : Nat) (type : TransactionType) (queries : List String) : IPGTransaction :=
  { id := id, type := type, policy := 0, queries := queries, current := 0, status := .IDLE,
    conn := none }

/-- A Worker whose primary pool has one idle connection; pointer 0 is already in use by the
producer. -/
def workerWithPrimary (failover retransmit : Bool) (batch_size max_queue_length : Nat) :
    Worker :=
  { Worker.init failover retransmit false 5 5 10 0 batch_size max_queue_length with
    master := some { connections := [idleConn 100], type := .Master, connected := 1 },
    nextId := 1 }

/-- A Worker with retry and failover enabled whose only primary connection is busy and whose
only secondary connection is idle. -/
def workerPrimaryBusy : Worker :=
  { Worker.init true true false 5 5 10 0 1 0 with
    master := some { connections := [busyConn 100 7], type := .Master, connected := 1 },
    slave := some { connections := [idleConn 200], type := .Slave, connected := 1 },
    nextId := 8 }

/-- Submit one statement for producer "producer", dispatch it at time 0, let it time out at
time 15 (`trans_wait_time` is 10), then let the driver report the error of the cancelled
statement. -/
def timeoutThenError : List (Int × Op) :=
  [(0, .runTransaction (idleTrans 0 .TR_NON ["select 1"]) "producer" "tok"),
   (0, .onTimer 10),
   (15, .onTimer 10),
   (16, .onError 1 "canceled")]

/-- Submit a two-statement chained transaction and dispatch it at time 0. -/
def submitChain : List (Int × Op) :=
  [(0, .runTransaction (idleTrans 0 .TR_POLICY ["insert 1", "insert 2"]) "" "tok"),
   (0, .onTimer 10)]

/-- Two two-statement submissions followed by a tick. -/
def twoChainsThenTick : List (Int × Op) :=
  [(0, .runTransaction (idleTrans 0 .TR_NON ["insert 1", "insert 2"]) "" "t"),
   (0, .runTransaction (idleTrans 1 .TR_NON ["insert 3", "insert 4"]) "" "u"),
   (1, .onTimer 5)]

/-- A retry record created at time 0 whose last pool is the primary. -/
def primaryRetryRecord : TransContainer :=
  TransContainer.create 0 (idleTrans 3 .TR_NON ["select 1"]) (some .Master) "" "tok"

/-- Submit one statement for producer "producer" and dispatch it at time 0: the active table
then holds the accumulator with pointer 1. -/
def submitAndDispatch : List (Int × Op) :=
  [(0, .runTransaction (idleTrans 0 .TR_NON ["select 1"]) "producer" "tok"),
   (0, .onTimer 10)]

/-- A queued single-statement record without producer address. -/
def queuedRecord (id : Nat) : TransContainer :=
  TransContainer.create 0 (idleTrans id .TR_NON ["insert 1"]) none "" "tok"

/-- A Worker without pools whose admission queue holds one single-statement record. -/
def workerNoPools : Worker :=
  { Worker.init false false false 5 5 10 0 1 0 with
    queue := [queuedRecord 0], queue_size := 1, nextId := 1 }

/-- A retry record created at time 0 whose last pool is the secondary. -/
def secondaryRetryRecord : TransContainer :=
  TransContainer.create 0 (idleTrans 3 .TR_NON ["select 1"]) (some .Slave) "" "tok"

/-- A Worker with one busy primary connection that reconnects on error code "57P01" only. -/
def workerReconnectOn57P01 : Worker :=
  { Worker.init false false false 5 5 10 0 1 0 with
    master := some { connections := [busyConn 100 7], type := .Master, connected := 1 },
    reconnect_errors := ["57P01"],
    nextId := 8 }

/-- Submit one statement, dispatch it at time 0 and let it time out at time 15
(`trans_wait_time` is 10): the transaction is cancelled and stays in the active table with
status Canceling until the driver reports. -/
def submitDispatchTimeout : List (Int × Op) :=
  [(0, .runTransaction (idleTrans 0 .TR_NON ["select 1"]) "producer" "tok"),
   (0, .onTimer 10),
   (15, .onTimer 10)]

/-- A Worker with a secondary pool only; its single connection is established but not yet
counted. -/
def workerSecondaryOnly : Worker :=
  { Worker.init false false false 5 5 10 0 1 0 with
    slave := some { connections := [idleConn 200], type := .Slave, connected := 0 } }

/-- A Worker with `batch_size` 1 whose primary connection is free, whose admission queue
holds one single-statement record and whose retry queue holds a record with no pool (as
`onStopTransaction` leaves it). -/
def workerRetryPending : Worker :=
  { workerWithPrimary false false 1 0 with
    queue := [queuedRecord 5], queue_size := 1,
    retransmit_q := [TransContainer.create 0 (idleTrans 3 .TR_NON ["select 1"]) none "" "tok"],
    ret_size := 1, nextId := 6 }

/-- A Worker with `batch_size` 2 whose primary connection is free and whose admission queue
holds two single-statement records. -/
def workerTwoQueued : Worker :=
  { workerWithPrimary false false 2 0 with
    queue := [queuedRecord 5, queuedRecord 6], queue_size := 2, nextId := 7 }

/-- A Worker with `batch_size` 2 whose primary connection is free and whose admission queue
holds a single-statement transaction followed by a two-statement transaction. -/
def workerOneThenTwo : Worker :=
  { workerWithPrimary false false 2 0 with
    queue := [TransContainer.create 0 (idleTrans 5 .TR_NON ["insert 1"]) none "" "tok",
              TransContainer.create 0 (idleTrans 6 .TR_NON ["insert 2", "insert 3"]) none ""
                "tok"],
    queue_size := 3, nextId := 7 }

/-- A Worker whose retry wake time 1 has passed at time 2 and whose wait deadline is 12. -/
def workerTwoDeadlines : Worker :=
  { Worker.init false true false 5 5 10 0 1 0 with
    retransmit_next_time := 1, wait_next_time := 12 }

/-- A Worker with `reconnect_interval` 5 whose only primary connection is down since `since`
and waits in the pending-reset list. -/
def workerPendingReset (since : Int) : Worker :=
  { Worker.init false false false 5 5 10 0 1 0 with
    master := some
      { connections := [{ id := 100, status := .CONNECTION_BAD, cur_transaction := none,
                          planned := none, is_pipeline := false, disconnected_time := since }],
        type := .Master, connected := 0 },
    resetConnections := [some 100] }

/-- A Worker without retry and failover whose primary pool has two idle connections;
`trans_wait_time` is 10, `batch_size` is 1, pointers below 10 belong to the producers. -/
def workerTwoConns : Worker :=
  { Worker.init false false false 5 5 10 0 1 0 with
    master := some { connections := [idleConn 100, idleConn 101], type := .Master,
                     connected := 2 },
    nextId := 10 }

/-- Two submissions, dispatched at times 0 and 5 on the two connections. -/
def twoDispatches : List (Int × Op) :=
  [(0, .runTransaction (idleTrans 0 .TR_NON ["select 1"]) "producer" "t0"),
   (0, .onTimer 10),
   (5, .runTransaction (idleTrans 1 .TR_NON ["select 2"]) "producer" "t1"),
   (5, .onTimer 10)]

/-- A submission dispatched at time 0 and a second one submitted and dispatched at time 12;
the tick at time 12 fires the first (it is cancelled and stays Canceling). -/
def wedgedThenLate : List (Int × Op) :=
  [(0, .runTransaction (idleTrans 0 .TR_NON ["select 1"]) "producer" "t0"),
   (0, .onTimer 10),
   (12, .runTransaction (idleTrans 1 .TR_NON ["select 2"]) "producer" "t1"),
   (12, .onTimer 10)]

/-- A Worker with retry enabled whose primary connection is free, whose retry queue holds
`primaryRetryRecord` (created at 0, last pool the primary) and whose admission queue holds
one single-statement record. -/
def workerRetryAndQueue : Worker :=
  { workerWithPrimary false true 1 0 with
    retransmit_q := [primaryRetryRecord], ret_size := 1,
    queue := [queuedRecord 5], queue_size := 1, nextId := 6 }

/-! ## Frame lemmas: the fields an operation leaves alone -/

theorem Worker.setWorkTimer_eq (w : Worker) (c : Int) (i : Bool) :
    w.setWorkTimer c i = { w with workTimer := (w.setWorkTimer c i).workTimer } := by
  unfold Worker.setWorkTimer
  split <;> rfl

@[simp] theorem Worker.setWorkTimer_failover_to_slave (w : Worker) (c : Int) (i : Bool) :
    (w.setWorkTimer c i).failover_to_slave = w.failover_to_slave := by
  rw [Worker.setWorkTimer_eq]

@[simp] theorem Worker.setWorkTimer_retransmit_enable (w : Worker) (c : Int) (i : Bool) :
    (w.setWorkTimer c i).retransmit_enable = w.retransmit_enable := by
  rw [Worker.setWorkTimer_eq]

@[simp] theorem Worker.setWorkTimer_use_pipeline (w : Worker) (c : Int) (i : Bool) :
    (w.setWorkTimer c i).use_pipeline = w.use_pipeline := by
  rw [Worker.setWorkTimer_eq]

@[simp] theorem Worker.setWorkTimer_retransmit_interval (w : Worker) (c : Int) (i : Bool) :
    (w.setWorkTimer c i).retransmit_interval = w.retransmit_interval := by
  rw [Worker.setWorkTimer_eq]

@[simp] theorem Worker.setWorkTimer_reconnect_interval (w : Worker) (c : Int) (i : Bool) :
    (w.setWorkTimer c i).reconnect_interval = w.reconnect_interval := by
  rw [Worker.setWorkTimer_eq]

@[simp] theorem Worker.setWorkTimer_trans_wait_time (w : Worker) (c : Int) (i : Bool) :
    (w.setWorkTimer c i).trans_wait_time = w.trans_wait_time := by
  rw [Worker.setWorkTimer_eq]

@[simp] theorem Worker.setWorkTimer_batch_timeout (w : Worker) (c : Int) (i : Bool) :
    (w.setWorkTimer c i).batch_timeout = w.batch_timeout := by
  rw [Worker.setWorkTimer_eq]

@[simp] theorem Worker.setWorkTimer_batch_size (w : Worker) (c : Int) (i : Bool) :
    (w.setWorkTimer c i).batch_size = w.batch_size := by
  rw [Worker.setWorkTimer_eq]

@[simp] theorem Worker.setWorkTimer_max_queue_length (w : Worker) (c : Int) (i : Bool) :
    (w.setWorkTimer c i).max_queue_length = w.max_queue_length := by
  rw [Worker.setWorkTimer_eq]

@[simp] theorem Worker.setWorkTimer_master (w : Worker) (c : Int) (i : Bool) :
    (w.setWorkTimer c i).master = w.master := by
  rw [Worker.setWorkTimer_eq]

@[simp] theorem Worker.setWorkTimer_slave (w : Worker) (c : Int) (i : Bool) :
    (w.setWorkTimer c i).slave = w.slave := by
  rw [Worker.setWorkTimer_eq]

@[simp] theorem Worker.setWorkTimer_resetConnections (w : Worker) (c : Int) (i : Bool) :
    (w.setWorkTimer c i).resetConnections = w.resetConnections := by
  rw [Worker.setWorkTimer_eq]

@[simp] theorem Worker.setWorkTimer_tr_size (w : Worker) (c : Int) (i : Bool) :
    (w.setWorkTimer c i).tr_size = w.tr_size := by
  rw [Worker.setWorkTimer_eq]

@[simp] theorem Worker.setWorkTimer_finished (w : Worker) (c : Int) (i : Bool) :
    (w.setWorkTimer c i).finished = w.finished := by
  rw [Worker.setWorkTimer_eq]

@[simp] theorem Worker.setWorkTimer_queue_size (w : Worker) (c : Int) (i : Bool) :
    (w.setWorkTimer c i).queue_size = w.queue_size := by
  rw [Worker.setWorkTimer_eq]

@[simp] theorem Worker.setWorkTimer_ret_size (w : Worker) (c : Int) (i : Bool) :
    (w.setWorkTimer c i).ret_size = w.ret_size := by
  rw [Worker.setWorkTimer_eq]

@[simp] theorem Worker.setWorkTimer_dropped (w : Worker) (c : Int) (i : Bool) :
    (w.setWorkTimer c i).dropped = w.dropped := by
  rw [Worker.setWorkTimer_eq]

@[simp] theorem Worker.setWorkTimer_transactions (w : Worker) (c : Int) (i : Bool) :
    (w.setWorkTimer c i).transactions = w.transactions := by
  rw [Worker.setWorkTimer_eq]

@[simp] theorem Worker.setWorkTimer_reconnect_errors (w : Worker) (c : Int) (i : Bool) :
    (w.setWorkTimer c i).reconnect_errors = w.reconnect_errors := by
  rw [Worker.setWorkTimer_eq]

@[simp] theorem Worker.setWorkTimer_retransmit_q (w : Worker) (c : Int) (i : Bool) :
    (w.setWorkTimer c i).retransmit_q = w.retransmit_q := by
  rw [Worker.setWorkTimer_eq]

@[simp] theorem Worker.setWorkTimer_queue (w : Worker) (c : Int) (i : Bool) :
    (w.setWorkTimer c i).queue = w.queue := by
  rw [Worker.setWorkTimer_eq]

@[simp] theorem Worker.setWorkTimer_erased (w : Worker) (c : Int) (i : Bool) :
    (w.setWorkTimer c i).erased = w.erased := by
  rw [Worker.setWorkTimer_eq]

@[simp] theorem Worker.setWorkTimer_retransmit_next_time (w : Worker) (c : Int) (i : Bool) :
    (w.setWorkTimer c i).retransmit_next_time = w.retransmit_next_time := by
  rw [Worker.setWorkTimer_eq]

@[simp] theorem Worker.setWorkTimer_wait_next_time (w : Worker) (c : Int) (i : Bool) :
    (w.setWorkTimer c i).wait_next_time = w.wait_next_time := by
  rw [Worker.setWorkTimer_eq]

@[simp] theorem Worker.setWorkTimer_reset_next_time (w : Worker) (c : Int) (i : Bool) :
    (w.setWorkTimer c i).reset_next_time = w.reset_next_time := by
  rw [Worker.setWorkTimer_eq]

@[simp] theorem Worker.setWorkTimer_send_next_time (w : Worker) (c : Int) (i : Bool) :
    (w.setWorkTimer c i).send_next_time = w.send_next_time := by
  rw [Worker.setWorkTimer_eq]

@[simp] theorem Worker.setWorkTimer_nextId (w : Worker) (c : Int) (i : Bool) :
    (w.setWorkTimer c i).nextId = w.nextId := by
  rw [Worker.setWorkTimer_eq]

@[simp] theorem Worker.setWorkTimer_posted (w : Worker) (c : Int) (i : Bool) :
    (w.setWorkTimer c i).posted = w.posted := by
  rw [Worker.setWorkTimer_eq]

@[simp] theorem Worker.setWorkTimer_deleted (w : Worker) (c : Int) (i : Bool) :
    (w.setWorkTimer c i).deleted = w.deleted := by
  rw [Worker.setWorkTimer_eq]

@[simp] theorem Worker.setWorkTimer_cancelled (w : Worker) (c : Int) (i : Bool) :
    (w.setWorkTimer c i).cancelled = w.cancelled := by
  rw [Worker.setWorkTimer_eq]

@[simp] theorem Worker.setWorkTimer_resetCalls (w : Worker) (c : Int) (i : Bool) :
    (w.setWorkTimer c i).resetCalls = w.resetCalls := by
  rw [Worker.setWorkTimer_eq]

@[simp] theorem Worker.setRetransmitNextTime_failover_to_slave (w : Worker) (t : Int) :
    (w.setRetransmitNextTime t).failover_to_slave = w.failover_to_slave := rfl

@[simp] theorem Worker.setRetransmitNextTime_retransmit_enable (w : Worker) (t : Int) :
    (w.setRetransmitNextTime t).retransmit_enable = w.retransmit_enable := rfl

@[simp] theorem Worker.setRetransmitNextTime_use_pipeline (w : Worker) (t : Int) :
    (w.setRetransmitNextTime t).use_pipeline = w.use_pipeline := rfl

@[simp] theorem Worker.setRetransmitNextTime_retransmit_interval (w : Worker) (t : Int) :
    (w.setRetransmitNextTime t).retransmit_interval = w.retransmit_interval := rfl

@[simp] theorem Worker.setRetransmitNextTime_reconnect_interval (w : Worker) (t : Int) :
    (w.setRetransmitNextTime t).reconnect_interval = w.reconnect_interval := rfl

@[simp] theorem Worker.setRetransmitNextTime_trans_wait_time (w : Worker) (t : Int) :
    (w.setRetransmitNextTime t).trans_wait_time = w.trans_wait_time := rfl

@[simp] theorem Worker.setRetransmitNextTime_batch_timeout (w : Worker) (t : Int) :
    (w.setRetransmitNextTime t).batch_timeout = w.batch_timeout := rfl

@[simp] theorem Worker.setRetransmitNextTime_batch_size (w : Worker) (t : Int) :
    (w.setRetransmitNextTime t).batch_size = w.batch_size := rfl

@[simp] theorem Worker.setRetransmitNextTime_max_queue_length (w : Worker) (t : Int) :
    (w.setRetransmitNextTime t).max_queue_length = w.max_queue_length := rfl

@[simp] theorem Worker.setRetransmitNextTime_workTimer (w : Worker) (t : Int) :
    (w.setRetransmitNextTime t).workTimer = w.workTimer := rfl

@[simp] theorem Worker.setRetransmitNextTime_master (w : Worker) (t : Int) :
    (w.setRetransmitNextTime t).master = w.master := rfl

@[simp] theorem Worker.setRetransmitNextTime_slave (w : Worker) (t : Int) :
    (w.setRetransmitNextTime t).slave = w.slave := rfl

@[simp] theorem Worker.setRetransmitNextTime_resetConnections (w : Worker) (t : Int) :
    (w.setRetransmitNextTime t).resetConnections = w.resetConnections := rfl

@[simp] theorem Worker.setRetransmitNextTime_tr_size (w : Worker) (t : Int) :
    (w.setRetransmitNextTime t).tr_size = w.tr_size := rfl

@[simp] theorem Worker.setRetransmitNextTime_finished (w : Worker) (t : Int) :
    (w.setRetransmitNextTime t).finished = w.finished := rfl

@[simp] theorem Worker.setRetransmitNextTime_queue_size (w : Worker) (t : Int) :
    (w.setRetransmitNextTime t).queue_size = w.queue_size := rfl

@[simp] theorem Worker.setRetransmitNextTime_ret_size (w : Worker) (t : Int) :
    (w.setRetransmitNextTime t).ret_size = w.ret_size := rfl

@[simp] theorem Worker.setRetransmitNextTime_dropped (w : Worker) (t : Int) :
    (w.setRetransmitNextTime t).dropped = w.dropped := rfl

@[simp] theorem Worker.setRetransmitNextTime_transactions (w : Worker) (t : Int) :
    (w.setRetransmitNextTime t).transactions = w.transactions := rfl

@[simp] theorem Worker.setRetransmitNextTime_reconnect_errors (w : Worker) (t : Int) :
    (w.setRetransmitNextTime t).reconnect_errors = w.reconnect_errors := rfl

@[simp] theorem Worker.setRetransmitNextTime_retransmit_q (w : Worker) (t : Int) :
    (w.setRetransmitNextTime t).retransmit_q = w.retransmit_q := rfl

@[simp] theorem Worker.setRetransmitNextTime_queue (w : Worker) (t : Int) :
    (w.setRetransmitNextTime t).queue = w.queue := rfl

@[simp] theorem Worker.setRetransmitNextTime_erased (w : Worker) (t : Int) :
    (w.setRetransmitNextTime t).erased = w.erased := rfl

@[simp] theorem Worker.setRetransmitNextTime_retransmit_next_time (w : Worker) (t : Int) :
    (w.setRetransmitNextTime t).retransmit_next_time = t := rfl

@[simp] theorem Worker.setRetransmitNextTime_wait_next_time (w : Worker) (t : Int) :
    (w.setRetransmitNextTime t).wait_next_time = w.wait_next_time := rfl

@[simp] theorem Worker.setRetransmitNextTime_reset_next_time (w : Worker) (t : Int) :
    (w.setRetransmitNextTime t).reset_next_time = w.reset_next_time := rfl

@[simp] theorem Worker.setRetransmitNextTime_send_next_time (w : Worker) (t : Int) :
    (w.setRetransmitNextTime t).send_next_time = w.send_next_time := rfl

@[simp] theorem Worker.setRetransmitNextTime_nextId (w : Worker) (t : Int) :
    (w.setRetransmitNextTime t).nextId = w.nextId := rfl

@[simp] theorem Worker.setRetransmitNextTime_posted (w : Worker) (t : Int) :
    (w.setRetransmitNextTime t).posted = w.posted := rfl

@[simp] theorem Worker.setRetransmitNextTime_deleted (w : Worker) (t : Int) :
    (w.setRetransmitNextTime t).deleted = w.deleted := rfl

@[simp] theorem Worker.setRetransmitNextTime_cancelled (w : Worker) (t : Int) :
    (w.setRetransmitNextTime t).cancelled = w.cancelled := rfl

@[simp] theorem Worker.setRetransmitNextTime_resetCalls (w : Worker) (t : Int) :
    (w.setRetransmitNextTime t).resetCalls = w.resetCalls := rfl

@[simp] theorem Worker.post_failover_to_slave (w : Worker) (a : String) (ev : PGEvent) :
    (w.post a ev).failover_to_slave = w.failover_to_slave := rfl

@[simp] theorem Worker.post_retransmit_enable (w : Worker) (a : String) (ev : PGEvent) :
    (w.post a ev).retransmit_enable = w.retransmit_enable := rfl

@[simp] theorem Worker.post_use_pipeline (w : Worker) (a : String) (ev : PGEvent) :
    (w.post a ev).use_pipeline = w.use_pipeline := rfl

@[simp] theorem Worker.post_retransmit_interval (w : Worker) (a : String) (ev : PGEvent) :
    (w.post a ev).retransmit_interval = w.retransmit_interval := rfl

@[simp] theorem Worker.post_reconnect_interval (w : Worker) (a : String) (ev : PGEvent) :
    (w.post a ev).reconnect_interval = w.reconnect_interval := rfl

@[simp] theorem Worker.post_trans_wait_time (w : Worker) (a : String) (ev : PGEvent) :
    (w.post a ev).trans_wait_time = w.trans_wait_time := rfl

@[simp] theorem Worker.post_batch_timeout (w : Worker) (a : String) (ev : PGEvent) :
    (w.post a ev).batch_timeout = w.batch_timeout := rfl

@[simp] theorem Worker.post_batch_size (w : Worker) (a : String) (ev : PGEvent) :
    (w.post a ev).batch_size = w.batch_size := rfl

@[simp] theorem Worker.post_max_queue_length (w : Worker) (a : String) (ev : PGEvent) :
    (w.post a ev).max_queue_length = w.max_queue_length := rfl

@[simp] theorem Worker.post_workTimer (w : Worker) (a : String) (ev : PGEvent) :
    (w.post a ev).workTimer = w.workTimer := rfl

@[simp] theorem Worker.post_master (w : Worker) (a : String) (ev : PGEvent) :
    (w.post a ev).master = w.master := rfl

@[simp] theorem Worker.post_slave (w : Worker) (a : String) (ev : PGEvent) :
    (w.post a ev).slave = w.slave := rfl

@[simp] theorem Worker.post_resetConnections (w : Worker) (a : String) (ev : PGEvent) :
    (w.post a ev).resetConnections = w.resetConnections := rfl

@[simp] theorem Worker.post_tr_size (w : Worker) (a : String) (ev : PGEvent) :
    (w.post a ev).tr_size = w.tr_size := rfl

@[simp] theorem Worker.post_finished (w : Worker) (a : String) (ev : PGEvent) :
    (w.post a ev).finished = w.finished := rfl

@[simp] theorem Worker.post_queue_size (w : Worker) (a : String) (ev : PGEvent) :
    (w.post a ev).queue_size = w.queue_size := rfl

@[simp] theorem Worker.post_ret_size (w : Worker) (a : String) (ev : PGEvent) :
    (w.post a ev).ret_size = w.ret_size := rfl

@[simp] theorem Worker.post_dropped (w : Worker) (a : String) (ev : PGEvent) :
    (w.post a ev).dropped = w.dropped := rfl

@[simp] theorem Worker.post_transactions (w : Worker) (a : String) (ev : PGEvent) :
    (w.post a ev).transactions = w.transactions := rfl

@[simp] theorem Worker.post_reconnect_errors (w : Worker) (a : String) (ev : PGEvent) :
    (w.post a ev).reconnect_errors = w.reconnect_errors := rfl

@[simp] theorem Worker.post_retransmit_q (w : Worker) (a : String) (ev : PGEvent) :
    (w.post a ev).retransmit_q = w.retransmit_q := rfl

@[simp] theorem Worker.post_queue (w : Worker) (a : String) (ev : PGEvent) :
    (w.post a ev).queue = w.queue := rfl

@[simp] theorem Worker.post_erased (w : Worker) (a : String) (ev : PGEvent) :
    (w.post a ev).erased = w.erased := rfl

@[simp] theorem Worker.post_retransmit_next_time (w : Worker) (a : String) (ev : PGEvent) :
    (w.post a ev).retransmit_next_time = w.retransmit_next_time := rfl

@[simp] theorem Worker.post_wait_next_time (w : Worker) (a : String) (ev : PGEvent) :
    (w.post a ev).wait_next_time = w.wait_next_time := rfl

@[simp] theorem Worker.post_reset_next_time (w : Worker) (a : String) (ev : PGEvent) :
    (w.post a ev).reset_next_time = w.reset_next_time := rfl

@[simp] theorem Worker.post_send_next_time (w : Worker) (a : String) (ev : PGEvent) :
    (w.post a ev).send_next_time = w.send_next_time := rfl

@[simp] theorem Worker.post_nextId (w : Worker) (a : String) (ev : PGEvent) :
    (w.post a ev).nextId = w.nextId := rfl

@[simp] theorem Worker.post_posted (w : Worker) (a : String) (ev : PGEvent) :
    (w.post a ev).posted = w.posted ++ [(a, ev)] := rfl

@[simp] theorem Worker.post_deleted (w : Worker) (a : String) (ev : PGEvent) :
    (w.post a ev).deleted = w.deleted := rfl

@[simp] theorem Worker.post_cancelled (w : Worker) (a : String) (ev : PGEvent) :
    (w.post a ev).cancelled = w.cancelled := rfl

@[simp] theorem Worker.post_resetCalls (w : Worker) (a : String) (ev : PGEvent) :
    (w.post a ev).resetCalls = w.resetCalls := rfl

@[simp] theorem Worker.delete_failover_to_slave (w : Worker) (h : Nat) :
    (w.delete h).failover_to_slave = w.failover_to_slave := rfl

@[simp] theorem Worker.delete_retransmit_enable (w : Worker) (h : Nat) :
    (w.delete h).retransmit_enable = w.retransmit_enable := rfl

@[simp] theorem Worker.delete_use_pipeline (w : Worker) (h : Nat) :
    (w.delete h).use_pipeline = w.use_pipeline := rfl

@[simp] theorem Worker.delete_retransmit_interval (w : Worker) (h : Nat) :
    (w.delete h).retransmit_interval = w.retransmit_interval := rfl

@[simp] theorem Worker.delete_reconnect_interval (w : Worker) (h : Nat) :
    (w.delete h).reconnect_interval = w.reconnect_interval := rfl

@[simp] theorem Worker.delete_trans_wait_time (w : Worker) (h : Nat) :
    (w.delete h).trans_wait_time = w.trans_wait_time := rfl

@[simp] theorem Worker.delete_batch_timeout (w : Worker) (h : Nat) :
    (w.delete h).batch_timeout = w.batch_timeout := rfl

@[simp] theorem Worker.delete_batch_size (w : Worker) (h : Nat) :
    (w.delete h).batch_size = w.batch_size := rfl

@[simp] theorem Worker.delete_max_queue_length (w : Worker) (h : Nat) :
    (w.delete h).max_queue_length = w.max_queue_length := rfl

@[simp] theorem Worker.delete_workTimer (w : Worker) (h : Nat) :
    (w.delete h).workTimer = w.workTimer := rfl

@[simp] theorem Worker.delete_master (w : Worker) (h : Nat) :
    (w.delete h).master = w.master := rfl

@[simp] theorem Worker.delete_slave (w : Worker) (h : Nat) :
    (w.delete h).slave = w.slave := rfl

@[simp] theorem Worker.delete_resetConnections (w : Worker) (h : Nat) :
    (w.delete h).resetConnections = w.resetConnections := rfl

@[simp] theorem Worker.delete_tr_size (w : Worker) (h : Nat) :
    (w.delete h).tr_size = w.tr_size := rfl

@[simp] theorem Worker.delete_finished (w : Worker) (h : Nat) :
    (w.delete h).finished = w.finished := rfl

@[simp] theorem Worker.delete_queue_size (w : Worker) (h : Nat) :
    (w.delete h).queue_size = w.queue_size := rfl

@[simp] theorem Worker.delete_ret_size (w : Worker) (h : Nat) :
    (w.delete h).ret_size = w.ret_size := rfl

@[simp] theorem Worker.delete_dropped (w : Worker) (h : Nat) :
    (w.delete h).dropped = w.dropped := rfl

@[simp] theorem Worker.delete_transactions (w : Worker) (h : Nat) :
    (w.delete h).transactions = w.transactions := rfl

@[simp] theorem Worker.delete_reconnect_errors (w : Worker) (h : Nat) :
    (w.delete h).reconnect_errors = w.reconnect_errors := rfl

@[simp] theorem Worker.delete_retransmit_q (w : Worker) (h : Nat) :
    (w.delete h).retransmit_q = w.retransmit_q := rfl

@[simp] theorem Worker.delete_queue (w : Worker) (h : Nat) :
    (w.delete h).queue = w.queue := rfl

@[simp] theorem Worker.delete_erased (w : Worker) (h : Nat) :
    (w.delete h).erased = w.erased := rfl

@[simp] theorem Worker.delete_retransmit_next_time (w : Worker) (h : Nat) :
    (w.delete h).retransmit_next_time = w.retransmit_next_time := rfl

@[simp] theorem Worker.delete_wait_next_time (w : Worker) (h : Nat) :
    (w.delete h).wait_next_time = w.wait_next_time := rfl

@[simp] theorem Worker.delete_reset_next_time (w : Worker) (h : Nat) :
    (w.delete h).reset_next_time = w.reset_next_time := rfl

@[simp] theorem Worker.delete_send_next_time (w : Worker) (h : Nat) :
    (w.delete h).send_next_time = w.send_next_time := rfl

@[simp] theorem Worker.delete_nextId (w : Worker) (h : Nat) :
    (w.delete h).nextId = w.nextId := rfl

@[simp] theorem Worker.delete_posted (w : Worker) (h : Nat) :
    (w.delete h).posted = w.posted := rfl

@[simp] theorem Worker.delete_deleted (w : Worker) (h : Nat) :
    (w.delete h).deleted = w.deleted ++ [h] := rfl

@[simp] theorem Worker.delete_cancelled (w : Worker) (h : Nat) :
    (w.delete h).cancelled = w.cancelled := rfl

@[simp] theorem Worker.delete_resetCalls (w : Worker) (h : Nat) :
    (w.delete h).resetCalls = w.resetCalls := rfl

@[simp] theorem Worker.updateConn_failover_to_slave (w : Worker) (pool : Option PoolType) (cid : Nat)
    (f : IPGConnection → IPGConnection) : (w.updateConn pool cid f).failover_to_slave = w.failover_to_slave := by
  unfold Worker.updateConn
  split <;> rfl

@[simp] theorem Worker.updateConn_retransmit_enable (w : Worker) (pool : Option PoolType) (cid : Nat)
    (f : IPGConnection → IPGConnection) : (w.updateConn pool cid f).retransmit_enable = w.retransmit_enable := by
  unfold Worker.updateConn
  split <;> rfl

@[simp] theorem Worker.updateConn_use_pipeline (w : Worker) (pool : Option PoolType) (cid : Nat)
    (f : IPGConnection → IPGConnection) : (w.updateConn pool cid f).use_pipeline = w.use_pipeline := by
  unfold Worker.updateConn
  split <;> rfl

@[simp] theorem Worker.updateConn_retransmit_interval (w : Worker) (pool : Option PoolType) (cid : Nat)
    (f : IPGConnection → IPGConnection) : (w.updateConn pool cid f).retransmit_interval = w.retransmit_interval := by
  unfold Worker.updateConn
  split <;> rfl

@[simp] theorem Worker.updateConn_reconnect_interval (w : Worker) (pool : Option PoolType) (cid : Nat)
    (f : IPGConnection → IPGConnection) : (w.updateConn pool cid f).reconnect_interval = w.reconnect_interval := by
  unfold Worker.updateConn
  split <;> rfl

@[simp] theorem Worker.updateConn_trans_wait_time (w : Worker) (pool : Option PoolType) (cid : Nat)
    (f : IPGConnection → IPGConnection) : (w.updateConn pool cid f).trans_wait_time = w.trans_wait_time := by
  unfold Worker.updateConn
  split <;> rfl

@[simp] theorem Worker.updateConn_batch_timeout (w : Worker) (pool : Option PoolType) (cid : Nat)
    (f : IPGConnection → IPGConnection) : (w.updateConn pool cid f).batch_timeout = w.batch_timeout := by
  unfold Worker.updateConn
  split <;> rfl

@[simp] theorem Worker.updateConn_batch_size (w : Worker) (pool : Option PoolType) (cid : Nat)
    (f : IPGConnection → IPGConnection) : (w.updateConn pool cid f).batch_size = w.batch_size := by
  unfold Worker.updateConn
  split <;> rfl

@[simp] theorem Worker.updateConn_max_queue_length (w : Worker) (pool : Option PoolType) (cid : Nat)
    (f : IPGConnection → IPGConnection) : (w.updateConn pool cid f).max_queue_length = w.max_queue_length := by
  unfold Worker.updateConn
  split <;> rfl

@[simp] theorem Worker.updateConn_workTimer (w : Worker) (pool : Option PoolType) (cid : Nat)
    (f : IPGConnection → IPGConnection) : (w.updateConn pool cid f).workTimer = w.workTimer := by
  unfold Worker.updateConn
  split <;> rfl

@[simp] theorem Worker.updateConn_resetConnections (w : Worker) (pool : Option PoolType) (cid : Nat)
    (f : IPGConnection → IPGConnection) : (w.updateConn pool cid f).resetConnections = w.resetConnections := by
  unfold Worker.updateConn
  split <;> rfl

@[simp] theorem Worker.updateConn_tr_size (w : Worker) (pool : Option PoolType) (cid : Nat)
    (f : IPGConnection → IPGConnection) : (w.updateConn pool cid f).tr_size = w.tr_size := by
  unfold Worker.updateConn
  split <;> rfl

@[simp] theorem Worker.updateConn_finished (w : Worker) (pool : Option PoolType) (cid : Nat)
    (f : IPGConnection → IPGConnection) : (w.updateConn pool cid f).finished = w.finished := by
  unfold Worker.updateConn
  split <;> rfl

@[simp] theorem Worker.updateConn_queue_size (w : Worker) (pool : Option PoolType) (cid : Nat)
    (f : IPGConnection → IPGConnection) : (w.updateConn pool cid f).queue_size = w.queue_size := by
  unfold Worker.updateConn
  split <;> rfl

@[simp] theorem Worker.updateConn_ret_size (w : Worker) (pool : Option PoolType) (cid : Nat)
    (f : IPGConnection → IPGConnection) : (w.updateConn pool cid f).ret_size = w.ret_size := by
  unfold Worker.updateConn
  split <;> rfl

@[simp] theorem Worker.updateConn_dropped (w : Worker) (pool : Option PoolType) (cid : Nat)
    (f : IPGConnection → IPGConnection) : (w.updateConn pool cid f).dropped = w.dropped := by
  unfold Worker.updateConn
  split <;> rfl

@[simp] theorem Worker.updateConn_transactions (w : Worker) (pool : Option PoolType) (cid : Nat)
    (f : IPGConnection → IPGConnection) : (w.updateConn pool cid f).transactions = w.transactions := by
  unfold Worker.updateConn
  split <;> rfl

@[simp] theorem Worker.updateConn_reconnect_errors (w : Worker) (pool : Option PoolType) (cid : Nat)
    (f : IPGConnection → IPGConnection) : (w.updateConn pool cid f).reconnect_errors = w.reconnect_errors := by
  unfold Worker.updateConn
  split <;> rfl

@[simp] theorem Worker.updateConn_retransmit_q (w : Worker) (pool : Option PoolType) (cid : Nat)
    (f : IPGConnection → IPGConnection) : (w.updateConn pool cid f).retransmit_q = w.retransmit_q := by
  unfold Worker.updateConn
  split <;> rfl

@[simp] theorem Worker.updateConn_queue (w : Worker) (pool : Option PoolType) (cid : Nat)
    (f : IPGConnection → IPGConnection) : (w.updateConn pool cid f).queue = w.queue := by
  unfold Worker.updateConn
  split <;> rfl

@[simp] theorem Worker.updateConn_erased (w : Worker) (pool : Option PoolType) (cid : Nat)
    (f : IPGConnection → IPGConnection) : (w.updateConn pool cid f).erased = w.erased := by
  unfold Worker.updateConn
  split <;> rfl

@[simp] theorem Worker.updateConn_retransmit_next_time (w : Worker) (pool : Option PoolType) (cid : Nat)
    (f : IPGConnection → IPGConnection) : (w.updateConn pool cid f).retransmit_next_time = w.retransmit_next_time := by
  unfold Worker.updateConn
  split <;> rfl

@[simp] theorem Worker.updateConn_wait_next_time (w : Worker) (pool : Option PoolType) (cid : Nat)
    (f : IPGConnection → IPGConnection) : (w.updateConn pool cid f).wait_next_time = w.wait_next_time := by
  unfold Worker.updateConn
  split <;> rfl

@[simp] theorem Worker.updateConn_reset_next_time (w : Worker) (pool : Option PoolType) (cid : Nat)
    (f : IPGConnection → IPGConnection) : (w.updateConn pool cid f).reset_next_time = w.reset_next_time := by
  unfold Worker.updateConn
  split <;> rfl

@[simp] theorem Worker.updateConn_send_next_time (w : Worker) (pool : Option PoolType) (cid : Nat)
    (f : IPGConnection → IPGConnection) : (w.updateConn pool cid f).send_next_time = w.send_next_time := by
  unfold Worker.updateConn
  split <;> rfl

@[simp] theorem Worker.updateConn_nextId (w : Worker) (pool : Option PoolType) (cid : Nat)
    (f : IPGConnection → IPGConnection) : (w.updateConn pool cid f).nextId = w.nextId := by
  unfold Worker.updateConn
  split <;> rfl

@[simp] theorem Worker.updateConn_posted (w : Worker) (pool : Option PoolType) (cid : Nat)
    (f : IPGConnection → IPGConnection) : (w.updateConn pool cid f).posted = w.posted := by
  unfold Worker.updateConn
  split <;> rfl

@[simp] theorem Worker.updateConn_deleted (w : Worker) (pool : Option PoolType) (cid : Nat)
    (f : IPGConnection → IPGConnection) : (w.updateConn pool cid f).deleted = w.deleted := by
  unfold Worker.updateConn
  split <;> rfl

@[simp] theorem Worker.updateConn_cancelled (w : Worker) (pool : Option PoolType) (cid : Nat)
    (f : IPGConnection → IPGConnection) : (w.updateConn pool cid f).cancelled = w.cancelled := by
  unfold Worker.updateConn
  split <;> rfl

@[simp] theorem Worker.updateConn_resetCalls (w : Worker) (pool : Option PoolType) (cid : Nat)
    (f : IPGConnection → IPGConnection) : (w.updateConn pool cid f).resetCalls = w.resetCalls := by
  unfold Worker.updateConn
  split <;> rfl

@[simp] theorem Worker.alloc_failover_to_slave (w : Worker) :
    (w.alloc).failover_to_slave = w.failover_to_slave := rfl

@[simp] theorem Worker.alloc_retransmit_enable (w : Worker) :
    (w.alloc).retransmit_enable = w.retransmit_enable := rfl

@[simp] theorem Worker.alloc_use_pipeline (w : Worker) :
    (w.alloc).use_pipeline = w.use_pipeline := rfl

@[simp] theorem Worker.alloc_retransmit_interval (w : Worker) :
    (w.alloc).retransmit_interval = w.retransmit_interval := rfl

@[simp] theorem Worker.alloc_reconnect_interval (w : Worker) :
    (w.alloc).reconnect_interval = w.reconnect_interval := rfl

@[simp] theorem Worker.alloc_trans_wait_time (w : Worker) :
    (w.alloc).trans_wait_time = w.trans_wait_time := rfl

@[simp] theorem Worker.alloc_batch_timeout (w : Worker) :
    (w.alloc).batch_timeout = w.batch_timeout := rfl

@[simp] theorem Worker.alloc_batch_size (w : Worker) :
    (w.alloc).batch_size = w.batch_size := rfl

@[simp] theorem Worker.alloc_max_queue_length (w : Worker) :
    (w.alloc).max_queue_length = w.max_queue_length := rfl

@[simp] theorem Worker.alloc_workTimer (w : Worker) :
    (w.alloc).workTimer = w.workTimer := rfl

@[simp] theorem Worker.alloc_master (w : Worker) :
    (w.alloc).master = w.master := rfl

@[simp] theorem Worker.alloc_slave (w : Worker) :
    (w.alloc).slave = w.slave := rfl

@[simp] theorem Worker.alloc_resetConnections (w : Worker) :
    (w.alloc).resetConnections = w.resetConnections := rfl

@[simp] theorem Worker.alloc_tr_size (w : Worker) :
    (w.alloc).tr_size = w.tr_size := rfl

@[simp] theorem Worker.alloc_finished (w : Worker) :
    (w.alloc).finished = w.finished := rfl

@[simp] theorem Worker.alloc_queue_size (w : Worker) :
    (w.alloc).queue_size = w.queue_size := rfl

@[simp] theorem Worker.alloc_ret_size (w : Worker) :
    (w.alloc).ret_size = w.ret_size := rfl

@[simp] theorem Worker.alloc_dropped (w : Worker) :
    (w.alloc).dropped = w.dropped := rfl

@[simp] theorem Worker.alloc_transactions (w : Worker) :
    (w.alloc).transactions = w.transactions := rfl

@[simp] theorem Worker.alloc_reconnect_errors (w : Worker) :
    (w.alloc).reconnect_errors = w.reconnect_errors := rfl

@[simp] theorem Worker.alloc_retransmit_q (w : Worker) :
    (w.alloc).retransmit_q = w.retransmit_q := rfl

@[simp] theorem Worker.alloc_queue (w : Worker) :
    (w.alloc).queue = w.queue := rfl

@[simp] theorem Worker.alloc_erased (w : Worker) :
    (w.alloc).erased = w.erased := rfl

@[simp] theorem Worker.alloc_retransmit_next_time (w : Worker) :
    (w.alloc).retransmit_next_time = w.retransmit_next_time := rfl

@[simp] theorem Worker.alloc_wait_next_time (w : Worker) :
    (w.alloc).wait_next_time = w.wait_next_time := rfl

@[simp] theorem Worker.alloc_reset_next_time (w : Worker) :
    (w.alloc).reset_next_time = w.reset_next_time := rfl

@[simp] theorem Worker.alloc_send_next_time (w : Worker) :
    (w.alloc).send_next_time = w.send_next_time := rfl

@[simp] theorem Worker.alloc_nextId (w : Worker) :
    (w.alloc).nextId = w.nextId + 1 := rfl

@[simp] theorem Worker.alloc_posted (w : Worker) :
    (w.alloc).posted = w.posted := rfl

@[simp] theorem Worker.alloc_deleted (w : Worker) :
    (w.alloc).deleted = w.deleted := rfl

@[simp] theorem Worker.alloc_cancelled (w : Worker) :
    (w.alloc).cancelled = w.cancelled := rfl

@[simp] theorem Worker.alloc_resetCalls (w : Worker) :
    (w.alloc).resetCalls = w.resetCalls := rfl

@[simp] theorem Worker.pushRetry_failover_to_slave (w : Worker) (now : Int) (tr : IPGTransaction) (t : TransContainer) (size : Nat) :
    (w.pushRetry now tr t size).failover_to_slave = w.failover_to_slave := rfl

@[simp] theorem Worker.pushRetry_retransmit_enable (w : Worker) (now : Int) (tr : IPGTransaction) (t : TransContainer) (size : Nat) :
    (w.pushRetry now tr t size).retransmit_enable = w.retransmit_enable := rfl

@[simp] theorem Worker.pushRetry_use_pipeline (w : Worker) (now : Int) (tr : IPGTransaction) (t : TransContainer) (size : Nat) :
    (w.pushRetry now tr t size).use_pipeline = w.use_pipeline := rfl

@[simp] theorem Worker.pushRetry_retransmit_interval (w : Worker) (now : Int) (tr : IPGTransaction) (t : TransContainer) (size : Nat) :
    (w.pushRetry now tr t size).retransmit_interval = w.retransmit_interval := rfl

@[simp] theorem Worker.pushRetry_reconnect_interval (w : Worker) (now : Int) (tr : IPGTransaction) (t : TransContainer) (size : Nat) :
    (w.pushRetry now tr t size).reconnect_interval = w.reconnect_interval := rfl

@[simp] theorem Worker.pushRetry_trans_wait_time (w : Worker) (now : Int) (tr : IPGTransaction) (t : TransContainer) (size : Nat) :
    (w.pushRetry now tr t size).trans_wait_time = w.trans_wait_time := rfl

@[simp] theorem Worker.pushRetry_batch_timeout (w : Worker) (now : Int) (tr : IPGTransaction) (t : TransContainer) (size : Nat) :
    (w.pushRetry now tr t size).batch_timeout = w.batch_timeout := rfl

@[simp] theorem Worker.pushRetry_batch_size (w : Worker) (now : Int) (tr : IPGTransaction) (t : TransContainer) (size : Nat) :
    (w.pushRetry now tr t size).batch_size = w.batch_size := rfl

@[simp] theorem Worker.pushRetry_max_queue_length (w : Worker) (now : Int) (tr : IPGTransaction) (t : TransContainer) (size : Nat) :
    (w.pushRetry now tr t size).max_queue_length = w.max_queue_length := rfl

@[simp] theorem Worker.pushRetry_workTimer (w : Worker) (now : Int) (tr : IPGTransaction) (t : TransContainer) (size : Nat) :
    (w.pushRetry now tr t size).workTimer = w.workTimer := rfl

@[simp] theorem Worker.pushRetry_master (w : Worker) (now : Int) (tr : IPGTransaction) (t : TransContainer) (size : Nat) :
    (w.pushRetry now tr t size).master = w.master := rfl

@[simp] theorem Worker.pushRetry_slave (w : Worker) (now : Int) (tr : IPGTransaction) (t : TransContainer) (size : Nat) :
    (w.pushRetry now tr t size).slave = w.slave := rfl

@[simp] theorem Worker.pushRetry_resetConnections (w : Worker) (now : Int) (tr : IPGTransaction) (t : TransContainer) (size : Nat) :
    (w.pushRetry now tr t size).resetConnections = w.resetConnections := rfl

@[simp] theorem Worker.pushRetry_tr_size (w : Worker) (now : Int) (tr : IPGTransaction) (t : TransContainer) (size : Nat) :
    (w.pushRetry now tr t size).tr_size = w.tr_size := rfl

@[simp] theorem Worker.pushRetry_finished (w : Worker) (now : Int) (tr : IPGTransaction) (t : TransContainer) (size : Nat) :
    (w.pushRetry now tr t size).finished = w.finished := rfl

@[simp] theorem Worker.pushRetry_queue_size (w : Worker) (now : Int) (tr : IPGTransaction) (t : TransContainer) (size : Nat) :
    (w.pushRetry now tr t size).queue_size = w.queue_size := rfl

@[simp] theorem Worker.pushRetry_ret_size (w : Worker) (now : Int) (tr : IPGTransaction) (t : TransContainer) (size : Nat) :
    (w.pushRetry now tr t size).ret_size = w.ret_size + size := rfl

@[simp] theorem Worker.pushRetry_dropped (w : Worker) (now : Int) (tr : IPGTransaction) (t : TransContainer) (size : Nat) :
    (w.pushRetry now tr t size).dropped = w.dropped := rfl

@[simp] theorem Worker.pushRetry_transactions (w : Worker) (now : Int) (tr : IPGTransaction) (t : TransContainer) (size : Nat) :
    (w.pushRetry now tr t size).transactions = w.transactions := rfl

@[simp] theorem Worker.pushRetry_reconnect_errors (w : Worker) (now : Int) (tr : IPGTransaction) (t : TransContainer) (size : Nat) :
    (w.pushRetry now tr t size).reconnect_errors = w.reconnect_errors := rfl

@[simp] theorem Worker.pushRetry_retransmit_q (w : Worker) (now : Int) (tr : IPGTransaction) (t : TransContainer) (size : Nat) :
    (w.pushRetry now tr t size).retransmit_q = w.retransmit_q ++ [TransContainer.create now tr t.currentPool t.sender_id t.token] := rfl

@[simp] theorem Worker.pushRetry_queue (w : Worker) (now : Int) (tr : IPGTransaction) (t : TransContainer) (size : Nat) :
    (w.pushRetry now tr t size).queue = w.queue := rfl

@[simp] theorem Worker.pushRetry_erased (w : Worker) (now : Int) (tr : IPGTransaction) (t : TransContainer) (size : Nat) :
    (w.pushRetry now tr t size).erased = w.erased := rfl

@[simp] theorem Worker.pushRetry_retransmit_next_time (w : Worker) (now : Int) (tr : IPGTransaction) (t : TransContainer) (size : Nat) :
    (w.pushRetry now tr t size).retransmit_next_time = w.retransmit_next_time := rfl

@[simp] theorem Worker.pushRetry_wait_next_time (w : Worker) (now : Int) (tr : IPGTransaction) (t : TransContainer) (size : Nat) :
    (w.pushRetry now tr t size).wait_next_time = w.wait_next_time := rfl

@[simp] theorem Worker.pushRetry_reset_next_time (w : Worker) (now : Int) (tr : IPGTransaction) (t : TransContainer) (size : Nat) :
    (w.pushRetry now tr t size).reset_next_time = w.reset_next_time := rfl

@[simp] theorem Worker.pushRetry_send_next_time (w : Worker) (now : Int) (tr : IPGTransaction) (t : TransContainer) (size : Nat) :
    (w.pushRetry now tr t size).send_next_time = w.send_next_time := rfl

@[simp] theorem Worker.pushRetry_nextId (w : Worker) (now : Int) (tr : IPGTransaction) (t : TransContainer) (size : Nat) :
    (w.pushRetry now tr t size).nextId = w.nextId := rfl

@[simp] theorem Worker.pushRetry_posted (w : Worker) (now : Int) (tr : IPGTransaction) (t : TransContainer) (size : Nat) :
    (w.pushRetry now tr t size).posted = w.posted := rfl

@[simp] theorem Worker.pushRetry_deleted (w : Worker) (now : Int) (tr : IPGTransaction) (t : TransContainer) (size : Nat) :
    (w.pushRetry now tr t size).deleted = w.deleted := rfl

@[simp] theorem Worker.pushRetry_cancelled (w : Worker) (now : Int) (tr : IPGTransaction) (t : TransContainer) (size : Nat) :
    (w.pushRetry now tr t size).cancelled = w.cancelled := rfl

@[simp] theorem Worker.pushRetry_resetCalls (w : Worker) (now : Int) (tr : IPGTransaction) (t : TransContainer) (size : Nat) :
    (w.pushRetry now tr t size).resetCalls = w.resetCalls := rfl

@[simp] theorem Worker.startTransaction_failover_to_slave (w : Worker) (now : Int) (t : TransContainer)
    (conn : IPGConnection) (pool : Option PoolType) :
    (w.startTransaction now t conn pool).failover_to_slave = w.failover_to_slave := by
  simp [Worker.startTransaction]

@[simp] theorem Worker.startTransaction_retransmit_enable (w : Worker) (now : Int) (t : TransContainer)
    (conn : IPGConnection) (pool : Option PoolType) :
    (w.startTransaction now t conn pool).retransmit_enable = w.retransmit_enable := by
  simp [Worker.startTransaction]

@[simp] theorem Worker.startTransaction_use_pipeline (w : Worker) (now : Int) (t : TransContainer)
    (conn : IPGConnection) (pool : Option PoolType) :
    (w.startTransaction now t conn pool).use_pipeline = w.use_pipeline := by
  simp [Worker.startTransaction]

@[simp] theorem Worker.startTransaction_retransmit_interval (w : Worker) (now : Int) (t : TransContainer)
    (conn : IPGConnection) (pool : Option PoolType) :
    (w.startTransaction now t conn pool).retransmit_interval = w.retransmit_interval := by
  simp [Worker.startTransaction]

@[simp] theorem Worker.startTransaction_reconnect_interval (w : Worker) (now : Int) (t : TransContainer)
    (conn : IPGConnection) (pool : Option PoolType) :
    (w.startTransaction now t conn pool).reconnect_interval = w.reconnect_interval := by
  simp [Worker.startTransaction]

@[simp] theorem Worker.startTransaction_trans_wait_time (w : Worker) (now : Int) (t : TransContainer)
    (conn : IPGConnection) (pool : Option PoolType) :
    (w.startTransaction now t conn pool).trans_wait_time = w.trans_wait_time := by
  simp [Worker.startTransaction]

@[simp] theorem Worker.startTransaction_batch_timeout (w : Worker) (now : Int) (t : TransContainer)
    (conn : IPGConnection) (pool : Option PoolType) :
    (w.startTransaction now t conn pool).batch_timeout = w.batch_timeout := by
  simp [Worker.startTransaction]

@[simp] theorem Worker.startTransaction_batch_size (w : Worker) (now : Int) (t : TransContainer)
    (conn : IPGConnection) (pool : Option PoolType) :
    (w.startTransaction now t conn pool).batch_size = w.batch_size := by
  simp [Worker.startTransaction]

@[simp] theorem Worker.startTransaction_max_queue_length (w : Worker) (now : Int) (t : TransContainer)
    (conn : IPGConnection) (pool : Option PoolType) :
    (w.startTransaction now t conn pool).max_queue_length = w.max_queue_length := by
  simp [Worker.startTransaction]

@[simp] theorem Worker.startTransaction_resetConnections (w : Worker) (now : Int) (t : TransContainer)
    (conn : IPGConnection) (pool : Option PoolType) :
    (w.startTransaction now t conn pool).resetConnections = w.resetConnections := by
  simp [Worker.startTransaction]

@[simp] theorem Worker.startTransaction_finished (w : Worker) (now : Int) (t : TransContainer)
    (conn : IPGConnection) (pool : Option PoolType) :
    (w.startTransaction now t conn pool).finished = w.finished := by
  simp [Worker.startTransaction]

@[simp] theorem Worker.startTransaction_queue_size (w : Worker) (now : Int) (t : TransContainer)
    (conn : IPGConnection) (pool : Option PoolType) :
    (w.startTransaction now t conn pool).queue_size = w.queue_size := by
  simp [Worker.startTransaction]

@[simp] theorem Worker.startTransaction_ret_size (w : Worker) (now : Int) (t : TransContainer)
    (conn : IPGConnection) (pool : Option PoolType) :
    (w.startTransaction now t conn pool).ret_size = w.ret_size := by
  simp [Worker.startTransaction]

@[simp] theorem Worker.startTransaction_dropped (w : Worker) (now : Int) (t : TransContainer)
    (conn : IPGConnection) (pool : Option PoolType) :
    (w.startTransaction now t conn pool).dropped = w.dropped := by
  simp [Worker.startTransaction]

@[simp] theorem Worker.startTransaction_reconnect_errors (w : Worker) (now : Int) (t : TransContainer)
    (conn : IPGConnection) (pool : Option PoolType) :
    (w.startTransaction now t conn pool).reconnect_errors = w.reconnect_errors := by
  simp [Worker.startTransaction]

@[simp] theorem Worker.startTransaction_retransmit_q (w : Worker) (now : Int) (t : TransContainer)
    (conn : IPGConnection) (pool : Option PoolType) :
    (w.startTransaction now t conn pool).retransmit_q = w.retransmit_q := by
  simp [Worker.startTransaction]

@[simp] theorem Worker.startTransaction_queue (w : Worker) (now : Int) (t : TransContainer)
    (conn : IPGConnection) (pool : Option PoolType) :
    (w.startTransaction now t conn pool).queue = w.queue := by
  simp [Worker.startTransaction]

@[simp] theorem Worker.startTransaction_erased (w : Worker) (now : Int) (t : TransContainer)
    (conn : IPGConnection) (pool : Option PoolType) :
    (w.startTransaction now t conn pool).erased = w.erased := by
  simp [Worker.startTransaction]

@[simp] theorem Worker.startTransaction_retransmit_next_time (w : Worker) (now : Int) (t : TransContainer)
    (conn : IPGConnection) (pool : Option PoolType) :
    (w.startTransaction now t conn pool).retransmit_next_time = w.retransmit_next_time := by
  simp [Worker.startTransaction]

@[simp] theorem Worker.startTransaction_reset_next_time (w : Worker) (now : Int) (t : TransContainer)
    (conn : IPGConnection) (pool : Option PoolType) :
    (w.startTransaction now t conn pool).reset_next_time = w.reset_next_time := by
  simp [Worker.startTransaction]

@[simp] theorem Worker.startTransaction_send_next_time (w : Worker) (now : Int) (t : TransContainer)
    (conn : IPGConnection) (pool : Option PoolType) :
    (w.startTransaction now t conn pool).send_next_time = w.send_next_time := by
  simp [Worker.startTransaction]

@[simp] theorem Worker.startTransaction_nextId (w : Worker) (now : Int) (t : TransContainer)
    (conn : IPGConnection) (pool : Option PoolType) :
    (w.startTransaction now t conn pool).nextId = w.nextId := by
  simp [Worker.startTransaction]

@[simp] theorem Worker.startTransaction_posted (w : Worker) (now : Int) (t : TransContainer)
    (conn : IPGConnection) (pool : Option PoolType) :
    (w.startTransaction now t conn pool).posted = w.posted := by
  simp [Worker.startTransaction]

@[simp] theorem Worker.startTransaction_deleted (w : Worker) (now : Int) (t : TransContainer)
    (conn : IPGConnection) (pool : Option PoolType) :
    (w.startTransaction now t conn pool).deleted = w.deleted := by
  simp [Worker.startTransaction]

@[simp] theorem Worker.startTransaction_cancelled (w : Worker) (now : Int) (t : TransContainer)
    (conn : IPGConnection) (pool : Option PoolType) :
    (w.startTransaction now t conn pool).cancelled = w.cancelled := by
  simp [Worker.startTransaction]

@[simp] theorem Worker.startTransaction_resetCalls (w : Worker) (now : Int) (t : TransContainer)
    (conn : IPGConnection) (pool : Option PoolType) :
    (w.startTransaction now t conn pool).resetCalls = w.resetCalls := by
  simp [Worker.startTransaction]

@[simp] theorem Worker.startTransaction_transactions (w : Worker) (now : Int)
    (t : TransContainer) (conn : IPGConnection) (pool : Option PoolType) :
    (w.startTransaction now t conn pool).transactions =
      w.transactions ++
        [TransContainer.create now (t.trans.startOn conn.id) pool t.sender_id t.token] := by
  simp [Worker.startTransaction]

@[simp] theorem Worker.startTransaction_tr_size (w : Worker) (now : Int)
    (t : TransContainer) (conn : IPGConnection) (pool : Option PoolType) :
    (w.startTransaction now t conn pool).tr_size = w.tr_size + t.trans.get_size := by
  simp [Worker.startTransaction]

theorem Worker.startTransaction_master (w : Worker) (now : Int)
    (t : TransContainer) (conn : IPGConnection) (pool : Option PoolType) :
    (w.startTransaction now t conn pool).master =
      (w.updateConn pool conn.id (fun c => c.runTransaction t.trans.id)).master := by
  simp [Worker.startTransaction, Worker.updateConn]
  cases pool with
  | none => rfl
  | some p => cases p <;> rfl

theorem Worker.startTransaction_slave (w : Worker) (now : Int)
    (t : TransContainer) (conn : IPGConnection) (pool : Option PoolType) :
    (w.startTransaction now t conn pool).slave =
      (w.updateConn pool conn.id (fun c => c.runTransaction t.trans.id)).slave := by
  simp [Worker.startTransaction, Worker.updateConn]
  cases pool with
  | none => rfl
  | some p => cases p <;> rfl

@[simp] theorem Worker.setRetransmitNextTime_twice (w : Worker) (a b : Int) :
    (w.setRetransmitNextTime a).setRetransmitNextTime b = w.setRetransmitNextTime b := rfl

theorem Worker.getFreeConnection_failed (w : Worker) (p : Option PoolType)
    (h : (w.getFreeConnection p).failed = true) : (w.getFreeConnection p).conn = none := by
  unfold Worker.getFreeConnection at h ⊢
  split
  · simp_all
  · split
    · simp_all
    · rfl

/-- The ways a call of `retransmitTransaction` can end. -/
inductive RetransmitOutcome (w : Worker) (now : Int) (t : TransContainer) :
    Int × Worker × TransContainer → Prop where
  | noConnection (t1 : TransContainer) (w1 : Worker)
      (ht : t1 = t ∨ t1 = { t with currentPool := none })
      (hw : w1 = w.setRetransmitNextTime 0 ∨ (t.sender_id ≠ "" ∧
        w1 = (w.setRetransmitNextTime 0).post t.sender_id
          (.PGResponseError "worker not found" t.token))) :
      RetransmitOutcome w now t (-1, w1, t1)
  | discarded : RetransmitOutcome w now t (0, (w.setRetransmitNextTime 0).delete t.trans.id, t)
  | started (t1 : TransContainer) (conn : IPGConnection) (pool : Option PoolType)
      (ht : t1 = t ∨ t1 = { t with currentPool := none }) :
      RetransmitOutcome w now t
        (0, (w.setRetransmitNextTime 0).startTransaction now t1 conn pool,
          { t1 with trans := t1.trans.startOn conn.id })
  | deferred (w1 : Worker)
      (hw : w1 = w.setRetransmitNextTime 0 ∨
        w1 = w.setRetransmitNextTime (t.createdTime + w.retransmit_interval)) :
      RetransmitOutcome w now t (1, w1, t)

theorem Worker.retransmitAux_noPool (n : Nat) (w : Worker) (now : Int) (t t1 : TransContainer)
    (ht : t1 = t ∨ t1 = { t with currentPool := none })
    (h : t1.currentPool = none) :
    ∃ r, (w.setRetransmitNextTime 0).retransmitTransactionAux (n + 1) now t1 = some r ∧
      RetransmitOutcome w now t r := by
  have hs : t1.sender_id = t.sender_id := by rcases ht with rfl | rfl <;> rfl
  have hk : t1.token = t.token := by rcases ht with rfl | rfl <;> rfl
  simp only [Worker.retransmitTransactionAux, h, Option.isNone_none, if_true,
    Worker.setRetransmitNextTime_twice]
  cases hc : ((w.setRetransmitNextTime 0).getFreeConnection none).conn with
  | none =>
    refine ⟨_, rfl, .noConnection _ _ ht ?_⟩
    split
    · rename_i hf
      simp only [Bool.and_eq_true, bne_iff_ne, ne_eq] at hf
      right
      rw [hs] at hf
      exact ⟨hf.2, by rw [hs, hk]⟩
    · left; rfl
  | some conn =>
    have hf : ((w.setRetransmitNextTime 0).getFreeConnection none).failed = false := by
      cases hfl : ((w.setRetransmitNextTime 0).getFreeConnection none).failed with
      | false => rfl
      | true => rw [Worker.getFreeConnection_failed _ _ hfl] at hc; cases hc
    simp only [hf, Bool.false_and, Bool.false_eq_true, if_false]
    refine ⟨_, rfl, ?_⟩
    have hst := @RetransmitOutcome.started w now t t1 conn
      ((w.setRetransmitNextTime 0).getFreeConnection none).pool ht
    rw [h] at hst
    exact hst


theorem Worker.retransmitAux_outcome (n : Nat) (w : Worker) (now : Int) (t : TransContainer) :
    ∃ r, w.retransmitTransactionAux (n + 2) now t = some r ∧ RetransmitOutcome w now t r := by
  have hrec := Worker.retransmitAux_noPool n w now t { t with currentPool := none }
    (Or.inr rfl) rfl
  obtain ⟨rr, hrr, hro⟩ := hrec
  by_cases h : t.currentPool = none
  · have := Worker.retransmitAux_noPool (n + 1) w now t t (Or.inl rfl) h
    simpa [Worker.retransmitTransactionAux] using this
  · have hn : t.currentPool.isNone = false := by
      cases hp : t.currentPool with
      | none => exact absurd hp h
      | some p => rfl
    have hdef : RetransmitOutcome w now t
        (1, w.setRetransmitNextTime (t.createdTime + w.retransmit_interval), t) :=
      .deferred _ (Or.inr rfl)
    rw [Worker.retransmitTransactionAux]
    simp only [hn, hrr, Bool.false_eq_true, if_false]
    repeat' split
    all_goals first
      | exact ⟨_, rfl, .discarded⟩
      | exact ⟨_, rfl, hdef⟩
      | exact ⟨_, rfl, .deferred _ (Or.inl rfl)⟩
      | exact ⟨_, rfl, .started _ _ _ (Or.inl rfl)⟩
      | exact ⟨_, rfl, hro⟩

theorem Worker.retransmit_outcome (w : Worker) (now : Int) (t : TransContainer) :
    RetransmitOutcome w now t (w.retransmitTransaction now t) := by
  obtain ⟨r, hr, ho⟩ := Worker.retransmitAux_outcome 0 w now t
  unfold Worker.retransmitTransaction
  rw [hr]
  exact ho
/-- One recursive call is all `retransmitTransaction` makes: a larger bound on the recursion
depth gives the same result. -/
theorem Worker.retransmitAux_fuel (n : Nat) (w : Worker) (now : Int) (t : TransContainer) :
    w.retransmitTransactionAux (n + 2) now t = w.retransmitTransactionAux 2 now t := by
  simp only [Worker.retransmitTransactionAux, Option.isNone_none, if_true]

/-! ### Fields `retransmitTransaction` and the retry-queue loop leave alone -/

@[simp] theorem Worker.retransmit_failover_to_slave (w : Worker) (now : Int) (t : TransContainer) :
    (w.retransmitTransaction now t).2.1.failover_to_slave = w.failover_to_slave := by
  have h := Worker.retransmit_outcome w now t
  generalize w.retransmitTransaction now t = r at h
  rcases h with ⟨t1, w1, ht, hw | ⟨hs, hw⟩⟩ | _ | ⟨t1, conn, pool, ht⟩ | ⟨w1, hw | hw⟩ <;>
    first | subst hw; simp | simp

@[simp] theorem Worker.retransmit_retransmit_enable (w : Worker) (now : Int) (t : TransContainer) :
    (w.retransmitTransaction now t).2.1.retransmit_enable = w.retransmit_enable := by
  have h := Worker.retransmit_outcome w now t
  generalize w.retransmitTransaction now t = r at h
  rcases h with ⟨t1, w1, ht, hw | ⟨hs, hw⟩⟩ | _ | ⟨t1, conn, pool, ht⟩ | ⟨w1, hw | hw⟩ <;>
    first | subst hw; simp | simp

@[simp] theorem Worker.retransmit_use_pipeline (w : Worker) (now : Int) (t : TransContainer) :
    (w.retransmitTransaction now t).2.1.use_pipeline = w.use_pipeline := by
  have h := Worker.retransmit_outcome w now t
  generalize w.retransmitTransaction now t = r at h
  rcases h with ⟨t1, w1, ht, hw | ⟨hs, hw⟩⟩ | _ | ⟨t1, conn, pool, ht⟩ | ⟨w1, hw | hw⟩ <;>
    first | subst hw; simp | simp

@[simp] theorem Worker.retransmit_retransmit_interval (w : Worker) (now : Int) (t : TransContainer) :
    (w.retransmitTransaction now t).2.1.retransmit_interval = w.retransmit_interval := by
  have h := Worker.retransmit_outcome w now t
  generalize w.retransmitTransaction now t = r at h
  rcases h with ⟨t1, w1, ht, hw | ⟨hs, hw⟩⟩ | _ | ⟨t1, conn, pool, ht⟩ | ⟨w1, hw | hw⟩ <;>
    first | subst hw; simp | simp

@[simp] theorem Worker.retransmit_reconnect_interval (w : Worker) (now : Int) (t : TransContainer) :
    (w.retransmitTransaction now t).2.1.reconnect_interval = w.reconnect_interval := by
  have h := Worker.retransmit_outcome w now t
  generalize w.retransmitTransaction now t = r at h
  rcases h with ⟨t1, w1, ht, hw | ⟨hs, hw⟩⟩ | _ | ⟨t1, conn, pool, ht⟩ | ⟨w1, hw | hw⟩ <;>
    first | subst hw; simp | simp

@[simp] theorem Worker.retransmit_trans_wait_time (w : Worker) (now : Int) (t : TransContainer) :
    (w.retransmitTransaction now t).2.1.trans_wait_time = w.trans_wait_time := by
  have h := Worker.retransmit_outcome w now t
  generalize w.retransmitTransaction now t = r at h
  rcases h with ⟨t1, w1, ht, hw | ⟨hs, hw⟩⟩ | _ | ⟨t1, conn, pool, ht⟩ | ⟨w1, hw | hw⟩ <;>
    first | subst hw; simp | simp

@[simp] theorem Worker.retransmit_batch_timeout (w : Worker) (now : Int) (t : TransContainer) :
    (w.retransmitTransaction now t).2.1.batch_timeout = w.batch_timeout := by
  have h := Worker.retransmit_outcome w now t
  generalize w.retransmitTransaction now t = r at h
  rcases h with ⟨t1, w1, ht, hw | ⟨hs, hw⟩⟩ | _ | ⟨t1, conn, pool, ht⟩ | ⟨w1, hw | hw⟩ <;>
    first | subst hw; simp | simp

@[simp] theorem Worker.retransmit_batch_size (w : Worker) (now : Int) (t : TransContainer) :
    (w.retransmitTransaction now t).2.1.batch_size = w.batch_size := by
  have h := Worker.retransmit_outcome w now t
  generalize w.retransmitTransaction now t = r at h
  rcases h with ⟨t1, w1, ht, hw | ⟨hs, hw⟩⟩ | _ | ⟨t1, conn, pool, ht⟩ | ⟨w1, hw | hw⟩ <;>
    first | subst hw; simp | simp

@[simp] theorem Worker.retransmit_max_queue_length (w : Worker) (now : Int) (t : TransContainer) :
    (w.retransmitTransaction now t).2.1.max_queue_length = w.max_queue_length := by
  have h := Worker.retransmit_outcome w now t
  generalize w.retransmitTransaction now t = r at h
  rcases h with ⟨t1, w1, ht, hw | ⟨hs, hw⟩⟩ | _ | ⟨t1, conn, pool, ht⟩ | ⟨w1, hw | hw⟩ <;>
    first | subst hw; simp | simp

@[simp] theorem Worker.retransmit_resetConnections (w : Worker) (now : Int) (t : TransContainer) :
    (w.retransmitTransaction now t).2.1.resetConnections = w.resetConnections := by
  have h := Worker.retransmit_outcome w now t
  generalize w.retransmitTransaction now t = r at h
  rcases h with ⟨t1, w1, ht, hw | ⟨hs, hw⟩⟩ | _ | ⟨t1, conn, pool, ht⟩ | ⟨w1, hw | hw⟩ <;>
    first | subst hw; simp | simp

@[simp] theorem Worker.retransmit_finished (w : Worker) (now : Int) (t : TransContainer) :
    (w.retransmitTransaction now t).2.1.finished = w.finished := by
  have h := Worker.retransmit_outcome w now t
  generalize w.retransmitTransaction now t = r at h
  rcases h with ⟨t1, w1, ht, hw | ⟨hs, hw⟩⟩ | _ | ⟨t1, conn, pool, ht⟩ | ⟨w1, hw | hw⟩ <;>
    first | subst hw; simp | simp

@[simp] theorem Worker.retransmit_queue_size (w : Worker) (now : Int) (t : TransContainer) :
    (w.retransmitTransaction now t).2.1.queue_size = w.queue_size := by
  have h := Worker.retransmit_outcome w now t
  generalize w.retransmitTransaction now t = r at h
  rcases h with ⟨t1, w1, ht, hw | ⟨hs, hw⟩⟩ | _ | ⟨t1, conn, pool, ht⟩ | ⟨w1, hw | hw⟩ <;>
    first | subst hw; simp | simp

@[simp] theorem Worker.retransmit_ret_size (w : Worker) (now : Int) (t : TransContainer) :
    (w.retransmitTransaction now t).2.1.ret_size = w.ret_size := by
  have h := Worker.retransmit_outcome w now t
  generalize w.retransmitTransaction now t = r at h
  rcases h with ⟨t1, w1, ht, hw | ⟨hs, hw⟩⟩ | _ | ⟨t1, conn, pool, ht⟩ | ⟨w1, hw | hw⟩ <;>
    first | subst hw; simp | simp

@[simp] theorem Worker.retransmit_dropped (w : Worker) (now : Int) (t : TransContainer) :
    (w.retransmitTransaction now t).2.1.dropped = w.dropped := by
  have h := Worker.retransmit_outcome w now t
  generalize w.retransmitTransaction now t = r at h
  rcases h with ⟨t1, w1, ht, hw | ⟨hs, hw⟩⟩ | _ | ⟨t1, conn, pool, ht⟩ | ⟨w1, hw | hw⟩ <;>
    first | subst hw; simp | simp

@[simp] theorem Worker.retransmit_reconnect_errors (w : Worker) (now : Int) (t : TransContainer) :
    (w.retransmitTransaction now t).2.1.reconnect_errors = w.reconnect_errors := by
  have h := Worker.retransmit_outcome w now t
  generalize w.retransmitTransaction now t = r at h
  rcases h with ⟨t1, w1, ht, hw | ⟨hs, hw⟩⟩ | _ | ⟨t1, conn, pool, ht⟩ | ⟨w1, hw | hw⟩ <;>
    first | subst hw; simp | simp

@[simp] theorem Worker.retransmit_retransmit_q (w : Worker) (now : Int) (t : TransContainer) :
    (w.retransmitTransaction now t).2.1.retransmit_q = w.retransmit_q := by
  have h := Worker.retransmit_outcome w now t
  generalize w.retransmitTransaction now t = r at h
  rcases h with ⟨t1, w1, ht, hw | ⟨hs, hw⟩⟩ | _ | ⟨t1, conn, pool, ht⟩ | ⟨w1, hw | hw⟩ <;>
    first | subst hw; simp | simp

@[simp] theorem Worker.retransmit_queue (w : Worker) (now : Int) (t : TransContainer) :
    (w.retransmitTransaction now t).2.1.queue = w.queue := by
  have h := Worker.retransmit_outcome w now t
  generalize w.retransmitTransaction now t = r at h
  rcases h with ⟨t1, w1, ht, hw | ⟨hs, hw⟩⟩ | _ | ⟨t1, conn, pool, ht⟩ | ⟨w1, hw | hw⟩ <;>
    first | subst hw; simp | simp

@[simp] theorem Worker.retransmit_erased (w : Worker) (now : Int) (t : TransContainer) :
    (w.retransmitTransaction now t).2.1.erased = w.erased := by
  have h := Worker.retransmit_outcome w now t
  generalize w.retransmitTransaction now t = r at h
  rcases h with ⟨t1, w1, ht, hw | ⟨hs, hw⟩⟩ | _ | ⟨t1, conn, pool, ht⟩ | ⟨w1, hw | hw⟩ <;>
    first | subst hw; simp | simp

@[simp] theorem Worker.retransmit_reset_next_time (w : Worker) (now : Int) (t : TransContainer) :
    (w.retransmitTransaction now t).2.1.reset_next_time = w.reset_next_time := by
  have h := Worker.retransmit_outcome w now t
  generalize w.retransmitTransaction now t = r at h
  rcases h with ⟨t1, w1, ht, hw | ⟨hs, hw⟩⟩ | _ | ⟨t1, conn, pool, ht⟩ | ⟨w1, hw | hw⟩ <;>
    first | subst hw; simp | simp

@[simp] theorem Worker.retransmit_send_next_time (w : Worker) (now : Int) (t : TransContainer) :
    (w.retransmitTransaction now t).2.1.send_next_time = w.send_next_time := by
  have h := Worker.retransmit_outcome w now t
  generalize w.retransmitTransaction now t = r at h
  rcases h with ⟨t1, w1, ht, hw | ⟨hs, hw⟩⟩ | _ | ⟨t1, conn, pool, ht⟩ | ⟨w1, hw | hw⟩ <;>
    first | subst hw; simp | simp

@[simp] theorem Worker.retransmit_nextId (w : Worker) (now : Int) (t : TransContainer) :
    (w.retransmitTransaction now t).2.1.nextId = w.nextId := by
  have h := Worker.retransmit_outcome w now t
  generalize w.retransmitTransaction now t = r at h
  rcases h with ⟨t1, w1, ht, hw | ⟨hs, hw⟩⟩ | _ | ⟨t1, conn, pool, ht⟩ | ⟨w1, hw | hw⟩ <;>
    first | subst hw; simp | simp

@[simp] theorem Worker.retransmit_cancelled (w : Worker) (now : Int) (t : TransContainer) :
    (w.retransmitTransaction now t).2.1.cancelled = w.cancelled := by
  have h := Worker.retransmit_outcome w now t
  generalize w.retransmitTransaction now t = r at h
  rcases h with ⟨t1, w1, ht, hw | ⟨hs, hw⟩⟩ | _ | ⟨t1, conn, pool, ht⟩ | ⟨w1, hw | hw⟩ <;>
    first | subst hw; simp | simp

@[simp] theorem Worker.retransmit_resetCalls (w : Worker) (now : Int) (t : TransContainer) :
    (w.retransmitTransaction now t).2.1.resetCalls = w.resetCalls := by
  have h := Worker.retransmit_outcome w now t
  generalize w.retransmitTransaction now t = r at h
  rcases h with ⟨t1, w1, ht, hw | ⟨hs, hw⟩⟩ | _ | ⟨t1, conn, pool, ht⟩ | ⟨w1, hw | hw⟩ <;>
    first | subst hw; simp | simp

@[simp] theorem Worker.drainRetry_failover_to_slave (w : Worker) (now : Int)
    (kept rest : List TransContainer) : (w.drainRetry now kept rest).failover_to_slave = w.failover_to_slave := by
  induction rest generalizing w kept with
  | nil => rfl
  | cons e tl ih =>
    simp only [Worker.drainRetry]
    split
    · simp
    · split
      · rw [ih]; simp
      · rw [ih]; simp

@[simp] theorem Worker.drainRetry_retransmit_enable (w : Worker) (now : Int)
    (kept rest : List TransContainer) : (w.drainRetry now kept rest).retransmit_enable = w.retransmit_enable := by
  induction rest generalizing w kept with
  | nil => rfl
  | cons e tl ih =>
    simp only [Worker.drainRetry]
    split
    · simp
    · split
      · rw [ih]; simp
      · rw [ih]; simp

@[simp] theorem Worker.drainRetry_use_pipeline (w : Worker) (now : Int)
    (kept rest : List TransContainer) : (w.drainRetry now kept rest).use_pipeline = w.use_pipeline := by
  induction rest generalizing w kept with
  | nil => rfl
  | cons e tl ih =>
    simp only [Worker.drainRetry]
    split
    · simp
    · split
      · rw [ih]; simp
      · rw [ih]; simp

@[simp] theorem Worker.drainRetry_retransmit_interval (w : Worker) (now : Int)
    (kept rest : List TransContainer) : (w.drainRetry now kept rest).retransmit_interval = w.retransmit_interval := by
  induction rest generalizing w kept with
  | nil => rfl
  | cons e tl ih =>
    simp only [Worker.drainRetry]
    split
    · simp
    · split
      · rw [ih]; simp
      · rw [ih]; simp

@[simp] theorem Worker.drainRetry_reconnect_interval (w : Worker) (now : Int)
    (kept rest : List TransContainer) : (w.drainRetry now kept rest).reconnect_interval = w.reconnect_interval := by
  induction rest generalizing w kept with
  | nil => rfl
  | cons e tl ih =>
    simp only [Worker.drainRetry]
    split
    · simp
    · split
      · rw [ih]; simp
      · rw [ih]; simp

@[simp] theorem Worker.drainRetry_trans_wait_time (w : Worker) (now : Int)
    (kept rest : List TransContainer) : (w.drainRetry now kept rest).trans_wait_time = w.trans_wait_time := by
  induction rest generalizing w kept with
  | nil => rfl
  | cons e tl ih =>
    simp only [Worker.drainRetry]
    split
    · simp
    · split
      · rw [ih]; simp
      · rw [ih]; simp

@[simp] theorem Worker.drainRetry_batch_timeout (w : Worker) (now : Int)
    (kept rest : List TransContainer) : (w.drainRetry now kept rest).batch_timeout = w.batch_timeout := by
  induction rest generalizing w kept with
  | nil => rfl
  | cons e tl ih =>
    simp only [Worker.drainRetry]
    split
    · simp
    · split
      · rw [ih]; simp
      · rw [ih]; simp

@[simp] theorem Worker.drainRetry_batch_size (w : Worker) (now : Int)
    (kept rest : List TransContainer) : (w.drainRetry now kept rest).batch_size = w.batch_size := by
  induction rest generalizing w kept with
  | nil => rfl
  | cons e tl ih =>
    simp only [Worker.drainRetry]
    split
    · simp
    · split
      · rw [ih]; simp
      · rw [ih]; simp

@[simp] theorem Worker.drainRetry_max_queue_length (w : Worker) (now : Int)
    (kept rest : List TransContainer) : (w.drainRetry now kept rest).max_queue_length = w.max_queue_length := by
  induction rest generalizing w kept with
  | nil => rfl
  | cons e tl ih =>
    simp only [Worker.drainRetry]
    split
    · simp
    · split
      · rw [ih]; simp
      · rw [ih]; simp

@[simp] theorem Worker.drainRetry_resetConnections (w : Worker) (now : Int)
    (kept rest : List TransContainer) : (w.drainRetry now kept rest).resetConnections = w.resetConnections := by
  induction rest generalizing w kept with
  | nil => rfl
  | cons e tl ih =>
    simp only [Worker.drainRetry]
    split
    · simp
    · split
      · rw [ih]; simp
      · rw [ih]; simp

@[simp] theorem Worker.drainRetry_finished (w : Worker) (now : Int)
    (kept rest : List TransContainer) : (w.drainRetry now kept rest).finished = w.finished := by
  induction rest generalizing w kept with
  | nil => rfl
  | cons e tl ih =>
    simp only [Worker.drainRetry]
    split
    · simp
    · split
      · rw [ih]; simp
      · rw [ih]; simp

@[simp] theorem Worker.drainRetry_queue_size (w : Worker) (now : Int)
    (kept rest : List TransContainer) : (w.drainRetry now kept rest).queue_size = w.queue_size := by
  induction rest generalizing w kept with
  | nil => rfl
  | cons e tl ih =>
    simp only [Worker.drainRetry]
    split
    · simp
    · split
      · rw [ih]; simp
      · rw [ih]; simp

@[simp] theorem Worker.drainRetry_dropped (w : Worker) (now : Int)
    (kept rest : List TransContainer) : (w.drainRetry now kept rest).dropped = w.dropped := by
  induction rest generalizing w kept with
  | nil => rfl
  | cons e tl ih =>
    simp only [Worker.drainRetry]
    split
    · simp
    · split
      · rw [ih]; simp
      · rw [ih]; simp

@[simp] theorem Worker.drainRetry_reconnect_errors (w : Worker) (now : Int)
    (kept rest : List TransContainer) : (w.drainRetry now kept rest).reconnect_errors = w.reconnect_errors := by
  induction rest generalizing w kept with
  | nil => rfl
  | cons e tl ih =>
    simp only [Worker.drainRetry]
    split
    · simp
    · split
      · rw [ih]; simp
      · rw [ih]; simp

@[simp] theorem Worker.drainRetry_queue (w : Worker) (now : Int)
    (kept rest : List TransContainer) : (w.drainRetry now kept rest).queue = w.queue := by
  induction rest generalizing w kept with
  | nil => rfl
  | cons e tl ih =>
    simp only [Worker.drainRetry]
    split
    · simp
    · split
      · rw [ih]; simp
      · rw [ih]; simp

@[simp] theorem Worker.drainRetry_erased (w : Worker) (now : Int)
    (kept rest : List TransContainer) : (w.drainRetry now kept rest).erased = w.erased := by
  induction rest generalizing w kept with
  | nil => rfl
  | cons e tl ih =>
    simp only [Worker.drainRetry]
    split
    · simp
    · split
      · rw [ih]; simp
      · rw [ih]; simp

@[simp] theorem Worker.drainRetry_reset_next_time (w : Worker) (now : Int)
    (kept rest : List TransContainer) : (w.drainRetry now kept rest).reset_next_time = w.reset_next_time := by
  induction rest generalizing w kept with
  | nil => rfl
  | cons e tl ih =>
    simp only [Worker.drainRetry]
    split
    · simp
    · split
      · rw [ih]; simp
      · rw [ih]; simp

@[simp] theorem Worker.drainRetry_send_next_time (w : Worker) (now : Int)
    (kept rest : List TransContainer) : (w.drainRetry now kept rest).send_next_time = w.send_next_time := by
  induction rest generalizing w kept with
  | nil => rfl
  | cons e tl ih =>
    simp only [Worker.drainRetry]
    split
    · simp
    · split
      · rw [ih]; simp
      · rw [ih]; simp

@[simp] theorem Worker.drainRetry_nextId (w : Worker) (now : Int)
    (kept rest : List TransContainer) : (w.drainRetry now kept rest).nextId = w.nextId := by
  induction rest generalizing w kept with
  | nil => rfl
  | cons e tl ih =>
    simp only [Worker.drainRetry]
    split
    · simp
    · split
      · rw [ih]; simp
      · rw [ih]; simp

@[simp] theorem Worker.drainRetry_cancelled (w : Worker) (now : Int)
    (kept rest : List TransContainer) : (w.drainRetry now kept rest).cancelled = w.cancelled := by
  induction rest generalizing w kept with
  | nil => rfl
  | cons e tl ih =>
    simp only [Worker.drainRetry]
    split
    · simp
    · split
      · rw [ih]; simp
      · rw [ih]; simp

@[simp] theorem Worker.drainRetry_resetCalls (w : Worker) (now : Int)
    (kept rest : List TransContainer) : (w.drainRetry now kept rest).resetCalls = w.resetCalls := by
  induction rest generalizing w kept with
  | nil => rfl
  | cons e tl ih =>
    simp only [Worker.drainRetry]
    split
    · simp
    · split
      · rw [ih]; simp
      · rw [ih]; simp


/-! ### Fields the two walks of `onTimer` leave alone -/

@[simp] theorem Worker.resetWalk_failover_to_slave (w : Worker) (current : Int)
    (conns : List (Option Nat)) : (w.resetWalk current conns).1.failover_to_slave = w.failover_to_slave := by
  induction conns generalizing w with
  | nil => rfl
  | cons c tl ih =>
    simp only [Worker.resetWalk]
    split
    · rw [ih]
    · rfl

@[simp] theorem Worker.resetWalk_retransmit_enable (w : Worker) (current : Int)
    (conns : List (Option Nat)) : (w.resetWalk current conns).1.retransmit_enable = w.retransmit_enable := by
  induction conns generalizing w with
  | nil => rfl
  | cons c tl ih =>
    simp only [Worker.resetWalk]
    split
    · rw [ih]
    · rfl

@[simp] theorem Worker.resetWalk_use_pipeline (w : Worker) (current : Int)
    (conns : List (Option Nat)) : (w.resetWalk current conns).1.use_pipeline = w.use_pipeline := by
  induction conns generalizing w with
  | nil => rfl
  | cons c tl ih =>
    simp only [Worker.resetWalk]
    split
    · rw [ih]
    · rfl

@[simp] theorem Worker.resetWalk_retransmit_interval (w : Worker) (current : Int)
    (conns : List (Option Nat)) : (w.resetWalk current conns).1.retransmit_interval = w.retransmit_interval := by
  induction conns generalizing w with
  | nil => rfl
  | cons c tl ih =>
    simp only [Worker.resetWalk]
    split
    · rw [ih]
    · rfl

@[simp] theorem Worker.resetWalk_reconnect_interval (w : Worker) (current : Int)
    (conns : List (Option Nat)) : (w.resetWalk current conns).1.reconnect_interval = w.reconnect_interval := by
  induction conns generalizing w with
  | nil => rfl
  | cons c tl ih =>
    simp only [Worker.resetWalk]
    split
    · rw [ih]
    · rfl

@[simp] theorem Worker.resetWalk_trans_wait_time (w : Worker) (current : Int)
    (conns : List (Option Nat)) : (w.resetWalk current conns).1.trans_wait_time = w.trans_wait_time := by
  induction conns generalizing w with
  | nil => rfl
  | cons c tl ih =>
    simp only [Worker.resetWalk]
    split
    · rw [ih]
    · rfl

@[simp] theorem Worker.resetWalk_batch_timeout (w : Worker) (current : Int)
    (conns : List (Option Nat)) : (w.resetWalk current conns).1.batch_timeout = w.batch_timeout := by
  induction conns generalizing w with
  | nil => rfl
  | cons c tl ih =>
    simp only [Worker.resetWalk]
    split
    · rw [ih]
    · rfl

@[simp] theorem Worker.resetWalk_batch_size (w : Worker) (current : Int)
    (conns : List (Option Nat)) : (w.resetWalk current conns).1.batch_size = w.batch_size := by
  induction conns generalizing w with
  | nil => rfl
  | cons c tl ih =>
    simp only [Worker.resetWalk]
    split
    · rw [ih]
    · rfl

@[simp] theorem Worker.resetWalk_max_queue_length (w : Worker) (current : Int)
    (conns : List (Option Nat)) : (w.resetWalk current conns).1.max_queue_length = w.max_queue_length := by
  induction conns generalizing w with
  | nil => rfl
  | cons c tl ih =>
    simp only [Worker.resetWalk]
    split
    · rw [ih]
    · rfl

@[simp] theorem Worker.resetWalk_workTimer (w : Worker) (current : Int)
    (conns : List (Option Nat)) : (w.resetWalk current conns).1.workTimer = w.workTimer := by
  induction conns generalizing w with
  | nil => rfl
  | cons c tl ih =>
    simp only [Worker.resetWalk]
    split
    · rw [ih]
    · rfl

@[simp] theorem Worker.resetWalk_master (w : Worker) (current : Int)
    (conns : List (Option Nat)) : (w.resetWalk current conns).1.master = w.master := by
  induction conns generalizing w with
  | nil => rfl
  | cons c tl ih =>
    simp only [Worker.resetWalk]
    split
    · rw [ih]
    · rfl

@[simp] theorem Worker.resetWalk_slave (w : Worker) (current : Int)
    (conns : List (Option Nat)) : (w.resetWalk current conns).1.slave = w.slave := by
  induction conns generalizing w with
  | nil => rfl
  | cons c tl ih =>
    simp only [Worker.resetWalk]
    split
    · rw [ih]
    · rfl

@[simp] theorem Worker.resetWalk_resetConnections (w : Worker) (current : Int)
    (conns : List (Option Nat)) : (w.resetWalk current conns).1.resetConnections = w.resetConnections := by
  induction conns generalizing w with
  | nil => rfl
  | cons c tl ih =>
    simp only [Worker.resetWalk]
    split
    · rw [ih]
    · rfl

@[simp] theorem Worker.resetWalk_tr_size (w : Worker) (current : Int)
    (conns : List (Option Nat)) : (w.resetWalk current conns).1.tr_size = w.tr_size := by
  induction conns generalizing w with
  | nil => rfl
  | cons c tl ih =>
    simp only [Worker.resetWalk]
    split
    · rw [ih]
    · rfl

@[simp] theorem Worker.resetWalk_finished (w : Worker) (current : Int)
    (conns : List (Option Nat)) : (w.resetWalk current conns).1.finished = w.finished := by
  induction conns generalizing w with
  | nil => rfl
  | cons c tl ih =>
    simp only [Worker.resetWalk]
    split
    · rw [ih]
    · rfl

@[simp] theorem Worker.resetWalk_queue_size (w : Worker) (current : Int)
    (conns : List (Option Nat)) : (w.resetWalk current conns).1.queue_size = w.queue_size := by
  induction conns generalizing w with
  | nil => rfl
  | cons c tl ih =>
    simp only [Worker.resetWalk]
    split
    · rw [ih]
    · rfl

@[simp] theorem Worker.resetWalk_ret_size (w : Worker) (current : Int)
    (conns : List (Option Nat)) : (w.resetWalk current conns).1.ret_size = w.ret_size := by
  induction conns generalizing w with
  | nil => rfl
  | cons c tl ih =>
    simp only [Worker.resetWalk]
    split
    · rw [ih]
    · rfl

@[simp] theorem Worker.resetWalk_dropped (w : Worker) (current : Int)
    (conns : List (Option Nat)) : (w.resetWalk current conns).1.dropped = w.dropped := by
  induction conns generalizing w with
  | nil => rfl
  | cons c tl ih =>
    simp only [Worker.resetWalk]
    split
    · rw [ih]
    · rfl

@[simp] theorem Worker.resetWalk_transactions (w : Worker) (current : Int)
    (conns : List (Option Nat)) : (w.resetWalk current conns).1.transactions = w.transactions := by
  induction conns generalizing w with
  | nil => rfl
  | cons c tl ih =>
    simp only [Worker.resetWalk]
    split
    · rw [ih]
    · rfl

@[simp] theorem Worker.resetWalk_reconnect_errors (w : Worker) (current : Int)
    (conns : List (Option Nat)) : (w.resetWalk current conns).1.reconnect_errors = w.reconnect_errors := by
  induction conns generalizing w with
  | nil => rfl
  | cons c tl ih =>
    simp only [Worker.resetWalk]
    split
    · rw [ih]
    · rfl

@[simp] theorem Worker.resetWalk_retransmit_q (w : Worker) (current : Int)
    (conns : List (Option Nat)) : (w.resetWalk current conns).1.retransmit_q = w.retransmit_q := by
  induction conns generalizing w with
  | nil => rfl
  | cons c tl ih =>
    simp only [Worker.resetWalk]
    split
    · rw [ih]
    · rfl

@[simp] theorem Worker.resetWalk_queue (w : Worker) (current : Int)
    (conns : List (Option Nat)) : (w.resetWalk current conns).1.queue = w.queue := by
  induction conns generalizing w with
  | nil => rfl
  | cons c tl ih =>
    simp only [Worker.resetWalk]
    split
    · rw [ih]
    · rfl

@[simp] theorem Worker.resetWalk_erased (w : Worker) (current : Int)
    (conns : List (Option Nat)) : (w.resetWalk current conns).1.erased = w.erased := by
  induction conns generalizing w with
  | nil => rfl
  | cons c tl ih =>
    simp only [Worker.resetWalk]
    split
    · rw [ih]
    · rfl

@[simp] theorem Worker.resetWalk_retransmit_next_time (w : Worker) (current : Int)
    (conns : List (Option Nat)) : (w.resetWalk current conns).1.retransmit_next_time = w.retransmit_next_time := by
  induction conns generalizing w with
  | nil => rfl
  | cons c tl ih =>
    simp only [Worker.resetWalk]
    split
    · rw [ih]
    · rfl

@[simp] theorem Worker.resetWalk_wait_next_time (w : Worker) (current : Int)
    (conns : List (Option Nat)) : (w.resetWalk current conns).1.wait_next_time = w.wait_next_time := by
  induction conns generalizing w with
  | nil => rfl
  | cons c tl ih =>
    simp only [Worker.resetWalk]
    split
    · rw [ih]
    · rfl

@[simp] theorem Worker.resetWalk_send_next_time (w : Worker) (current : Int)
    (conns : List (Option Nat)) : (w.resetWalk current conns).1.send_next_time = w.send_next_time := by
  induction conns generalizing w with
  | nil => rfl
  | cons c tl ih =>
    simp only [Worker.resetWalk]
    split
    · rw [ih]
    · rfl

@[simp] theorem Worker.resetWalk_nextId (w : Worker) (current : Int)
    (conns : List (Option Nat)) : (w.resetWalk current conns).1.nextId = w.nextId := by
  induction conns generalizing w with
  | nil => rfl
  | cons c tl ih =>
    simp only [Worker.resetWalk]
    split
    · rw [ih]
    · rfl

@[simp] theorem Worker.resetWalk_posted (w : Worker) (current : Int)
    (conns : List (Option Nat)) : (w.resetWalk current conns).1.posted = w.posted := by
  induction conns generalizing w with
  | nil => rfl
  | cons c tl ih =>
    simp only [Worker.resetWalk]
    split
    · rw [ih]
    · rfl

@[simp] theorem Worker.resetWalk_deleted (w : Worker) (current : Int)
    (conns : List (Option Nat)) : (w.resetWalk current conns).1.deleted = w.deleted := by
  induction conns generalizing w with
  | nil => rfl
  | cons c tl ih =>
    simp only [Worker.resetWalk]
    split
    · rw [ih]
    · rfl

@[simp] theorem Worker.resetWalk_cancelled (w : Worker) (current : Int)
    (conns : List (Option Nat)) : (w.resetWalk current conns).1.cancelled = w.cancelled := by
  induction conns generalizing w with
  | nil => rfl
  | cons c tl ih =>
    simp only [Worker.resetWalk]
    split
    · rw [ih]
    · rfl

@[simp] theorem Worker.onTimerResets_failover_to_slave (w : Worker) (current : Int) :
    (w.onTimerResets current).failover_to_slave = w.failover_to_slave := by
  simp [Worker.onTimerResets]

@[simp] theorem Worker.onTimerResets_retransmit_enable (w : Worker) (current : Int) :
    (w.onTimerResets current).retransmit_enable = w.retransmit_enable := by
  simp [Worker.onTimerResets]

@[simp] theorem Worker.onTimerResets_use_pipeline (w : Worker) (current : Int) :
    (w.onTimerResets current).use_pipeline = w.use_pipeline := by
  simp [Worker.onTimerResets]

@[simp] theorem Worker.onTimerResets_retransmit_interval (w : Worker) (current : Int) :
    (w.onTimerResets current).retransmit_interval = w.retransmit_interval := by
  simp [Worker.onTimerResets]

@[simp] theorem Worker.onTimerResets_reconnect_interval (w : Worker) (current : Int) :
    (w.onTimerResets current).reconnect_interval = w.reconnect_interval := by
  simp [Worker.onTimerResets]

@[simp] theorem Worker.onTimerResets_trans_wait_time (w : Worker) (current : Int) :
    (w.onTimerResets current).trans_wait_time = w.trans_wait_time := by
  simp [Worker.onTimerResets]

@[simp] theorem Worker.onTimerResets_batch_timeout (w : Worker) (current : Int) :
    (w.onTimerResets current).batch_timeout = w.batch_timeout := by
  simp [Worker.onTimerResets]

@[simp] theorem Worker.onTimerResets_batch_size (w : Worker) (current : Int) :
    (w.onTimerResets current).batch_size = w.batch_size := by
  simp [Worker.onTimerResets]

@[simp] theorem Worker.onTimerResets_max_queue_length (w : Worker) (current : Int) :
    (w.onTimerResets current).max_queue_length = w.max_queue_length := by
  simp [Worker.onTimerResets]

@[simp] theorem Worker.onTimerResets_workTimer (w : Worker) (current : Int) :
    (w.onTimerResets current).workTimer = w.workTimer := by
  simp [Worker.onTimerResets]

@[simp] theorem Worker.onTimerResets_master (w : Worker) (current : Int) :
    (w.onTimerResets current).master = w.master := by
  simp [Worker.onTimerResets]

@[simp] theorem Worker.onTimerResets_slave (w : Worker) (current : Int) :
    (w.onTimerResets current).slave = w.slave := by
  simp [Worker.onTimerResets]

@[simp] theorem Worker.onTimerResets_tr_size (w : Worker) (current : Int) :
    (w.onTimerResets current).tr_size = w.tr_size := by
  simp [Worker.onTimerResets]

@[simp] theorem Worker.onTimerResets_finished (w : Worker) (current : Int) :
    (w.onTimerResets current).finished = w.finished := by
  simp [Worker.onTimerResets]

@[simp] theorem Worker.onTimerResets_queue_size (w : Worker) (current : Int) :
    (w.onTimerResets current).queue_size = w.queue_size := by
  simp [Worker.onTimerResets]

@[simp] theorem Worker.onTimerResets_ret_size (w : Worker) (current : Int) :
    (w.onTimerResets current).ret_size = w.ret_size := by
  simp [Worker.onTimerResets]

@[simp] theorem Worker.onTimerResets_dropped (w : Worker) (current : Int) :
    (w.onTimerResets current).dropped = w.dropped := by
  simp [Worker.onTimerResets]

@[simp] theorem Worker.onTimerResets_transactions (w : Worker) (current : Int) :
    (w.onTimerResets current).transactions = w.transactions := by
  simp [Worker.onTimerResets]

@[simp] theorem Worker.onTimerResets_reconnect_errors (w : Worker) (current : Int) :
    (w.onTimerResets current).reconnect_errors = w.reconnect_errors := by
  simp [Worker.onTimerResets]

@[simp] theorem Worker.onTimerResets_retransmit_q (w : Worker) (current : Int) :
    (w.onTimerResets current).retransmit_q = w.retransmit_q := by
  simp [Worker.onTimerResets]

@[simp] theorem Worker.onTimerResets_queue (w : Worker) (current : Int) :
    (w.onTimerResets current).queue = w.queue := by
  simp [Worker.onTimerResets]

@[simp] theorem Worker.onTimerResets_retransmit_next_time (w : Worker) (current : Int) :
    (w.onTimerResets current).retransmit_next_time = w.retransmit_next_time := by
  simp [Worker.onTimerResets]

@[simp] theorem Worker.onTimerResets_wait_next_time (w : Worker) (current : Int) :
    (w.onTimerResets current).wait_next_time = w.wait_next_time := by
  simp [Worker.onTimerResets]

@[simp] theorem Worker.onTimerResets_send_next_time (w : Worker) (current : Int) :
    (w.onTimerResets current).send_next_time = w.send_next_time := by
  simp [Worker.onTimerResets]

@[simp] theorem Worker.onTimerResets_nextId (w : Worker) (current : Int) :
    (w.onTimerResets current).nextId = w.nextId := by
  simp [Worker.onTimerResets]

@[simp] theorem Worker.onTimerResets_posted (w : Worker) (current : Int) :
    (w.onTimerResets current).posted = w.posted := by
  simp [Worker.onTimerResets]

@[simp] theorem Worker.onTimerResets_cancelled (w : Worker) (current : Int) :
    (w.onTimerResets current).cancelled = w.cancelled := by
  simp [Worker.onTimerResets]

@[simp] theorem Worker.onTimerResets_erased (w : Worker) (current : Int) :
    (w.onTimerResets current).erased = [] := by
  simp [Worker.onTimerResets]

@[simp] theorem Worker.onFireTransaction_failover_to_slave (w : Worker) (i : Nat)
    (t : TransContainer) : (w.onFireTransaction i t).failover_to_slave = w.failover_to_slave := by
  unfold Worker.onFireTransaction
  split <;> rfl

@[simp] theorem Worker.onFireTransaction_retransmit_enable (w : Worker) (i : Nat)
    (t : TransContainer) : (w.onFireTransaction i t).retransmit_enable = w.retransmit_enable := by
  unfold Worker.onFireTransaction
  split <;> rfl

@[simp] theorem Worker.onFireTransaction_use_pipeline (w : Worker) (i : Nat)
    (t : TransContainer) : (w.onFireTransaction i t).use_pipeline = w.use_pipeline := by
  unfold Worker.onFireTransaction
  split <;> rfl

@[simp] theorem Worker.onFireTransaction_retransmit_interval (w : Worker) (i : Nat)
    (t : TransContainer) : (w.onFireTransaction i t).retransmit_interval = w.retransmit_interval := by
  unfold Worker.onFireTransaction
  split <;> rfl

@[simp] theorem Worker.onFireTransaction_reconnect_interval (w : Worker) (i : Nat)
    (t : TransContainer) : (w.onFireTransaction i t).reconnect_interval = w.reconnect_interval := by
  unfold Worker.onFireTransaction
  split <;> rfl

@[simp] theorem Worker.onFireTransaction_trans_wait_time (w : Worker) (i : Nat)
    (t : TransContainer) : (w.onFireTransaction i t).trans_wait_time = w.trans_wait_time := by
  unfold Worker.onFireTransaction
  split <;> rfl

@[simp] theorem Worker.onFireTransaction_batch_timeout (w : Worker) (i : Nat)
    (t : TransContainer) : (w.onFireTransaction i t).batch_timeout = w.batch_timeout := by
  unfold Worker.onFireTransaction
  split <;> rfl

@[simp] theorem Worker.onFireTransaction_batch_size (w : Worker) (i : Nat)
    (t : TransContainer) : (w.onFireTransaction i t).batch_size = w.batch_size := by
  unfold Worker.onFireTransaction
  split <;> rfl

@[simp] theorem Worker.onFireTransaction_max_queue_length (w : Worker) (i : Nat)
    (t : TransContainer) : (w.onFireTransaction i t).max_queue_length = w.max_queue_length := by
  unfold Worker.onFireTransaction
  split <;> rfl

@[simp] theorem Worker.onFireTransaction_workTimer (w : Worker) (i : Nat)
    (t : TransContainer) : (w.onFireTransaction i t).workTimer = w.workTimer := by
  unfold Worker.onFireTransaction
  split <;> rfl

@[simp] theorem Worker.onFireTransaction_master (w : Worker) (i : Nat)
    (t : TransContainer) : (w.onFireTransaction i t).master = w.master := by
  unfold Worker.onFireTransaction
  split <;> rfl

@[simp] theorem Worker.onFireTransaction_slave (w : Worker) (i : Nat)
    (t : TransContainer) : (w.onFireTransaction i t).slave = w.slave := by
  unfold Worker.onFireTransaction
  split <;> rfl

@[simp] theorem Worker.onFireTransaction_resetConnections (w : Worker) (i : Nat)
    (t : TransContainer) : (w.onFireTransaction i t).resetConnections = w.resetConnections := by
  unfold Worker.onFireTransaction
  split <;> rfl

@[simp] theorem Worker.onFireTransaction_tr_size (w : Worker) (i : Nat)
    (t : TransContainer) : (w.onFireTransaction i t).tr_size = w.tr_size := by
  unfold Worker.onFireTransaction
  split <;> rfl

@[simp] theorem Worker.onFireTransaction_finished (w : Worker) (i : Nat)
    (t : TransContainer) : (w.onFireTransaction i t).finished = w.finished := by
  unfold Worker.onFireTransaction
  split <;> rfl

@[simp] theorem Worker.onFireTransaction_queue_size (w : Worker) (i : Nat)
    (t : TransContainer) : (w.onFireTransaction i t).queue_size = w.queue_size := by
  unfold Worker.onFireTransaction
  split <;> rfl

@[simp] theorem Worker.onFireTransaction_ret_size (w : Worker) (i : Nat)
    (t : TransContainer) : (w.onFireTransaction i t).ret_size = w.ret_size := by
  unfold Worker.onFireTransaction
  split <;> rfl

@[simp] theorem Worker.onFireTransaction_dropped (w : Worker) (i : Nat)
    (t : TransContainer) : (w.onFireTransaction i t).dropped = w.dropped := by
  unfold Worker.onFireTransaction
  split <;> rfl

@[simp] theorem Worker.onFireTransaction_reconnect_errors (w : Worker) (i : Nat)
    (t : TransContainer) : (w.onFireTransaction i t).reconnect_errors = w.reconnect_errors := by
  unfold Worker.onFireTransaction
  split <;> rfl

@[simp] theorem Worker.onFireTransaction_retransmit_q (w : Worker) (i : Nat)
    (t : TransContainer) : (w.onFireTransaction i t).retransmit_q = w.retransmit_q := by
  unfold Worker.onFireTransaction
  split <;> rfl

@[simp] theorem Worker.onFireTransaction_queue (w : Worker) (i : Nat)
    (t : TransContainer) : (w.onFireTransaction i t).queue = w.queue := by
  unfold Worker.onFireTransaction
  split <;> rfl

@[simp] theorem Worker.onFireTransaction_erased (w : Worker) (i : Nat)
    (t : TransContainer) : (w.onFireTransaction i t).erased = w.erased := by
  unfold Worker.onFireTransaction
  split <;> rfl

@[simp] theorem Worker.onFireTransaction_retransmit_next_time (w : Worker) (i : Nat)
    (t : TransContainer) : (w.onFireTransaction i t).retransmit_next_time = w.retransmit_next_time := by
  unfold Worker.onFireTransaction
  split <;> rfl

@[simp] theorem Worker.onFireTransaction_wait_next_time (w : Worker) (i : Nat)
    (t : TransContainer) : (w.onFireTransaction i t).wait_next_time = w.wait_next_time := by
  unfold Worker.onFireTransaction
  split <;> rfl

@[simp] theorem Worker.onFireTransaction_reset_next_time (w : Worker) (i : Nat)
    (t : TransContainer) : (w.onFireTransaction i t).reset_next_time = w.reset_next_time := by
  unfold Worker.onFireTransaction
  split <;> rfl

@[simp] theorem Worker.onFireTransaction_send_next_time (w : Worker) (i : Nat)
    (t : TransContainer) : (w.onFireTransaction i t).send_next_time = w.send_next_time := by
  unfold Worker.onFireTransaction
  split <;> rfl

@[simp] theorem Worker.onFireTransaction_nextId (w : Worker) (i : Nat)
    (t : TransContainer) : (w.onFireTransaction i t).nextId = w.nextId := by
  unfold Worker.onFireTransaction
  split <;> rfl

@[simp] theorem Worker.onFireTransaction_deleted (w : Worker) (i : Nat)
    (t : TransContainer) : (w.onFireTransaction i t).deleted = w.deleted := by
  unfold Worker.onFireTransaction
  split <;> rfl

@[simp] theorem Worker.onFireTransaction_resetCalls (w : Worker) (i : Nat)
    (t : TransContainer) : (w.onFireTransaction i t).resetCalls = w.resetCalls := by
  unfold Worker.onFireTransaction
  split <;> rfl

@[simp] theorem Worker.timerWalk_failover_to_slave (fuel : Nat) (w : Worker) (current : Int)
    (i : Nat) : (w.timerWalk fuel current i).1.failover_to_slave = w.failover_to_slave := by
  induction fuel generalizing w i with
  | zero => rfl
  | succ fuel ih =>
    simp only [Worker.timerWalk]
    split
    · rfl
    · split
      · rw [ih]; simp
      · split
        · rw [ih]
        · rw [ih]

@[simp] theorem Worker.timerWalk_retransmit_enable (fuel : Nat) (w : Worker) (current : Int)
    (i : Nat) : (w.timerWalk fuel current i).1.retransmit_enable = w.retransmit_enable := by
  induction fuel generalizing w i with
  | zero => rfl
  | succ fuel ih =>
    simp only [Worker.timerWalk]
    split
    · rfl
    · split
      · rw [ih]; simp
      · split
        · rw [ih]
        · rw [ih]

@[simp] theorem Worker.timerWalk_use_pipeline (fuel : Nat) (w : Worker) (current : Int)
    (i : Nat) : (w.timerWalk fuel current i).1.use_pipeline = w.use_pipeline := by
  induction fuel generalizing w i with
  | zero => rfl
  | succ fuel ih =>
    simp only [Worker.timerWalk]
    split
    · rfl
    · split
      · rw [ih]; simp
      · split
        · rw [ih]
        · rw [ih]

@[simp] theorem Worker.timerWalk_retransmit_interval (fuel : Nat) (w : Worker) (current : Int)
    (i : Nat) : (w.timerWalk fuel current i).1.retransmit_interval = w.retransmit_interval := by
  induction fuel generalizing w i with
  | zero => rfl
  | succ fuel ih =>
    simp only [Worker.timerWalk]
    split
    · rfl
    · split
      · rw [ih]; simp
      · split
        · rw [ih]
        · rw [ih]

@[simp] theorem Worker.timerWalk_reconnect_interval (fuel : Nat) (w : Worker) (current : Int)
    (i : Nat) : (w.timerWalk fuel current i).1.reconnect_interval = w.reconnect_interval := by
  induction fuel generalizing w i with
  | zero => rfl
  | succ fuel ih =>
    simp only [Worker.timerWalk]
    split
    · rfl
    · split
      · rw [ih]; simp
      · split
        · rw [ih]
        · rw [ih]

@[simp] theorem Worker.timerWalk_trans_wait_time (fuel : Nat) (w : Worker) (current : Int)
    (i : Nat) : (w.timerWalk fuel current i).1.trans_wait_time = w.trans_wait_time := by
  induction fuel generalizing w i with
  | zero => rfl
  | succ fuel ih =>
    simp only [Worker.timerWalk]
    split
    · rfl
    · split
      · rw [ih]; simp
      · split
        · rw [ih]
        · rw [ih]

@[simp] theorem Worker.timerWalk_batch_timeout (fuel : Nat) (w : Worker) (current : Int)
    (i : Nat) : (w.timerWalk fuel current i).1.batch_timeout = w.batch_timeout := by
  induction fuel generalizing w i with
  | zero => rfl
  | succ fuel ih =>
    simp only [Worker.timerWalk]
    split
    · rfl
    · split
      · rw [ih]; simp
      · split
        · rw [ih]
        · rw [ih]

@[simp] theorem Worker.timerWalk_batch_size (fuel : Nat) (w : Worker) (current : Int)
    (i : Nat) : (w.timerWalk fuel current i).1.batch_size = w.batch_size := by
  induction fuel generalizing w i with
  | zero => rfl
  | succ fuel ih =>
    simp only [Worker.timerWalk]
    split
    · rfl
    · split
      · rw [ih]; simp
      · split
        · rw [ih]
        · rw [ih]

@[simp] theorem Worker.timerWalk_max_queue_length (fuel : Nat) (w : Worker) (current : Int)
    (i : Nat) : (w.timerWalk fuel current i).1.max_queue_length = w.max_queue_length := by
  induction fuel generalizing w i with
  | zero => rfl
  | succ fuel ih =>
    simp only [Worker.timerWalk]
    split
    · rfl
    · split
      · rw [ih]; simp
      · split
        · rw [ih]
        · rw [ih]

@[simp] theorem Worker.timerWalk_workTimer (fuel : Nat) (w : Worker) (current : Int)
    (i : Nat) : (w.timerWalk fuel current i).1.workTimer = w.workTimer := by
  induction fuel generalizing w i with
  | zero => rfl
  | succ fuel ih =>
    simp only [Worker.timerWalk]
    split
    · rfl
    · split
      · rw [ih]; simp
      · split
        · rw [ih]
        · rw [ih]

@[simp] theorem Worker.timerWalk_master (fuel : Nat) (w : Worker) (current : Int)
    (i : Nat) : (w.timerWalk fuel current i).1.master = w.master := by
  induction fuel generalizing w i with
  | zero => rfl
  | succ fuel ih =>
    simp only [Worker.timerWalk]
    split
    · rfl
    · split
      · rw [ih]; simp
      · split
        · rw [ih]
        · rw [ih]

@[simp] theorem Worker.timerWalk_slave (fuel : Nat) (w : Worker) (current : Int)
    (i : Nat) : (w.timerWalk fuel current i).1.slave = w.slave := by
  induction fuel generalizing w i with
  | zero => rfl
  | succ fuel ih =>
    simp only [Worker.timerWalk]
    split
    · rfl
    · split
      · rw [ih]; simp
      · split
        · rw [ih]
        · rw [ih]

@[simp] theorem Worker.timerWalk_tr_size (fuel : Nat) (w : Worker) (current : Int)
    (i : Nat) : (w.timerWalk fuel current i).1.tr_size = w.tr_size := by
  induction fuel generalizing w i with
  | zero => rfl
  | succ fuel ih =>
    simp only [Worker.timerWalk]
    split
    · rfl
    · split
      · rw [ih]; simp
      · split
        · rw [ih]
        · rw [ih]

@[simp] theorem Worker.timerWalk_finished (fuel : Nat) (w : Worker) (current : Int)
    (i : Nat) : (w.timerWalk fuel current i).1.finished = w.finished := by
  induction fuel generalizing w i with
  | zero => rfl
  | succ fuel ih =>
    simp only [Worker.timerWalk]
    split
    · rfl
    · split
      · rw [ih]; simp
      · split
        · rw [ih]
        · rw [ih]

@[simp] theorem Worker.timerWalk_queue_size (fuel : Nat) (w : Worker) (current : Int)
    (i : Nat) : (w.timerWalk fuel current i).1.queue_size = w.queue_size := by
  induction fuel generalizing w i with
  | zero => rfl
  | succ fuel ih =>
    simp only [Worker.timerWalk]
    split
    · rfl
    · split
      · rw [ih]; simp
      · split
        · rw [ih]
        · rw [ih]

@[simp] theorem Worker.timerWalk_ret_size (fuel : Nat) (w : Worker) (current : Int)
    (i : Nat) : (w.timerWalk fuel current i).1.ret_size = w.ret_size := by
  induction fuel generalizing w i with
  | zero => rfl
  | succ fuel ih =>
    simp only [Worker.timerWalk]
    split
    · rfl
    · split
      · rw [ih]; simp
      · split
        · rw [ih]
        · rw [ih]

@[simp] theorem Worker.timerWalk_dropped (fuel : Nat) (w : Worker) (current : Int)
    (i : Nat) : (w.timerWalk fuel current i).1.dropped = w.dropped := by
  induction fuel generalizing w i with
  | zero => rfl
  | succ fuel ih =>
    simp only [Worker.timerWalk]
    split
    · rfl
    · split
      · rw [ih]; simp
      · split
        · rw [ih]
        · rw [ih]

@[simp] theorem Worker.timerWalk_reconnect_errors (fuel : Nat) (w : Worker) (current : Int)
    (i : Nat) : (w.timerWalk fuel current i).1.reconnect_errors = w.reconnect_errors := by
  induction fuel generalizing w i with
  | zero => rfl
  | succ fuel ih =>
    simp only [Worker.timerWalk]
    split
    · rfl
    · split
      · rw [ih]; simp
      · split
        · rw [ih]
        · rw [ih]

@[simp] theorem Worker.timerWalk_retransmit_q (fuel : Nat) (w : Worker) (current : Int)
    (i : Nat) : (w.timerWalk fuel current i).1.retransmit_q = w.retransmit_q := by
  induction fuel generalizing w i with
  | zero => rfl
  | succ fuel ih =>
    simp only [Worker.timerWalk]
    split
    · rfl
    · split
      · rw [ih]; simp
      · split
        · rw [ih]
        · rw [ih]

@[simp] theorem Worker.timerWalk_queue (fuel : Nat) (w : Worker) (current : Int)
    (i : Nat) : (w.timerWalk fuel current i).1.queue = w.queue := by
  induction fuel generalizing w i with
  | zero => rfl
  | succ fuel ih =>
    simp only [Worker.timerWalk]
    split
    · rfl
    · split
      · rw [ih]; simp
      · split
        · rw [ih]
        · rw [ih]

@[simp] theorem Worker.timerWalk_erased (fuel : Nat) (w : Worker) (current : Int)
    (i : Nat) : (w.timerWalk fuel current i).1.erased = w.erased := by
  induction fuel generalizing w i with
  | zero => rfl
  | succ fuel ih =>
    simp only [Worker.timerWalk]
    split
    · rfl
    · split
      · rw [ih]; simp
      · split
        · rw [ih]
        · rw [ih]

@[simp] theorem Worker.timerWalk_retransmit_next_time (fuel : Nat) (w : Worker) (current : Int)
    (i : Nat) : (w.timerWalk fuel current i).1.retransmit_next_time = w.retransmit_next_time := by
  induction fuel generalizing w i with
  | zero => rfl
  | succ fuel ih =>
    simp only [Worker.timerWalk]
    split
    · rfl
    · split
      · rw [ih]; simp
      · split
        · rw [ih]
        · rw [ih]

@[simp] theorem Worker.timerWalk_reset_next_time (fuel : Nat) (w : Worker) (current : Int)
    (i : Nat) : (w.timerWalk fuel current i).1.reset_next_time = w.reset_next_time := by
  induction fuel generalizing w i with
  | zero => rfl
  | succ fuel ih =>
    simp only [Worker.timerWalk]
    split
    · rfl
    · split
      · rw [ih]; simp
      · split
        · rw [ih]
        · rw [ih]

@[simp] theorem Worker.timerWalk_send_next_time (fuel : Nat) (w : Worker) (current : Int)
    (i : Nat) : (w.timerWalk fuel current i).1.send_next_time = w.send_next_time := by
  induction fuel generalizing w i with
  | zero => rfl
  | succ fuel ih =>
    simp only [Worker.timerWalk]
    split
    · rfl
    · split
      · rw [ih]; simp
      · split
        · rw [ih]
        · rw [ih]

@[simp] theorem Worker.timerWalk_nextId (fuel : Nat) (w : Worker) (current : Int)
    (i : Nat) : (w.timerWalk fuel current i).1.nextId = w.nextId := by
  induction fuel generalizing w i with
  | zero => rfl
  | succ fuel ih =>
    simp only [Worker.timerWalk]
    split
    · rfl
    · split
      · rw [ih]; simp
      · split
        · rw [ih]
        · rw [ih]

@[simp] theorem Worker.timerWalk_deleted (fuel : Nat) (w : Worker) (current : Int)
    (i : Nat) : (w.timerWalk fuel current i).1.deleted = w.deleted := by
  induction fuel generalizing w i with
  | zero => rfl
  | succ fuel ih =>
    simp only [Worker.timerWalk]
    split
    · rfl
    · split
      · rw [ih]; simp
      · split
        · rw [ih]
        · rw [ih]

@[simp] theorem Worker.timerWalk_resetCalls (fuel : Nat) (w : Worker) (current : Int)
    (i : Nat) : (w.timerWalk fuel current i).1.resetCalls = w.resetCalls := by
  induction fuel generalizing w i with
  | zero => rfl
  | succ fuel ih =>
    simp only [Worker.timerWalk]
    split
    · rfl
    · split
      · rw [ih]; simp
      · split
        · rw [ih]
        · rw [ih]


/-! ### Fields the driver callbacks leave alone -/

theorem Worker.onErrorTransaction_eq (w : Worker) (now : Int) (t : TransContainer) (error : String) :
    (w.onErrorTransaction now t error).1 =
      { w with
        posted := ((w.onErrorTransaction now t error).1).posted,
        nextId := ((w.onErrorTransaction now t error).1).nextId,
        retransmit_q := ((w.onErrorTransaction now t error).1).retransmit_q,
        ret_size := ((w.onErrorTransaction now t error).1).ret_size } := by
  unfold Worker.onErrorTransaction
  simp only []
  repeat' split
  all_goals rfl

@[simp] theorem Worker.onErrorTransaction_failover_to_slave (w : Worker) (now : Int) (t : TransContainer) (error : String) :
    ((w.onErrorTransaction now t error).1).failover_to_slave = w.failover_to_slave := by
  rw [Worker.onErrorTransaction_eq]

@[simp] theorem Worker.onErrorTransaction_retransmit_enable (w : Worker) (now : Int) (t : TransContainer) (error : String) :
    ((w.onErrorTransaction now t error).1).retransmit_enable = w.retransmit_enable := by
  rw [Worker.onErrorTransaction_eq]

@[simp] theorem Worker.onErrorTransaction_use_pipeline (w : Worker) (now : Int) (t : TransContainer) (error : String) :
    ((w.onErrorTransaction now t error).1).use_pipeline = w.use_pipeline := by
  rw [Worker.onErrorTransaction_eq]

@[simp] theorem Worker.onErrorTransaction_retransmit_interval (w : Worker) (now : Int) (t : TransContainer) (error : String) :
    ((w.onErrorTransaction now t error).1).retransmit_interval = w.retransmit_interval := by
  rw [Worker.onErrorTransaction_eq]

@[simp] theorem Worker.onErrorTransaction_reconnect_interval (w : Worker) (now : Int) (t : TransContainer) (error : String) :
    ((w.onErrorTransaction now t error).1).reconnect_interval = w.reconnect_interval := by
  rw [Worker.onErrorTransaction_eq]

@[simp] theorem Worker.onErrorTransaction_trans_wait_time (w : Worker) (now : Int) (t : TransContainer) (error : String) :
    ((w.onErrorTransaction now t error).1).trans_wait_time = w.trans_wait_time := by
  rw [Worker.onErrorTransaction_eq]

@[simp] theorem Worker.onErrorTransaction_batch_timeout (w : Worker) (now : Int) (t : TransContainer) (error : String) :
    ((w.onErrorTransaction now t error).1).batch_timeout = w.batch_timeout := by
  rw [Worker.onErrorTransaction_eq]

@[simp] theorem Worker.onErrorTransaction_batch_size (w : Worker) (now : Int) (t : TransContainer) (error : String) :
    ((w.onErrorTransaction now t error).1).batch_size = w.batch_size := by
  rw [Worker.onErrorTransaction_eq]

@[simp] theorem Worker.onErrorTransaction_max_queue_length (w : Worker) (now : Int) (t : TransContainer) (error : String) :
    ((w.onErrorTransaction now t error).1).max_queue_length = w.max_queue_length := by
  rw [Worker.onErrorTransaction_eq]

@[simp] theorem Worker.onErrorTransaction_workTimer (w : Worker) (now : Int) (t : TransContainer) (error : String) :
    ((w.onErrorTransaction now t error).1).workTimer = w.workTimer := by
  rw [Worker.onErrorTransaction_eq]

@[simp] theorem Worker.onErrorTransaction_master (w : Worker) (now : Int) (t : TransContainer) (error : String) :
    ((w.onErrorTransaction now t error).1).master = w.master := by
  rw [Worker.onErrorTransaction_eq]

@[simp] theorem Worker.onErrorTransaction_slave (w : Worker) (now : Int) (t : TransContainer) (error : String) :
    ((w.onErrorTransaction now t error).1).slave = w.slave := by
  rw [Worker.onErrorTransaction_eq]

@[simp] theorem Worker.onErrorTransaction_resetConnections (w : Worker) (now : Int) (t : TransContainer) (error : String) :
    ((w.onErrorTransaction now t error).1).resetConnections = w.resetConnections := by
  rw [Worker.onErrorTransaction_eq]

@[simp] theorem Worker.onErrorTransaction_tr_size (w : Worker) (now : Int) (t : TransContainer) (error : String) :
    ((w.onErrorTransaction now t error).1).tr_size = w.tr_size := by
  rw [Worker.onErrorTransaction_eq]

@[simp] theorem Worker.onErrorTransaction_finished (w : Worker) (now : Int) (t : TransContainer) (error : String) :
    ((w.onErrorTransaction now t error).1).finished = w.finished := by
  rw [Worker.onErrorTransaction_eq]

@[simp] theorem Worker.onErrorTransaction_queue_size (w : Worker) (now : Int) (t : TransContainer) (error : String) :
    ((w.onErrorTransaction now t error).1).queue_size = w.queue_size := by
  rw [Worker.onErrorTransaction_eq]

@[simp] theorem Worker.onErrorTransaction_dropped (w : Worker) (now : Int) (t : TransContainer) (error : String) :
    ((w.onErrorTransaction now t error).1).dropped = w.dropped := by
  rw [Worker.onErrorTransaction_eq]

@[simp] theorem Worker.onErrorTransaction_transactions (w : Worker) (now : Int) (t : TransContainer) (error : String) :
    ((w.onErrorTransaction now t error).1).transactions = w.transactions := by
  rw [Worker.onErrorTransaction_eq]

@[simp] theorem Worker.onErrorTransaction_reconnect_errors (w : Worker) (now : Int) (t : TransContainer) (error : String) :
    ((w.onErrorTransaction now t error).1).reconnect_errors = w.reconnect_errors := by
  rw [Worker.onErrorTransaction_eq]

@[simp] theorem Worker.onErrorTransaction_queue (w : Worker) (now : Int) (t : TransContainer) (error : String) :
    ((w.onErrorTransaction now t error).1).queue = w.queue := by
  rw [Worker.onErrorTransaction_eq]

@[simp] theorem Worker.onErrorTransaction_erased (w : Worker) (now : Int) (t : TransContainer) (error : String) :
    ((w.onErrorTransaction now t error).1).erased = w.erased := by
  rw [Worker.onErrorTransaction_eq]

@[simp] theorem Worker.onErrorTransaction_retransmit_next_time (w : Worker) (now : Int) (t : TransContainer) (error : String) :
    ((w.onErrorTransaction now t error).1).retransmit_next_time = w.retransmit_next_time := by
  rw [Worker.onErrorTransaction_eq]

@[simp] theorem Worker.onErrorTransaction_wait_next_time (w : Worker) (now : Int) (t : TransContainer) (error : String) :
    ((w.onErrorTransaction now t error).1).wait_next_time = w.wait_next_time := by
  rw [Worker.onErrorTransaction_eq]

@[simp] theorem Worker.onErrorTransaction_reset_next_time (w : Worker) (now : Int) (t : TransContainer) (error : String) :
    ((w.onErrorTransaction now t error).1).reset_next_time = w.reset_next_time := by
  rw [Worker.onErrorTransaction_eq]

@[simp] theorem Worker.onErrorTransaction_send_next_time (w : Worker) (now : Int) (t : TransContainer) (error : String) :
    ((w.onErrorTransaction now t error).1).send_next_time = w.send_next_time := by
  rw [Worker.onErrorTransaction_eq]

@[simp] theorem Worker.onErrorTransaction_deleted (w : Worker) (now : Int) (t : TransContainer) (error : String) :
    ((w.onErrorTransaction now t error).1).deleted = w.deleted := by
  rw [Worker.onErrorTransaction_eq]

@[simp] theorem Worker.onErrorTransaction_cancelled (w : Worker) (now : Int) (t : TransContainer) (error : String) :
    ((w.onErrorTransaction now t error).1).cancelled = w.cancelled := by
  rw [Worker.onErrorTransaction_eq]

@[simp] theorem Worker.onErrorTransaction_resetCalls (w : Worker) (now : Int) (t : TransContainer) (error : String) :
    ((w.onErrorTransaction now t error).1).resetCalls = w.resetCalls := by
  rw [Worker.onErrorTransaction_eq]

@[simp] theorem Worker.onError_failover_to_slave (w : Worker) (now : Int) (h : Nat)
    (error : String) : (w.onError now h error).failover_to_slave = w.failover_to_slave := by
  unfold Worker.onError
  split
  · rfl
  · simp

@[simp] theorem Worker.onError_retransmit_enable (w : Worker) (now : Int) (h : Nat)
    (error : String) : (w.onError now h error).retransmit_enable = w.retransmit_enable := by
  unfold Worker.onError
  split
  · rfl
  · simp

@[simp] theorem Worker.onError_use_pipeline (w : Worker) (now : Int) (h : Nat)
    (error : String) : (w.onError now h error).use_pipeline = w.use_pipeline := by
  unfold Worker.onError
  split
  · rfl
  · simp

@[simp] theorem Worker.onError_retransmit_interval (w : Worker) (now : Int) (h : Nat)
    (error : String) : (w.onError now h error).retransmit_interval = w.retransmit_interval := by
  unfold Worker.onError
  split
  · rfl
  · simp

@[simp] theorem Worker.onError_reconnect_interval (w : Worker) (now : Int) (h : Nat)
    (error : String) : (w.onError now h error).reconnect_interval = w.reconnect_interval := by
  unfold Worker.onError
  split
  · rfl
  · simp

@[simp] theorem Worker.onError_trans_wait_time (w : Worker) (now : Int) (h : Nat)
    (error : String) : (w.onError now h error).trans_wait_time = w.trans_wait_time := by
  unfold Worker.onError
  split
  · rfl
  · simp

@[simp] theorem Worker.onError_batch_timeout (w : Worker) (now : Int) (h : Nat)
    (error : String) : (w.onError now h error).batch_timeout = w.batch_timeout := by
  unfold Worker.onError
  split
  · rfl
  · simp

@[simp] theorem Worker.onError_batch_size (w : Worker) (now : Int) (h : Nat)
    (error : String) : (w.onError now h error).batch_size = w.batch_size := by
  unfold Worker.onError
  split
  · rfl
  · simp

@[simp] theorem Worker.onError_max_queue_length (w : Worker) (now : Int) (h : Nat)
    (error : String) : (w.onError now h error).max_queue_length = w.max_queue_length := by
  unfold Worker.onError
  split
  · rfl
  · simp

@[simp] theorem Worker.onError_workTimer (w : Worker) (now : Int) (h : Nat)
    (error : String) : (w.onError now h error).workTimer = w.workTimer := by
  unfold Worker.onError
  split
  · rfl
  · simp

@[simp] theorem Worker.onError_master (w : Worker) (now : Int) (h : Nat)
    (error : String) : (w.onError now h error).master = w.master := by
  unfold Worker.onError
  split
  · rfl
  · simp

@[simp] theorem Worker.onError_slave (w : Worker) (now : Int) (h : Nat)
    (error : String) : (w.onError now h error).slave = w.slave := by
  unfold Worker.onError
  split
  · rfl
  · simp

@[simp] theorem Worker.onError_resetConnections (w : Worker) (now : Int) (h : Nat)
    (error : String) : (w.onError now h error).resetConnections = w.resetConnections := by
  unfold Worker.onError
  split
  · rfl
  · simp

@[simp] theorem Worker.onError_finished (w : Worker) (now : Int) (h : Nat)
    (error : String) : (w.onError now h error).finished = w.finished := by
  unfold Worker.onError
  split
  · rfl
  · simp

@[simp] theorem Worker.onError_queue_size (w : Worker) (now : Int) (h : Nat)
    (error : String) : (w.onError now h error).queue_size = w.queue_size := by
  unfold Worker.onError
  split
  · rfl
  · simp

@[simp] theorem Worker.onError_dropped (w : Worker) (now : Int) (h : Nat)
    (error : String) : (w.onError now h error).dropped = w.dropped := by
  unfold Worker.onError
  split
  · rfl
  · simp

@[simp] theorem Worker.onError_reconnect_errors (w : Worker) (now : Int) (h : Nat)
    (error : String) : (w.onError now h error).reconnect_errors = w.reconnect_errors := by
  unfold Worker.onError
  split
  · rfl
  · simp

@[simp] theorem Worker.onError_queue (w : Worker) (now : Int) (h : Nat)
    (error : String) : (w.onError now h error).queue = w.queue := by
  unfold Worker.onError
  split
  · rfl
  · simp

@[simp] theorem Worker.onError_erased (w : Worker) (now : Int) (h : Nat)
    (error : String) : (w.onError now h error).erased = w.erased := by
  unfold Worker.onError
  split
  · rfl
  · simp

@[simp] theorem Worker.onError_retransmit_next_time (w : Worker) (now : Int) (h : Nat)
    (error : String) : (w.onError now h error).retransmit_next_time = w.retransmit_next_time := by
  unfold Worker.onError
  split
  · rfl
  · simp

@[simp] theorem Worker.onError_wait_next_time (w : Worker) (now : Int) (h : Nat)
    (error : String) : (w.onError now h error).wait_next_time = w.wait_next_time := by
  unfold Worker.onError
  split
  · rfl
  · simp

@[simp] theorem Worker.onError_reset_next_time (w : Worker) (now : Int) (h : Nat)
    (error : String) : (w.onError now h error).reset_next_time = w.reset_next_time := by
  unfold Worker.onError
  split
  · rfl
  · simp

@[simp] theorem Worker.onError_send_next_time (w : Worker) (now : Int) (h : Nat)
    (error : String) : (w.onError now h error).send_next_time = w.send_next_time := by
  unfold Worker.onError
  split
  · rfl
  · simp

@[simp] theorem Worker.onError_deleted (w : Worker) (now : Int) (h : Nat)
    (error : String) : (w.onError now h error).deleted = w.deleted := by
  unfold Worker.onError
  split
  · rfl
  · simp

@[simp] theorem Worker.onError_cancelled (w : Worker) (now : Int) (h : Nat)
    (error : String) : (w.onError now h error).cancelled = w.cancelled := by
  unfold Worker.onError
  split
  · rfl
  · simp

@[simp] theorem Worker.onError_resetCalls (w : Worker) (now : Int) (h : Nat)
    (error : String) : (w.onError now h error).resetCalls = w.resetCalls := by
  unfold Worker.onError
  split
  · rfl
  · simp

theorem Worker.onStopTransaction_eq (w : Worker) (now : Int) (h : Nat) :
    w.onStopTransaction now h =
      { w with
        retransmit_q := (w.onStopTransaction now h).retransmit_q,
        ret_size := (w.onStopTransaction now h).ret_size,
        tr_size := (w.onStopTransaction now h).tr_size,
        transactions := (w.onStopTransaction now h).transactions } := by
  unfold Worker.onStopTransaction
  split <;> rfl

@[simp] theorem Worker.onStopTransaction_failover_to_slave (w : Worker) (now : Int) (h : Nat) :
    (w.onStopTransaction now h).failover_to_slave = w.failover_to_slave := by
  rw [Worker.onStopTransaction_eq]

@[simp] theorem Worker.onStopTransaction_retransmit_enable (w : Worker) (now : Int) (h : Nat) :
    (w.onStopTransaction now h).retransmit_enable = w.retransmit_enable := by
  rw [Worker.onStopTransaction_eq]

@[simp] theorem Worker.onStopTransaction_use_pipeline (w : Worker) (now : Int) (h : Nat) :
    (w.onStopTransaction now h).use_pipeline = w.use_pipeline := by
  rw [Worker.onStopTransaction_eq]

@[simp] theorem Worker.onStopTransaction_retransmit_interval (w : Worker) (now : Int) (h : Nat) :
    (w.onStopTransaction now h).retransmit_interval = w.retransmit_interval := by
  rw [Worker.onStopTransaction_eq]

@[simp] theorem Worker.onStopTransaction_reconnect_interval (w : Worker) (now : Int) (h : Nat) :
    (w.onStopTransaction now h).reconnect_interval = w.reconnect_interval := by
  rw [Worker.onStopTransaction_eq]

@[simp] theorem Worker.onStopTransaction_trans_wait_time (w : Worker) (now : Int) (h : Nat) :
    (w.onStopTransaction now h).trans_wait_time = w.trans_wait_time := by
  rw [Worker.onStopTransaction_eq]

@[simp] theorem Worker.onStopTransaction_batch_timeout (w : Worker) (now : Int) (h : Nat) :
    (w.onStopTransaction now h).batch_timeout = w.batch_timeout := by
  rw [Worker.onStopTransaction_eq]

@[simp] theorem Worker.onStopTransaction_batch_size (w : Worker) (now : Int) (h : Nat) :
    (w.onStopTransaction now h).batch_size = w.batch_size := by
  rw [Worker.onStopTransaction_eq]

@[simp] theorem Worker.onStopTransaction_max_queue_length (w : Worker) (now : Int) (h : Nat) :
    (w.onStopTransaction now h).max_queue_length = w.max_queue_length := by
  rw [Worker.onStopTransaction_eq]

@[simp] theorem Worker.onStopTransaction_workTimer (w : Worker) (now : Int) (h : Nat) :
    (w.onStopTransaction now h).workTimer = w.workTimer := by
  rw [Worker.onStopTransaction_eq]

@[simp] theorem Worker.onStopTransaction_master (w : Worker) (now : Int) (h : Nat) :
    (w.onStopTransaction now h).master = w.master := by
  rw [Worker.onStopTransaction_eq]

@[simp] theorem Worker.onStopTransaction_slave (w : Worker) (now : Int) (h : Nat) :
    (w.onStopTransaction now h).slave = w.slave := by
  rw [Worker.onStopTransaction_eq]

@[simp] theorem Worker.onStopTransaction_resetConnections (w : Worker) (now : Int) (h : Nat) :
    (w.onStopTransaction now h).resetConnections = w.resetConnections := by
  rw [Worker.onStopTransaction_eq]

@[simp] theorem Worker.onStopTransaction_finished (w : Worker) (now : Int) (h : Nat) :
    (w.onStopTransaction now h).finished = w.finished := by
  rw [Worker.onStopTransaction_eq]

@[simp] theorem Worker.onStopTransaction_queue_size (w : Worker) (now : Int) (h : Nat) :
    (w.onStopTransaction now h).queue_size = w.queue_size := by
  rw [Worker.onStopTransaction_eq]

@[simp] theorem Worker.onStopTransaction_dropped (w : Worker) (now : Int) (h : Nat) :
    (w.onStopTransaction now h).dropped = w.dropped := by
  rw [Worker.onStopTransaction_eq]

@[simp] theorem Worker.onStopTransaction_reconnect_errors (w : Worker) (now : Int) (h : Nat) :
    (w.onStopTransaction now h).reconnect_errors = w.reconnect_errors := by
  rw [Worker.onStopTransaction_eq]

@[simp] theorem Worker.onStopTransaction_queue (w : Worker) (now : Int) (h : Nat) :
    (w.onStopTransaction now h).queue = w.queue := by
  rw [Worker.onStopTransaction_eq]

@[simp] theorem Worker.onStopTransaction_erased (w : Worker) (now : Int) (h : Nat) :
    (w.onStopTransaction now h).erased = w.erased := by
  rw [Worker.onStopTransaction_eq]

@[simp] theorem Worker.onStopTransaction_retransmit_next_time (w : Worker) (now : Int) (h : Nat) :
    (w.onStopTransaction now h).retransmit_next_time = w.retransmit_next_time := by
  rw [Worker.onStopTransaction_eq]

@[simp] theorem Worker.onStopTransaction_wait_next_time (w : Worker) (now : Int) (h : Nat) :
    (w.onStopTransaction now h).wait_next_time = w.wait_next_time := by
  rw [Worker.onStopTransaction_eq]

@[simp] theorem Worker.onStopTransaction_reset_next_time (w : Worker) (now : Int) (h : Nat) :
    (w.onStopTransaction now h).reset_next_time = w.reset_next_time := by
  rw [Worker.onStopTransaction_eq]

@[simp] theorem Worker.onStopTransaction_send_next_time (w : Worker) (now : Int) (h : Nat) :
    (w.onStopTransaction now h).send_next_time = w.send_next_time := by
  rw [Worker.onStopTransaction_eq]

@[simp] theorem Worker.onStopTransaction_nextId (w : Worker) (now : Int) (h : Nat) :
    (w.onStopTransaction now h).nextId = w.nextId := by
  rw [Worker.onStopTransaction_eq]

@[simp] theorem Worker.onStopTransaction_posted (w : Worker) (now : Int) (h : Nat) :
    (w.onStopTransaction now h).posted = w.posted := by
  rw [Worker.onStopTransaction_eq]

@[simp] theorem Worker.onStopTransaction_deleted (w : Worker) (now : Int) (h : Nat) :
    (w.onStopTransaction now h).deleted = w.deleted := by
  rw [Worker.onStopTransaction_eq]

@[simp] theorem Worker.onStopTransaction_cancelled (w : Worker) (now : Int) (h : Nat) :
    (w.onStopTransaction now h).cancelled = w.cancelled := by
  rw [Worker.onStopTransaction_eq]

@[simp] theorem Worker.onStopTransaction_resetCalls (w : Worker) (now : Int) (h : Nat) :
    (w.onStopTransaction now h).resetCalls = w.resetCalls := by
  rw [Worker.onStopTransaction_eq]

theorem Worker.onFinish_eq (w : Worker) (now : Int) (h : Nat) (result : String) :
    w.onFinish now h result =
      { w with
        workTimer := (w.onFinish now h result).workTimer,
        erased := (w.onFinish now h result).erased,
        posted := (w.onFinish now h result).posted,
        finished := (w.onFinish now h result).finished,
        tr_size := (w.onFinish now h result).tr_size,
        transactions := (w.onFinish now h result).transactions } := by
  unfold Worker.onFinish
  simp only
  rw [Worker.setWorkTimer_eq]
  split
  · rfl
  · split <;> rfl

@[simp] theorem Worker.onFinish_failover_to_slave (w : Worker) (now : Int) (h : Nat) (result : String) :
    (w.onFinish now h result).failover_to_slave = w.failover_to_slave := by
  rw [Worker.onFinish_eq]

@[simp] theorem Worker.onFinish_retransmit_enable (w : Worker) (now : Int) (h : Nat) (result : String) :
    (w.onFinish now h result).retransmit_enable = w.retransmit_enable := by
  rw [Worker.onFinish_eq]

@[simp] theorem Worker.onFinish_use_pipeline (w : Worker) (now : Int) (h : Nat) (result : String) :
    (w.onFinish now h result).use_pipeline = w.use_pipeline := by
  rw [Worker.onFinish_eq]

@[simp] theorem Worker.onFinish_retransmit_interval (w : Worker) (now : Int) (h : Nat) (result : String) :
    (w.onFinish now h result).retransmit_interval = w.retransmit_interval := by
  rw [Worker.onFinish_eq]

@[simp] theorem Worker.onFinish_reconnect_interval (w : Worker) (now : Int) (h : Nat) (result : String) :
    (w.onFinish now h result).reconnect_interval = w.reconnect_interval := by
  rw [Worker.onFinish_eq]

@[simp] theorem Worker.onFinish_trans_wait_time (w : Worker) (now : Int) (h : Nat) (result : String) :
    (w.onFinish now h result).trans_wait_time = w.trans_wait_time := by
  rw [Worker.onFinish_eq]

@[simp] theorem Worker.onFinish_batch_timeout (w : Worker) (now : Int) (h : Nat) (result : String) :
    (w.onFinish now h result).batch_timeout = w.batch_timeout := by
  rw [Worker.onFinish_eq]

@[simp] theorem Worker.onFinish_batch_size (w : Worker) (now : Int) (h : Nat) (result : String) :
    (w.onFinish now h result).batch_size = w.batch_size := by
  rw [Worker.onFinish_eq]

@[simp] theorem Worker.onFinish_max_queue_length (w : Worker) (now : Int) (h : Nat) (result : String) :
    (w.onFinish now h result).max_queue_length = w.max_queue_length := by
  rw [Worker.onFinish_eq]

@[simp] theorem Worker.onFinish_master (w : Worker) (now : Int) (h : Nat) (result : String) :
    (w.onFinish now h result).master = w.master := by
  rw [Worker.onFinish_eq]

@[simp] theorem Worker.onFinish_slave (w : Worker) (now : Int) (h : Nat) (result : String) :
    (w.onFinish now h result).slave = w.slave := by
  rw [Worker.onFinish_eq]

@[simp] theorem Worker.onFinish_resetConnections (w : Worker) (now : Int) (h : Nat) (result : String) :
    (w.onFinish now h result).resetConnections = w.resetConnections := by
  rw [Worker.onFinish_eq]

@[simp] theorem Worker.onFinish_queue_size (w : Worker) (now : Int) (h : Nat) (result : String) :
    (w.onFinish now h result).queue_size = w.queue_size := by
  rw [Worker.onFinish_eq]

@[simp] theorem Worker.onFinish_ret_size (w : Worker) (now : Int) (h : Nat) (result : String) :
    (w.onFinish now h result).ret_size = w.ret_size := by
  rw [Worker.onFinish_eq]

@[simp] theorem Worker.onFinish_dropped (w : Worker) (now : Int) (h : Nat) (result : String) :
    (w.onFinish now h result).dropped = w.dropped := by
  rw [Worker.onFinish_eq]

@[simp] theorem Worker.onFinish_reconnect_errors (w : Worker) (now : Int) (h : Nat) (result : String) :
    (w.onFinish now h result).reconnect_errors = w.reconnect_errors := by
  rw [Worker.onFinish_eq]

@[simp] theorem Worker.onFinish_retransmit_q (w : Worker) (now : Int) (h : Nat) (result : String) :
    (w.onFinish now h result).retransmit_q = w.retransmit_q := by
  rw [Worker.onFinish_eq]

@[simp] theorem Worker.onFinish_queue (w : Worker) (now : Int) (h : Nat) (result : String) :
    (w.onFinish now h result).queue = w.queue := by
  rw [Worker.onFinish_eq]

@[simp] theorem Worker.onFinish_retransmit_next_time (w : Worker) (now : Int) (h : Nat) (result : String) :
    (w.onFinish now h result).retransmit_next_time = w.retransmit_next_time := by
  rw [Worker.onFinish_eq]

@[simp] theorem Worker.onFinish_wait_next_time (w : Worker) (now : Int) (h : Nat) (result : String) :
    (w.onFinish now h result).wait_next_time = w.wait_next_time := by
  rw [Worker.onFinish_eq]

@[simp] theorem Worker.onFinish_reset_next_time (w : Worker) (now : Int) (h : Nat) (result : String) :
    (w.onFinish now h result).reset_next_time = w.reset_next_time := by
  rw [Worker.onFinish_eq]

@[simp] theorem Worker.onFinish_send_next_time (w : Worker) (now : Int) (h : Nat) (result : String) :
    (w.onFinish now h result).send_next_time = w.send_next_time := by
  rw [Worker.onFinish_eq]

@[simp] theorem Worker.onFinish_nextId (w : Worker) (now : Int) (h : Nat) (result : String) :
    (w.onFinish now h result).nextId = w.nextId := by
  rw [Worker.onFinish_eq]

@[simp] theorem Worker.onFinish_deleted (w : Worker) (now : Int) (h : Nat) (result : String) :
    (w.onFinish now h result).deleted = w.deleted := by
  rw [Worker.onFinish_eq]

@[simp] theorem Worker.onFinish_cancelled (w : Worker) (now : Int) (h : Nat) (result : String) :
    (w.onFinish now h result).cancelled = w.cancelled := by
  rw [Worker.onFinish_eq]

@[simp] theorem Worker.onFinish_resetCalls (w : Worker) (now : Int) (h : Nat) (result : String) :
    (w.onFinish now h result).resetCalls = w.resetCalls := by
  rw [Worker.onFinish_eq]


/-! ### What the driver callbacks do to the active table -/

theorem eraseP_of_find?_none {l : List TransContainer} {p : TransContainer → Bool}
    (h : l.find? p = none) : l.eraseP p = l :=
  List.eraseP_of_forall_not (fun a ha => by simpa using List.find?_eq_none.mp h a ha)

theorem Worker.onFinish_transactions (w : Worker) (now : Int) (t : Nat) (result : String) :
    (w.onFinish now t result).transactions =
      w.transactions.eraseP (fun tr => tr.trans.id == t) := by
  unfold Worker.onFinish
  simp only [Worker.setWorkTimer_transactions]
  split
  · rename_i h; simp [eraseP_of_find?_none h]
  · split <;> simp

theorem Worker.onFinish_erased (w : Worker) (now : Int) (t : Nat) (result : String) :
    (w.onFinish now t result).erased = w.erased ++ [t] := by
  unfold Worker.onFinish
  simp only [Worker.setWorkTimer_transactions]
  split
  · simp
  · split <;> simp

theorem Worker.onFinish_posted (w : Worker) (now : Int) (t : Nat) (result : String) :
    (w.onFinish now t result).posted = w.posted ∨
    ∃ tr ∈ w.transactions, tr.sender_id ≠ "" ∧
      (w.onFinish now t result).posted =
        w.posted ++ [(tr.sender_id, .PGResponse result tr.token)] := by
  unfold Worker.onFinish
  simp only [Worker.setWorkTimer_transactions]
  split
  · left; simp
  · rename_i tr hfind
    split
    · rename_i hc
      right
      exact ⟨tr, List.mem_of_find?_eq_some hfind, by simpa using hc, by simp⟩
    · left; simp

theorem Worker.onError_transactions (w : Worker) (now : Int) (t : Nat) (error : String) :
    (w.onError now t error).transactions =
      w.transactions.eraseP (fun tr => tr.trans.id == t) := by
  unfold Worker.onError
  split
  · rename_i h; simp [eraseP_of_find?_none h]
  · simp

theorem Worker.onStopTransaction_transactions (w : Worker) (now : Int) (t : Nat) :
    (w.onStopTransaction now t).transactions =
      w.transactions.eraseP (fun tr => tr.trans.id == t) := by
  unfold Worker.onStopTransaction
  split
  · rename_i h; simp [eraseP_of_find?_none h]
  · simp

/-! ### The two cases of `runTransaction` -/

theorem Worker.runTransaction_of_full (w : Worker) (now : Int) (tx : IPGTransaction)
    (sender_id token : String)
    (h : w.max_queue_length ≠ 0 ∧ w.queue_size ≥ (w.max_queue_length : Int)) :
    w.runTransaction now tx sender_id token =
      Worker.delete
        { (if (if w.batch_size > 1 ∧ sender_id ≠ "" then "" else sender_id) ≠ "" then
            w.post (if w.batch_size > 1 ∧ sender_id ≠ "" then "" else sender_id)
              (.PGResponseError "queue is full" token)
          else w) with
          dropped := (if (if w.batch_size > 1 ∧ sender_id ≠ "" then "" else sender_id) ≠ "" then
            w.post (if w.batch_size > 1 ∧ sender_id ≠ "" then "" else sender_id)
              (.PGResponseError "queue is full" token)
          else w).dropped + tx.get_size } tx.id := by
  simp only [Worker.runTransaction, if_pos h]

theorem Worker.runTransaction_of_room (w : Worker) (now : Int) (tx : IPGTransaction)
    (sender_id token : String)
    (h : ¬ (w.max_queue_length ≠ 0 ∧ w.queue_size ≥ (w.max_queue_length : Int))) :
    w.runTransaction now tx sender_id token =
      Worker.setWorkTimer
        { w with
          queue := w.queue ++ [TransContainer.create now tx none
            (if w.batch_size > 1 ∧ sender_id ≠ "" then "" else sender_id) token],
          queue_size := w.queue_size + tx.get_size,
          send_next_time :=
            if w.send_next_time = 0 then now + w.batch_timeout else w.send_next_time }
        now false := by
  simp only [Worker.runTransaction, if_neg h]
  split <;> simp_all

/-! ### Pool pointers -/

theorem Worker.isMaster_master (w : Worker) (hm : w.master.isSome = true) :
    w.isMaster (some .Master) = true := by
  simp [Worker.isMaster, hm]

theorem Worker.getFreeConnection_from_master (w : Worker) (sp : ConnectionPool)
    (hs : w.slave = some sp) (hm : w.master.isSome = true) :
    w.getFreeConnection (some .Master) =
      { conn := sp.getFreeConnection, pool := some .Slave, failed := false } := by
  simp [Worker.getFreeConnection, hs, Worker.isMaster_master w hm]

theorem sizeSum_nil : sizeSum [] = 0 := rfl

theorem sizeSum_append (a b : List TransContainer) :
    sizeSum (a ++ b) = sizeSum a + sizeSum b := by
  simp [sizeSum]

theorem sizeSum_cons (x : TransContainer) (a : List TransContainer) :
    sizeSum (x :: a) = x.trans.get_size + sizeSum a := by
  simp [sizeSum]

theorem sizeSum_nonneg (a : List TransContainer) : 0 ≤ sizeSum a := by
  induction a with
  | nil => simp [sizeSum]
  | cons x a ih => rw [sizeSum_cons]; omega

theorem Worker.batchFold_queue (cm : IPGTransaction → IPGTransaction → Bool) (w : Worker)
    (acc : Option IPGTransaction) (count : Nat) (pre : List TransContainer)
    (x : TransContainer) (tl : List TransContainer) :
    (w.batchFold cm acc count pre x tl).w.queue = w.queue ∧
    (w.batchFold cm acc count pre x tl).w.queue_size = w.queue_size ∧
    (w.batchFold cm acc count pre x tl).w.max_queue_length = w.max_queue_length ∧
    (w.batchFold cm acc count pre x tl).consumed ++ (w.batchFold cm acc count pre x tl).next =
      pre ++ x :: tl ∧
    ((w.batchFold cm acc count pre x tl).count : Int) -
        sizeSum (w.batchFold cm acc count pre x tl).consumed = count - sizeSum pre := by
  unfold Worker.batchFold
  split
  · simp [sizeSum_append, sizeSum_cons, sizeSum_nil]
  · split
    · simp
    · simp [sizeSum_append, sizeSum_cons, sizeSum_nil]

theorem Worker.batchLoop_queue (cm : IPGTransaction → IPGTransaction → Bool) (fuel : Nat)
    (w : Worker) (now : Int) (acc : Option IPGTransaction) (count : Nat)
    (pre rest : List TransContainer) (hq : w.queue = pre ++ rest)
    (hc : (count : Int) = sizeSum pre) :
    ∃ k, k ≤ w.queue.length ∧
      (w.batchLoop cm fuel now acc count pre rest).queue = w.queue.drop k ∧
      (w.batchLoop cm fuel now acc count pre rest).queue_size =
        w.queue_size - sizeSum (w.queue.take k) ∧
      (w.batchLoop cm fuel now acc count pre rest).max_queue_length = w.max_queue_length := by
  induction fuel generalizing w acc count pre rest with
  | zero => exact ⟨0, Nat.zero_le _, by simp [Worker.batchLoop, sizeSum_nil]⟩
  | succ fuel ih =>
    cases rest with
    | nil => exact ⟨0, Nat.zero_le _, by simp [Worker.batchLoop, sizeSum_nil]⟩
    | cons x tl =>
      obtain ⟨hfq, hfs, hfm, hfc, hfn⟩ := Worker.batchFold_queue cm w acc count pre x tl
      simp only [Worker.batchLoop]
      split
      · split
        · exact ⟨0, Nat.zero_le _, by simp [hfq, hfs, hfm, sizeSum_nil]⟩
        · have hcons : w.queue = (w.batchFold cm acc count pre x tl).consumed ++
              (w.batchFold cm acc count pre x tl).next := by rw [hq, hfc]
          have hcnt : ((w.batchFold cm acc count pre x tl).count : Int) =
              sizeSum (w.batchFold cm acc count pre x tl).consumed := by omega
          obtain ⟨k, hk, h1, h2, h3⟩ := ih
            { ((w.batchFold cm acc count pre x tl).w.retransmitTransaction now
                (TransContainer.create now (w.batchFold cm acc count pre x tl).trans none
                  (w.batchFold cm acc count pre x tl).cur.sender_id
                  (w.batchFold cm acc count pre x tl).cur.token)).2.1 with
              deleted := ((w.batchFold cm acc count pre x tl).w.retransmitTransaction now
                (TransContainer.create now (w.batchFold cm acc count pre x tl).trans none
                  (w.batchFold cm acc count pre x tl).cur.sender_id
                  (w.batchFold cm acc count pre x tl).cur.token)).2.1.deleted ++
                  handles (w.batchFold cm acc count pre x tl).consumed,
              queue := ((w.batchFold cm acc count pre x tl).w.retransmitTransaction now
                (TransContainer.create now (w.batchFold cm acc count pre x tl).trans none
                  (w.batchFold cm acc count pre x tl).cur.sender_id
                  (w.batchFold cm acc count pre x tl).cur.token)).2.1.queue.drop
                  (w.batchFold cm acc count pre x tl).consumed.length,
              queue_size := ((w.batchFold cm acc count pre x tl).w.retransmitTransaction now
                (TransContainer.create now (w.batchFold cm acc count pre x tl).trans none
                  (w.batchFold cm acc count pre x tl).cur.sender_id
                  (w.batchFold cm acc count pre x tl).cur.token)).2.1.queue_size -
                  (w.batchFold cm acc count pre x tl).count }
            none 0 [] (w.batchFold cm acc count pre x tl).next
            (by simp [hfq, hcons]) (by simp [sizeSum_nil])
          refine ⟨(w.batchFold cm acc count pre x tl).consumed.length + k, ?_, ?_, ?_, ?_⟩
          · simp only [Worker.retransmit_queue, hfq] at hk
            rw [hcons] at hk ⊢
            simp only [List.drop_left, List.length_append] at hk ⊢
            omega
          · rw [h1]
            simp only [Worker.retransmit_queue, hfq, List.drop_drop]
          · rw [h2]
            simp only [Worker.retransmit_queue, Worker.retransmit_queue_size, hfq, hfs]
            rw [hcons, List.drop_left, List.take_append, sizeSum_append, hcnt]
            ring
          · rw [h3]; simp [hfm]
      · obtain ⟨k, hk, h1, h2, h3⟩ := ih (w.batchFold cm acc count pre x tl).w
          (some (w.batchFold cm acc count pre x tl).trans)
          (w.batchFold cm acc count pre x tl).count
          (w.batchFold cm acc count pre x tl).consumed
          (w.batchFold cm acc count pre x tl).next (by rw [hfq, hq, hfc]) (by omega)
        exact ⟨k, by rw [← hfq]; exact hk, by rw [h1, hfq], by rw [h2, hfq, hfs], by rw [h3, hfm]⟩

theorem Worker.checkQueue_queue (cm : IPGTransaction → IPGTransaction → Bool) (w : Worker)
    (now : Int) :
    ∃ k, k ≤ w.queue.length ∧
      (w.checkQueue cm now).queue = w.queue.drop k ∧
      (w.checkQueue cm now).queue_size = w.queue_size - sizeSum (w.queue.take k) ∧
      (w.checkQueue cm now).max_queue_length = w.max_queue_length := by
  unfold Worker.checkQueue
  simp only
  split
  · exact ⟨0, Nat.zero_le _, by simp [sizeSum_nil]⟩
  · obtain ⟨k, hk, h1, h2, h3⟩ := Worker.batchLoop_queue cm
      (2 * (w.drainRetry now [] w.retransmit_q).queue.length + 1)
      (w.drainRetry now [] w.retransmit_q) now none 0 []
      (w.drainRetry now [] w.retransmit_q).queue (by simp) (by simp [sizeSum_nil])
    simp only [Worker.drainRetry_queue, Worker.drainRetry_queue_size,
      Worker.drainRetry_max_queue_length] at hk h1 h2 h3
    refine ⟨k, hk, ?_⟩
    split <;> simp [h1, h2, h3]
/-- A batch whose dispatch finds no connection ends the loop with queue and gauge as they
were. -/
theorem Worker.batchLoop_not_dispatched (cm : IPGTransaction → IPGTransaction → Bool)
    (fuel : Nat) (w : Worker) (now : Int) (acc : Option IPGTransaction) (count : Nat)
    (pre : List TransContainer) (x : TransContainer) (tl : List TransContainer)
    (hsend : (w.batchFold cm acc count pre x tl).count ≥ w.batch_size ∨
      (w.batchFold cm acc count pre x tl).need_send = true ∨
      (w.batchFold cm acc count pre x tl).next = [])
    (hret : ((w.batchFold cm acc count pre x tl).w.retransmitTransaction now
      (TransContainer.create now (w.batchFold cm acc count pre x tl).trans none
        (w.batchFold cm acc count pre x tl).cur.sender_id
        (w.batchFold cm acc count pre x tl).cur.token)).1 < 0) :
    (w.batchLoop cm (fuel + 1) now acc count pre (x :: tl)).queue = w.queue ∧
    (w.batchLoop cm (fuel + 1) now acc count pre (x :: tl)).queue_size = w.queue_size := by
  obtain ⟨hfq, hfs, _, _, _⟩ := Worker.batchFold_queue cm w acc count pre x tl
  simp only [Worker.batchLoop, if_pos hsend, if_pos hret]
  simp [hfq, hfs]
theorem Worker.checkQueue_queue_gauge (cm : IPGTransaction → IPGTransaction → Bool)
    (w : Worker) (now : Int) :
    (w.checkQueue cm now).queue_size - sizeSum (w.checkQueue cm now).queue =
      w.queue_size - sizeSum w.queue := by
  obtain ⟨k, _, h1, h2, _⟩ := Worker.checkQueue_queue cm w now
  have hsplit : sizeSum w.queue = sizeSum (w.queue.take k) + sizeSum (w.queue.drop k) := by
    rw [← sizeSum_append, List.take_append_drop]
  rw [h1, h2, hsplit]; ring

theorem Worker.runTransaction_queue_gauge (w : Worker) (now : Int) (tx : IPGTransaction)
    (sender_id token : String) :
    (w.runTransaction now tx sender_id token).queue_size -
        sizeSum (w.runTransaction now tx sender_id token).queue =
      w.queue_size - sizeSum w.queue := by
  by_cases h : w.max_queue_length ≠ 0 ∧ w.queue_size ≥ (w.max_queue_length : Int)
  · rw [Worker.runTransaction_of_full w now tx sender_id token h]
    split_ifs <;> simp
  · rw [Worker.runTransaction_of_room w now tx sender_id token h]
    simp only [Worker.setWorkTimer_queue_size, Worker.setWorkTimer_queue, sizeSum_append,
      sizeSum_cons, sizeSum_nil, TransContainer.create]
    ring

theorem Worker.onTimer_queue_gauge (cm : IPGTransaction → IPGTransaction → Bool) (fuel : Nat)
    (w : Worker) (now : Int) :
    (w.onTimer cm fuel now).1.queue_size - sizeSum (w.onTimer cm fuel now).1.queue =
      w.queue_size - sizeSum w.queue := by
  unfold Worker.onTimer
  simp only
  split
  · simp only [Worker.setWorkTimer_queue_size, Worker.setWorkTimer_queue,
      Worker.checkQueue_queue_gauge]
    simp
  · simp

/-- No call of the Worker separates the queue gauge from the admission queue. -/
theorem Worker.run_queue_gauge (cm : IPGTransaction → IPGTransaction → Bool) (w : Worker)
    (ops : List (Int × Op)) :
    (w.run cm ops).queue_size - sizeSum (w.run cm ops).queue =
      w.queue_size - sizeSum w.queue := by
  induction ops generalizing w with
  | nil => rfl
  | cons p ops ih =>
    obtain ⟨now, op⟩ := p
    simp only [Worker.run]
    rw [ih]
    cases op with
    | runTransaction tx s k => exact Worker.runTransaction_queue_gauge w now tx s k
    | onTimer fuel => exact Worker.onTimer_queue_gauge cm fuel w now
    | onFinish t r => simp [Worker.step]
    | onError t e => simp [Worker.step]
    | onPQError t e => simp [Worker.step, Worker.onPQError]
    | onStopTransaction t => simp [Worker.step]

/-! ### The queue gauge never grows outside `runTransaction` -/

theorem Worker.checkQueue_queue_size_le (cm : IPGTransaction → IPGTransaction → Bool)
    (w : Worker) (now : Int) :
    (w.checkQueue cm now).queue_size ≤ w.queue_size ∧
    (w.checkQueue cm now).max_queue_length = w.max_queue_length := by
  obtain ⟨k, _, _, h2, h3⟩ := Worker.checkQueue_queue cm w now
  have := sizeSum_nonneg (w.queue.take k)
  exact ⟨by omega, h3⟩

theorem Worker.onTimer_queue_size_le (cm : IPGTransaction → IPGTransaction → Bool)
    (fuel : Nat) (w : Worker) (now : Int) :
    (w.onTimer cm fuel now).1.queue_size ≤ w.queue_size ∧
    (w.onTimer cm fuel now).1.max_queue_length = w.max_queue_length := by
  unfold Worker.onTimer
  simp only
  split
  · simp only [Worker.setWorkTimer_queue_size, Worker.setWorkTimer_max_queue_length]
    refine ⟨le_trans (Worker.checkQueue_queue_size_le cm _ now).1 (by simp), ?_⟩
    rw [(Worker.checkQueue_queue_size_le cm _ now).2]
    simp
  · simp

theorem Worker.runTransaction_queue_size_le (w : Worker) (now : Int) (tx : IPGTransaction)
    (sender_id token : String) (S : Nat) (hN : 0 < w.max_queue_length)
    (hS : tx.get_size ≤ S) (hq : w.queue_size ≤ (w.max_queue_length : Int) - 1 + S) :
    (w.runTransaction now tx sender_id token).queue_size ≤ (w.max_queue_length : Int) - 1 + S ∧
    (w.runTransaction now tx sender_id token).max_queue_length = w.max_queue_length := by
  by_cases h : w.max_queue_length ≠ 0 ∧ w.queue_size ≥ (w.max_queue_length : Int)
  · rw [Worker.runTransaction_of_full w now tx sender_id token h]
    split_ifs <;> simp [hq]
  · rw [Worker.runTransaction_of_room w now tx sender_id token h]
    have hlt : w.queue_size < (w.max_queue_length : Int) := by
      by_contra hc
      exact h ⟨Nat.pos_iff_ne_zero.mp hN, by omega⟩
    simp
    omega

theorem Worker.step_queue_size_le (cm : IPGTransaction → IPGTransaction → Bool) (w : Worker)
    (now : Int) (op : Op) (S : Nat) (hN : 0 < w.max_queue_length)
    (hop : ∀ tx s k, op = .runTransaction tx s k → tx.get_size ≤ S)
    (hq : w.queue_size ≤ (w.max_queue_length : Int) - 1 + S) :
    (w.step cm now op).queue_size ≤ (w.max_queue_length : Int) - 1 + S ∧
    (w.step cm now op).max_queue_length = w.max_queue_length := by
  cases op with
  | runTransaction tx s k =>
    exact Worker.runTransaction_queue_size_le w now tx s k S hN (hop tx s k rfl) hq
  | onTimer fuel =>
    have := Worker.onTimer_queue_size_le cm fuel w now
    exact ⟨le_trans this.1 hq, this.2⟩
  | onFinish h r => simp [Worker.step, hq]
  | onError h e => simp [Worker.step, hq]
  | onPQError h e => simp [Worker.step, Worker.onPQError, hq]
  | onStopTransaction h => simp [Worker.step, hq]

/-! ### The iteration bound of the batching loop -/

theorem Worker.batchFold_next (cm : IPGTransaction → IPGTransaction → Bool) (w : Worker)
    (acc : Option IPGTransaction) (count : Nat) (pre : List TransContainer)
    (x : TransContainer) (tl : List TransContainer) :
    ((w.batchFold cm acc count pre x tl).need_send = false ∧
      (w.batchFold cm acc count pre x tl).next = tl) ∨
    ((w.batchFold cm acc count pre x tl).need_send = true ∧ acc.isSome = true ∧
      (w.batchFold cm acc count pre x tl).next = x :: tl) := by
  unfold Worker.batchFold
  split
  · left; exact ⟨rfl, rfl⟩
  · split
    · right; exact ⟨rfl, rfl, rfl⟩
    · left; exact ⟨rfl, rfl⟩

/-- The batching loop ends before its iteration bound is used up: any two bounds above
`batchMeasure` give the same result, so the bound chosen in `checkQueue` is not felt. -/
theorem Worker.batchLoop_fuel (cm : IPGTransaction → IPGTransaction → Bool) (f1 f2 : Nat)
    (w : Worker) (now : Int) (acc : Option IPGTransaction) (count : Nat)
    (pre rest : List TransContainer)
    (h1 : batchMeasure acc rest < f1) (h2 : batchMeasure acc rest < f2) :
    w.batchLoop cm f1 now acc count pre rest = w.batchLoop cm f2 now acc count pre rest := by
  induction f1 generalizing f2 w acc count pre rest with
  | zero => omega
  | succ f1 ih =>
    cases f2 with
    | zero => omega
    | succ f2 =>
      cases rest with
      | nil => simp [Worker.batchLoop]
      | cons x tl =>
        simp only [Worker.batchLoop]
        have hn := Worker.batchFold_next cm w acc count pre x tl
        split
        · split
          · rfl
          · apply ih
            · rcases hn with ⟨_, hn⟩ | ⟨_, ha, hn⟩
              · rw [hn]; simp only [batchMeasure, List.length_cons] at h1 ⊢; simp; omega
              · rw [hn]; simp only [batchMeasure, List.length_cons, ha] at h1 ⊢; simp at h1 ⊢; omega
            · rcases hn with ⟨_, hn⟩ | ⟨_, ha, hn⟩
              · rw [hn]; simp only [batchMeasure, List.length_cons] at h2 ⊢; simp; omega
              · rw [hn]; simp only [batchMeasure, List.length_cons, ha] at h2 ⊢; simp at h2 ⊢; omega
        · rename_i hcond
          have hns : (w.batchFold cm acc count pre x tl).next = tl := by
            rcases hn with ⟨_, hn⟩ | ⟨hs, _, _⟩
            · exact hn
            · exact absurd (Or.inr (Or.inl hs)) hcond
          apply ih
          · rw [hns]; simp only [batchMeasure, List.length_cons] at h1 ⊢; simp; omega
          · rw [hns]; simp only [batchMeasure, List.length_cons] at h2 ⊢; simp; omega

/-! ### Outcomes are posted only for submissions -/

theorem RecordsFor.append {P : String → String → Prop} {a b : List TransContainer}
    (ha : RecordsFor P a) (hb : RecordsFor P b) : RecordsFor P (a ++ b) := by
  intro r hr
  rcases List.mem_append.mp hr with h | h
  · exact ha r h
  · exact hb r h

theorem RecordsFor.single {P : String → String → Prop} {r : TransContainer}
    (h : r.sender_id ≠ "" → P r.sender_id r.token) : RecordsFor P [r] := by
  intro x hx
  rw [List.mem_singleton] at hx
  subst hx
  exact h

theorem RecordsFor.sublist {P : String → String → Prop} {a b : List TransContainer}
    (hs : a.Sublist b) (hb : RecordsFor P b) : RecordsFor P a :=
  fun r hr => hb r (hs.subset hr)

theorem PostedFor.snoc {P : String → String → Prop} {l : List (String × PGEvent)}
    (p : String × PGEvent) (hl : ∀ q ∈ l, PostedFor P q) (hp : PostedFor P p) :
    ∀ q ∈ l ++ [p], PostedFor P q := by
  intro q hq
  rcases List.mem_append.mp hq with h | h
  · exact hl q h
  · rw [List.mem_singleton] at h; subst h; exact hp

/-- What `retransmitTransaction` posts and starts carries the address and token of the
record it was called for. -/
theorem Worker.retransmit_outcomesFor (P : String → String → Prop) (w : Worker) (now : Int)
    (t : TransContainer) (ht : t.sender_id ≠ "" → P t.sender_id t.token)
    (hp : ∀ p ∈ w.posted, PostedFor P p) (htr : RecordsFor P w.transactions) :
    (∀ p ∈ (w.retransmitTransaction now t).2.1.posted, PostedFor P p) ∧
    RecordsFor P (w.retransmitTransaction now t).2.1.transactions ∧
    ((w.retransmitTransaction now t).2.2.sender_id ≠ "" →
      P (w.retransmitTransaction now t).2.2.sender_id
        (w.retransmitTransaction now t).2.2.token) := by
  have h := Worker.retransmit_outcome w now t
  generalize w.retransmitTransaction now t = r at h
  rcases h with ⟨t1, w1, ht1, hw | ⟨hs, hw⟩⟩ | _ | ⟨t1, conn, pool, ht1⟩ | ⟨w1, hw | hw⟩
  · subst hw
    rcases ht1 with rfl | rfl <;> exact ⟨by simpa using hp, by simpa using htr, ht⟩
  · subst hw
    have hpost : ∀ p ∈ w.posted ++ [(t.sender_id, PGEvent.PGResponseError "worker not found"
        t.token)], PostedFor P p := PostedFor.snoc _ hp ⟨hs, ht hs⟩
    rcases ht1 with rfl | rfl <;> exact ⟨by simpa using hpost, by simpa using htr, ht⟩
  · exact ⟨by simpa using hp, by simpa using htr, ht⟩
  · have hst : t1.sender_id = t.sender_id ∧ t1.token = t.token := by
      rcases ht1 with rfl | rfl <;> exact ⟨rfl, rfl⟩
    refine ⟨by simpa using hp, ?_, ?_⟩
    · simp only [Worker.startTransaction_transactions, Worker.setRetransmitNextTime_transactions]
      exact RecordsFor.append htr (RecordsFor.single (by
        simp only [TransContainer.create, hst.1, hst.2]; exact ht))
    · simp only [hst.1, hst.2]; exact ht
  · subst hw; exact ⟨by simpa using hp, by simpa using htr, ht⟩
  · subst hw; exact ⟨by simpa using hp, by simpa using htr, ht⟩

theorem Worker.drainRetry_outcomesFor (P : String → String → Prop) (w : Worker) (now : Int)
    (kept rest : List TransContainer)
    (hp : ∀ p ∈ w.posted, PostedFor P p) (htr : RecordsFor P w.transactions)
    (hk : RecordsFor P kept) (hr : RecordsFor P rest) :
    (∀ p ∈ (w.drainRetry now kept rest).posted, PostedFor P p) ∧
    RecordsFor P (w.drainRetry now kept rest).transactions ∧
    RecordsFor P (w.drainRetry now kept rest).retransmit_q := by
  induction rest generalizing w kept with
  | nil => exact ⟨hp, htr, hk⟩
  | cons e tl ih =>
    have he : e.sender_id ≠ "" → P e.sender_id e.token := hr e (List.mem_cons_self _ _)
    have htl : RecordsFor P tl := fun r hm => hr r (List.mem_cons_of_mem _ hm)
    obtain ⟨h1, h2, h3⟩ := Worker.retransmit_outcomesFor P w now e he hp htr
    simp only [Worker.drainRetry]
    split
    · exact ⟨h1, h2, RecordsFor.append hk (fun r hm => by
        rcases List.mem_cons.mp hm with h | h
        · subst h; exact h3
        · exact htl r h)⟩
    · split
      · exact ih _ _ h1 h2 (RecordsFor.append hk (RecordsFor.single h3)) htl
      · exact ih _ _ h1 h2 hk htl
theorem Worker.batchFold_frame (cm : IPGTransaction → IPGTransaction → Bool) (w : Worker)
    (acc : Option IPGTransaction) (count : Nat) (pre : List TransContainer)
    (x : TransContainer) (tl : List TransContainer) :
    (w.batchFold cm acc count pre x tl).w.posted = w.posted ∧
    (w.batchFold cm acc count pre x tl).w.transactions = w.transactions ∧
    (w.batchFold cm acc count pre x tl).w.retransmit_q = w.retransmit_q ∧
    (w.batchFold cm acc count pre x tl).w.erased = w.erased ∧
    (w.batchFold cm acc count pre x tl).cur ∈ pre ++ [x] := by
  unfold Worker.batchFold
  split
  · simp
  · split
    · refine ⟨rfl, rfl, rfl, rfl, ?_⟩
      cases hl : pre.getLast? with
      | none => simp
      | some c => simp [List.mem_of_getLast?_eq_some hl]
    · simp

theorem Worker.batchLoop_outcomesFor (P : String → String → Prop)
    (cm : IPGTransaction → IPGTransaction → Bool) (fuel : Nat) (w : Worker) (now : Int)
    (acc : Option IPGTransaction) (count : Nat) (pre rest : List TransContainer)
    (hp : ∀ p ∈ w.posted, PostedFor P p) (htr : RecordsFor P w.transactions)
    (hq : RecordsFor P (pre ++ rest)) :
    (∀ p ∈ (w.batchLoop cm fuel now acc count pre rest).posted, PostedFor P p) ∧
    RecordsFor P (w.batchLoop cm fuel now acc count pre rest).transactions ∧
    (w.batchLoop cm fuel now acc count pre rest).retransmit_q = w.retransmit_q := by
  induction fuel generalizing w acc count pre rest with
  | zero => exact ⟨hp, htr, rfl⟩
  | succ fuel ih =>
    cases rest with
    | nil => exact ⟨hp, htr, rfl⟩
    | cons x tl =>
      obtain ⟨fp, ft, fr, _, fc⟩ := Worker.batchFold_frame cm w acc count pre x tl
      obtain ⟨_, _, _, fcons, _⟩ := Worker.batchFold_queue cm w acc count pre x tl
      have hcur : (w.batchFold cm acc count pre x tl).cur.sender_id ≠ "" →
          P (w.batchFold cm acc count pre x tl).cur.sender_id
            (w.batchFold cm acc count pre x tl).cur.token := by
        apply hq
        rcases List.mem_append.mp fc with h | h
        · exact List.mem_append_left _ h
        · rw [List.mem_singleton] at h
          rw [h]; simp
      have hnext : RecordsFor P (w.batchFold cm acc count pre x tl).next := by
        intro r hr
        apply hq
        rw [← fcons]
        exact List.mem_append_right _ hr
      obtain ⟨h1, h2, _⟩ := Worker.retransmit_outcomesFor P
        (w.batchFold cm acc count pre x tl).w now
        (TransContainer.create now (w.batchFold cm acc count pre x tl).trans none
          (w.batchFold cm acc count pre x tl).cur.sender_id
          (w.batchFold cm acc count pre x tl).cur.token)
        hcur (by rw [fp]; exact hp) (by rw [ft]; exact htr)
      simp only [Worker.batchLoop]
      split
      · split
        · exact ⟨by simpa using h1, by simpa using h2, by simp [fr]⟩
        · obtain ⟨k1, k2, k3⟩ := ih
            { ((w.batchFold cm acc count pre x tl).w.retransmitTransaction now
                (TransContainer.create now (w.batchFold cm acc count pre x tl).trans none
                  (w.batchFold cm acc count pre x tl).cur.sender_id
                  (w.batchFold cm acc count pre x tl).cur.token)).2.1 with
              deleted := ((w.batchFold cm acc count pre x tl).w.retransmitTransaction now
                (TransContainer.create now (w.batchFold cm acc count pre x tl).trans none
                  (w.batchFold cm acc count pre x tl).cur.sender_id
                  (w.batchFold cm acc count pre x tl).cur.token)).2.1.deleted ++
                  handles (w.batchFold cm acc count pre x tl).consumed,
              queue := ((w.batchFold cm acc count pre x tl).w.retransmitTransaction now
                (TransContainer.create now (w.batchFold cm acc count pre x tl).trans none
                  (w.batchFold cm acc count pre x tl).cur.sender_id
                  (w.batchFold cm acc count pre x tl).cur.token)).2.1.queue.drop
                  (w.batchFold cm acc count pre x tl).consumed.length,
              queue_size := ((w.batchFold cm acc count pre x tl).w.retransmitTransaction now
                (TransContainer.create now (w.batchFold cm acc count pre x tl).trans none
                  (w.batchFold cm acc count pre x tl).cur.sender_id
                  (w.batchFold cm acc count pre x tl).cur.token)).2.1.queue_size -
                  (w.batchFold cm acc count pre x tl).count }
            none 0 [] (w.batchFold cm acc count pre x tl).next h1 h2 (by simpa using hnext)
          exact ⟨k1, k2, by rw [k3]; simp [fr]⟩
      · obtain ⟨k1, k2, k3⟩ := ih (w.batchFold cm acc count pre x tl).w
          (some (w.batchFold cm acc count pre x tl).trans)
          (w.batchFold cm acc count pre x tl).count
          (w.batchFold cm acc count pre x tl).consumed
          (w.batchFold cm acc count pre x tl).next (by rw [fp]; exact hp)
          (by rw [ft]; exact htr) (by rw [fcons]; exact hq)
        exact ⟨k1, k2, by rw [k3, fr]⟩

theorem Worker.checkQueue_outcomesFor (P : String → String → Prop)
    (cm : IPGTransaction → IPGTransaction → Bool) (w : Worker) (now : Int)
    (h : w.OutcomesFor P) : (w.checkQueue cm now).OutcomesFor P := by
  obtain ⟨k, _, hk, _, _⟩ := Worker.checkQueue_queue cm w now
  have hqueue : RecordsFor P (w.checkQueue cm now).queue := by
    rw [hk]; exact RecordsFor.sublist (List.drop_sublist _ _) h.queue
  obtain ⟨d1, d2, d3⟩ := Worker.drainRetry_outcomesFor P w now [] w.retransmit_q h.posted
    h.transactions (fun _ hm => absurd hm (List.not_mem_nil _)) h.retransmit_q
  refine ⟨?_, hqueue, ?_, ?_⟩
  all_goals
    unfold Worker.checkQueue
    simp only
    obtain ⟨b1, b2, b3⟩ := Worker.batchLoop_outcomesFor P cm
      (2 * (w.drainRetry now [] w.retransmit_q).queue.length + 1)
      (w.drainRetry now [] w.retransmit_q) now none 0 []
      (w.drainRetry now [] w.retransmit_q).queue d1 d2
      (by simp only [List.nil_append, Worker.drainRetry_queue]; exact h.queue)
    split
    · first | exact d1 | exact d2 | exact d3
    · split
      · first | exact b1 | exact b2 | (simp only []; rw [b3]; exact d3)
      · first | exact b1 | exact b2 | (simp only []; rw [b3]; exact d3)
theorem Worker.onFireTransaction_outcomesFor (P : String → String → Prop) (w : Worker)
    (i : Nat) (t : TransContainer) (ht : t.sender_id ≠ "" → P t.sender_id t.token)
    (hp : ∀ p ∈ w.posted, PostedFor P p) (htr : RecordsFor P w.transactions) :
    (∀ p ∈ (w.onFireTransaction i t).posted, PostedFor P p) ∧
    RecordsFor P (w.onFireTransaction i t).transactions := by
  unfold Worker.onFireTransaction
  have hset : ∀ w1 : Worker, w1.transactions = w.transactions →
      RecordsFor P (w1.transactions.set i { t with trans := t.trans.cancel }) := by
    intro w1 hw1 r hr
    rcases List.mem_or_eq_of_mem_set hr with h | h
    · rw [hw1] at h; exact htr r h
    · subst h; exact ht
  split
  · rename_i hc
    simp only [Bool.and_eq_true, bne_iff_ne, ne_eq] at hc
    exact ⟨PostedFor.snoc _ hp ⟨hc.2, ht hc.2⟩, hset _ rfl⟩
  · exact ⟨hp, hset _ rfl⟩

theorem Worker.timerWalk_outcomesFor (P : String → String → Prop) (fuel : Nat) (w : Worker)
    (current : Int) (i : Nat)
    (hp : ∀ p ∈ w.posted, PostedFor P p) (htr : RecordsFor P w.transactions) :
    (∀ p ∈ (w.timerWalk fuel current i).1.posted, PostedFor P p) ∧
    RecordsFor P (w.timerWalk fuel current i).1.transactions := by
  induction fuel generalizing w i with
  | zero => exact ⟨hp, htr⟩
  | succ fuel ih =>
    simp only [Worker.timerWalk]
    split
    · exact ⟨hp, htr⟩
    · rename_i tr hget
      have hmem : tr ∈ w.transactions := List.get?_mem hget
      split
      · obtain ⟨f1, f2⟩ := Worker.onFireTransaction_outcomesFor P w i tr (htr tr hmem) hp htr
        exact ih _ _ f1 f2
      · split
        · exact ih _ _ hp htr
        · exact ih _ _ hp htr

theorem Worker.onTimer_outcomesFor (P : String → String → Prop)
    (cm : IPGTransaction → IPGTransaction → Bool) (fuel : Nat) (w : Worker) (now : Int)
    (h : w.OutcomesFor P) : (w.onTimer cm fuel now).1.OutcomesFor P := by
  obtain ⟨t1, t2⟩ := Worker.timerWalk_outcomesFor P fuel (w.onTimerResets now) now 0
    (by simpa using h.posted) (by simpa using h.transactions)
  have hw : ((w.onTimerResets now).timerWalk fuel now 0).1.OutcomesFor P :=
    ⟨t1, by simpa using h.queue, t2, by simpa using h.retransmit_q⟩
  unfold Worker.onTimer
  simp only
  split
  · have hc := Worker.checkQueue_outcomesFor P cm _ now hw
    exact ⟨by simpa using hc.posted, by simpa using hc.queue, by simpa using hc.transactions,
      by simpa using hc.retransmit_q⟩
  · exact hw

theorem Worker.onErrorTransaction_outcomesFor (P : String → String → Prop) (w : Worker)
    (now : Int) (t : TransContainer) (error : String)
    (ht : t.sender_id ≠ "" → P t.sender_id t.token)
    (hp : ∀ p ∈ w.posted, PostedFor P p) (hr : RecordsFor P w.retransmit_q) :
    (∀ p ∈ (w.onErrorTransaction now t error).1.posted, PostedFor P p) ∧
    RecordsFor P (w.onErrorTransaction now t error).1.retransmit_q := by
  have hnew : ∀ tr : IPGTransaction,
      RecordsFor P [TransContainer.create now tr t.currentPool t.sender_id t.token] :=
    fun tr => RecordsFor.single ht
  unfold Worker.onErrorTransaction
  simp only []
  split
  · rename_i hc
    simp only [Bool.and_eq_true, bne_iff_ne, ne_eq] at hc
    exact ⟨PostedFor.snoc _ hp ⟨hc.2, ht hc.2⟩, hr⟩
  · split
    · exact ⟨hp, RecordsFor.append hr (hnew _)⟩
    · split
      · split
        · exact ⟨hp, RecordsFor.append (RecordsFor.append hr (hnew _)) (hnew _)⟩
        · exact ⟨hp, RecordsFor.append hr (hnew _)⟩
      · exact ⟨hp, RecordsFor.append hr (hnew _)⟩

theorem Worker.onError_outcomesFor (P : String → String → Prop) (w : Worker) (now : Int)
    (t : Nat) (error : String) (h : w.OutcomesFor P) : (w.onError now t error).OutcomesFor P := by
  have htrs : RecordsFor P (w.onError now t error).transactions := by
    rw [Worker.onError_transactions]
    exact RecordsFor.sublist (List.eraseP_sublist _) h.transactions
  refine ⟨?_, by simpa using h.queue, htrs, ?_⟩
  all_goals
    unfold Worker.onError
    split
    · first | exact h.posted | exact h.retransmit_q
    · rename_i tr hfind
      have hmem : tr ∈ w.transactions := List.mem_of_find?_eq_some hfind
      obtain ⟨e1, e2⟩ := Worker.onErrorTransaction_outcomesFor P w now tr error
        (h.transactions tr hmem) h.posted h.retransmit_q
      first | exact e1 | exact e2

theorem Worker.onStopTransaction_outcomesFor (P : String → String → Prop) (w : Worker)
    (now : Int) (t : Nat) (h : w.OutcomesFor P) : (w.onStopTransaction now t).OutcomesFor P := by
  have htrs : RecordsFor P (w.onStopTransaction now t).transactions := by
    rw [Worker.onStopTransaction_transactions]
    exact RecordsFor.sublist (List.eraseP_sublist _) h.transactions
  refine ⟨by simpa using h.posted, by simpa using h.queue, htrs, ?_⟩
  unfold Worker.onStopTransaction
  split
  · exact h.retransmit_q
  · rename_i tr hfind
    have hmem : tr ∈ w.transactions := List.mem_of_find?_eq_some hfind
    exact RecordsFor.append h.retransmit_q (RecordsFor.single (h.transactions tr hmem))

theorem Worker.onFinish_outcomesFor (P : String → String → Prop) (w : Worker) (now : Int)
    (t : Nat) (result : String) (h : w.OutcomesFor P) :
    (w.onFinish now t result).OutcomesFor P := by
  have htrs : RecordsFor P (w.onFinish now t result).transactions := by
    rw [Worker.onFinish_transactions]
    exact RecordsFor.sublist (List.eraseP_sublist _) h.transactions
  refine ⟨?_, by simpa using h.queue, htrs, by simpa using h.retransmit_q⟩
  rcases Worker.onFinish_posted w now t result with hp | ⟨tr, hmem, hne, hp⟩
  · rw [hp]; exact h.posted
  · rw [hp]; exact PostedFor.snoc _ h.posted ⟨hne, h.transactions tr hmem hne⟩

theorem Worker.runTransaction_outcomesFor (P : String → String → Prop) (w : Worker)
    (now : Int) (tx : IPGTransaction) (sender_id token : String)
    (hP : sender_id ≠ "" → P sender_id token) (h : w.OutcomesFor P) :
    (w.runTransaction now tx sender_id token).OutcomesFor P := by
  have hs : (if w.batch_size > 1 ∧ sender_id ≠ "" then "" else sender_id) ≠ "" →
      (if w.batch_size > 1 ∧ sender_id ≠ "" then "" else sender_id) = sender_id ∧
        sender_id ≠ "" := by
    split
    · intro hc; exact absurd rfl hc
    · intro hc; exact ⟨rfl, hc⟩
  by_cases hfull : w.max_queue_length ≠ 0 ∧ w.queue_size ≥ (w.max_queue_length : Int)
  · rw [Worker.runTransaction_of_full w now tx sender_id token hfull]
    generalize (if w.batch_size > 1 ∧ sender_id ≠ "" then "" else sender_id) = se at hs ⊢
    by_cases hc : se ≠ ""
    · obtain ⟨he, hne⟩ := hs hc
      refine ⟨?_, by simpa [hc] using h.queue, by simpa [hc] using h.transactions,
        by simpa [hc] using h.retransmit_q⟩
      rw [if_pos hc]
      simp only [Worker.delete_posted, Worker.post_posted]
      rw [he]
      exact PostedFor.snoc _ h.posted ⟨hne, hP hne⟩
    · rw [if_neg hc]
      exact ⟨h.posted, h.queue, h.transactions, h.retransmit_q⟩
  · rw [Worker.runTransaction_of_room w now tx sender_id token hfull]
    refine ⟨by simpa using h.posted, ?_, by simpa using h.transactions,
      by simpa using h.retransmit_q⟩
    simp only [Worker.setWorkTimer_queue]
    refine RecordsFor.append h.queue (RecordsFor.single ?_)
    intro hc
    obtain ⟨he, hne⟩ := hs hc
    simp only [TransContainer.create] at hc ⊢
    rw [he]
    exact hP hne

theorem Worker.step_outcomesFor (P : String → String → Prop)
    (cm : IPGTransaction → IPGTransaction → Bool) (w : Worker) (now : Int) (op : Op)
    (hP : ∀ tx s k, op = .runTransaction tx s k → s ≠ "" → P s k) (h : w.OutcomesFor P) :
    (w.step cm now op).OutcomesFor P := by
  cases op with
  | runTransaction tx s k => exact Worker.runTransaction_outcomesFor P w now tx s k (hP tx s k rfl) h
  | onTimer fuel => exact Worker.onTimer_outcomesFor P cm fuel w now h
  | onFinish t r => exact Worker.onFinish_outcomesFor P w now t r h
  | onError t e => exact Worker.onError_outcomesFor P w now t e h
  | onPQError t e => exact Worker.onError_outcomesFor P w now t e h
  | onStopTransaction t => exact Worker.onStopTransaction_outcomesFor P w now t h

theorem Worker.run_outcomesFor (P : String → String → Prop)
    (cm : IPGTransaction → IPGTransaction → Bool) (w : Worker) (ops : List (Int × Op))
    (hP : ∀ now tx s k, (now, Op.runTransaction tx s k) ∈ ops → s ≠ "" → P s k)
    (h : w.OutcomesFor P) : (w.run cm ops).OutcomesFor P := by
  induction ops generalizing w with
  | nil => exact h
  | cons p ops ih =>
    obtain ⟨now, op⟩ := p
    exact ih (w.step cm now op) (fun n tx s k hm => hP n tx s k (List.mem_cons_of_mem _ hm))
      (Worker.step_outcomesFor P cm w now op
        (fun tx s k he => hP now tx s k (by rw [he]; exact List.mem_cons_self _ _)) h)

/-! ### Every transaction pointer is held once -/

theorem Worker.held_count (w : Worker) (a : Nat) :
    w.held.count a = (handles w.queue).count a + (handles w.transactions).count a +
      (handles w.retransmit_q).count a + w.erased.count a := by
  simp only [Worker.held, List.count_append]

/-- `HeldOnce` as a bound on the number of times a pointer is held. -/
theorem Worker.heldOnce_iff (w : Worker) :
    w.HeldOnce ↔ ∀ a, w.held.count a ≤ if a < w.nextId then 1 else 0 := by
  unfold Worker.HeldOnce
  constructor
  · rintro ⟨hn, hb⟩ a
    have h1 := List.nodup_iff_count_le_one.mp hn a
    split
    · exact h1
    · rename_i hlt
      have : a ∉ w.held := fun hm => hlt (hb a hm)
      rw [List.count_eq_zero_of_not_mem this]
  · intro h
    refine ⟨List.nodup_iff_count_le_one.mpr (fun a => ?_), fun a hm => ?_⟩
    · have := h a
      split at this <;> omega
    · by_contra hlt
      have := h a
      rw [if_neg hlt] at this
      have hpos := List.count_pos_iff.mpr hm
      omega

theorem handles_append (a b : List TransContainer) : handles (a ++ b) = handles a ++ handles b := by
  simp [handles]

theorem handles_cons (x : TransContainer) (a : List TransContainer) :
    handles (x :: a) = x.trans.id :: handles a := rfl

theorem handles_nil : handles [] = [] := rfl

theorem handles_sublist {a b : List TransContainer} (h : a.Sublist b) :
    (handles a).Sublist (handles b) := h.map _

theorem count_handles_sublist {a b : List TransContainer} (h : a.Sublist b) (x : Nat) :
    (handles a).count x ≤ (handles b).count x := (handles_sublist h).count_le x

/-- Erasing the first record with pointer `t` removes exactly one `t` from the pointers. -/
theorem count_handles_eraseP (l : List TransContainer) (t : Nat) (tr : TransContainer)
    (h : l.find? (fun r => r.trans.id == t) = some tr) (a : Nat) :
    (handles l).count a =
      (handles (l.eraseP (fun r => r.trans.id == t))).count a + (if a = t then 1 else 0) := by
  induction l with
  | nil => simp at h
  | cons x l ih =>
    by_cases hx : x.trans.id = t
    · have hp : (x.trans.id == t) = true := by simpa using hx
      simp only [List.eraseP_cons, hp, cond_true, handles_cons, List.count_cons, hx,
        beq_iff_eq, beq_self_eq_true]
      simp only [eq_comm]
    · have hp : (x.trans.id == t) = false := by simpa using hx
      simp only [List.find?_cons, hp] at h
      simp only [List.eraseP_cons, hp, cond_false, handles_cons, List.count_cons, ih h]
      omega

theorem count_handles_find_none (l : List TransContainer) (t : Nat)
    (h : l.find? (fun r => r.trans.id == t) = none) : (handles l).count t = 0 := by
  rw [List.count_eq_zero]
  intro hm
  obtain ⟨r, hr, he⟩ := List.mem_map.mp hm
  have := List.find?_eq_none.mp h r hr
  simp [he] at this
theorem Worker.retransmit_handles (w : Worker) (now : Int) (t : TransContainer) :
    (w.retransmitTransaction now t).2.2.trans.id = t.trans.id ∧
    (handles (w.retransmitTransaction now t).2.1.transactions = handles w.transactions ∨
      ((w.retransmitTransaction now t).1 = 0 ∧
        handles (w.retransmitTransaction now t).2.1.transactions =
          handles w.transactions ++ [t.trans.id])) := by
  have h := Worker.retransmit_outcome w now t
  generalize w.retransmitTransaction now t = r at h
  rcases h with ⟨t1, w1, ht1, hw | ⟨hs, hw⟩⟩ | _ | ⟨t1, conn, pool, ht1⟩ | ⟨w1, hw | hw⟩
  · subst hw; rcases ht1 with rfl | rfl <;> exact ⟨rfl, Or.inl (by simp)⟩
  · subst hw; rcases ht1 with rfl | rfl <;> exact ⟨rfl, Or.inl (by simp)⟩
  · exact ⟨rfl, Or.inl (by simp)⟩
  · have hid : t1.trans.id = t.trans.id := by rcases ht1 with rfl | rfl <;> rfl
    refine ⟨by simpa [IPGTransaction.startOn] using hid, Or.inr ⟨rfl, ?_⟩⟩
    simp [handles, TransContainer.create, IPGTransaction.startOn, hid]
  · subst hw; exact ⟨rfl, Or.inl (by simp)⟩
  · subst hw; exact ⟨rfl, Or.inl (by simp)⟩

theorem Worker.drainRetry_count (w : Worker) (now : Int) (kept rest : List TransContainer)
    (a : Nat) :
    (handles (w.drainRetry now kept rest).transactions).count a +
        (handles (w.drainRetry now kept rest).retransmit_q).count a ≤
      (handles w.transactions).count a + (handles (kept ++ rest)).count a := by
  induction rest generalizing w kept with
  | nil => simp [Worker.drainRetry]
  | cons e tl ih =>
    obtain ⟨hid, htr⟩ := Worker.retransmit_handles w now e
    simp only [Worker.drainRetry]
    split
    · rename_i hneg
      have hT : handles (w.retransmitTransaction now e).2.1.transactions =
          handles w.transactions := by
        rcases htr with h | ⟨h0, _⟩
        · exact h
        · omega
      simp only [handles_append, handles_cons, List.count_append, List.count_cons, hT, hid]
      omega
    · split
      · rename_i hpos
        have hT : handles (w.retransmitTransaction now e).2.1.transactions =
            handles w.transactions := by
          rcases htr with h | ⟨h0, _⟩
          · exact h
          · omega
        have := ih (w.retransmitTransaction now e).2.1
          (kept ++ [(w.retransmitTransaction now e).2.2])
        simp only [handles_append, handles_cons, handles_nil, List.count_append,
          List.count_cons, List.count_nil, hT, hid] at this ⊢
        omega
      · have := ih { (w.retransmitTransaction now e).2.1 with
          ret_size := (w.retransmitTransaction now e).2.1.ret_size - e.trans.get_size } kept
        simp only [handles_append, handles_cons, List.count_append, List.count_cons] at this ⊢
        rcases htr with h | ⟨_, h⟩
        · rw [h] at this; omega
        · rw [h] at this
          simp only [List.count_append, List.count_cons, List.count_nil] at this
          omega

theorem IPGTransaction.merge_id (cm : IPGTransaction → IPGTransaction → Bool)
    (t other merged : IPGTransaction) (h : t.merge cm other = some merged) :
    merged.id = t.id := by
  unfold IPGTransaction.merge at h
  split at h
  · cases h; rfl
  · cases h

theorem Worker.alloc_held (w : Worker) : w.alloc.held = w.held := rfl

/-- The accumulator of the batching loop has a pointer that was handed out and is not held
by any collection. -/
theorem Worker.batchFold_held (cm : IPGTransaction → IPGTransaction → Bool) (w : Worker)
    (acc : Option IPGTransaction) (count : Nat) (pre : List TransContainer)
    (x : TransContainer) (tl : List TransContainer)
    (hw : ∀ a, w.held.count a ≤ if a < w.nextId then 1 else 0)
    (hacc : ∀ t0, acc = some t0 → t0.id < w.nextId ∧ w.held.count t0.id = 0) :
    (w.batchFold cm acc count pre x tl).w.held = w.held ∧
    w.nextId ≤ (w.batchFold cm acc count pre x tl).w.nextId ∧
    (w.batchFold cm acc count pre x tl).trans.id <
      (w.batchFold cm acc count pre x tl).w.nextId ∧
    w.held.count (w.batchFold cm acc count pre x tl).trans.id = 0 := by
  unfold Worker.batchFold
  split
  · refine ⟨rfl, by simp, by simp [IPGTransaction.cloneAs], ?_⟩
    have := hw w.nextId
    simpa [IPGTransaction.cloneAs] using this
  · rename_i a0
    obtain ⟨h1, h2⟩ := hacc a0 rfl
    split
    · exact ⟨rfl, le_refl _, h1, h2⟩
    · rename_i merged hm
      have hid := IPGTransaction.merge_id cm a0 x.trans merged hm
      refine ⟨rfl, le_refl _, ?_, ?_⟩
      · show merged.id < w.nextId
        rw [hid]; exact h1
      · show w.held.count merged.id = 0
        rw [hid]; exact h2
theorem Worker.batchLoop_held (cm : IPGTransaction → IPGTransaction → Bool) (fuel : Nat)
    (w : Worker) (now : Int) (acc : Option IPGTransaction) (count : Nat)
    (pre rest : List TransContainer)
    (hw : ∀ a, w.held.count a ≤ if a < w.nextId then 1 else 0)
    (hacc : ∀ t0, acc = some t0 → t0.id < w.nextId ∧ w.held.count t0.id = 0) (a : Nat) :
    (w.batchLoop cm fuel now acc count pre rest).held.count a ≤
      if a < (w.batchLoop cm fuel now acc count pre rest).nextId then 1 else 0 := by
  induction fuel generalizing w acc count pre rest a with
  | zero => exact hw a
  | succ fuel ih =>
    cases rest with
    | nil => exact hw a
    | cons x tl =>
      obtain ⟨fh, fn, fid, fc⟩ := Worker.batchFold_held cm w acc count pre x tl hw hacc
      have hsw : ∀ b, (w.batchFold cm acc count pre x tl).w.held.count b ≤
          if b < (w.batchFold cm acc count pre x tl).w.nextId then 1 else 0 := by
        intro b
        rw [fh]
        have := hw b
        split at this
        · rw [if_pos (by omega)]; exact this
        · split <;> omega
      obtain ⟨_, htr⟩ := Worker.retransmit_handles (w.batchFold cm acc count pre x tl).w now
        (TransContainer.create now (w.batchFold cm acc count pre x tl).trans none
          (w.batchFold cm acc count pre x tl).cur.sender_id
          (w.batchFold cm acc count pre x tl).cur.token)
      simp only [Worker.batchLoop]
      split
      · split
        · rename_i hneg
          have hT := htr.resolve_right (fun h => by omega)
          have := hsw a
          rw [Worker.held_count] at this ⊢
          simpa [hT] using this
        · apply ih
          · intro b
            have hb := hsw b
            have hdrop := count_handles_sublist
              (List.drop_sublist (w.batchFold cm acc count pre x tl).consumed.length
                (w.batchFold cm acc count pre x tl).w.queue) b
            have fc2 : (w.batchFold cm acc count pre x tl).w.held.count
                (w.batchFold cm acc count pre x tl).trans.id = 0 := by rw [fh]; exact fc
            rw [Worker.held_count] at hb fc2 ⊢
            simp only [Worker.retransmit_queue, Worker.retransmit_retransmit_q,
              Worker.retransmit_erased, Worker.retransmit_nextId]
            rcases htr with h | ⟨_, h⟩
            · rw [h]
              omega
            · rw [h]
              simp only [List.count_append, List.count_cons, List.count_nil,
                TransContainer.create, beq_iff_eq]
              by_cases hab : (w.batchFold cm acc count pre x tl).trans.id = b
              · subst hab
                rw [if_pos fid]
                simp only [if_true]
                omega
              · simp only [hab, if_false]
                omega
          · intro t0 h0; cases h0
      · apply ih _ _ _ _ _ hsw
        intro t0 h0
        cases h0
        exact ⟨fid, by rw [fh]; exact fc⟩
theorem Worker.checkQueue_held (cm : IPGTransaction → IPGTransaction → Bool) (w : Worker)
    (now : Int) (hw : ∀ a, w.held.count a ≤ if a < w.nextId then 1 else 0) (a : Nat) :
    (w.checkQueue cm now).held.count a ≤ if a < (w.checkQueue cm now).nextId then 1 else 0 := by
  have hd : ∀ b, (w.drainRetry now [] w.retransmit_q).held.count b ≤
      if b < (w.drainRetry now [] w.retransmit_q).nextId then 1 else 0 := by
    intro b
    have h1 := Worker.drainRetry_count w now [] w.retransmit_q b
    have h2 := hw b
    rw [Worker.held_count] at h2 ⊢
    simp only [Worker.drainRetry_queue, Worker.drainRetry_erased, Worker.drainRetry_nextId]
    simp only [List.nil_append] at h1
    omega
  unfold Worker.checkQueue
  simp only
  split
  · exact hd a
  · have hb := Worker.batchLoop_held cm
      (2 * (w.drainRetry now [] w.retransmit_q).queue.length + 1)
      (w.drainRetry now [] w.retransmit_q) now none 0 []
      (w.drainRetry now [] w.retransmit_q).queue hd (fun t0 h0 => by cases h0) a
    split <;> exact hb

theorem handles_set_cancel (l : List TransContainer) (i : Nat) (t : TransContainer)
    (h : l.get? i = some t) :
    handles (l.set i { t with trans := t.trans.cancel }) = handles l := by
  induction l generalizing i with
  | nil => rfl
  | cons x l ih =>
    cases i with
    | zero =>
      simp only [List.get?_cons_zero, Option.some.injEq] at h
      subst h
      rfl
    | succ i =>
      simp only [List.get?_cons_succ] at h
      simp only [List.set_cons_succ, handles_cons, ih i h]

theorem Worker.onFireTransaction_handles (w : Worker) (i : Nat) (t : TransContainer)
    (h : w.transactions.get? i = some t) :
    handles (w.onFireTransaction i t).transactions = handles w.transactions := by
  unfold Worker.onFireTransaction
  split <;> exact handles_set_cancel _ i t h

theorem Worker.timerWalk_handles (fuel : Nat) (w : Worker) (current : Int) (i : Nat) :
    handles (w.timerWalk fuel current i).1.transactions = handles w.transactions := by
  induction fuel generalizing w i with
  | zero => rfl
  | succ fuel ih =>
    simp only [Worker.timerWalk]
    split
    · rfl
    · rename_i tr hget
      split
      · rw [ih, Worker.onFireTransaction_handles w i tr hget]
      · split
        · rw [ih]
        · rw [ih]

theorem Worker.onTimer_held (cm : IPGTransaction → IPGTransaction → Bool) (fuel : Nat)
    (w : Worker) (now : Int) (hw : ∀ a, w.held.count a ≤ if a < w.nextId then 1 else 0)
    (a : Nat) :
    (w.onTimer cm fuel now).1.held.count a ≤
      if a < (w.onTimer cm fuel now).1.nextId then 1 else 0 := by
  have hwalk : ∀ b, ((w.onTimerResets now).timerWalk fuel now 0).1.held.count b ≤
      if b < ((w.onTimerResets now).timerWalk fuel now 0).1.nextId then 1 else 0 := by
    intro b
    have h2 := hw b
    rw [Worker.held_count] at h2 ⊢
    simp only [Worker.timerWalk_handles, Worker.timerWalk_queue, Worker.timerWalk_retransmit_q,
      Worker.timerWalk_erased, Worker.timerWalk_nextId, Worker.onTimerResets_queue,
      Worker.onTimerResets_transactions, Worker.onTimerResets_retransmit_q,
      Worker.onTimerResets_erased, Worker.onTimerResets_nextId, List.count_nil]
    omega
  unfold Worker.onTimer
  simp only
  split
  · have := Worker.checkQueue_held cm _ now hwalk a
    rw [Worker.held_count] at this ⊢
    simpa using this
  · exact hwalk a

/-- The records `onErrorTransaction` appends to the retry queue hold fresh pointers. -/
theorem Worker.onErrorTransaction_added (w : Worker) (now : Int) (t : TransContainer)
    (error : String) :
    ∃ added : List TransContainer,
      (w.onErrorTransaction now t error).1.retransmit_q = w.retransmit_q ++ added ∧
      handles added = List.range' w.nextId added.length ∧
      (w.onErrorTransaction now t error).1.nextId = w.nextId + added.length := by
  unfold Worker.onErrorTransaction
  simp only []
  split
  · exact ⟨[], by simp, rfl, rfl⟩
  · split
    · exact ⟨[_], rfl, rfl, rfl⟩
    · split
      · split
        · refine ⟨[TransContainer.create now (t.trans.removeCurrentQuery.cloneAs w.nextId)
              t.currentPool t.sender_id t.token,
            TransContainer.create now
              (if t.trans.removeCurrentQuery.type == .TR_POLICY then
                IPGTransaction.create (w.nextId + 1) .TR_POLICY
                  t.trans.removeCurrentQuery.policy t.trans.get_current_query
              else IPGTransaction.create (w.nextId + 1) .TR_NON 0 t.trans.get_current_query)
              t.currentPool t.sender_id t.token], ?_, ?_, rfl⟩
          · simp only [Worker.pushRetry_retransmit_q, Worker.alloc_retransmit_q,
              Worker.pushRetry_nextId, Worker.alloc_nextId,
              List.append_assoc, List.singleton_append]
          · simp only [handles, List.map_cons, List.map_nil, TransContainer.create,
              IPGTransaction.cloneAs, List.length_cons, List.length_nil, List.range']
            split <;> rfl
        · exact ⟨[_], rfl, rfl, rfl⟩
      · exact ⟨[_], rfl, rfl, rfl⟩

theorem count_range_le (n k a : Nat) :
    (List.range' n k).count a ≤ if n ≤ a ∧ a < n + k then 1 else 0 := by
  split
  · exact List.nodup_iff_count_le_one.mp (List.nodup_range' n k) a
  · rename_i h
    rw [Nat.le_zero, List.count_eq_zero, List.mem_range']
    rintro ⟨i, hi, rfl⟩
    exact h ⟨by omega, by omega⟩

theorem Worker.onErrorTransaction_held (w : Worker) (now : Int) (t : TransContainer)
    (error : String) (hw : ∀ a, w.held.count a ≤ if a < w.nextId then 1 else 0) (a : Nat) :
    (w.onErrorTransaction now t error).1.held.count a ≤
      if a < (w.onErrorTransaction now t error).1.nextId then 1 else 0 := by
  obtain ⟨added, hq, hh, hn⟩ := Worker.onErrorTransaction_added w now t error
  have h0 := hw a
  have h1 := count_range_le w.nextId added.length a
  rw [← hh] at h1
  rw [Worker.held_count] at h0 ⊢
  simp only [Worker.onErrorTransaction_queue, Worker.onErrorTransaction_transactions,
    Worker.onErrorTransaction_erased, hq, hn, handles_append, List.count_append]
  split_ifs at h0 h1 ⊢ <;> omega
theorem Worker.onError_added (w : Worker) (now : Int) (t : Nat) (error : String) :
    ∃ added : List TransContainer,
      (w.onError now t error).retransmit_q = w.retransmit_q ++ added ∧
      handles added = List.range' w.nextId added.length ∧
      (w.onError now t error).nextId = w.nextId + added.length := by
  unfold Worker.onError
  split
  · exact ⟨[], by simp, rfl, rfl⟩
  · rename_i tr _
    exact Worker.onErrorTransaction_added w now tr error

theorem Worker.onError_held (w : Worker) (now : Int) (t : Nat) (error : String)
    (hw : ∀ a, w.held.count a ≤ if a < w.nextId then 1 else 0) (a : Nat) :
    (w.onError now t error).held.count a ≤
      if a < (w.onError now t error).nextId then 1 else 0 := by
  obtain ⟨added, hq, hh, hn⟩ := Worker.onError_added w now t error
  have h0 := hw a
  have h1 := count_range_le w.nextId added.length a
  have h2 := count_handles_sublist
    (List.eraseP_sublist w.transactions :
      (w.transactions.eraseP (fun tr => tr.trans.id == t)).Sublist w.transactions) a
  rw [← hh] at h1
  rw [Worker.held_count] at h0 ⊢
  simp only [Worker.onError_queue, Worker.onError_transactions, Worker.onError_erased, hq, hn,
    handles_append, List.count_append]
  split_ifs at h0 h1 ⊢ <;> omega

theorem find?_id_eq {l : List TransContainer} {t : Nat} {tr : TransContainer}
    (h : l.find? (fun r => r.trans.id == t) = some tr) : tr.trans.id = t := by
  have := List.find?_some h
  simpa using this

theorem Worker.onStopTransaction_held (w : Worker) (now : Int) (t : Nat)
    (hw : ∀ a, w.held.count a ≤ if a < w.nextId then 1 else 0) (a : Nat) :
    (w.onStopTransaction now t).held.count a ≤
      if a < (w.onStopTransaction now t).nextId then 1 else 0 := by
  have h0 := hw a
  cases hf : w.transactions.find? (fun tr => tr.trans.id == t) with
  | none =>
    have : w.onStopTransaction now t = w := by simp [Worker.onStopTransaction, hf]
    rw [this]; exact h0
  | some tr =>
    have hcount := count_handles_eraseP w.transactions t tr hf a
    have hid := find?_id_eq hf
    have hq : (w.onStopTransaction now t).retransmit_q = w.retransmit_q ++
        [TransContainer.create now tr.trans none tr.sender_id tr.token] := by
      simp [Worker.onStopTransaction, hf]
    rw [Worker.held_count] at h0 ⊢
    simp only [Worker.onStopTransaction_queue, Worker.onStopTransaction_transactions,
      Worker.onStopTransaction_erased, Worker.onStopTransaction_nextId, hq, handles_append,
      handles_cons, handles_nil, List.count_append, List.count_cons, List.count_nil,
      TransContainer.create, hid, beq_iff_eq]
    have hsym : (if t = a then 1 else 0) = (if a = t then 1 else 0) := by
      split_ifs <;> first | rfl | omega
    rw [hsym]
    omega

theorem Worker.onFinish_held (w : Worker) (now : Int) (t : Nat) (result : String)
    (hw : ∀ a, w.held.count a ≤ if a < w.nextId then 1 else 0)
    (hacc : w.Accepts (.onFinish t result)) (a : Nat) :
    (w.onFinish now t result).held.count a ≤
      if a < (w.onFinish now t result).nextId then 1 else 0 := by
  obtain ⟨hlt, hnq, hnr, hne⟩ := hacc
  have h0 := hw a
  have c1 := List.count_eq_zero.mpr hnq
  have c2 := List.count_eq_zero.mpr hnr
  have c3 := List.count_eq_zero.mpr hne
  rw [Worker.held_count] at h0 ⊢
  simp only [Worker.onFinish_queue, Worker.onFinish_transactions, Worker.onFinish_erased,
    Worker.onFinish_retransmit_q, Worker.onFinish_nextId, List.count_append, List.count_cons,
    List.count_nil, beq_iff_eq]
  have hsym : (if t = a then 1 else 0) = (if a = t then 1 else 0) := by
    split_ifs <;> first | rfl | omega
  rw [hsym]
  cases hf : w.transactions.find? (fun tr => tr.trans.id == t) with
  | none =>
    have c4 := count_handles_find_none w.transactions t hf
    rw [eraseP_of_find?_none hf]
    by_cases hat : a = t
    · subst hat
      rw [if_pos hlt, if_pos rfl]
      omega
    · rw [if_neg hat]; omega
  | some tr =>
    have hcount := count_handles_eraseP w.transactions t tr hf a
    omega

theorem Worker.runTransaction_held (w : Worker) (now : Int) (tx : IPGTransaction)
    (sender_id token : String) (hw : ∀ a, w.held.count a ≤ if a < w.nextId then 1 else 0)
    (hacc : w.Accepts (.runTransaction tx sender_id token)) (a : Nat) :
    (w.runTransaction now tx sender_id token).held.count a ≤
      if a < (w.runTransaction now tx sender_id token).nextId then 1 else 0 := by
  obtain ⟨hlt, hnew⟩ := hacc
  have h0 := hw a
  have c1 := List.count_eq_zero.mpr hnew
  by_cases hfull : w.max_queue_length ≠ 0 ∧ w.queue_size ≥ (w.max_queue_length : Int)
  · rw [Worker.runTransaction_of_full w now tx sender_id token hfull]
    generalize (if w.batch_size > 1 ∧ sender_id ≠ "" then "" else sender_id) = se
    by_cases hc : se ≠ ""
    · rw [if_pos hc]; exact h0
    · rw [if_neg hc]; exact h0
  · rw [Worker.runTransaction_of_room w now tx sender_id token hfull]
    rw [Worker.held_count] at h0 c1 ⊢
    simp only [Worker.setWorkTimer_queue, Worker.setWorkTimer_transactions,
      Worker.setWorkTimer_retransmit_q, Worker.setWorkTimer_erased, Worker.setWorkTimer_nextId,
      handles_append, handles_cons, handles_nil, List.count_append, List.count_cons,
      List.count_nil, TransContainer.create, beq_iff_eq]
    by_cases hat : tx.id = a
    · subst hat
      rw [if_pos hlt] at h0 ⊢
      simp only [if_true]
      omega
    · rw [if_neg hat]; omega

/-! ## Reconfiguration: the fields the administrative set leaves alone -/

theorem Worker.runTransactionForPools_eq (w : Worker) :
    w.runTransactionForPools =
      { w with master := w.runTransactionForPools.master,
               slave := w.runTransactionForPools.slave,
               nextId := w.runTransactionForPools.nextId } := by
  cases w with
  | mk =>
    unfold Worker.runTransactionForPools
    dsimp only
    split <;> split <;> rfl

theorem Worker.setSearchPath_eq (w : Worker) (l : List String) :
    w.setSearchPath l =
      { w with search_pathes := l,
               master := (w.setSearchPath l).master,
               slave := (w.setSearchPath l).slave,
               nextId := (w.setSearchPath l).nextId } := by
  unfold Worker.setSearchPath
  dsimp only
  split
  · rfl
  · rw [Worker.runTransactionForPools_eq]
    rfl

theorem Worker.runPrepared_eq (oid : String → Option Nat) (w : Worker) (x : PGPrepareData) :
    w.runPrepared oid x =
      { w with prepareds := (w.runPrepared oid x).prepareds,
               master := (w.runPrepared oid x).master,
               slave := (w.runPrepared oid x).slave,
               nextId := (w.runPrepared oid x).nextId,
               deleted := (w.runPrepared oid x).deleted } := by
  unfold Worker.runPrepared
  dsimp only
  split
  · rw [Worker.runTransactionForPools_eq]
    rfl
  · rfl

@[simp] theorem Worker.setSearchPath_failover_to_slave (w : Worker) (l : List String) :
    (w.setSearchPath l).failover_to_slave = w.failover_to_slave := by
  rw [Worker.setSearchPath_eq w l]

@[simp] theorem Worker.setSearchPath_retransmit_enable (w : Worker) (l : List String) :
    (w.setSearchPath l).retransmit_enable = w.retransmit_enable := by
  rw [Worker.setSearchPath_eq w l]

@[simp] theorem Worker.setSearchPath_use_pipeline (w : Worker) (l : List String) :
    (w.setSearchPath l).use_pipeline = w.use_pipeline := by
  rw [Worker.setSearchPath_eq w l]

@[simp] theorem Worker.setSearchPath_retransmit_interval (w : Worker) (l : List String) :
    (w.setSearchPath l).retransmit_interval = w.retransmit_interval := by
  rw [Worker.setSearchPath_eq w l]

@[simp] theorem Worker.setSearchPath_reconnect_interval (w : Worker) (l : List String) :
    (w.setSearchPath l).reconnect_interval = w.reconnect_interval := by
  rw [Worker.setSearchPath_eq w l]

@[simp] theorem Worker.setSearchPath_trans_wait_time (w : Worker) (l : List String) :
    (w.setSearchPath l).trans_wait_time = w.trans_wait_time := by
  rw [Worker.setSearchPath_eq w l]

@[simp] theorem Worker.setSearchPath_batch_timeout (w : Worker) (l : List String) :
    (w.setSearchPath l).batch_timeout = w.batch_timeout := by
  rw [Worker.setSearchPath_eq w l]

@[simp] theorem Worker.setSearchPath_batch_size (w : Worker) (l : List String) :
    (w.setSearchPath l).batch_size = w.batch_size := by
  rw [Worker.setSearchPath_eq w l]

@[simp] theorem Worker.setSearchPath_max_queue_length (w : Worker) (l : List String) :
    (w.setSearchPath l).max_queue_length = w.max_queue_length := by
  rw [Worker.setSearchPath_eq w l]

@[simp] theorem Worker.setSearchPath_queue (w : Worker) (l : List String) :
    (w.setSearchPath l).queue = w.queue := by
  rw [Worker.setSearchPath_eq w l]

@[simp] theorem Worker.setSearchPath_retransmit_q (w : Worker) (l : List String) :
    (w.setSearchPath l).retransmit_q = w.retransmit_q := by
  rw [Worker.setSearchPath_eq w l]

@[simp] theorem Worker.setSearchPath_transactions (w : Worker) (l : List String) :
    (w.setSearchPath l).transactions = w.transactions := by
  rw [Worker.setSearchPath_eq w l]

@[simp] theorem Worker.runPrepared_failover_to_slave (oid : String → Option Nat) (w : Worker) (x : PGPrepareData) :
    (w.runPrepared oid x).failover_to_slave = w.failover_to_slave := by
  rw [Worker.runPrepared_eq oid w x]

@[simp] theorem Worker.runPrepared_retransmit_enable (oid : String → Option Nat) (w : Worker) (x : PGPrepareData) :
    (w.runPrepared oid x).retransmit_enable = w.retransmit_enable := by
  rw [Worker.runPrepared_eq oid w x]

@[simp] theorem Worker.runPrepared_use_pipeline (oid : String → Option Nat) (w : Worker) (x : PGPrepareData) :
    (w.runPrepared oid x).use_pipeline = w.use_pipeline := by
  rw [Worker.runPrepared_eq oid w x]

@[simp] theorem Worker.runPrepared_retransmit_interval (oid : String → Option Nat) (w : Worker) (x : PGPrepareData) :
    (w.runPrepared oid x).retransmit_interval = w.retransmit_interval := by
  rw [Worker.runPrepared_eq oid w x]

@[simp] theorem Worker.runPrepared_reconnect_interval (oid : String → Option Nat) (w : Worker) (x : PGPrepareData) :
    (w.runPrepared oid x).reconnect_interval = w.reconnect_interval := by
  rw [Worker.runPrepared_eq oid w x]

@[simp] theorem Worker.runPrepared_trans_wait_time (oid : String → Option Nat) (w : Worker) (x : PGPrepareData) :
    (w.runPrepared oid x).trans_wait_time = w.trans_wait_time := by
  rw [Worker.runPrepared_eq oid w x]

@[simp] theorem Worker.runPrepared_batch_timeout (oid : String → Option Nat) (w : Worker) (x : PGPrepareData) :
    (w.runPrepared oid x).batch_timeout = w.batch_timeout := by
  rw [Worker.runPrepared_eq oid w x]

@[simp] theorem Worker.runPrepared_batch_size (oid : String → Option Nat) (w : Worker) (x : PGPrepareData) :
    (w.runPrepared oid x).batch_size = w.batch_size := by
  rw [Worker.runPrepared_eq oid w x]

@[simp] theorem Worker.runPrepared_max_queue_length (oid : String → Option Nat) (w : Worker) (x : PGPrepareData) :
    (w.runPrepared oid x).max_queue_length = w.max_queue_length := by
  rw [Worker.runPrepared_eq oid w x]

@[simp] theorem Worker.runPrepared_queue (oid : String → Option Nat) (w : Worker) (x : PGPrepareData) :
    (w.runPrepared oid x).queue = w.queue := by
  rw [Worker.runPrepared_eq oid w x]

@[simp] theorem Worker.runPrepared_retransmit_q (oid : String → Option Nat) (w : Worker) (x : PGPrepareData) :
    (w.runPrepared oid x).retransmit_q = w.retransmit_q := by
  rw [Worker.runPrepared_eq oid w x]

@[simp] theorem Worker.runPrepared_transactions (oid : String → Option Nat) (w : Worker) (x : PGPrepareData) :
    (w.runPrepared oid x).transactions = w.transactions := by
  rw [Worker.runPrepared_eq oid w x]

@[simp] theorem Worker.foldl_runPrepared_failover_to_slave (oid : String → Option Nat)
    (l : List PGPrepareData) (w : Worker) :
    (l.foldl (Worker.runPrepared oid) w).failover_to_slave = w.failover_to_slave := by
  induction l generalizing w with
  | nil => rfl
  | cons x l ih => rw [List.foldl_cons, ih, Worker.runPrepared_failover_to_slave]

@[simp] theorem Worker.foldl_runPrepared_retransmit_enable (oid : String → Option Nat)
    (l : List PGPrepareData) (w : Worker) :
    (l.foldl (Worker.runPrepared oid) w).retransmit_enable = w.retransmit_enable := by
  induction l generalizing w with
  | nil => rfl
  | cons x l ih => rw [List.foldl_cons, ih, Worker.runPrepared_retransmit_enable]

@[simp] theorem Worker.foldl_runPrepared_use_pipeline (oid : String → Option Nat)
    (l : List PGPrepareData) (w : Worker) :
    (l.foldl (Worker.runPrepared oid) w).use_pipeline = w.use_pipeline := by
  induction l generalizing w with
  | nil => rfl
  | cons x l ih => rw [List.foldl_cons, ih, Worker.runPrepared_use_pipeline]

@[simp] theorem Worker.foldl_runPrepared_retransmit_interval (oid : String → Option Nat)
    (l : List PGPrepareData) (w : Worker) :
    (l.foldl (Worker.runPrepared oid) w).retransmit_interval = w.retransmit_interval := by
  induction l generalizing w with
  | nil => rfl
  | cons x l ih => rw [List.foldl_cons, ih, Worker.runPrepared_retransmit_interval]

@[simp] theorem Worker.foldl_runPrepared_reconnect_interval (oid : String → Option Nat)
    (l : List PGPrepareData) (w : Worker) :
    (l.foldl (Worker.runPrepared oid) w).reconnect_interval = w.reconnect_interval := by
  induction l generalizing w with
  | nil => rfl
  | cons x l ih => rw [List.foldl_cons, ih, Worker.runPrepared_reconnect_interval]

@[simp] theorem Worker.foldl_runPrepared_trans_wait_time (oid : String → Option Nat)
    (l : List PGPrepareData) (w : Worker) :
    (l.foldl (Worker.runPrepared oid) w).trans_wait_time = w.trans_wait_time := by
  induction l generalizing w with
  | nil => rfl
  | cons x l ih => rw [List.foldl_cons, ih, Worker.runPrepared_trans_wait_time]

@[simp] theorem Worker.foldl_runPrepared_batch_timeout (oid : String → Option Nat)
    (l : List PGPrepareData) (w : Worker) :
    (l.foldl (Worker.runPrepared oid) w).batch_timeout = w.batch_timeout := by
  induction l generalizing w with
  | nil => rfl
  | cons x l ih => rw [List.foldl_cons, ih, Worker.runPrepared_batch_timeout]

@[simp] theorem Worker.foldl_runPrepared_batch_size (oid : String → Option Nat)
    (l : List PGPrepareData) (w : Worker) :
    (l.foldl (Worker.runPrepared oid) w).batch_size = w.batch_size := by
  induction l generalizing w with
  | nil => rfl
  | cons x l ih => rw [List.foldl_cons, ih, Worker.runPrepared_batch_size]

@[simp] theorem Worker.foldl_runPrepared_max_queue_length (oid : String → Option Nat)
    (l : List PGPrepareData) (w : Worker) :
    (l.foldl (Worker.runPrepared oid) w).max_queue_length = w.max_queue_length := by
  induction l generalizing w with
  | nil => rfl
  | cons x l ih => rw [List.foldl_cons, ih, Worker.runPrepared_max_queue_length]

@[simp] theorem Worker.foldl_runPrepared_queue (oid : String → Option Nat)
    (l : List PGPrepareData) (w : Worker) :
    (l.foldl (Worker.runPrepared oid) w).queue = w.queue := by
  induction l generalizing w with
  | nil => rfl
  | cons x l ih => rw [List.foldl_cons, ih, Worker.runPrepared_queue]

@[simp] theorem Worker.foldl_runPrepared_retransmit_q (oid : String → Option Nat)
    (l : List PGPrepareData) (w : Worker) :
    (l.foldl (Worker.runPrepared oid) w).retransmit_q = w.retransmit_q := by
  induction l generalizing w with
  | nil => rfl
  | cons x l ih => rw [List.foldl_cons, ih, Worker.runPrepared_retransmit_q]

@[simp] theorem Worker.foldl_runPrepared_transactions (oid : String → Option Nat)
    (l : List PGPrepareData) (w : Worker) :
    (l.foldl (Worker.runPrepared oid) w).transactions = w.transactions := by
  induction l generalizing w with
  | nil => rfl
  | cons x l ih => rw [List.foldl_cons, ih, Worker.runPrepared_transactions]

/-! ### The walk of `onTimer` over the active table when no record is wedged -/

/-- The walk at a record that is not timed out (or is Canceling and not older than twice the
wait time): `wait_next_time` is set from the record and the walk advances. -/
theorem Worker.timerWalk_pass (fuel : Nat) (w : Worker) (now : Int) (i : Nat)
    (tr : TransContainer) (hget : w.transactions.get? i = some tr)
    (hdue : tr.timedOut now w.trans_wait_time = false)
    (hage : now - tr.createdTime ≤ ((w.trans_wait_time * 2 % 2 ^ 32 : Nat) : Int)) :
    w.timerWalk (fuel + 1) now i =
      Worker.timerWalk fuel { w with wait_next_time := tr.createdTime + w.trans_wait_time }
        now (i + 1) := by
  rw [Worker.timerWalk]
  simp only [hget]
  have h1 : ¬ (now - tr.createdTime > (w.trans_wait_time : Int) ∧
      tr.trans.status ≠ .CANCELING) := by
    intro h
    simp [TransContainer.timedOut, h.1, h.2] at hdue
  rw [if_neg h1, if_neg (fun h => by omega)]

/-- What `onFireTransaction` changes: the record at position `i` is replaced by the fired
record, its pointer is logged as cancelled, and a timeout is posted where due. -/
theorem Worker.onFireTransaction_effect (w : Worker) (i : Nat) (tr : TransContainer) :
    (w.onFireTransaction i tr).transactions = w.transactions.set i tr.fired ∧
    (w.onFireTransaction i tr).cancelled = w.cancelled ++ [tr.trans.id] ∧
    (w.onFireTransaction i tr).posted = w.posted ++ w.timeoutEvents [tr] := by
  unfold Worker.onFireTransaction Worker.timeoutEvents
  cases hr : w.retransmit_enable <;> cases hf : w.failover_to_slave <;>
    by_cases hs : tr.sender_id = "" <;>
    simp [Worker.post, hs, TransContainer.fired]

/-- The walk at a record that is timed out and not older than twice the wait time: the record
is fired, found Canceling on the next iteration, and the walk advances. -/
theorem Worker.timerWalk_fire (fuel : Nat) (w : Worker) (now : Int) (i : Nat)
    (tr : TransContainer) (hget : w.transactions.get? i = some tr)
    (hdue : tr.timedOut now w.trans_wait_time = true)
    (hage : now - tr.createdTime ≤ ((w.trans_wait_time * 2 % 2 ^ 32 : Nat) : Int)) :
    w.timerWalk (fuel + 2) now i =
      Worker.timerWalk fuel
        { w.onFireTransaction i tr with wait_next_time := tr.createdTime + w.trans_wait_time }
        now (i + 1) := by
  have h1 : now - tr.createdTime > (w.trans_wait_time : Int) ∧
      tr.trans.status ≠ .CANCELING := by
    simpa [TransContainer.timedOut] using hdue
  have hlt : i < w.transactions.length := by
    by_contra hc
    rw [List.get?_eq_none.mpr (by omega)] at hget
    cases hget
  have hget2 : (w.onFireTransaction i tr).transactions.get? i = some tr.fired := by
    rw [(Worker.onFireTransaction_effect w i tr).1]
    simp [List.getElem?_set, hlt]
  have hpass := Worker.timerWalk_pass fuel (w.onFireTransaction i tr) now i tr.fired hget2
    (by simp [TransContainer.timedOut, TransContainer.fired, IPGTransaction.cancel])
    (by simpa [TransContainer.fired] using hage)
  rw [Worker.timerWalk]
  simp only [hget]
  rw [if_pos h1, hpass]
  simp [TransContainer.fired]

/-- The walk of `onTimer` over the active table from the record at position `pre.length` on,
when none of the remaining records is older than twice the wait time: the walk ends, the
timed-out records are fired in table order (cancelled, and reported where `onFireTransaction`
reports), the other records are left alone, and `wait_next_time` is the deadline of the last
record of the table. -/
theorem Worker.timerWalk_fires (now : Int) (rest : List TransContainer) :
    ∀ (w : Worker) (pre : List TransContainer) (fuel : Nat),
      w.transactions = pre ++ rest → 2 * rest.length + 1 ≤ fuel →
      (∀ tr ∈ rest, now - tr.createdTime ≤ ((w.trans_wait_time * 2 % 2 ^ 32 : Nat) : Int)) →
      (w.timerWalk fuel now pre.length).2 = true ∧
      (w.timerWalk fuel now pre.length).1.cancelled = w.cancelled ++
        handles (rest.filter (fun tr => tr.timedOut now w.trans_wait_time)) ∧
      (w.timerWalk fuel now pre.length).1.posted = w.posted ++
        w.timeoutEvents (rest.filter (fun tr => tr.timedOut now w.trans_wait_time)) ∧
      (w.timerWalk fuel now pre.length).1.transactions = pre ++
        rest.map (fun tr => if tr.timedOut now w.trans_wait_time then tr.fired else tr) ∧
      (w.timerWalk fuel now pre.length).1.wait_next_time =
        (match rest.getLast? with
         | some tr => tr.createdTime + w.trans_wait_time
         | none => w.wait_next_time) := by
  induction rest with
  | nil =>
    intro w pre fuel htr hfuel _
    obtain ⟨f, rfl⟩ : ∃ f, fuel = f + 1 := ⟨fuel - 1, by omega⟩
    have hget : w.transactions.get? pre.length = none := by
      rw [htr]; simp
    simp [Worker.timerWalk, hget, htr, handles, Worker.timeoutEvents]
  | cons tr tl ih =>
    intro w pre fuel htr hfuel hage
    have hget : w.transactions.get? pre.length = some tr := by
      rw [htr, List.get?_eq_getElem?, List.getElem?_append_right (Nat.le_refl _)]
      simp
    have hlen : (pre ++ [tr]).length = pre.length + 1 := by simp
    simp only [List.length_cons] at hfuel
    cases hdue : tr.timedOut now w.trans_wait_time with
    | false =>
      obtain ⟨f, rfl⟩ : ∃ f, fuel = f + 1 := ⟨fuel - 1, by omega⟩
      rw [Worker.timerWalk_pass f w now pre.length tr hget hdue
        (hage tr (List.mem_cons_self _ _)), ← hlen]
      obtain ⟨h1, h2, h3, h4, h5⟩ := ih
        { w with wait_next_time := tr.createdTime + w.trans_wait_time } (pre ++ [tr]) f
        (by simp [htr]) (by omega) (fun x hx => hage x (List.mem_cons_of_mem _ hx))
      refine ⟨h1, ?_, ?_, ?_, ?_⟩
      · rw [h2]; simp [List.filter_cons, hdue]
      · rw [h3]; simp [List.filter_cons, hdue, Worker.timeoutEvents]
      · rw [h4]; simp [hdue]
      · rw [h5]
        cases tl with
        | nil => rfl
        | cons y l =>
          obtain ⟨z, hz⟩ : ∃ z, (y :: l).getLast? = some z :=
            ⟨_, List.getLast?_eq_getLast _ (List.cons_ne_nil _ _)⟩
          rw [List.getLast?_cons_cons, hz]
    | true =>
      obtain ⟨f, rfl⟩ : ∃ f, fuel = f + 2 := ⟨fuel - 2, by omega⟩
      rw [Worker.timerWalk_fire f w now pre.length tr hget hdue
        (hage tr (List.mem_cons_self _ _)), ← hlen]
      obtain ⟨he1, he2, he3⟩ := Worker.onFireTransaction_effect w pre.length tr
      obtain ⟨h1, h2, h3, h4, h5⟩ := ih
        { w.onFireTransaction pre.length tr with
          wait_next_time := tr.createdTime + w.trans_wait_time } (pre ++ [tr.fired]) f
        (by simp [he1, htr])
        (by omega) (fun x hx => by simpa using hage x (List.mem_cons_of_mem _ hx))
      simp only [List.length_append, List.length_singleton] at h1 h2 h3 h4 h5 hlen ⊢
      refine ⟨h1, ?_, ?_, ?_, ?_⟩
      · rw [h2]
        simp [List.filter_cons, hdue, he2, handles]
      · rw [h3]
        simp only [Worker.onFireTransaction_trans_wait_time, List.filter_cons, hdue, if_true,
          he3, List.append_assoc]
        congr 1
        cases hr : w.retransmit_enable <;> cases hf : w.failover_to_slave <;>
          simp [Worker.timeoutEvents, hr, hf, List.filter_cons]
        split <;> simp
      · rw [h4]; simp [hdue]
      · rw [h5]
        cases tl with
        | nil => simp
        | cons y l =>
          obtain ⟨z, hz⟩ : ∃ z, (y :: l).getLast? = some z :=
            ⟨_, List.getLast?_eq_getLast _ (List.cons_ne_nil _ _)⟩
          rw [List.getLast?_cons_cons, hz]
          simp

/-! ### Batching: what the loop of `checkQueue` dispatches -/

/-- Dispatching a record with no pool recorded starts it on the connection
`getFreeConnection` finds. -/
theorem Worker.retransmit_noPool_started (w : Worker) (now : Int) (t : TransContainer)
    (c : IPGConnection) (h : t.currentPool = none)
    (hc : (w.getFreeConnection none).conn = some c) :
    w.retransmitTransaction now t =
      (0, (w.setRetransmitNextTime 0).startTransaction now t c (w.getFreeConnection none).pool,
        { t with trans := t.trans.startOn c.id }) := by
  have hg : (w.setRetransmitNextTime 0).getFreeConnection none = w.getFreeConnection none := rfl
  have hf : (w.getFreeConnection none).failed = false := by
    cases hfl : (w.getFreeConnection none).failed with
    | false => rfl
    | true => rw [Worker.getFreeConnection_failed _ _ hfl] at hc; cases hc
  simp only [Worker.retransmitTransaction, Worker.retransmitTransactionAux, h,
    Option.isNone_none, if_true, hg, hc, hf, Bool.false_and, Bool.false_eq_true, if_false]

/-- Merging into the accumulator keeps its pointer. -/
theorem batchOf_id (cm : IPGTransaction → IPGTransaction → Bool) (id : Nat) (x : TransContainer)
    (tl : List TransContainer) : (batchOf cm id x tl).id = id := by
  unfold batchOf
  have : ∀ (l : List TransContainer) (a : IPGTransaction),
      (l.foldl (fun a y => (a.merge cm y.trans).getD a) a).id = a.id := by
    intro l
    induction l with
    | nil => intro a; rfl
    | cons y l ih =>
      intro a
      rw [List.foldl_cons, ih]
      unfold IPGTransaction.merge
      split <;> rfl
  rw [this]
  rfl

/-- The merges performed on `l1 ++ l2` are those on `l1` followed by those on `l2` into the
accumulator built from `l1`. -/
theorem mergesInto_append (cm : IPGTransaction → IPGTransaction → Bool)
    (l1 l2 : List TransContainer) :
    ∀ a : IPGTransaction, mergesInto cm a (l1 ++ l2) =
      (mergesInto cm a l1 &&
        mergesInto cm (l1.foldl (fun a y => (a.merge cm y.trans).getD a) a) l2) := by
  induction l1 with
  | nil => intro a; simp [mergesInto]
  | cons y l ih =>
    intro a
    show (cm a y.trans && mergesInto cm ((a.merge cm y.trans).getD a) (l ++ l2)) = _
    rw [ih]
    simp only [mergesInto, List.foldl_cons, Bool.and_assoc]

/-- When every merge performed succeeds the accumulator holds the statements of all entries,
in queue order. -/
theorem batchOf_queries (cm : IPGTransaction → IPGTransaction → Bool) (id : Nat)
    (x : TransContainer) (tl : List TransContainer)
    (hm : mergesInto cm (x.trans.cloneAs id) tl = true) :
    (batchOf cm id x tl).queries = ((x :: tl).map (fun y => y.trans.queries)).flatten := by
  unfold batchOf
  have : ∀ (l : List TransContainer) (a : IPGTransaction),
      mergesInto cm a l = true →
      (l.foldl (fun a y => (a.merge cm y.trans).getD a) a).queries =
        a.queries ++ (l.map (fun y => y.trans.queries)).flatten := by
    intro l
    induction l with
    | nil => intro a _; simp
    | cons y l ih =>
      intro a h
      simp only [mergesInto, Bool.and_eq_true] at h
      rw [List.foldl_cons, ih _ h.2]
      simp [IPGTransaction.merge, h.1]
  rw [this _ _ hm]
  simp [IPGTransaction.cloneAs]

/-- First iteration of the batching loop: the accumulator is a clone of the head of the
queue. Nothing is dispatched while the size bound is not reached and entries remain. -/
theorem Worker.batchLoop_first (cm : IPGTransaction → IPGTransaction → Bool) (fuel : Nat)
    (w : Worker) (now : Int) (x : TransContainer) (tl : List TransContainer)
    (hsize : x.trans.get_size < w.batch_size) (hne : tl ≠ []) :
    w.batchLoop cm (fuel + 1) now none 0 [] (x :: tl) =
      w.alloc.batchLoop cm fuel now (some (x.trans.cloneAs w.nextId)) x.trans.get_size [x]
        tl := by
  rw [Worker.batchLoop]
  simp only [Worker.batchFold, Nat.zero_add, List.nil_append]
  rw [if_neg]
  simp only [ge_iff_le, Bool.false_eq_true, false_or, not_or, not_le]
  exact ⟨hsize, hne⟩

/-- An iteration of the batching loop that merges an entry and dispatches nothing, repeated
over the entries `mid`. -/
theorem Worker.batchLoop_skip (cm : IPGTransaction → IPGTransaction → Bool) (now : Int)
    (rest : List TransContainer) (hne : rest ≠ []) :
    ∀ (mid : List TransContainer) (fuel : Nat) (w : Worker) (a : IPGTransaction) (count : Nat)
      (pre : List TransContainer),
      mergesInto cm a mid = true →
      count + (mid.map (fun y => y.trans.get_size)).sum < w.batch_size →
      w.batchLoop cm (fuel + mid.length) now (some a) count pre (mid ++ rest) =
        w.batchLoop cm fuel now
          (some (mid.foldl (fun a y => (a.merge cm y.trans).getD a) a))
          (count + (mid.map (fun y => y.trans.get_size)).sum) (pre ++ mid) rest := by
  intro mid
  induction mid with
  | nil =>
    intro fuel w a count pre _ _
    simp
  | cons y mid ih =>
    intro fuel w a count pre hm hsum
    simp only [List.map_cons, List.sum_cons] at hsum
    simp only [mergesInto, Bool.and_eq_true] at hm
    have hy : cm a y.trans = true := hm.1
    have hstep : w.batchLoop cm (fuel + mid.length + 1) now (some a) count pre
        (y :: (mid ++ rest)) =
        w.batchLoop cm (fuel + mid.length) now
          (some ((a.merge cm y.trans).getD a)) (count + y.trans.get_size) (pre ++ [y])
          (mid ++ rest) := by
      rw [Worker.batchLoop]
      simp only [Worker.batchFold, IPGTransaction.merge, hy, if_true, Option.getD_some]
      rw [if_neg]
      simp only [ge_iff_le, Bool.false_eq_true, false_or, not_or, not_le]
      refine ⟨by omega, ?_⟩
      intro h
      exact hne (List.append_eq_nil.mp h).2
    rw [List.length_cons, ← Nat.add_assoc, List.cons_append, hstep,
      ih fuel w _ _ _ hm.2 (by omega)]
    simp only [List.foldl_cons, List.map_cons, List.sum_cons, List.append_assoc,
      List.singleton_append, Nat.add_assoc]

/-- The accumulator after a merge that succeeds. -/
theorem Worker.batchFold_merged (cm : IPGTransaction → IPGTransaction → Bool) (w : Worker)
    (a : IPGTransaction) (count : Nat) (pre : List TransContainer) (x : TransContainer)
    (tl : List TransContainer) (hx : cm a x.trans = true) :
    w.batchFold cm (some a) count pre x tl =
      { w := w, trans := (a.merge cm x.trans).getD a, count := count + x.trans.get_size,
        need_send := false, cur := x, consumed := pre ++ [x], next := tl } := by
  simp [Worker.batchFold, IPGTransaction.merge, hx]

/-- The cursor after a merge that fails. -/
theorem Worker.batchFold_failed (cm : IPGTransaction → IPGTransaction → Bool) (w : Worker)
    (a : IPGTransaction) (count : Nat) (pre : List TransContainer) (x : TransContainer)
    (tl : List TransContainer) (hx : cm a x.trans = false) :
    w.batchFold cm (some a) count pre x tl =
      { w := w, trans := a, count := count, need_send := true, cur := pre.getLast?.getD x,
        consumed := pre, next := x :: tl } := by
  simp [Worker.batchFold, IPGTransaction.merge, hx]

/-- An iteration of the batching loop that dispatches, with a free connection at hand: the
accumulator is started, the consumed entries leave the queue and the loop goes on with no
accumulator. -/
theorem Worker.batchLoop_dispatch (cm : IPGTransaction → IPGTransaction → Bool) (fuel : Nat)
    (w : Worker) (now : Int) (acc : Option IPGTransaction) (count : Nat)
    (pre : List TransContainer) (x : TransContainer) (tl : List TransContainer)
    (c : IPGConnection)
    (hcond : (w.batchFold cm acc count pre x tl).count ≥ w.batch_size ∨
      (w.batchFold cm acc count pre x tl).need_send = true ∨
      (w.batchFold cm acc count pre x tl).next = [])
    (hc : ((w.batchFold cm acc count pre x tl).w.getFreeConnection none).conn = some c) :
    w.batchLoop cm (fuel + 1) now acc count pre (x :: tl) =
      Worker.batchLoop cm fuel
        { ((w.batchFold cm acc count pre x tl).w.setRetransmitNextTime 0).startTransaction now
            (TransContainer.create now (w.batchFold cm acc count pre x tl).trans none
              (w.batchFold cm acc count pre x tl).cur.sender_id
              (w.batchFold cm acc count pre x tl).cur.token) c
            ((w.batchFold cm acc count pre x tl).w.getFreeConnection none).pool with
          deleted := (w.batchFold cm acc count pre x tl).w.deleted ++
            handles (w.batchFold cm acc count pre x tl).consumed,
          queue := (w.batchFold cm acc count pre x tl).w.queue.drop
            (w.batchFold cm acc count pre x tl).consumed.length,
          queue_size := (w.batchFold cm acc count pre x tl).w.queue_size -
            ((w.batchFold cm acc count pre x tl).count : Int) }
        now none 0 [] (w.batchFold cm acc count pre x tl).next := by
  simp only [Worker.batchLoop]
  rw [if_pos hcond, Worker.retransmit_noPool_started _ now _ c rfl hc]
  simp only [Int.lt_irrefl, if_false, Worker.startTransaction_deleted,
    Worker.startTransaction_queue, Worker.startTransaction_queue_size,
    Worker.setRetransmitNextTime_deleted, Worker.setRetransmitNextTime_queue,
    Worker.setRetransmitNextTime_queue_size]

/-- The iteration of the batching loop at the last entry of the queue: whatever the size
reached, the accumulator is dispatched; with a free connection the loop ends with all the
entries consumed. -/
theorem Worker.batchLoop_last (cm : IPGTransaction → IPGTransaction → Bool) (fuel : Nat)
    (w : Worker) (now : Int) (a : IPGTransaction) (count : Nat) (pre : List TransContainer)
    (x : TransContainer) (c : IPGConnection) (hx : cm a x.trans = true)
    (hc : (w.getFreeConnection none).conn = some c) :
    w.batchLoop cm (fuel + 1) now (some a) count pre [x] =
      { (w.setRetransmitNextTime 0).startTransaction now
          (TransContainer.create now ((a.merge cm x.trans).getD a) none x.sender_id x.token) c
          (w.getFreeConnection none).pool with
        deleted := w.deleted ++ handles (pre ++ [x]),
        queue := w.queue.drop (pre ++ [x]).length,
        queue_size := w.queue_size - ((count + x.trans.get_size : Nat) : Int) } := by
  have hs := Worker.batchFold_merged cm w a count pre x [] hx
  rw [Worker.batchLoop_dispatch cm fuel w now (some a) count pre x [] c
    (by rw [hs]; exact Or.inr (Or.inr rfl)) (by rw [hs]; exact hc), hs]
  cases fuel <;> simp [Worker.batchLoop]

/-- The first iteration of the batching loop on a queue of one entry: the clone of the
entry is dispatched alone. -/
theorem Worker.batchLoop_single (cm : IPGTransaction → IPGTransaction → Bool) (fuel : Nat)
    (w : Worker) (now : Int) (x : TransContainer) (c : IPGConnection)
    (hc : (w.getFreeConnection none).conn = some c) :
    w.batchLoop cm (fuel + 1) now none 0 [] [x] =
      { (w.alloc.setRetransmitNextTime 0).startTransaction now
          (TransContainer.create now (x.trans.cloneAs w.nextId) none x.sender_id x.token) c
          (w.getFreeConnection none).pool with
        deleted := w.deleted ++ handles [x],
        queue := w.queue.drop 1,
        queue_size := w.queue_size - ((x.trans.get_size : Nat) : Int) } := by
  have hs : w.batchFold cm none 0 [] x [] =
      { w := w.alloc, trans := x.trans.cloneAs w.nextId, count := x.trans.get_size,
        need_send := false, cur := x, consumed := [x], next := [] } := by
    simp [Worker.batchFold]
  have hg : w.alloc.getFreeConnection none = w.getFreeConnection none := rfl
  rw [Worker.batchLoop_dispatch cm fuel w now none 0 [] x [] c
    (by rw [hs]; exact Or.inr (Or.inr rfl)) (by rw [hs]; exact hc), hs]
  cases fuel <;> simp [Worker.batchLoop, hg]

/-- The iteration of the batching loop at an entry that cannot be merged: the accumulator
built from the entries before it is dispatched, exactly those entries leave the queue, and
the loop goes on at the same entry with no accumulator, so that the entry is cloned as the
head of the next batch. -/
theorem Worker.batchLoop_merge_failure (cm : IPGTransaction → IPGTransaction → Bool)
    (fuel : Nat) (w : Worker) (now : Int) (a : IPGTransaction) (count : Nat)
    (pre : List TransContainer) (x : TransContainer) (tl : List TransContainer)
    (c : IPGConnection) (hx : cm a x.trans = false)
    (hc : (w.getFreeConnection none).conn = some c) :
    w.batchLoop cm (fuel + 1) now (some a) count pre (x :: tl) =
      Worker.batchLoop cm fuel
        { (w.setRetransmitNextTime 0).startTransaction now
            (TransContainer.create now a none (pre.getLast?.getD x).sender_id
              (pre.getLast?.getD x).token) c (w.getFreeConnection none).pool with
          deleted := w.deleted ++ handles pre,
          queue := w.queue.drop pre.length,
          queue_size := w.queue_size - (count : Int) }
        now none 0 [] (x :: tl) := by
  have hs := Worker.batchFold_failed cm w a count pre x tl hx
  rw [Worker.batchLoop_dispatch cm fuel w now (some a) count pre x tl c
    (by rw [hs]; exact Or.inr (Or.inl rfl)) (by rw [hs]; exact hc), hs]

/-- A queue of entries that all merge and whose sizes stay below `batch_size` until the last
entry is one batch: the loop dispatches the accumulator built from all of them and ends with
the queue consumed. -/
theorem Worker.batchLoop_one_batch (cm : IPGTransaction → IPGTransaction → Bool) (fuel : Nat)
    (w : Worker) (now : Int) (x : TransContainer) (tl : List TransContainer)
    (c : IPGConnection)
    (hm : mergesInto cm (x.trans.cloneAs w.nextId) tl = true)
    (hsize : ((x :: tl).dropLast.map (fun y => y.trans.get_size)).sum < w.batch_size)
    (hc : (w.getFreeConnection none).conn = some c) :
    w.batchLoop cm (fuel + tl.length + 1) now none 0 [] (x :: tl) =
      { (w.alloc.setRetransmitNextTime 0).startTransaction now
          (TransContainer.create now (batchOf cm w.nextId x tl) none
            (tl.getLast?.getD x).sender_id (tl.getLast?.getD x).token) c
          (w.getFreeConnection none).pool with
        deleted := w.deleted ++ handles (x :: tl),
        queue := w.queue.drop (x :: tl).length,
        queue_size := w.queue_size -
          ((((x :: tl).map (fun y => y.trans.get_size)).sum : Nat) : Int) } := by
  rcases List.eq_nil_or_concat tl with rfl | ⟨mid, xl, rfl⟩
  · simp only [List.length_nil, Nat.add_zero]
    rw [Worker.batchLoop_single cm fuel w now x c hc]
    simp [batchOf]
  · simp only [List.concat_eq_append] at hm hsize ⊢
    rw [mergesInto_append] at hm
    simp only [mergesInto, Bool.and_eq_true, Bool.and_true] at hm
    have hne : mid ++ [xl] ≠ [] := by simp
    have hdrop : (x :: (mid ++ [xl])).dropLast = x :: mid := by
      rw [← List.cons_append, List.dropLast_concat]
    rw [hdrop] at hsize
    simp only [List.map_cons, List.sum_cons] at hsize
    have hfuel : fuel + (mid ++ [xl]).length + 1 = (fuel + 1 + mid.length) + 1 := by
      simp only [List.length_append, List.length_singleton]
      omega
    rw [hfuel, Worker.batchLoop_first cm _ w now x _ (by omega) hne,
      Worker.batchLoop_skip cm now [xl] (by simp) mid (fuel + 1) w.alloc _ _ _
        hm.1 (by simpa using hsize),
      Worker.batchLoop_last cm fuel w.alloc now _ _ _ xl c
        hm.2 hc]
    have hb : batchOf cm w.nextId x (mid ++ [xl]) =
        ((mid.foldl (fun a y => (a.merge cm y.trans).getD a)
          (x.trans.cloneAs w.nextId)).merge cm xl.trans).getD
          (mid.foldl (fun a y => (a.merge cm y.trans).getD a) (x.trans.cloneAs w.nextId)) := by
      simp [batchOf, List.foldl_append]
    have hg : w.alloc.getFreeConnection none = w.getFreeConnection none := rfl
    rw [hb, hg]
    simp [Nat.add_assoc]

/-- C1 (counterexample): one submission, two outcomes. -/
theorem two_outcomes_for_one_submission :
    ((workerWithPrimary false false 1 0).run mergeAll timeoutThenError).posted =
      [("producer", .PGTimeout "tok"), ("producer", .PGResponseError "canceled" "tok")] := by
  decide
/-- C1 (amended): starting from a Worker that holds no records and has posted nothing, every
outcome posted during any sequence of calls goes to a non-empty producer address and carries
the token of a `runTransaction` submission of that sequence made with that address. In
particular nothing is ever posted for a submission whose producer address is empty. -/
theorem outcomes_only_for_submissions (cm : IPGTransaction → IPGTransaction → Bool)
    (w : Worker) (ops : List (Int × Op)) (hq : w.queue = []) (ht : w.transactions = [])
    (hr : w.retransmit_q = []) (hp : w.posted = []) (address : String) (ev : PGEvent)
    (hmem : (address, ev) ∈ (w.run cm ops).posted) :
    address ≠ "" ∧ ∃ now tx, (now, Op.runTransaction tx address ev.token) ∈ ops := by
  have h0 : w.OutcomesFor (fun a k => ∃ now tx, (now, Op.runTransaction tx a k) ∈ ops) :=
    ⟨fun p h => (by rw [hp] at h; cases h), fun r h => (by rw [hq] at h; cases h),
      fun r h => (by rw [ht] at h; cases h), fun r h => (by rw [hr] at h; cases h)⟩
  exact (Worker.run_outcomesFor _ cm w ops (fun now tx s k hm _ => ⟨now, tx, hm⟩) h0).posted
    (address, ev) hmem

/-- C1 (witness): the timeout posted in the run `timeoutThenError` belongs to the
submission made with address "producer" and token "tok". -/
theorem outcomes_only_for_submissions_witness :
    "producer" ≠ "" ∧ ∃ now tx, (now, Op.runTransaction tx "producer"
      (PGEvent.PGTimeout "tok").token) ∈ timeoutThenError :=
  outcomes_only_for_submissions mergeAll (workerWithPrimary false false 1 0) timeoutThenError
    rfl rfl rfl rfl "producer" (.PGTimeout "tok") (by decide)

/-- C2 (failing input): a chained TR_POLICY transaction with two statements is active and the
gauge equals its size 2; after `onError` the active table is empty and the gauge reads 1. -/
theorem active_gauge_drifts_on_chain_error :
    ((workerWithPrimary false true 1 0).run mergeAll submitChain).tr_size = 2 ∧
    sizeSum ((workerWithPrimary false true 1 0).run mergeAll submitChain).transactions = 2 ∧
    handles ((workerWithPrimary false true 1 0).run mergeAll submitChain).transactions = [1] ∧
    (((workerWithPrimary false true 1 0).run mergeAll submitChain).onError 1 1 "boom").tr_size
      = 1 ∧
    (((workerWithPrimary false true 1 0).run mergeAll submitChain).onError 1 1
      "boom").transactions = [] := by
  decide

/-- C3: the queue gauge follows the admission queue. `runTransaction` either leaves queue and
gauge alone (drop) or appends one record and adds its size; `checkQueue` erases a prefix of
the queue and subtracts exactly the summed sizes of the erased records; so both keep
`queue_size - sum of sizes in the queue` unchanged, and a gauge equal to that sum stays
equal to it through every sequence of calls. A batch whose dispatch returns -1 ends the
batching loop with queue and gauge unchanged. -/
theorem queue_gauge_follows_queue (cm : IPGTransaction → IPGTransaction → Bool) (w : Worker)
    (now : Int) (tx : IPGTransaction) (sender_id token : String) :
    (((w.runTransaction now tx sender_id token).queue = w.queue ∧
        (w.runTransaction now tx sender_id token).queue_size = w.queue_size) ∨
      (∃ r, r.trans = tx ∧ (w.runTransaction now tx sender_id token).queue = w.queue ++ [r] ∧
        (w.runTransaction now tx sender_id token).queue_size = w.queue_size + tx.get_size)) ∧
    (w.runTransaction now tx sender_id token).queue_size -
        sizeSum (w.runTransaction now tx sender_id token).queue =
      w.queue_size - sizeSum w.queue ∧
    (∃ k, k ≤ w.queue.length ∧ (w.checkQueue cm now).queue = w.queue.drop k ∧
      (w.checkQueue cm now).queue_size = w.queue_size - sizeSum (w.queue.take k)) ∧
    (w.checkQueue cm now).queue_size - sizeSum (w.checkQueue cm now).queue =
      w.queue_size - sizeSum w.queue ∧
    (∀ ops : List (Int × Op), (w.run cm ops).queue_size - sizeSum (w.run cm ops).queue =
      w.queue_size - sizeSum w.queue) ∧
    (∀ (fuel : Nat) (acc : Option IPGTransaction) (count : Nat) (pre : List TransContainer)
        (x : TransContainer) (tl : List TransContainer),
      ((w.batchFold cm acc count pre x tl).count ≥ w.batch_size ∨
        (w.batchFold cm acc count pre x tl).need_send = true ∨
        (w.batchFold cm acc count pre x tl).next = []) →
      ((w.batchFold cm acc count pre x tl).w.retransmitTransaction now
        (TransContainer.create now (w.batchFold cm acc count pre x tl).trans none
          (w.batchFold cm acc count pre x tl).cur.sender_id
          (w.batchFold cm acc count pre x tl).cur.token)).1 < 0 →
      (w.batchLoop cm (fuel + 1) now acc count pre (x :: tl)).queue = w.queue ∧
      (w.batchLoop cm (fuel + 1) now acc count pre (x :: tl)).queue_size = w.queue_size) := by
  have hrun : ((w.runTransaction now tx sender_id token).queue = w.queue ∧
        (w.runTransaction now tx sender_id token).queue_size = w.queue_size) ∨
      (∃ r, r.trans = tx ∧ (w.runTransaction now tx sender_id token).queue = w.queue ++ [r] ∧
        (w.runTransaction now tx sender_id token).queue_size = w.queue_size + tx.get_size) := by
    by_cases h : w.max_queue_length ≠ 0 ∧ w.queue_size ≥ (w.max_queue_length : Int)
    · left
      rw [Worker.runTransaction_of_full w now tx sender_id token h]
      split_ifs <;> simp
    · right
      rw [Worker.runTransaction_of_room w now tx sender_id token h]
      exact ⟨TransContainer.create now tx none
        (if w.batch_size > 1 ∧ sender_id ≠ "" then "" else sender_id) token, rfl,
        by simp, by simp⟩
  obtain ⟨k, hk, h1, h2, _⟩ := Worker.checkQueue_queue cm w now
  refine ⟨hrun, ?_, ⟨k, hk, h1, h2⟩, ?_, Worker.run_queue_gauge cm w,
    fun fuel acc count pre x tl hsend hret =>
      Worker.batchLoop_not_dispatched cm fuel w now acc count pre x tl hsend hret⟩
  · rcases hrun with ⟨hq, hs⟩ | ⟨r, hr, hq, hs⟩
    · rw [hq, hs]
    · rw [hq, hs, sizeSum_append, sizeSum_cons, sizeSum_nil, hr]; ring
  · have hsplit : sizeSum w.queue = sizeSum (w.queue.take k) + sizeSum (w.queue.drop k) := by
      rw [← sizeSum_append, List.take_append_drop]
    rw [h1, h2, hsplit]; ring

/-- C3 (witness): without pools the dispatch of the one queued record returns -1 and the
batching loop leaves queue and gauge as they were. -/
theorem queue_gauge_follows_queue_witness :
    (workerNoPools.batchLoop mergeAll 3 0 none 0 [] [queuedRecord 0]).queue =
      workerNoPools.queue ∧
    (workerNoPools.batchLoop mergeAll 3 0 none 0 [] [queuedRecord 0]).queue_size =
      workerNoPools.queue_size :=
  (queue_gauge_follows_queue mergeAll workerNoPools 0 (idleTrans 1 .TR_NON ["insert 2"]) ""
    "tok").2.2.2.2.2 2 none 0 [] (queuedRecord 0) [] (by decide) (by decide)

/-- C4 (counterexample): limit 1, empty queue, one two-statement transaction: gauge 2. -/
theorem queue_gauge_exceeds_limit :
    (Worker.init false false false 5 5 10 0 1 1).max_queue_length = 1 ∧
    ((Worker.init false false false 5 5 10 0 1 1).runTransaction 0
      (idleTrans 0 .TR_NON ["insert 1", "insert 2"]) "" "").queue_size = 2 := by
  decide

/-- C4 (amended): with a queue limit `N > 0`, a queue gauge that starts at most
`N - 1 + S` stays at most `N - 1 + S` through every sequence of calls whose submitted
transactions have at most `S` statements; with single-statement transactions (`S = 1`) the
bound is `N`. -/
theorem queue_gauge_bounded (cm : IPGTransaction → IPGTransaction → Bool) (w : Worker)
    (S : Nat) (ops : List (Int × Op)) (hN : 0 < w.max_queue_length)
    (hops : ∀ now tx s k, (now, Op.runTransaction tx s k) ∈ ops → tx.get_size ≤ S)
    (hq : w.queue_size ≤ (w.max_queue_length : Int) - 1 + S) :
    (w.run cm ops).queue_size ≤ (w.max_queue_length : Int) - 1 + S := by
  induction ops generalizing w with
  | nil => exact hq
  | cons p ops ih =>
    obtain ⟨now, op⟩ := p
    have hstep := Worker.step_queue_size_le cm w now op S hN
      (fun tx s k he => hops now tx s k (by rw [he]; exact List.mem_cons_self _ _)) hq
    have := ih (w.step cm now op) (by rw [hstep.2]; exact hN)
      (fun now2 tx s k hm => hops now2 tx s k (List.mem_cons_of_mem _ hm))
      (by rw [hstep.2]; exact hstep.1)
    rw [hstep.2] at this
    exact this

/-- C4 (witness): limit 2, two-statement transactions: the gauge stays at most 3. -/
theorem queue_gauge_bounded_witness :
    ((Worker.init false false false 5 5 10 0 1 2).run mergeAll twoChainsThenTick).queue_size
      ≤ (((Worker.init false false false 5 5 10 0 1 2).max_queue_length : Nat) : Int) - 1
        + (2 : Nat) :=
  queue_gauge_bounded mergeAll (Worker.init false false false 5 5 10 0 1 2) 2
    twoChainsThenTick (by decide)
    (by
      intro now tx s k h
      simp only [twoChainsThenTick, List.mem_cons, Prod.mk.injEq, List.not_mem_nil,
        or_false] at h
      rcases h with ⟨_, h⟩ | ⟨_, h⟩ | ⟨_, h⟩
      · cases h; decide
      · cases h; decide
      · cases h)
    (by decide)

/-- C5: `runTransaction` either drops the transaction (queue limit set and reached: queue,
queue gauge and flush deadline unchanged, dropped counter grows by the size) or appends it at
the tail of the admission queue (queue gauge grows by the size, dropped counter unchanged,
flush deadline armed to `now + batch_timeout` only if it was 0). -/
theorem runTransaction_drop_or_append (w : Worker) (now : Int) (tx : IPGTransaction)
    (sender_id token : String) :
    if 0 < w.max_queue_length ∧ (w.max_queue_length : Int) ≤ w.queue_size then
      (w.runTransaction now tx sender_id token).queue = w.queue ∧
      (w.runTransaction now tx sender_id token).queue_size = w.queue_size ∧
      (w.runTransaction now tx sender_id token).send_next_time = w.send_next_time ∧
      (w.runTransaction now tx sender_id token).dropped = w.dropped + tx.get_size
    else
      (w.runTransaction now tx sender_id token).queue =
        w.queue ++ [TransContainer.create now tx none
          (if w.batch_size > 1 ∧ sender_id ≠ "" then "" else sender_id) token] ∧
      (w.runTransaction now tx sender_id token).queue_size = w.queue_size + tx.get_size ∧
      (w.runTransaction now tx sender_id token).dropped = w.dropped ∧
      (w.runTransaction now tx sender_id token).send_next_time =
        (if w.send_next_time = 0 then now + w.batch_timeout else w.send_next_time) := by
  by_cases h2 : 0 < w.max_queue_length ∧ (w.max_queue_length : Int) ≤ w.queue_size
  · have h : w.max_queue_length ≠ 0 ∧ w.queue_size ≥ (w.max_queue_length : Int) :=
      ⟨Nat.pos_iff_ne_zero.mp h2.1, h2.2⟩
    rw [if_pos h2, Worker.runTransaction_of_full w now tx sender_id token h]
    split_ifs <;> simp
  · have h : ¬ (w.max_queue_length ≠ 0 ∧ w.queue_size ≥ (w.max_queue_length : Int)) := by
      intro hc; exact h2 ⟨Nat.pos_of_ne_zero hc.1, hc.2⟩
    rw [if_neg h2, Worker.runTransaction_of_room w now tx sender_id token h]
    exact ⟨by simp, by simp, by simp, by simp⟩

/-- C6 (counterexample): `batch_size = 2`, limit 1: the second submission, made with the
producer address "producer", is dropped and nothing is posted. -/
theorem queue_full_not_reported_when_batching :
    (((Worker.init false false false 5 5 10 0 2 1).runTransaction 0
        (idleTrans 0 .TR_NON ["insert 1"]) "" "a").runTransaction 0
        (idleTrans 1 .TR_NON ["insert 2"]) "producer" "tok").dropped = 1 ∧
    (((Worker.init false false false 5 5 10 0 2 1).runTransaction 0
        (idleTrans 0 .TR_NON ["insert 1"]) "" "a").runTransaction 0
        (idleTrans 1 .TR_NON ["insert 2"]) "producer" "tok").posted = [] := by
  decide

/-- C6 (amended): for a submission with a non-empty producer address, `runTransaction` posts
exactly one "queue is full" error with the submission's token to that address when it drops
the transaction and `batch_size <= 1`; it posts nothing when the transaction is admitted,
and nothing at all when `batch_size > 1` (the address is erased before the queue check). -/
theorem queue_full_reported_without_batching (w : Worker) (now : Int) (tx : IPGTransaction)
    (sender_id token : String) (hs : sender_id ≠ "") :
    (w.runTransaction now tx sender_id token).posted =
      if w.batch_size ≤ 1 ∧ 0 < w.max_queue_length ∧ (w.max_queue_length : Int) ≤ w.queue_size
      then w.posted ++ [(sender_id, .PGResponseError "queue is full" token)]
      else w.posted := by
  by_cases h : w.max_queue_length ≠ 0 ∧ w.queue_size ≥ (w.max_queue_length : Int)
  · have h2 : 0 < w.max_queue_length ∧ (w.max_queue_length : Int) ≤ w.queue_size :=
      ⟨Nat.pos_of_ne_zero h.1, h.2⟩
    rw [Worker.runTransaction_of_full w now tx sender_id token h]
    by_cases hb : w.batch_size ≤ 1
    · have hb2 : ¬ (w.batch_size > 1 ∧ sender_id ≠ "") := fun hc => absurd hc.1 (by omega)
      simp [hb, h2, hb2, hs]
    · have hb2 : w.batch_size > 1 ∧ sender_id ≠ "" := ⟨by omega, hs⟩
      simp [hb, hb2]
  · have h2 : ¬ (0 < w.max_queue_length ∧ (w.max_queue_length : Int) ≤ w.queue_size) := by
      intro hc; exact h ⟨Nat.pos_iff_ne_zero.mp hc.1, hc.2⟩
    rw [Worker.runTransaction_of_room w now tx sender_id token h]
    simp [h2]

/-- C6 (witness): limit 1 reached, `batch_size = 1`: one error is posted. -/
theorem queue_full_reported_without_batching_witness :
    (((Worker.init false false false 5 5 10 0 1 1).runTransaction 0
        (idleTrans 0 .TR_NON ["insert 1"]) "" "a").runTransaction 0
        (idleTrans 1 .TR_NON ["insert 2"]) "producer" "tok").posted =
      [("producer", .PGResponseError "queue is full" "tok")] :=
  (queue_full_reported_without_batching
    ((Worker.init false false false 5 5 10 0 1 1).runTransaction 0
      (idleTrans 0 .TR_NON ["insert 1"]) "" "a") 0
    (idleTrans 1 .TR_NON ["insert 2"]) "producer" "tok" (by decide)).trans (by decide)

/-- C7 (counterexample): after the run `timeoutThenError` the transaction with pointer 1 has
left the active table; when the driver then finishes it, `onFinish` puts the pointer on the
deferred-delete list although nothing is removed from the active table. -/
theorem finish_of_inactive_transaction :
    handles ((workerWithPrimary false false 1 0).run mergeAll timeoutThenError).transactions
      = [] ∧
    (((workerWithPrimary false false 1 0).run mergeAll timeoutThenError).onFinish 17 1
      "").erased = [1] ∧
    (((workerWithPrimary false false 1 0).run mergeAll timeoutThenError).onFinish 17 1
      "").transactions =
      ((workerWithPrimary false false 1 0).run mergeAll timeoutThenError).transactions := by
  decide

/-- C7 (amended): if no transaction pointer is held twice by the four collections (admission
queue, active table, retry queue, deferred-delete list), the same is true after every call,
provided a submitted transaction is new to the Worker and a finished transaction is not
waiting in the admission queue, the retry queue or the deferred-delete list. `onFinish`
always appends the pointer to the deferred-delete list and erases its record from the active
table when there is one. -/
theorem held_once_preserved (cm : IPGTransaction → IPGTransaction → Bool) (w : Worker)
    (now : Int) (op : Op) (h : w.HeldOnce) (ha : w.Accepts op) :
    (w.step cm now op).HeldOnce ∧
    ∀ t result, (w.onFinish now t result).erased = w.erased ++ [t] ∧
      (w.onFinish now t result).transactions =
        w.transactions.eraseP (fun tr => tr.trans.id == t) := by
  refine ⟨?_, fun t result => ⟨Worker.onFinish_erased w now t result,
    Worker.onFinish_transactions w now t result⟩⟩
  rw [Worker.heldOnce_iff] at h ⊢
  intro a
  cases op with
  | runTransaction tx s k => exact Worker.runTransaction_held w now tx s k h ha a
  | onTimer fuel => exact Worker.onTimer_held cm fuel w now h a
  | onFinish t r => exact Worker.onFinish_held w now t r h ha a
  | onError t e => exact Worker.onError_held w now t e h a
  | onPQError t e => exact Worker.onError_held w now t e h a
  | onStopTransaction t => exact Worker.onStopTransaction_held w now t h a

/-- C7 (witness): the driver finishes the active transaction with pointer 1. -/
theorem held_once_preserved_witness :
    (((workerWithPrimary false false 1 0).run mergeAll submitAndDispatch).step mergeAll 3
      (.onFinish 1 "done")).HeldOnce :=
  (held_once_preserved mergeAll
    ((workerWithPrimary false false 1 0).run mergeAll submitAndDispatch) 3 (.onFinish 1 "done")
    (by unfold Worker.HeldOnce; decide) (by unfold Worker.Accepts; decide)).1

/-- C8 (failing input): the primary pool has no free connection, the secondary pool has one,
the record has no pool: the call returns -1 and starts nothing. -/
theorem no_fallback_to_secondary :
    (workerPrimaryBusy.master.bind ConnectionPool.getFreeConnection) = none ∧
    (workerPrimaryBusy.slave.bind ConnectionPool.getFreeConnection) = some (idleConn 200) ∧
    (workerPrimaryBusy.retransmitTransaction 0
      (TransContainer.create 0 (idleTrans 3 .TR_NON ["select 1"]) none "" "tok")).1 = -1 ∧
    (workerPrimaryBusy.retransmitTransaction 0
      (TransContainer.create 0 (idleTrans 3 .TR_NON ["select 1"]) none "" "tok")).2.1.transactions
      = [] ∧
    (workerPrimaryBusy.retransmitTransaction 0
      (TransContainer.create 0 (idleTrans 3 .TR_NON ["select 1"]) none "" "tok")).2.1.slave
      = workerPrimaryBusy.slave := by
  decide

/-- C9: with retry and failover enabled, a secondary pool configured and a retry record whose
last pool is the primary: within the retry interval the dispatch returns 1 and starts
nothing; after it the transaction runs on a free secondary connection (active record with
pool = secondary, result 0) if there is one, and otherwise the call returns 1 with the record
unchanged (primary affinity kept); the primary pool is not used by the call. -/
theorem retransmit_failover_to_secondary (w : Worker) (now : Int) (t : TransContainer)
    (sp : ConnectionPool) (hr : w.retransmit_enable = true) (hf : w.failover_to_slave = true)
    (hs : w.slave = some sp) (hm : w.master.isSome = true)
    (hp : t.currentPool = some .Master) :
    (now - t.createdTime < w.retransmit_interval →
      (w.retransmitTransaction now t).1 = 1 ∧
      (w.retransmitTransaction now t).2.2 = t ∧
      (w.retransmitTransaction now t).2.1.transactions = w.transactions ∧
      (w.retransmitTransaction now t).2.1.retransmit_q = w.retransmit_q ∧
      (w.retransmitTransaction now t).2.1.master = w.master ∧
      (w.retransmitTransaction now t).2.1.slave = w.slave) ∧
    (¬ (now - t.createdTime < w.retransmit_interval) →
      match sp.getFreeConnection with
      | some conn =>
        (w.retransmitTransaction now t).1 = 0 ∧
        (w.retransmitTransaction now t).2.1.transactions = w.transactions ++
          [TransContainer.create now (t.trans.startOn conn.id) (some .Slave)
            t.sender_id t.token] ∧
        (w.retransmitTransaction now t).2.1.tr_size = w.tr_size + t.trans.get_size ∧
        (w.retransmitTransaction now t).2.1.slave =
          some (sp.updateConn conn.id (fun c => c.runTransaction t.trans.id)) ∧
        (w.retransmitTransaction now t).2.1.master = w.master
      | none =>
        (w.retransmitTransaction now t).1 = 1 ∧
        (w.retransmitTransaction now t).2.2 = t ∧
        (w.retransmitTransaction now t).2.2.currentPool = some .Master ∧
        (w.retransmitTransaction now t).2.1.transactions = w.transactions ∧
        (w.retransmitTransaction now t).2.1.retransmit_q = w.retransmit_q ∧
        (w.retransmitTransaction now t).2.1.master = w.master ∧
        (w.retransmitTransaction now t).2.1.slave = w.slave) := by
  have hM : (w.setRetransmitNextTime 0).isMaster (some .Master) = true :=
    Worker.isMaster_master _ hm
  have hG := Worker.getFreeConnection_from_master (w.setRetransmitNextTime 0) sp hs hm
  constructor
  · intro hlt
    have h : w.retransmitTransaction now t =
        (1, w.setRetransmitNextTime (t.createdTime + w.retransmit_interval), t) := by
      simp [Worker.retransmitTransaction, Worker.retransmitTransactionAux, hp, hM, hf, hr, hlt]
    rw [h]
    simp
  · intro hge
    cases hc : sp.getFreeConnection with
    | none =>
      have h : w.retransmitTransaction now t = (1, w.setRetransmitNextTime 0, t) := by
        simp [Worker.retransmitTransaction, Worker.retransmitTransactionAux, hp, hM, hf, hr,
          hge, hG, hc, hs]
      rw [h]
      simp [hp]
    | some conn =>
      have h : w.retransmitTransaction now t =
          (0, (w.setRetransmitNextTime 0).startTransaction now t conn (some .Slave),
            { t with trans := t.trans.startOn conn.id }) := by
        simp [Worker.retransmitTransaction, Worker.retransmitTransactionAux, hp, hM, hf, hr,
          hge, hG, hc, hs]
      rw [h]
      simp [Worker.startTransaction_master, Worker.startTransaction_slave, Worker.updateConn, hs]

/-- C9 (witness): primary busy, secondary idle, retry interval 5 elapsed at time 10: the
transaction is started on the secondary connection. -/
theorem retransmit_failover_to_secondary_witness :
    (workerPrimaryBusy.retransmitTransaction 10 primaryRetryRecord).1 = 0 ∧
    (workerPrimaryBusy.retransmitTransaction 10 primaryRetryRecord).2.1.transactions =
      [TransContainer.create 10 ((idleTrans 3 .TR_NON ["select 1"]).startOn 200) (some .Slave)
        "" "tok"] ∧
    (workerPrimaryBusy.retransmitTransaction 10 primaryRetryRecord).2.1.master =
      workerPrimaryBusy.master :=
  have h := (retransmit_failover_to_secondary workerPrimaryBusy 10 primaryRetryRecord
    { connections := [idleConn 200], type := .Slave, connected := 1 } rfl rfl rfl rfl rfl).2
    (by decide)
  ⟨h.1, h.2.1, h.2.2.2.2⟩

/-- C10: for a retry record whose last pool is the primary, `retransmitTransaction` discards
the transaction and returns 0 without touching the active table when neither
`retransmit_enable` nor `failover_to_slave` is set; otherwise, while
`now - createdTime < retransmit_interval`, it returns 1, leaves the record and the active
table unchanged and sets `retransmit_next_time` to `createdTime + retransmit_interval`. -/
theorem retransmit_primary_discard_or_defer (w : Worker) (now : Int) (t : TransContainer)
    (hp : t.currentPool = some .Master) (hm : w.master.isSome = true) :
    (w.failover_to_slave = false ∧ w.retransmit_enable = false →
      w.retransmitTransaction now t =
        (0, (w.setRetransmitNextTime 0).delete t.trans.id, t) ∧
      (w.retransmitTransaction now t).2.1.deleted = w.deleted ++ [t.trans.id] ∧
      (w.retransmitTransaction now t).2.1.transactions = w.transactions ∧
      (w.retransmitTransaction now t).2.1.tr_size = w.tr_size) ∧
    (¬ (w.failover_to_slave = false ∧ w.retransmit_enable = false) →
      now - t.createdTime < w.retransmit_interval →
      w.retransmitTransaction now t =
        (1, w.setRetransmitNextTime (t.createdTime + w.retransmit_interval), t) ∧
      (w.retransmitTransaction now t).2.2 = t ∧
      (w.retransmitTransaction now t).2.1.transactions = w.transactions ∧
      (w.retransmitTransaction now t).2.1.retransmit_next_time =
        t.createdTime + w.retransmit_interval) := by
  have hM : (w.setRetransmitNextTime 0).isMaster (some .Master) = true :=
    Worker.isMaster_master _ hm
  constructor
  · rintro ⟨hf, hr⟩
    have h : w.retransmitTransaction now t =
        (0, (w.setRetransmitNextTime 0).delete t.trans.id, t) := by
      simp [Worker.retransmitTransaction, Worker.retransmitTransactionAux, hp, hM, hf, hr]
    rw [h]
    simp
  · intro hne hlt
    have h : w.retransmitTransaction now t =
        (1, w.setRetransmitNextTime (t.createdTime + w.retransmit_interval), t) := by
      have hc : (!w.failover_to_slave && !w.retransmit_enable) = false := by
        cases hf : w.failover_to_slave <;> cases hr : w.retransmit_enable <;> simp_all
      simp [Worker.retransmitTransaction, Worker.retransmitTransactionAux, hp, hM, hc, hlt]
    rw [h]
    simp

/-- C10 (witness): the same record two seconds after its creation: deferred, retry wake time
armed to `0 + 5`. -/
theorem retransmit_primary_discard_or_defer_witness :
    workerPrimaryBusy.retransmitTransaction 2 primaryRetryRecord =
      (1, workerPrimaryBusy.setRetransmitNextTime 5, primaryRetryRecord) :=
  ((retransmit_primary_discard_or_defer workerPrimaryBusy 2 primaryRetryRecord rfl rfl).2
    (by decide) (by decide)).1

/-- A record with no pool recorded is dispatched without recursion, and the call starts by
clearing the retry wake time: neither the depth bound nor an earlier value of
`retransmit_next_time` matters. -/
theorem Worker.retransmitAux_noPool_eq (n m : Nat) (w : Worker) (a now : Int)
    (t : TransContainer) (h : t.currentPool = none) :
    (w.setRetransmitNextTime a).retransmitTransactionAux (n + 1) now t =
      w.retransmitTransactionAux (m + 1) now t := by
  simp only [Worker.retransmitTransactionAux, h, Option.isNone_none, if_true,
    Worker.setRetransmitNextTime_twice]

/-- The recursive call made after clearing the recorded pool returns what a fresh call on
the cleared record returns. -/
theorem Worker.retransmitAux_recurse (n : Nat) (w : Worker) (now : Int) (t : TransContainer)
    (h : t.currentPool = none) :
    (w.setRetransmitNextTime 0).retransmitTransactionAux (n + 1) now t =
      some (w.retransmitTransaction now t) := by
  obtain ⟨r, hr, -⟩ := Worker.retransmitAux_noPool 1 w now t t (Or.inl rfl) h
  rw [Worker.retransmitAux_noPool_eq 1 1 w 0 now t h] at hr
  rw [Worker.retransmitAux_noPool_eq n 1 w 0 now t h, Worker.retransmitTransaction, hr]

/-- A secondary pool pointer never compares equal to the primary. -/
@[simp] theorem Worker.isMaster_slave (w : Worker) : w.isMaster (some .Slave) = false := rfl

/-- The generic tail of `retransmitTransaction` (the code after the two pool branches), reached
by a record whose pool is neither null nor the primary. -/
theorem Worker.retransmit_generic (w : Worker) (now : Int) (t : TransContainer)
    (hn : t.currentPool.isNone = false) (hp : w.isMaster t.currentPool = false) :
    w.retransmitTransaction now t =
      if w.retransmit_enable = false then (0, (w.setRetransmitNextTime 0).delete t.trans.id, t)
      else if now - t.createdTime < w.retransmit_interval then
        (1, w.setRetransmitNextTime (t.createdTime + w.retransmit_interval), t)
      else w.retransmitTransaction now { t with currentPool := none } := by
  have hrec := Worker.retransmitAux_recurse 0 w now { t with currentPool := none } rfl
  have hM : (w.setRetransmitNextTime 0).isMaster t.currentPool = false := hp
  have h2 : w.retransmitTransactionAux 2 now t = some
      (if w.retransmit_enable = false then
        (0, (w.setRetransmitNextTime 0).delete t.trans.id, t)
      else if now - t.createdTime < w.retransmit_interval then
        (1, w.setRetransmitNextTime (t.createdTime + w.retransmit_interval), t)
      else w.retransmitTransaction now { t with currentPool := none }) := by
    rw [Worker.retransmitTransactionAux, hrec]
    cases hr : w.retransmit_enable
    · simp [hn, hM, hr]
    · by_cases hlt : now - t.createdTime < w.retransmit_interval <;> simp [hn, hM, hr, hlt]
  rw [Worker.retransmitTransaction, h2]

/-- The primary branch of `retransmitTransaction` once the retry interval has elapsed and
no failover can happen. -/
theorem Worker.retransmit_primary_elapsed (w : Worker) (now : Int) (t : TransContainer)
    (hp : t.currentPool = some .Master) (hm : w.master.isSome = true)
    (hlt : ¬ now - t.createdTime < w.retransmit_interval)
    (hf : w.failover_to_slave = false ∨ w.slave = none) :
    w.retransmitTransaction now t =
      if w.retransmit_enable = false then (0, (w.setRetransmitNextTime 0).delete t.trans.id, t)
      else w.retransmitTransaction now { t with currentPool := none } := by
  have hrec := Worker.retransmitAux_recurse 0 w now { t with currentPool := none } rfl
  have hM : (w.setRetransmitNextTime 0).isMaster (some .Master) = true :=
    Worker.isMaster_master _ hm
  have hconn : w.failover_to_slave = true →
      ((w.setRetransmitNextTime 0).getFreeConnection (some .Master)).conn = none ∧
        w.slave = none := by
    intro hfo
    rcases hf with hf | hs
    · rw [hf] at hfo; cases hfo
    · exact ⟨by simp [Worker.getFreeConnection, Worker.setRetransmitNextTime, hs], hs⟩
  have h2 : w.retransmitTransactionAux 2 now t = some
      (if w.retransmit_enable = false then
        (0, (w.setRetransmitNextTime 0).delete t.trans.id, t)
      else w.retransmitTransaction now { t with currentPool := none }) := by
    rw [Worker.retransmitTransactionAux, hrec]
    cases hr : w.retransmit_enable <;> cases hfo : w.failover_to_slave
    · simp [hp, hM, hr, hfo]
    · simp [hp, hM, hr, hfo, hlt, (hconn hfo).1, (hconn hfo).2]
    · simp only [hp, hM, hr, hfo, hlt]
      cases hc : ((w.setRetransmitNextTime 0).getFreeConnection (some .Master)).conn <;>
        simp [hc, hr, hfo, hlt]
    · simp [hp, hM, hr, hfo, hlt, (hconn hfo).1, (hconn hfo).2]
  rw [Worker.retransmitTransaction, h2]

/-- Dispatching a record with no pool recorded returns a record with no pool recorded. -/
theorem Worker.retransmit_noPool_record (w : Worker) (now : Int) (t : TransContainer)
    (h : t.currentPool = none) : (w.retransmitTransaction now t).2.2.currentPool = none := by
  simp only [Worker.retransmitTransaction, Worker.retransmitTransactionAux, h,
    Option.isNone_none, if_true]
  cases hc : ((w.setRetransmitNextTime 0).getFreeConnection none).conn <;> simp [h]

/-- C11: the generic path of `retransmitTransaction`. For a retry record whose last pool is
the secondary, or whose last pool is the primary with the retry interval elapsed and with
failover disabled or no secondary pool: when `retransmit_enable` is false the transaction is
deleted and 0 is returned; when retry is enabled and `now - createdTime < retransmit_interval`
the result is 1 (and the retry wake time is armed); otherwise the result, the Worker state
and the record are those of dispatching the same record with no pool recorded, and the record
that comes back has no pool recorded. -/
theorem retransmit_generic_path (w : Worker) (now : Int) (t : TransContainer)
    (h : t.currentPool = some .Slave ∨
      (t.currentPool = some .Master ∧
        ¬ now - t.createdTime < w.retransmit_interval ∧
        (w.failover_to_slave = false ∨ w.slave = none))) :
    (w.retransmit_enable = false →
      w.retransmitTransaction now t =
        (0, (w.setRetransmitNextTime 0).delete t.trans.id, t) ∧
      (w.retransmitTransaction now t).2.1.deleted = w.deleted ++ [t.trans.id]) ∧
    (w.retransmit_enable = true → now - t.createdTime < w.retransmit_interval →
      w.retransmitTransaction now t =
        (1, w.setRetransmitNextTime (t.createdTime + w.retransmit_interval), t)) ∧
    (w.retransmit_enable = true → ¬ now - t.createdTime < w.retransmit_interval →
      w.retransmitTransaction now t =
        w.retransmitTransaction now { t with currentPool := none } ∧
      (w.retransmitTransaction now t).2.2.currentPool = none) := by
  have key : w.retransmitTransaction now t =
      if w.retransmit_enable = false then (0, (w.setRetransmitNextTime 0).delete t.trans.id, t)
      else if now - t.createdTime < w.retransmit_interval then
        (1, w.setRetransmitNextTime (t.createdTime + w.retransmit_interval), t)
      else w.retransmitTransaction now { t with currentPool := none } := by
    rcases h with hs | ⟨hp, hlt, hf⟩
    · exact Worker.retransmit_generic w now t (by rw [hs]; rfl) (by rw [hs]; rfl)
    · cases hm : w.master.isSome
      · exact Worker.retransmit_generic w now t (by rw [hp]; rfl)
          (by rw [hp]; exact hm)
      · rw [Worker.retransmit_primary_elapsed w now t hp hm hlt hf, if_neg hlt]
  refine ⟨fun hr => ?_, fun hr hlt => ?_, fun hr hlt => ?_⟩
  · rw [key, if_pos hr]
    exact ⟨rfl, rfl⟩
  · rw [key, if_neg (by simp [hr]), if_pos hlt]
  · have hk : w.retransmitTransaction now t =
        w.retransmitTransaction now { t with currentPool := none } := by
      rw [key, if_neg (by simp [hr]), if_neg hlt]
    exact ⟨hk, by rw [hk]; exact Worker.retransmit_noPool_record w now _ rfl⟩

/-- C11 (witness): a record whose last pool is the secondary, two seconds after its creation
with retry enabled and a retry interval of five seconds: the result is 1. -/
theorem retransmit_generic_path_witness :
    workerPrimaryBusy.retransmitTransaction 2 secondaryRetryRecord =
      (1, workerPrimaryBusy.setRetransmitNextTime 5, secondaryRetryRecord) :=
  (retransmit_generic_path workerPrimaryBusy 2 secondaryRetryRecord (Or.inl rfl)).2.1
    rfl (by decide)

/-- C12 (counterexample): `batch_size` is 1, the admission queue holds one single-statement
transaction and the primary connection is free, but the retry queue holds a record:
`checkQueue` drains the retry queue first, the retried transaction takes the connection, and
the queued transaction is neither dispatched nor removed from the queue. -/
theorem batch_not_dispatched_behind_retry :
    workerRetryPending.batch_size = 1 ∧
    workerRetryPending.queue = [queuedRecord 5] ∧
    (queuedRecord 5).trans.get_size = 1 ∧
    workerRetryPending.master.bind ConnectionPool.getFreeConnection = some (idleConn 100) ∧
    (workerRetryPending.checkQueue mergeAll 0).queue = [queuedRecord 5] ∧
    handles (workerRetryPending.checkQueue mergeAll 0).transactions = [3] := by
  decide

/-- C12: batching in `checkQueue`, when the retry queue is empty and `getFreeConnection`
finds a free connection `c`. The merge predicate `cm` is arbitrary and may look at the
accumulator; only the merges the loop actually performs are assumed to succeed
(`mergesInto`: each entry merges into the accumulator built from the entries before it). If
the admission queue holds `batch_size` single-statement transactions whose merges succeed,
`checkQueue` empties the queue and adds exactly one record to the active table: the
accumulator `batchOf`, a clone of the first transaction with the others merged in queue
order, which holds the statements of all of them (`batch_size` statements) and runs on `c`;
the originals are deleted and the queue gauge falls by `batch_size`. And when, after the
entries `x :: mid` were accumulated below `batch_size`, the merge of the next entry `xk`
fails, the loop dispatches the accumulator built from exactly `x :: mid`, removes exactly
these entries from the queue and goes on at `xk` with no accumulator, so that a clone of
`xk` is the head of the next batch. -/
theorem checkQueue_batches (cm : IPGTransaction → IPGTransaction → Bool) (w : Worker)
    (now : Int) (c : IPGConnection) (hc : (w.getFreeConnection none).conn = some c) :
    (∀ x tl, w.queue = x :: tl → w.batch_size = (x :: tl).length →
      (∀ y ∈ x :: tl, y.trans.get_size = 1) →
      mergesInto cm (x.trans.cloneAs w.nextId) tl = true →
      w.retransmit_q = [] →
      (w.checkQueue cm now).queue = [] ∧
      (w.checkQueue cm now).transactions = w.transactions ++
        [TransContainer.create now ((batchOf cm w.nextId x tl).startOn c.id)
          (w.getFreeConnection none).pool (tl.getLast?.getD x).sender_id
          (tl.getLast?.getD x).token] ∧
      (batchOf cm w.nextId x tl).queries =
        ((x :: tl).map (fun y => y.trans.queries)).flatten ∧
      (batchOf cm w.nextId x tl).get_size = w.batch_size ∧
      (w.checkQueue cm now).queue_size = w.queue_size - (w.batch_size : Int) ∧
      (w.checkQueue cm now).deleted = w.deleted ++ handles (x :: tl)) ∧
    (∀ fuel x mid xk tl, mergesInto cm (x.trans.cloneAs w.nextId) mid = true →
      ((x :: mid).map (fun y => y.trans.get_size)).sum < w.batch_size →
      cm (batchOf cm w.nextId x mid) xk.trans = false →
      ∃ w3 : Worker,
        w.batchLoop cm (fuel + mid.length + 2) now none 0 [] (x :: (mid ++ xk :: tl)) =
          w3.batchLoop cm fuel now none 0 [] (xk :: tl) ∧
        w3.transactions = w.transactions ++
          [TransContainer.create now ((batchOf cm w.nextId x mid).startOn c.id)
            (w.getFreeConnection none).pool (mid.getLast?.getD x).sender_id
            (mid.getLast?.getD x).token] ∧
        (batchOf cm w.nextId x mid).queries =
          ((x :: mid).map (fun y => y.trans.queries)).flatten ∧
        w3.queue = w.queue.drop (x :: mid).length ∧
        w3.deleted = w.deleted ++ handles (x :: mid) ∧
        (w3.batchFold cm none 0 [] xk tl).trans = xk.trans.cloneAs w3.nextId) := by
  constructor
  · intro x tl hq hB hsingle hm hretry
    have hsum : ∀ l : List TransContainer, (∀ y ∈ l, y.trans.get_size = 1) →
        (l.map (fun y => y.trans.get_size)).sum = l.length := by
      intro l
      induction l with
      | nil => intro _; rfl
      | cons y l ih =>
        intro h
        simp only [List.map_cons, List.sum_cons, List.length_cons,
          h y (List.mem_cons_self _ _),
          ih (fun z hz => h z (List.mem_cons_of_mem _ hz))]
        omega
    have hsize : ((x :: tl).dropLast.map (fun y => y.trans.get_size)).sum < w.batch_size := by
      rw [hsum _ (fun y hy => hsingle y (List.dropLast_subset _ hy)), hB,
        List.length_dropLast]
      simp
    have hloop := Worker.batchLoop_one_batch cm (tl.length + 2) w now x tl c hm hsize hc
    have hfuel : 2 * (x :: tl).length + 1 = tl.length + 2 + tl.length + 1 := by
      simp only [List.length_cons]
      omega
    have hdrain : w.drainRetry now [] w.retransmit_q = w := by
      rw [hretry]
      simp only [Worker.drainRetry]
      rw [← hretry]
    have hcq : w.checkQueue cm now =
        { w.batchLoop cm (2 * (x :: tl).length + 1) now none 0 [] (x :: tl) with
          send_next_time := 0 } := by
      unfold Worker.checkQueue
      simp only [hdrain, hq]
      rw [if_neg (by rw [hB]; simp), hfuel, hloop, hq]
      simp
    rw [hcq, hfuel, hloop, hq]
    have hq2 := batchOf_queries cm w.nextId x tl hm
    refine ⟨by simp, by simp [TransContainer.create], hq2, ?_, ?_, by simp⟩
    · rw [IPGTransaction.get_size, hq2, List.length_flatten, List.map_map, hB]
      exact hsum _ hsingle
    · simp only [hsum _ hsingle, hB]
  · intro fuel x mid xk tl hm hsize hfail
    simp only [List.map_cons, List.sum_cons] at hsize
    have hfuel : fuel + mid.length + 2 = (fuel + 1 + mid.length) + 1 := by omega
    have hb : mid.foldl (fun a y => (a.merge cm y.trans).getD a) (x.trans.cloneAs w.nextId) =
        batchOf cm w.nextId x mid := rfl
    have hlast : ([x] ++ mid).getLast?.getD xk = mid.getLast?.getD x := by
      cases mid with
      | nil => rfl
      | cons y l =>
        obtain ⟨z, hz⟩ : ∃ z, (y :: l).getLast? = some z :=
          ⟨_, List.getLast?_eq_getLast _ (List.cons_ne_nil _ _)⟩
        simp [List.getLast?_cons_cons, hz]
    have hloop : w.batchLoop cm (fuel + mid.length + 2) now none 0 [] (x :: (mid ++ xk :: tl)) =
        Worker.batchLoop cm fuel
          { (w.alloc.setRetransmitNextTime 0).startTransaction now
              (TransContainer.create now (batchOf cm w.nextId x mid) none
                (mid.getLast?.getD x).sender_id (mid.getLast?.getD x).token) c
              (w.getFreeConnection none).pool with
            deleted := w.deleted ++ handles ([x] ++ mid),
            queue := w.queue.drop ([x] ++ mid).length,
            queue_size := w.queue_size -
              ((x.trans.get_size + (mid.map (fun y => y.trans.get_size)).sum : Nat) : Int) }
          now none 0 [] (xk :: tl) := by
      rw [hfuel, Worker.batchLoop_first cm _ w now x _ (by omega) (by simp),
        Worker.batchLoop_skip cm now (xk :: tl) (by simp) mid (fuel + 1) w.alloc _ _ _ hm
          (by simpa using hsize),
        hb, Worker.batchLoop_merge_failure cm fuel w.alloc now _ _ _ xk tl c hfail hc, hlast]
      rfl
    exact ⟨_, hloop, by simp [TransContainer.create], batchOf_queries cm w.nextId x mid hm,
      by simp, by simp, rfl⟩

/-- C12 (witness): `batch_size` is 2, two single-statement transactions of the same type are
queued, the retry queue is empty and the primary connection is free. Under the predicate
`mergeSameType`, which refuses an accumulator of another type, the one merge performed
succeeds and `checkQueue` empties the queue. -/
theorem checkQueue_batches_witness :
    mergesInto mergeSameType ((queuedRecord 5).trans.cloneAs workerTwoQueued.nextId)
        [queuedRecord 6] = true ∧
      mergeSameType (idleTrans 0 .TR_POLICY []) (queuedRecord 6).trans = false ∧
      (workerTwoQueued.checkQueue mergeSameType 0).queue = [] :=
  ⟨by decide, by decide,
    ((checkQueue_batches mergeSameType workerTwoQueued 0 (idleConn 100) (by decide)).1
      (queuedRecord 5) [queuedRecord 6] rfl rfl (by decide) (by decide) rfl).1⟩

/-- C13: `Worker::onError` and `Worker::onPQError` for a transaction found in the active
table. The record leaves the active table. If neither `retransmit_enable` nor
`failover_to_slave` is set and the record has a producer address, exactly one
`PGResponseError` carrying the error text and the record's token is posted to that address
and the retry queue is unchanged. In every other case nothing is posted, and for a plain
transaction (`TR_NON`, pipelining off) exactly one record is appended to the retry queue:
a new transaction holding the current query, with the pool, producer address and token of
the failed record. -/
theorem onError_reports_or_requeues (w : Worker) (now : Int) (t : Nat) (error : String)
    (tr : TransContainer)
    (hfind : w.transactions.find? (fun x => x.trans.id == t) = some tr) :
    w.onPQError now t error = w.onError now t error ∧
    (w.onError now t error).transactions =
      w.transactions.eraseP (fun x => x.trans.id == t) ∧
    ((w.retransmit_enable = false ∧ w.failover_to_slave = false ∧ tr.sender_id ≠ "") →
      (w.onError now t error).posted =
        w.posted ++ [(tr.sender_id, PGEvent.PGResponseError error tr.token)] ∧
      (w.onError now t error).retransmit_q = w.retransmit_q) ∧
    (¬ (w.retransmit_enable = false ∧ w.failover_to_slave = false ∧ tr.sender_id ≠ "") →
      (w.onError now t error).posted = w.posted ∧
      (tr.trans.type = .TR_NON → w.use_pipeline = false →
        (w.onError now t error).retransmit_q = w.retransmit_q ++
          [{ trans := IPGTransaction.create w.nextId .TR_NON 0 tr.trans.get_current_query,
             currentPool := tr.currentPool, createdTime := now, token := tr.token,
             sender_id := tr.sender_id }])) := by
  refine ⟨rfl, ?_, ?_, ?_⟩
  · simp [Worker.onError, hfind]
  · rintro ⟨hr, hf, hs⟩
    simp [Worker.onError, hfind, Worker.onErrorTransaction, hr, hf, hs, Worker.post]
  · intro hn
    have hc : (!w.retransmit_enable && !w.failover_to_slave && tr.sender_id != "") = false := by
      cases hr : w.retransmit_enable <;> cases hf : w.failover_to_slave <;>
        simp_all
    constructor
    · simp only [Worker.onError, hfind]
      show (w.onErrorTransaction now tr error).1.posted = w.posted
      rw [Worker.onErrorTransaction, if_neg (by simp [hc])]
      repeat' split
      all_goals rfl
    · intro hty hp
      simp [Worker.onError, hfind, Worker.onErrorTransaction, hc, hty, hp, Worker.pushRetry,
        Worker.alloc, TransContainer.create]

/-- C13 (witness): the statement dispatched by `submitAndDispatch` fails on a Worker without
retry and failover: the error is posted to "producer" with the token of the submission. -/
theorem onError_reports_or_requeues_witness :
    (((workerWithPrimary false false 1 0).run mergeAll submitAndDispatch).onError
        1 1 "syntax error").posted =
      [("producer", PGEvent.PGResponseError "syntax error" "tok")] :=
  ((onError_reports_or_requeues ((workerWithPrimary false false 1 0).run mergeAll
      submitAndDispatch) 1 1 "syntax error"
    (TransContainer.create 0
      ((idleTrans 0 .TR_NON ["select 1"]).cloneAs 1 |>.startOn 100) (some .Master)
      "producer" "tok")
    (by decide)).2.2.1 (by decide)).1

/-- The bookkeeping of `checkConnection` moves gauges only. -/
theorem Worker.checkConnection_eq (w : Worker) (conn : Option Nat) (connect : Bool) :
    w.checkConnection conn connect =
      { w with master := (w.checkConnection conn connect).master,
               slave := (w.checkConnection conn connect).slave } := by
  cases w with
  | mk =>
    unfold Worker.checkConnection
    dsimp only
    split
    · rfl
    · split
      · split <;> rfl
      · rfl

@[simp] theorem Worker.checkConnection_resetConnections (w : Worker) (conn : Option Nat)
    (connect : Bool) : (w.checkConnection conn connect).resetConnections = w.resetConnections := by
  rw [Worker.checkConnection_eq]

@[simp] theorem ConnectionPool.checkConnection_connections (p : ConnectionPool)
    (conn : Option Nat) (connect : Bool) :
    (p.checkConnection conn connect).1.connections = p.connections := by
  unfold ConnectionPool.checkConnection
  split <;> rfl

theorem Worker.checkConnection_findConn (w : Worker) (conn : Option Nat) (connect : Bool)
    (cid : Nat) : (w.checkConnection conn connect).findConn cid = w.findConn cid := by
  unfold Worker.checkConnection Worker.findConn
  cases hm : w.master with
  | none => simp [hm]
  | some m =>
    cases hs : w.slave with
    | none => simp [hm, hs]
    | some s => by_cases hr : (m.checkConnection conn connect).2 = true <;> simp [hm, hs, hr]

theorem Worker.checkConnection_getDisconnectedTime (w : Worker) (conn : Option Nat)
    (connect : Bool) (c : Option Nat) :
    (w.checkConnection conn connect).getDisconnectedTime c = w.getDisconnectedTime c := by
  cases c with
  | none => rfl
  | some cid => simp [Worker.getDisconnectedTime, Worker.checkConnection_findConn]

theorem Worker.getDisconnectedTime_congr {w1 w2 : Worker} (hm : w1.master = w2.master)
    (hs : w1.slave = w2.slave) (c : Option Nat) :
    w1.getDisconnectedTime c = w2.getDisconnectedTime c := by
  cases c with
  | none => rfl
  | some cid => simp [Worker.getDisconnectedTime, Worker.findConn, hm, hs]

/-- C14: `Worker::onErrorCode(trans, code)` appends the connection of `trans` to the
pending-reset list if and only if the configured `reconnect_errors` list is empty or
contains `code`; it then sets `reset_next_time` to the disconnect time of the first pending
connection. When the list is not empty and does not contain `code` the Worker is left as it
was: the pending-reset list, `reset_next_time` and the connected gauges of both pools are
unchanged. -/
theorem onErrorCode_resets_iff (w : Worker) (now : Int) (t : IPGTransaction) (error : String) :
    ((w.onErrorCode now t error).resetConnections = w.resetConnections ++ [t.conn] ↔
      (w.reconnect_errors = [] ∨ error ∈ w.reconnect_errors)) ∧
    ((w.reconnect_errors = [] ∨ error ∈ w.reconnect_errors) →
      (w.onErrorCode now t error).reset_next_time =
        w.getDisconnectedTime ((w.resetConnections ++ [t.conn]).head?.bind id)) ∧
    (¬ (w.reconnect_errors = [] ∨ error ∈ w.reconnect_errors) →
      w.onErrorCode now t error = w ∧
      (w.onErrorCode now t error).resetConnections = w.resetConnections ∧
      (w.onErrorCode now t error).reset_next_time = w.reset_next_time ∧
      (w.onErrorCode now t error).master = w.master ∧
      (w.onErrorCode now t error).slave = w.slave) := by
  have hcond : (w.reconnect_errors.isEmpty || w.reconnect_errors.contains error) = true ↔
      (w.reconnect_errors = [] ∨ error ∈ w.reconnect_errors) := by
    simp [List.isEmpty_iff]
  have hno : ¬ (w.reconnect_errors = [] ∨ error ∈ w.reconnect_errors) →
      w.onErrorCode now t error = w := by
    intro h
    rw [Worker.onErrorCode, if_neg (fun hc => h (hcond.mp hc))]
  have hyes : (w.reconnect_errors = [] ∨ error ∈ w.reconnect_errors) →
      (w.onErrorCode now t error).resetConnections = w.resetConnections ++ [t.conn] := by
    intro h
    rw [Worker.onErrorCode, if_pos (hcond.mpr h)]
    simp
  refine ⟨⟨fun h => ?_, hyes⟩, fun h => ?_, fun h => ?_⟩
  · by_contra hc
    rw [hno hc] at h
    have := congrArg List.length h
    simp at this
  · rw [Worker.onErrorCode, if_pos (hcond.mpr h)]
    simp only [Worker.setWorkTimer_reset_next_time, Worker.checkConnection_resetConnections]
    rw [← Worker.checkConnection_getDisconnectedTime w t.conn false]
    exact Worker.getDisconnectedTime_congr rfl rfl _
  · rw [hno h]
    exact ⟨rfl, rfl, rfl, rfl, rfl⟩

/-- C14 (witness): with `reconnect_errors = ["57P01"]` the code "23505" leaves the Worker
unchanged. -/
theorem onErrorCode_resets_iff_witness :
    workerReconnectOn57P01.onErrorCode 3 ((idleTrans 7 .TR_NON ["select 1"]).startOn 100)
      "23505" = workerReconnectOn57P01 :=
  ((onErrorCode_resets_iff workerReconnectOn57P01 3
    ((idleTrans 7 .TR_NON ["select 1"]).startOn 100) "23505").2.2 (by decide)).1

/-- C15: `Worker::onStopTransaction`. For a transaction found in the active table, whatever
`retransmit_enable` and `failover_to_slave` are: the record leaves the active table, exactly
one record with the same transaction, producer address and token (and no pool) is appended
to the retry queue, nothing is posted, the active gauge falls and the retry gauge rises by
the size of the transaction, so that their sum is unchanged. For a transaction that is not
in the active table the Worker state is unchanged. -/
theorem onStopTransaction_requeues (w : Worker) (now : Int) (t : Nat) :
    (∀ tr, w.transactions.find? (fun x => x.trans.id == t) = some tr →
      (w.onStopTransaction now t).transactions =
        w.transactions.eraseP (fun x => x.trans.id == t) ∧
      (w.onStopTransaction now t).retransmit_q = w.retransmit_q ++
        [{ trans := tr.trans, currentPool := none, createdTime := now, token := tr.token,
           sender_id := tr.sender_id }] ∧
      (w.onStopTransaction now t).posted = w.posted ∧
      (w.onStopTransaction now t).tr_size = w.tr_size - tr.trans.get_size ∧
      (w.onStopTransaction now t).ret_size = w.ret_size + tr.trans.get_size ∧
      (w.onStopTransaction now t).tr_size + (w.onStopTransaction now t).ret_size =
        w.tr_size + w.ret_size) ∧
    (w.transactions.find? (fun x => x.trans.id == t) = none →
      w.onStopTransaction now t = w) := by
  constructor
  · intro tr hfind
    simp only [Worker.onStopTransaction, hfind, TransContainer.create, true_and]
    omega
  · intro hfind
    simp only [Worker.onStopTransaction, hfind]

/-- C15 (witness): stopping the transaction dispatched by `submitAndDispatch` on a Worker
without retry and failover moves it to the retry queue and posts nothing. -/
theorem onStopTransaction_requeues_witness :
    (((workerWithPrimary false false 1 0).run mergeAll submitAndDispatch).onStopTransaction
        1 1).retransmit_q =
      [{ trans := (idleTrans 0 .TR_NON ["select 1"]).cloneAs 1 |>.startOn 100,
         currentPool := none, createdTime := 1, token := "tok", sender_id := "producer" }] :=
  ((onStopTransaction_requeues ((workerWithPrimary false false 1 0).run mergeAll
      submitAndDispatch) 1 1).1
    (TransContainer.create 0
      ((idleTrans 0 .TR_NON ["select 1"]).cloneAs 1 |>.startOn 100) (some .Master)
      "producer" "tok")
    (by decide)).2.1

/-- A connection is free when its status is `CONNECTION_OK` and it has no current
transaction; this is the test of the loop of `ConnectionPool::getFreeConnection`. -/
theorem IPGConnection.free_iff (c : IPGConnection) :
    (!c.isBusy && c.status == .CONNECTION_OK) = true ↔
      c.status = .CONNECTION_OK ∧ c.cur_transaction = none := by
  cases hs : c.status <;> cases hc : c.cur_transaction <;>
    simp [IPGConnection.isBusy, hs, hc]

/-- C16: `ConnectionPool::getFreeConnection` returns the first connection, in pool order,
whose status is `CONNECTION_OK` and which has no current transaction: every connection
before the returned one fails one of the two conditions. It returns null exactly when no
connection of the pool satisfies both. The function only reads the pool. -/
theorem pool_getFreeConnection_first (p : ConnectionPool) :
    (∀ c, p.getFreeConnection = some c ↔
      (c.status = .CONNECTION_OK ∧ c.cur_transaction = none) ∧
      ∃ pre post, p.connections = pre ++ c :: post ∧
        ∀ x ∈ pre, ¬ (x.status = .CONNECTION_OK ∧ x.cur_transaction = none)) ∧
    (p.getFreeConnection = none ↔
      ∀ c ∈ p.connections, ¬ (c.status = .CONNECTION_OK ∧ c.cur_transaction = none)) := by
  constructor
  · intro c
    rw [ConnectionPool.getFreeConnection, List.find?_eq_some, IPGConnection.free_iff]
    constructor
    · rintro ⟨hc, pre, post, hl, hpre⟩
      refine ⟨hc, pre, post, hl, fun x hx hfree => ?_⟩
      have := hpre x hx
      rw [(IPGConnection.free_iff x).mpr hfree] at this
      cases this
    · rintro ⟨hc, pre, post, hl, hpre⟩
      refine ⟨hc, pre, post, hl, fun x hx => ?_⟩
      cases hb : (!x.isBusy && x.status == .CONNECTION_OK)
      · rfl
      · exact absurd ((IPGConnection.free_iff x).mp hb) (hpre x hx)
  · rw [ConnectionPool.getFreeConnection, List.find?_eq_none]
    constructor
    · intro h c hc hfree
      exact h c hc ((IPGConnection.free_iff c).mpr hfree)
    · intro h c hc hb
      exact h c hc ((IPGConnection.free_iff c).mp hb)

/-- C16 (witness): in a pool whose first connection is busy and whose second is free, the
second connection is returned. -/
theorem pool_getFreeConnection_first_witness :
    ({ connections := [busyConn 100 7, idleConn 200], type := .Master, connected := 2 } :
      ConnectionPool).getFreeConnection = some (idleConn 200) :=
  ((pool_getFreeConnection_first
    { connections := [busyConn 100 7, idleConn 200], type := .Master, connected := 2 }).1
    (idleConn 200)).mpr ⟨by decide, [busyConn 100 7], [], rfl, by decide⟩

/-- `ConnectionPool::checkConnection` returns true exactly for a member of the pool, moves
the gauge by one in that case and leaves the pool alone otherwise. -/
theorem ConnectionPool.checkConnection_spec (p : ConnectionPool) (conn : Nat) (connect : Bool) :
    ((p.checkConnection (some conn) connect).2 = true ↔ p.hasConn conn = true) ∧
    (p.hasConn conn = true →
      (p.checkConnection (some conn) connect).1.connected =
        if connect then p.connected + 1 else p.connected - 1) ∧
    (p.hasConn conn = false → (p.checkConnection (some conn) connect).1 = p) := by
  have hany : p.connections.any (fun c => some c.id == some conn) = p.hasConn conn := by
    unfold ConnectionPool.hasConn
    congr 1
  unfold ConnectionPool.checkConnection
  rw [hany]
  cases h : p.hasConn conn <;> simp

/-- The connected gauges after `onConnect` are those left by its first statement. -/
theorem Worker.onConnect_gauges (w : Worker) (now : Int) (conn : Nat) :
    (w.onConnect now conn).gauges = (w.checkConnection (some conn) true).gauges := by
  have hup : ∀ (v : Worker) (f : IPGConnection → IPGConnection),
      (v.updateConnAny conn f).gauges = v.gauges := by
    intro v f
    cases hm : v.master <;> cases hs : v.slave <;>
      simp [Worker.updateConnAny, Worker.gauges, ConnectionPool.updateConn, hm, hs]
  have hpipe : (if (w.checkConnection (some conn) true).use_pipeline = true then
        (w.checkConnection (some conn) true).updateConnAny conn IPGConnection.startPipeline
      else w.checkConnection (some conn) true).gauges =
      (w.checkConnection (some conn) true).gauges := by
    split
    · exact hup _ _
    · rfl
  have htail : ∀ v : Worker,
      (if (!v.prepareds.isEmpty || !v.search_pathes.isEmpty || !v.init_queries.isEmpty) = true
        then
          match v.alloc.findConn conn with
          | some c =>
            if c.isBusy then v.alloc.delete v.nextId
            else v.alloc.updateConnAny conn (fun c => c.runTransaction v.nextId)
          | none => v.alloc.delete v.nextId
        else v.setWorkTimer now true).gauges = v.gauges := by
    intro v
    split
    · split
      · split
        · rfl
        · exact hup _ _
      · rfl
    · rfl
  unfold Worker.onConnect
  exact (htail _).trans hpipe

/-- With a primary pool configured, `onConnect` adds one to the gauge of the pool that owns
the connection and leaves the other gauge alone. -/
theorem Worker.onConnect_gauges_of_primary (w : Worker) (now : Int) (conn : Nat)
    (m : ConnectionPool) (hm : w.master = some m) :
    (m.hasConn conn = true →
      (w.onConnect now conn).gauges =
        (some (m.connected + 1), w.slave.map (fun p => p.connected))) ∧
    (m.hasConn conn = false → ∀ s, w.slave = some s → s.hasConn conn = true →
      (w.onConnect now conn).gauges = (some m.connected, some (s.connected + 1))) := by
  rw [Worker.onConnect_gauges]
  have hM := ConnectionPool.checkConnection_spec m conn true
  constructor
  · intro h
    have h2 := hM.1.mpr h
    have h3 := hM.2.1 h
    simp only [if_true] at h3
    simp [Worker.checkConnection, Worker.gauges, hm, h2, h3]
  · intro h s hs hsc
    have h2 : (m.checkConnection (some conn) true).2 = false := by
      cases hb : (m.checkConnection (some conn) true).2
      · rfl
      · rw [hM.1.mp hb] at h; cases h
    have h3 := hM.2.2 h
    have h4 := (ConnectionPool.checkConnection_spec s conn true).2.1 hsc
    simp only [if_true] at h4
    simp [Worker.checkConnection, Worker.gauges, hm, hs, h2, h3, h4]

/-- C17: on a Worker that has a secondary pool only, `onConnect` for a connection of that
pool leaves the connected gauge of the pool at its old value 0 instead of raising it to 1:
the bookkeeping statement starts with the test `master &&` and never reaches
`slave->checkConnection`. -/
theorem onConnect_secondary_only_gauge_unchanged :
    workerSecondaryOnly.master = none ∧
    workerSecondaryOnly.slave.map (fun p => p.hasConn 200) = some true ∧
    workerSecondaryOnly.gauges = (none, some 0) ∧
    (workerSecondaryOnly.onConnect 0 200).gauges = (none, some 0) := by
  decide

/-- C18: round trip of the configuration. For every configuration `e` and every prior Worker
state, after `configure(e)` the struct `getConfig` writes into a fresh `AmArg` holds exactly
the nine tunables of `e` under their names (the numbers as `LongLong`, the flags as `Bool`),
`reset_next_time` and `retransmit_next_time` are 0, and the admission queue, the retry queue
and the active table are what they were. -/
theorem configure_getConfig_round_trip (typname2oid : String → Option Nat) (w : Worker)
    (now : Int) (e : PGWorkerConfig) :
    (w.configure typname2oid now e).getConfig .undef = .ok (.struct
      [("max_queue_length", .longLong e.max_queue_length),
       ("batch_size", .longLong e.batch_size),
       ("batch_timeout", .longLong e.batch_timeout),
       ("trans_wait_time", .longLong e.trans_wait_time),
       ("reconnect_interval", .longLong e.reconnect_interval),
       ("retransmit_interval", .longLong e.retransmit_interval),
       ("retransmit_enable", .bool e.retransmit_enable),
       ("failover_to_slave", .bool e.failover_to_slave),
       ("use_pipeline", .bool e.use_pipeline)]) ∧
    (w.configure typname2oid now e).reset_next_time = 0 ∧
    (w.configure typname2oid now e).retransmit_next_time = 0 ∧
    (w.configure typname2oid now e).queue = w.queue ∧
    (w.configure typname2oid now e).retransmit_q = w.retransmit_q ∧
    (w.configure typname2oid now e).transactions = w.transactions := by
  have h1 : (w.configure typname2oid now e).max_queue_length = e.max_queue_length := by
    simp [Worker.configure, Worker.setReconnectErrors]
  have h2 : (w.configure typname2oid now e).batch_size = e.batch_size := by
    simp [Worker.configure, Worker.setReconnectErrors]
  have h3 : (w.configure typname2oid now e).batch_timeout = e.batch_timeout := by
    simp [Worker.configure, Worker.setReconnectErrors]
  have h4 : (w.configure typname2oid now e).trans_wait_time = e.trans_wait_time := by
    simp [Worker.configure, Worker.setReconnectErrors]
  have h5 : (w.configure typname2oid now e).reconnect_interval = e.reconnect_interval := by
    simp [Worker.configure, Worker.setReconnectErrors]
  have h6 : (w.configure typname2oid now e).retransmit_interval = e.retransmit_interval := by
    simp [Worker.configure, Worker.setReconnectErrors]
  have h7 : (w.configure typname2oid now e).retransmit_enable = e.retransmit_enable := by
    simp [Worker.configure, Worker.setReconnectErrors]
  have h8 : (w.configure typname2oid now e).failover_to_slave = e.failover_to_slave := by
    simp [Worker.configure, Worker.setReconnectErrors]
  have h9 : (w.configure typname2oid now e).use_pipeline = e.use_pipeline := by
    simp [Worker.configure, Worker.setReconnectErrors]
  refine ⟨?_, ?_, ?_, ?_, ?_, ?_⟩
  · simp only [Worker.getConfig, h1, h2, h3, h4, h5, h6, h7, h8, h9]
    rfl
  · simp [Worker.configure]
  · simp [Worker.configure]
  · simp [Worker.configure, Worker.setReconnectErrors]
  · simp [Worker.configure, Worker.setReconnectErrors]
  · simp [Worker.configure, Worker.setReconnectErrors]

/-- The `case` labels of `assertArrayFmt` agree with the documented letters. -/
theorem AmArg.fmtType_documented (c : Char)
    (h : c ∈ AmArg.documentedFormat.map (fun e => e.1)) :
    ∃ ty, AmArg.fmtType c = some ty ∧ AmArg.documentedType c = some ty := by
  simp only [AmArg.documentedFormat, List.map_cons, List.map_nil, List.mem_cons,
    List.mem_singleton, List.not_mem_nil, or_false] at h
  rcases h with h | h | h | h | h | h | h | h | h | h <;> subst h <;> exact ⟨_, rfl, rfl⟩

/-- One turn of the loop of `assertArrayFmt` at a letter with a `case` label. -/
theorem AmArg.assertArrayFmtFrom_cons (v : List AmArg) (c : Char) (rest : List Char) (i : Nat)
    (ty : AmArgType) (hty : AmArg.fmtType c = some ty) :
    (AmArg.array v).assertArrayFmtFrom (c :: rest) i =
      match v.get? i with
      | none => .error .OutOfBoundsException
      | some x =>
        if x.getType = ty then (AmArg.array v).assertArrayFmtFrom rest (i + 1)
        else .error .TypeMismatchException := by
  rw [AmArg.assertArrayFmtFrom, hty]
  simp only [AmArg.get]
  cases v.get? i <;> rfl

/-- The loop of `assertArrayFmt` from index `i` on, for a format of documented letters. -/
theorem AmArg.assertArrayFmtFrom_spec (v : List AmArg) (format : List Char) :
    ∀ i : Nat, (∀ c ∈ format, c ∈ AmArg.documentedFormat.map (fun e => e.1)) →
    (((AmArg.array v).assertArrayFmtFrom format i = .ok () ↔
      ∀ j c, format.get? j = some c →
        ∃ x, v.get? (i + j) = some x ∧ AmArg.documentedType c = some x.getType) ∧
    ((∃ j c x, format.get? j = some c ∧ v.get? (i + j) = some x ∧
        AmArg.documentedType c ≠ some x.getType) →
      (AmArg.array v).assertArrayFmtFrom format i = .error .TypeMismatchException) ∧
    ((∀ j c x, format.get? j = some c → v.get? (i + j) = some x →
        AmArg.documentedType c = some x.getType) →
      i ≤ v.length → v.length < i + format.length →
      (AmArg.array v).assertArrayFmtFrom format i = .error .OutOfBoundsException)) := by
  induction format with
  | nil =>
    intro i _
    refine ⟨⟨fun _ j c h => ?_, fun _ => rfl⟩, ?_, ?_⟩
    · simp at h
    · rintro ⟨j, c, x, h, -⟩
      simp at h
    · intro _ h1 h2
      simp at h2
      omega
  | cons c rest ih =>
    intro i hf
    obtain ⟨ty, hty, hdoc⟩ := AmArg.fmtType_documented c (hf c (List.mem_cons_self _ _))
    have hrest : ∀ c ∈ rest, c ∈ AmArg.documentedFormat.map (fun e => e.1) :=
      fun d hd => hf d (List.mem_cons_of_mem _ hd)
    obtain ⟨ihok, ihtm, ihoob⟩ := ih (i + 1) hrest
    rw [AmArg.assertArrayFmtFrom_cons v c rest i ty hty]
    cases hv : v.get? i with
    | none =>
      have hlen : v.length ≤ i := List.get?_eq_none.mp hv
      refine ⟨⟨fun h => (by cases h), fun h => ?_⟩, ?_, fun _ _ _ => rfl⟩
      · obtain ⟨x, hx, -⟩ := h 0 c rfl
        rw [Nat.add_zero, hv] at hx
        cases hx
      · rintro ⟨j, d, x, -, hx, -⟩
        have : v.get? (i + j) = none := List.get?_eq_none.mpr (by omega)
        rw [this] at hx
        cases hx
    | some x =>
      have hilt : i < v.length := by
        by_contra hc
        rw [List.get?_eq_none.mpr (by omega)] at hv
        cases hv
      by_cases ht : x.getType = ty
      · simp only [ht, if_true]
        refine ⟨⟨fun h j d hd => ?_, fun h => ?_⟩, ?_, ?_⟩
        · cases j with
          | zero =>
            simp only [List.get?_cons_zero, Option.some.injEq] at hd
            subst hd
            exact ⟨x, by rw [Nat.add_zero, hv], by rw [hdoc, ht]⟩
          | succ j =>
            rw [List.get?_cons_succ] at hd
            have := ihok.mp h j d hd
            rwa [Nat.add_assoc, Nat.add_comm 1 j] at this
        · refine ihok.mpr (fun j d hd => ?_)
          have := h (j + 1) d (by rw [List.get?_cons_succ]; exact hd)
          rwa [Nat.add_assoc, Nat.add_comm 1 j]
        · rintro ⟨j, d, y, hd, hy, hne⟩
          cases j with
          | zero =>
            simp only [List.get?_cons_zero, Option.some.injEq] at hd
            subst hd
            rw [Nat.add_zero, hv] at hy
            cases hy
            exact absurd (by rw [hdoc, ht]) hne
          | succ j =>
            rw [List.get?_cons_succ] at hd
            refine ihtm ⟨j, d, y, hd, ?_, hne⟩
            rwa [Nat.add_assoc, Nat.add_comm 1 j]
        · intro hall _ hshort
          refine ihoob (fun j d y hd hy => ?_) hilt ?_
          · refine hall (j + 1) d y (by rw [List.get?_cons_succ]; exact hd) ?_
            rwa [Nat.add_assoc, Nat.add_comm 1 j] at hy
          · simp only [List.length_cons] at hshort
            omega
      · simp only [ht, if_false]
        refine ⟨⟨fun h => (by cases h), fun h => ?_⟩, fun _ => trivial, fun hall _ _ => ?_⟩
        · obtain ⟨y, hy, hdy⟩ := h 0 c rfl
          rw [Nat.add_zero, hv] at hy
          cases hy
          rw [hdoc] at hdy
          exact absurd (Option.some.inj hdy).symm ht
        · have hdy := hall 0 c x rfl (by rw [Nat.add_zero, hv])
          rw [hdoc] at hdy
          exact absurd (Option.some.inj hdy).symm ht

/-- A format of documented letters holds no NUL: `strlen` sees all of it. -/
theorem AmArg.takeWhile_documented (l : List Char)
    (hf : ∀ c ∈ l, c ∈ AmArg.documentedFormat.map (fun e => e.1)) :
    l.takeWhile (fun c => c ≠ Char.ofNat 0) = l := by
  rw [List.takeWhile_eq_self_iff]
  intro c hc
  have h := hf c hc
  simp only [AmArg.documentedFormat, List.map_cons, List.map_nil, List.mem_cons,
    List.mem_singleton, List.not_mem_nil, or_false] at h
  rcases h with h | h | h | h | h | h | h | h | h | h <;> subst h <;> decide

/-- C19: `AmArg::assertArrayFmt(format)` on an array, for a format made of the ten documented
letters only. It returns normally if and only if the array conforms to the format: it has
an element at every index of the format, of the type documented for the letter at that
index. Otherwise it throws one of the two exceptions: `TypeMismatchException` when an element
that is present has the wrong type, `OutOfBoundsException` when every element that is
present has the right type and the array is shorter than the format. -/
theorem assertArrayFmt_iff_conforms (v : List AmArg) (format : String)
    (hf : ∀ c ∈ format.toList, c ∈ AmArg.documentedFormat.map (fun e => e.1)) :
    ((AmArg.array v).assertArrayFmt format = .ok () ↔ AmArg.ConformsTo v format.toList) ∧
    (¬ AmArg.ConformsTo v format.toList →
      (AmArg.array v).assertArrayFmt format = .error .OutOfBoundsException ∨
      (AmArg.array v).assertArrayFmt format = .error .TypeMismatchException) ∧
    ((∃ i c x, format.toList.get? i = some c ∧ v.get? i = some x ∧
        AmArg.documentedType c ≠ some x.getType) →
      (AmArg.array v).assertArrayFmt format = .error .TypeMismatchException) ∧
    ((∀ i c x, format.toList.get? i = some c → v.get? i = some x →
        AmArg.documentedType c = some x.getType) →
      v.length < format.toList.length →
      (AmArg.array v).assertArrayFmt format = .error .OutOfBoundsException) := by
  have hspec := AmArg.assertArrayFmtFrom_spec v format.toList 0 hf
  simp only [Nat.zero_add] at hspec
  obtain ⟨hok, htm, hoob⟩ := hspec
  have hrun : (AmArg.array v).assertArrayFmt format =
      (AmArg.array v).assertArrayFmtFrom format.toList 0 := by
    rw [AmArg.assertArrayFmt, AmArg.takeWhile_documented _ hf]
  rw [hrun]
  refine ⟨hok, fun hnot => ?_, htm, fun hall hshort => hoob hall (Nat.zero_le _) hshort⟩
  by_cases hm : ∃ i c x, format.toList.get? i = some c ∧ v.get? i = some x ∧
      AmArg.documentedType c ≠ some x.getType
  · exact Or.inr (htm hm)
  · left
    have hall : ∀ i c x, format.toList.get? i = some c → v.get? i = some x →
        AmArg.documentedType c = some x.getType := by
      intro i c x hc hx
      by_contra hne
      exact hm ⟨i, c, x, hc, hx, hne⟩
    refine hoob hall (Nat.zero_le _) ?_
    by_contra hlen
    refine hnot (fun i c hc => ?_)
    have hi : i < format.toList.length := by
      by_contra hge
      rw [List.get?_eq_none.mpr (by omega)] at hc
      cases hc
    cases hx : v.get? i with
    | none =>
      have := List.get?_eq_none.mp hx
      omega
    | some x => exact ⟨x, rfl, hall i c x hc hx⟩

/-- C19 (witness): the example of the documentation, the format "ssif" on
`[cstr, cstr, int, double]`. -/
theorem assertArrayFmt_iff_conforms_witness :
    AmArg.ConformsTo [.cstr "a", .cstr "b", .int 1, .double 0] "ssif".toList :=
  (assertArrayFmt_iff_conforms [.cstr "a", .cstr "b", .int 1, .double 0] "ssif"
    (by decide)).1.mp rfl

/-- The walk of `onTimer` over the active table never leaves an entry that is Canceling and
older than twice `trans_wait_time`: every iteration appends the connection of the entry to
the pending-reset list and stays at the entry. -/
theorem Worker.timerWalk_stuck (current : Int) (i : Nat) (tr : TransContainer) :
    ∀ (fuel : Nat) (w : Worker), w.transactions.get? i = some tr →
      tr.trans.status = .CANCELING →
      current - tr.createdTime > ((w.trans_wait_time * 2 % 2 ^ 32 : Nat) : Int) →
      w.timerWalk fuel current i =
        ({ w with resetConnections := w.resetConnections ++ List.replicate fuel tr.trans.conn },
          false) := by
  intro fuel
  induction fuel with
  | zero =>
    intro w _ _ _
    simp [Worker.timerWalk]
  | succ n ih =>
    intro w hget hst hage
    rw [Worker.timerWalk]
    simp only [hget, hst, ne_eq, not_true_eq_false, and_false, if_false, hage, and_self, if_true]
    rw [ih { w with resetConnections := w.resetConnections ++ [tr.trans.conn] } hget hst hage]
    simp [List.replicate_succ]

/-- C20: `Worker::onTimer` does not terminate on a state every run can reach. After one
statement was submitted, dispatched at time 0 and timed out at time 15, the active table
holds it with status Canceling; the tick at time 25 (more than twice the wait time of 10
after its creation) never gets past that entry: for every bound on the number of iterations
the walk is still running and has appended the connection once per iteration. -/
theorem onTimer_walk_never_ends (fuel : Nat) :
    (((workerWithPrimary false false 1 0).run mergeAll submitDispatchTimeout).onTimer
        mergeAll fuel 25).2 = false ∧
    (((workerWithPrimary false false 1 0).run mergeAll submitDispatchTimeout).onTimer
        mergeAll fuel 25).1.resetConnections = List.replicate fuel (some 100) := by
  have hstate : (((workerWithPrimary false false 1 0).run mergeAll
      submitDispatchTimeout).onTimerResets 25).transactions.get? 0 =
      some { trans := ((idleTrans 0 .TR_NON ["select 1"]).cloneAs 1 |>.startOn 100).cancel,
             currentPool := some .Master, createdTime := 0, token := "tok",
             sender_id := "producer" } := by
    decide
  have hreset : (((workerWithPrimary false false 1 0).run mergeAll
      submitDispatchTimeout).onTimerResets 25).resetConnections = [] := by
    decide
  have hwalk := Worker.timerWalk_stuck 25 0 _ fuel _ hstate rfl (by decide)
  simp only [Worker.onTimer, hwalk, hreset]
  exact ⟨rfl, rfl⟩

/-- C21 (counterexample): a chained transaction with two statements ran on the primary pool
and fails with retry enabled. Both pieces land in the retry queue with the primary pool
recorded: the rest of the chain ("insert 2") has a pool, it is not none. -/
theorem chain_remainder_keeps_pool :
    (((workerWithPrimary false true 1 0).run mergeAll submitChain).transactions.map
      (fun r => (r.trans.queries, r.currentPool))) =
        [(["insert 1", "insert 2"], some .Master)] ∧
    ((((workerWithPrimary false true 1 0).run mergeAll submitChain).onError 1 1
      "boom").retransmit_q.map (fun r => (r.trans.queries, r.currentPool))) =
        [(["insert 2"], some .Master), (["insert 1"], some .Master)] := by
  decide

/-- C21: when `onErrorTransaction` requeues a failed chained transaction with more than one
query (`TR_POLICY`, or `TR_NON` under pipelining), two records are appended to the retry
queue, both with the pool, producer address and token of the failed record: first a clone of
the chain without the current query, then a new transaction holding the current query. -/
theorem onErrorTransaction_splits_chain (w : Worker) (now : Int) (tr : TransContainer)
    (error : String)
    (hreq : ¬ (w.retransmit_enable = false ∧ w.failover_to_slave = false ∧ tr.sender_id ≠ ""))
    (hty : tr.trans.type = .TR_POLICY ∨ (tr.trans.type = .TR_NON ∧ w.use_pipeline = true))
    (hsize : tr.trans.get_size > 1) :
    (w.onErrorTransaction now tr error).1.retransmit_q = w.retransmit_q ++
      [{ trans := tr.trans.removeCurrentQuery.cloneAs w.nextId,
         currentPool := tr.currentPool, createdTime := now, token := tr.token,
         sender_id := tr.sender_id },
       { trans := IPGTransaction.create (w.nextId + 1) tr.trans.type
           (if tr.trans.type = .TR_POLICY then tr.trans.policy else 0)
           tr.trans.get_current_query,
         currentPool := tr.currentPool, createdTime := now, token := tr.token,
         sender_id := tr.sender_id }] ∧
    (w.onErrorTransaction now tr error).1.posted = w.posted := by
  have hc : (!w.retransmit_enable && !w.failover_to_slave && tr.sender_id != "") = false := by
    cases hr : w.retransmit_enable <;> cases hf : w.failover_to_slave <;> simp_all
  rcases hty with hp | ⟨hn, hpipe⟩
  · simp [Worker.onErrorTransaction, hc, hp, hsize, Worker.pushRetry, Worker.alloc,
      TransContainer.create, IPGTransaction.removeCurrentQuery]
  · simp [Worker.onErrorTransaction, hc, hn, hpipe, hsize, Worker.pushRetry, Worker.alloc,
      TransContainer.create, IPGTransaction.removeCurrentQuery]

/-- C21 (witness): the chain of `submitChain` fails with retry enabled: two records are
requeued and nothing is posted. -/
theorem onErrorTransaction_splits_chain_witness :
    (((workerWithPrimary false true 1 0).run mergeAll submitChain).onErrorTransaction 1
      (TransContainer.create 0
        ((idleTrans 0 .TR_POLICY ["insert 1", "insert 2"]).cloneAs 1 |>.startOn 100)
        (some .Master) "" "tok") "boom").1.posted =
      ((workerWithPrimary false true 1 0).run mergeAll submitChain).posted :=
  (onErrorTransaction_splits_chain ((workerWithPrimary false true 1 0).run mergeAll submitChain)
    1 (TransContainer.create 0
        ((idleTrans 0 .TR_POLICY ["insert 1", "insert 2"]).cloneAs 1 |>.startOn 100)
        (some .Master) "" "tok") "boom" (by decide) (Or.inl rfl) (by decide)).2

/-- A record that `retransmitTransaction` does not consume (result -1 or 1) comes back with
at most its pool cleared; with result 1 it comes back unchanged. -/
theorem Worker.retransmit_record_kept (w : Worker) (now : Int) (t : TransContainer) :
    ((w.retransmitTransaction now t).1 ≠ 0 →
      (w.retransmitTransaction now t).2.2.payload = t.payload) ∧
    ((w.retransmitTransaction now t).1 = 1 → (w.retransmitTransaction now t).2.2 = t) := by
  have h := Worker.retransmit_outcome w now t
  generalize w.retransmitTransaction now t = r at h
  rcases h with ⟨t1, w1, ht1, -⟩ | _ | ⟨t1, conn, pool, -⟩ | ⟨w1, -⟩
  · refine ⟨fun _ => ?_, fun h => by simp at h⟩
    rcases ht1 with rfl | rfl <;> rfl
  · exact ⟨fun h => absurd rfl h, fun h => by simp at h⟩
  · exact ⟨fun h => absurd rfl h, fun h => by simp at h⟩
  · exact ⟨fun _ => rfl, fun _ => rfl⟩

/-- The retry-queue drain keeps the order of the entries that stay. -/
theorem Worker.drainRetry_sublist (w : Worker) (now : Int) (kept rest : List TransContainer) :
    ((w.drainRetry now kept rest).retransmit_q.map TransContainer.payload).Sublist
      ((kept ++ rest).map TransContainer.payload) := by
  induction rest generalizing w kept with
  | nil => simp [Worker.drainRetry]
  | cons e tl ih =>
    have hk := Worker.retransmit_record_kept w now e
    simp only [Worker.drainRetry]
    split
    · rename_i hneg
      simp only [List.map_append, List.map_cons, hk.1 (by omega)]
      exact List.Sublist.refl _
    · split
      · rename_i hpos
        have := ih (w.retransmitTransaction now e).2.1
          (kept ++ [(w.retransmitTransaction now e).2.2])
        simpa only [List.map_append, List.map_cons, List.map_nil, hk.1 (by omega),
          List.append_assoc, List.singleton_append] using this
      · have := ih { (w.retransmitTransaction now e).2.1 with
          ret_size := (w.retransmitTransaction now e).2.1.ret_size - e.trans.get_size } kept
        refine this.trans ?_
        simp only [List.map_append, List.map_cons]
        exact List.Sublist.append_left (List.sublist_cons_self _ _) _

/-- The retry-queue drain keeps the retry gauge in step with the retry queue. -/
theorem Worker.drainRetry_gauge (w : Worker) (now : Int) (kept rest : List TransContainer) :
    (w.drainRetry now kept rest).ret_size - sizeSum (w.drainRetry now kept rest).retransmit_q =
      w.ret_size - sizeSum (kept ++ rest) := by
  induction rest generalizing w kept with
  | nil => simp [Worker.drainRetry]
  | cons e tl ih =>
    have hk := Worker.retransmit_record_kept w now e
    simp only [Worker.drainRetry]
    split
    · rename_i hneg
      have hp := hk.1 (by omega)
      have hs : (w.retransmitTransaction now e).2.2.trans = e.trans :=
        congrArg (fun p => p.1) hp
      simp [sizeSum_append, sizeSum_cons, hs]
    · split
      · rename_i hpos
        have hp := hk.1 (by omega)
        have hs : (w.retransmitTransaction now e).2.2.trans = e.trans :=
          congrArg (fun p => p.1) hp
        rw [ih]
        simp [sizeSum_append, sizeSum_cons, sizeSum_nil, hs]
      · rw [ih]
        simp [sizeSum_append, sizeSum_cons]
        omega

/-- C22: the retry-queue drain of `checkQueue`. The entries are offered to
`retransmitTransaction` in queue order (`kept` are the entries already passed that stay).
At an entry whose result is -1 the scan stops: that entry (with at most its pool cleared) and
every later entry stay in place. An entry whose result is 1 stays, unchanged, and the scan
goes on behind it. An entry whose result is 0 is removed and the retry gauge falls by the
size the entry had before the call. The entries that remain keep their relative order, and
the retry gauge falls by exactly the sizes of the entries that left. -/
theorem drainRetry_scan (w : Worker) (now : Int) (kept : List TransContainer)
    (e : TransContainer) (tl : List TransContainer) :
    w.drainRetry now kept [] = { w with retransmit_q := kept } ∧
    ((w.retransmitTransaction now e).1 = -1 →
      w.drainRetry now kept (e :: tl) =
        { (w.retransmitTransaction now e).2.1 with
          retransmit_q := kept ++ (w.retransmitTransaction now e).2.2 :: tl } ∧
      (w.retransmitTransaction now e).2.2.payload = e.payload) ∧
    ((w.retransmitTransaction now e).1 = 1 →
      w.drainRetry now kept (e :: tl) =
        (w.retransmitTransaction now e).2.1.drainRetry now (kept ++ [e]) tl) ∧
    ((w.retransmitTransaction now e).1 = 0 →
      w.drainRetry now kept (e :: tl) =
        Worker.drainRetry
          { (w.retransmitTransaction now e).2.1 with
            ret_size := (w.retransmitTransaction now e).2.1.ret_size - e.trans.get_size }
          now kept tl ∧
      (w.retransmitTransaction now e).2.1.ret_size = w.ret_size) ∧
    ((w.drainRetry now [] w.retransmit_q).retransmit_q.map TransContainer.payload).Sublist
      (w.retransmit_q.map TransContainer.payload) ∧
    (w.drainRetry now [] w.retransmit_q).ret_size -
        sizeSum (w.drainRetry now [] w.retransmit_q).retransmit_q =
      w.ret_size - sizeSum w.retransmit_q := by
  have hk := Worker.retransmit_record_kept w now e
  refine ⟨rfl, fun h => ⟨?_, hk.1 (by omega)⟩, fun h => ?_, fun h => ⟨?_, by simp⟩, ?_, ?_⟩
  · simp [Worker.drainRetry, h]
  · simp [Worker.drainRetry, h, hk.2 h]
  · simp [Worker.drainRetry, h]
  · simpa using Worker.drainRetry_sublist w now [] w.retransmit_q
  · simpa using Worker.drainRetry_gauge w now [] w.retransmit_q

/-- C22 (witness): the retry queue holds one record that is still within its retry interval:
the drain leaves it in the queue. -/
theorem drainRetry_scan_witness :
    workerPrimaryBusy.drainRetry 2 [] [primaryRetryRecord] =
      (workerPrimaryBusy.retransmitTransaction 2 primaryRetryRecord).2.1.drainRetry 2
        ([] ++ [primaryRetryRecord]) [] :=
  (drainRetry_scan workerPrimaryBusy 2 [] primaryRetryRecord []).2.2.1 (by decide)

/-- Dispatching a record with no pool recorded either finds no connection and leaves the
active table alone, or appends the started record to the active table. -/
theorem Worker.retransmit_noPool_transactions (w : Worker) (now : Int) (t : TransContainer)
    (h : t.currentPool = none) :
    ((w.retransmitTransaction now t).1 < 0 ∧
      (w.retransmitTransaction now t).2.1.transactions = w.transactions) ∨
    (¬ (w.retransmitTransaction now t).1 < 0 ∧
      ∃ r : TransContainer, r.trans.get_size = t.trans.get_size ∧
        (w.retransmitTransaction now t).2.1.transactions = w.transactions ++ [r]) := by
  cases hc : (w.getFreeConnection none).conn with
  | some c =>
    right
    rw [Worker.retransmit_noPool_started w now t c h hc]
    exact ⟨by simp, TransContainer.create now (t.trans.startOn c.id)
      (w.getFreeConnection none).pool t.sender_id t.token, rfl,
      by simp [TransContainer.create]⟩
  | none =>
    left
    have hg : (w.setRetransmitNextTime 0).getFreeConnection none = w.getFreeConnection none :=
      rfl
    simp only [Worker.retransmitTransaction, Worker.retransmitTransactionAux, h,
      Option.isNone_none, if_true, hg, hc]
    refine ⟨by decide, ?_⟩
    split <;> simp

/-- After the first `if / else if / else` of the loop body the accumulator holds as many
statements as were counted, and not more than `batch_size - 1` plus the size of the entry
just looked at. -/
theorem Worker.batchFold_size (cm : IPGTransaction → IPGTransaction → Bool) (w : Worker)
    (acc : Option IPGTransaction) (count : Nat) (pre : List TransContainer)
    (x : TransContainer) (tl : List TransContainer) (S : Nat)
    (hx : x.trans.get_size ≤ S) (hB : 1 ≤ w.batch_size)
    (hacc : ∀ a, acc = some a → a.get_size = count ∧ count < w.batch_size)
    (hnone : acc = none → count = 0) :
    (w.batchFold cm acc count pre x tl).trans.get_size =
      (w.batchFold cm acc count pre x tl).count ∧
    (w.batchFold cm acc count pre x tl).count ≤ w.batch_size - 1 + S ∧
    (w.batchFold cm acc count pre x tl).w.transactions = w.transactions ∧
    (w.batchFold cm acc count pre x tl).w.batch_size = w.batch_size ∧
    (∀ y ∈ (w.batchFold cm acc count pre x tl).next, y = x ∨ y ∈ tl) := by
  cases acc with
  | none =>
    have h0 := hnone rfl
    subst h0
    simp only [Worker.batchFold, Nat.zero_add]
    exact ⟨rfl, by omega, rfl, rfl, fun y hy => Or.inr hy⟩
  | some a =>
    obtain ⟨ha, hlt⟩ := hacc a rfl
    by_cases hm : cm a x.trans = true
    · rw [Worker.batchFold_merged cm w a count pre x tl hm]
      refine ⟨?_, by dsimp only; omega, rfl, rfl, fun y hy => Or.inr hy⟩
      simp [IPGTransaction.merge, hm, IPGTransaction.get_size] at ha ⊢
      omega
    · rw [Worker.batchFold_failed cm w a count pre x tl (by simpa using hm)]
      refine ⟨ha, by dsimp only; omega, rfl, rfl, fun y hy => ?_⟩
      rcases List.mem_cons.mp hy with h | h
      · exact Or.inl h
      · exact Or.inr h

/-- Every record the batching loop adds to the active table holds at most
`batch_size - 1 + S` statements when no queue entry holds more than `S`. -/
theorem Worker.batchLoop_added (cm : IPGTransaction → IPGTransaction → Bool) (now : Int)
    (S : Nat) :
    ∀ (fuel : Nat) (w : Worker) (acc : Option IPGTransaction) (count : Nat)
      (pre rest : List TransContainer),
      (∀ x ∈ rest, x.trans.get_size ≤ S) → 1 ≤ w.batch_size →
      (∀ a, acc = some a → a.get_size = count ∧ count < w.batch_size) →
      (acc = none → count = 0) →
      ∃ added : List TransContainer,
        (w.batchLoop cm fuel now acc count pre rest).transactions = w.transactions ++ added ∧
        ∀ r ∈ added, r.trans.get_size ≤ w.batch_size - 1 + S := by
  intro fuel
  induction fuel with
  | zero => intro w acc count pre rest _ _ _ _; exact ⟨[], by simp [Worker.batchLoop]⟩
  | succ fuel ih =>
    intro w acc count pre rest hrest hB hacc hnone
    cases rest with
    | nil => exact ⟨[], by simp [Worker.batchLoop]⟩
    | cons x tl =>
      obtain ⟨hsz, hle, htr, hbs, hnext⟩ := Worker.batchFold_size cm w acc count pre x tl S
        (hrest x (List.mem_cons_self _ _)) hB hacc hnone
      have hnextS : ∀ y ∈ (w.batchFold cm acc count pre x tl).next, y.trans.get_size ≤ S := by
        intro y hy
        rcases hnext y hy with h | h
        · rw [h]; exact hrest x (List.mem_cons_self _ _)
        · exact hrest y (List.mem_cons_of_mem _ h)
      simp only [Worker.batchLoop]
      generalize w.batchFold cm acc count pre x tl = s at hsz hle htr hbs hnextS ⊢
      split
      · have hcases := Worker.retransmit_noPool_transactions s.w now
          (TransContainer.create now s.trans none s.cur.sender_id s.cur.token) rfl
        have hrb : (s.w.retransmitTransaction now
            (TransContainer.create now s.trans none s.cur.sender_id s.cur.token)).2.1.batch_size
            = w.batch_size := by
          rw [Worker.retransmit_batch_size, hbs]
        generalize s.w.retransmitTransaction now
          (TransContainer.create now s.trans none s.cur.sender_id s.cur.token) = r
          at hcases hrb ⊢
        rcases hcases with ⟨hneg, ht⟩ | ⟨hneg, rec, hrec, ht⟩
        · rw [if_pos hneg]
          exact ⟨[], by simp [ht, htr]⟩
        · rw [if_neg hneg]
          obtain ⟨added, hadd, hbound⟩ := ih
            { r.2.1 with
              deleted := r.2.1.deleted ++ handles s.consumed,
              queue := r.2.1.queue.drop s.consumed.length,
              queue_size := r.2.1.queue_size - s.count } none 0 [] s.next hnextS
            (by simpa [hrb] using hB) (fun a h => by cases h) (fun _ => rfl)
          refine ⟨rec :: added, ?_, ?_⟩
          · rw [hadd]
            simp [ht, htr]
          · intro q hq
            rcases List.mem_cons.mp hq with h | h
            · rw [h, hrec]
              show s.trans.get_size ≤ _
              omega
            · have := hbound q h
              simpa [hrb] using this
      · rename_i hcond
        obtain ⟨added, hadd, hbound⟩ := ih s.w (some s.trans) s.count s.consumed s.next hnextS
          (by omega) (fun a h => by
            cases h
            exact ⟨hsz, by
              have : ¬ s.count ≥ w.batch_size := fun h => hcond (Or.inl h)
              omega⟩)
          (fun h => by cases h)
        exact ⟨added, by rw [hadd, htr], by simpa [hbs] using hbound⟩

/-- C23 (counterexample): `batch_size` is 2 and the queue holds a transaction of size 1
followed by one of size 2, both within `batch_size`. The second is merged because the
accumulated size 1 is still under 2, and the accumulator that is dispatched holds 3
statements. -/
theorem batch_exceeds_batch_size :
    workerOneThenTwo.batch_size = 2 ∧
    workerOneThenTwo.queue.map (fun r => r.trans.get_size) = [1, 2] ∧
    (workerOneThenTwo.checkQueue mergeAll 0).transactions.map (fun r => r.trans.get_size) =
      [3] ∧
    (workerOneThenTwo.checkQueue mergeAll 0).queue = [] := by
  decide

/-- C23: for `batch_size ≥ 1` and an admission queue whose transactions hold at most `S`
statements each, every record the batching loop of `checkQueue` adds to the active table
(every accumulator it dispatches) holds at most `batch_size - 1 + S` statements: an entry is
merged while the size accumulated before it is under `batch_size`. With single-statement
transactions (`S = 1`) the bound is `batch_size`. -/
theorem checkQueue_batch_bound (cm : IPGTransaction → IPGTransaction → Bool) (w : Worker)
    (now : Int) (S : Nat) (hB : 1 ≤ w.batch_size)
    (hS : ∀ x ∈ w.queue, x.trans.get_size ≤ S) :
    ∃ added : List TransContainer,
      (w.checkQueue cm now).transactions =
        (w.drainRetry now [] w.retransmit_q).transactions ++ added ∧
      ∀ r ∈ added, r.trans.get_size ≤ w.batch_size - 1 + S := by
  have hq : (w.drainRetry now [] w.retransmit_q).queue = w.queue :=
    Worker.drainRetry_queue w now [] w.retransmit_q
  have hb : (w.drainRetry now [] w.retransmit_q).batch_size = w.batch_size :=
    Worker.drainRetry_batch_size w now [] w.retransmit_q
  unfold Worker.checkQueue
  dsimp only
  split
  · exact ⟨[], by simp⟩
  · obtain ⟨added, hadd, hbound⟩ := Worker.batchLoop_added cm now S
      (2 * (w.drainRetry now [] w.retransmit_q).queue.length + 1)
      (w.drainRetry now [] w.retransmit_q) none 0 []
      (w.drainRetry now [] w.retransmit_q).queue (by rw [hq]; exact hS) (by rw [hb]; exact hB)
      (fun a h => by cases h) (fun _ => rfl)
    refine ⟨added, ?_, by simpa [hb] using hbound⟩
    split <;> exact hadd

/-- C23 (witness): two single-statement transactions with `batch_size` 2. -/
theorem checkQueue_batch_bound_witness :
    ∃ added : List TransContainer,
      (workerTwoQueued.checkQueue mergeAll 0).transactions =
        (workerTwoQueued.drainRetry 0 [] workerTwoQueued.retransmit_q).transactions ++ added ∧
      ∀ r ∈ added, r.trans.get_size ≤ workerTwoQueued.batch_size - 1 + 1 :=
  checkQueue_batch_bound mergeAll workerTwoQueued 0 1 (by decide) (by decide)

/-- `setWorkTimer(false)` examines the four deadlines one after the other. -/
theorem Worker.setWorkTimer_foldl (w : Worker) (now : Int) :
    (w.setWorkTimer now false).workTimer =
      w.deadlines.foldl (nextInterval now) 0 * 1000000 := by
  simp only [Worker.setWorkTimer, Worker.deadlines, List.foldl, nextInterval]
  rfl

/-- What the interval is after the deadlines `l` were examined, in terms of `l` only: zero
when no deadline of `l` is set, and otherwise the smallest of the values `max (d - now) 1`
over the set deadlines `d` of `l`. -/
theorem nextInterval_foldl (now : Int) (l : List Int) :
    ((∀ d ∈ l, d = 0) ∧ l.foldl (nextInterval now) 0 = 0) ∨
    (1 ≤ l.foldl (nextInterval now) 0 ∧
      (∃ d ∈ l, d ≠ 0 ∧ l.foldl (nextInterval now) 0 = max (d - now) 1) ∧
      ∀ d ∈ l, d ≠ 0 → l.foldl (nextInterval now) 0 ≤ max (d - now) 1) := by
  induction l using List.reverseRecOn with
  | nil => left; simp
  | append_singleton l x ih =>
    rw [List.foldl_append, List.foldl_cons, List.foldl_nil]
    generalize l.foldl (nextInterval now) 0 = i at ih ⊢
    by_cases hx : x = 0
    · have hstep : nextInterval now i x = i := by simp [nextInterval, hx]
      rw [hstep]
      rcases ih with ⟨hz, hi⟩ | ⟨h1, ⟨d, hd, hd0, hdi⟩, hmin⟩
      · left
        refine ⟨fun d hd => ?_, hi⟩
        rcases List.mem_append.mp hd with h | h
        · exact hz d h
        · rw [List.mem_singleton.mp h, hx]
      · right
        refine ⟨h1, ⟨d, List.mem_append_left _ hd, hd0, hdi⟩, fun e he he0 => ?_⟩
        rcases List.mem_append.mp he with h | h
        · exact hmin e h he0
        · rw [List.mem_singleton.mp h] at he0; exact absurd hx he0
    · right
      rcases ih with ⟨hz, hi⟩ | ⟨h1, ⟨d, hd, hd0, hdi⟩, hmin⟩
      · have hstep : nextInterval now i x = max (x - now) 1 := by
          rw [nextInterval, if_pos ⟨hx, Or.inl hi⟩]
          split_ifs <;> omega
        rw [hstep]
        refine ⟨by omega, ⟨x, by simp, hx, rfl⟩, fun e he he0 => ?_⟩
        rcases List.mem_append.mp he with h | h
        · exact absurd (hz e h) he0
        · rw [List.mem_singleton.mp h]
      · have hstep : nextInterval now i x = min i (max (x - now) 1) := by
          simp only [nextInterval]
          split_ifs <;> omega
        rw [hstep]
        refine ⟨by omega, ?_, fun e he he0 => ?_⟩
        · by_cases hle : i ≤ max (x - now) 1
          · exact ⟨d, List.mem_append_left _ hd, hd0, by rw [← hdi]; omega⟩
          · exact ⟨x, by simp, hx, by omega⟩
        · rcases List.mem_append.mp he with h | h
          · have := hmin e h he0
            omega
          · rw [List.mem_singleton.mp h]
            omega

/-- The interval does not depend on the order in which the deadlines are examined. -/
theorem nextInterval_foldl_perm (now : Int) (l1 l2 : List Int) (h : l1.Perm l2) :
    l1.foldl (nextInterval now) 0 = l2.foldl (nextInterval now) 0 := by
  rcases nextInterval_foldl now l1 with ⟨hz1, hi1⟩ | ⟨-, ⟨d1, hd1, hd10, he1⟩, hmin1⟩ <;>
    rcases nextInterval_foldl now l2 with ⟨hz2, hi2⟩ | ⟨-, ⟨d2, hd2, hd20, he2⟩, hmin2⟩
  · rw [hi1, hi2]
  · exact absurd (hz1 d2 (h.mem_iff.mpr hd2)) hd20
  · exact absurd (hz2 d1 (h.mem_iff.mp hd1)) hd10
  · have h12 := hmin1 d2 (h.mem_iff.mpr hd2) hd20
    have h21 := hmin2 d1 (h.mem_iff.mp hd1) hd10
    rw [← he2] at h12
    rw [← he1] at h21
    omega

/-- C24: `Worker::setWorkTimer(false)` arms the work timer (in microseconds) to the minimum,
over the deadlines among `reset_next_time`, `retransmit_next_time`, `wait_next_time` and
`send_next_time` that are set (non-zero), of `max (deadline - now) 1` seconds: the value is
attained by a set deadline and is at most the value of every set deadline. When no deadline
is set the interval is 0. A set deadline at or before `now` makes the interval exactly 1
second. A Worker whose four deadlines are the same values in another order gets the same
interval. -/
theorem setWorkTimer_minimum (w : Worker) (now : Int) :
    ((∀ d ∈ w.deadlines, d = 0) → (w.setWorkTimer now false).workTimer = 0) ∧
    ((∃ d ∈ w.deadlines, d ≠ 0) →
      (∃ d ∈ w.deadlines, d ≠ 0 ∧
        (w.setWorkTimer now false).workTimer = max (d - now) 1 * 1000000) ∧
      ∀ d ∈ w.deadlines, d ≠ 0 →
        (w.setWorkTimer now false).workTimer ≤ max (d - now) 1 * 1000000) ∧
    (∀ d ∈ w.deadlines, d ≠ 0 → d ≤ now →
      (w.setWorkTimer now false).workTimer = 1000000) ∧
    (∀ w2 : Worker, w2.deadlines.Perm w.deadlines →
      (w2.setWorkTimer now false).workTimer = (w.setWorkTimer now false).workTimer) := by
  rw [Worker.setWorkTimer_foldl]
  have hchar := nextInterval_foldl now w.deadlines
  refine ⟨fun hz => ?_, fun hex => ?_, fun d hd hd0 hle => ?_, fun w2 hp => ?_⟩
  · rcases hchar with ⟨-, hi⟩ | ⟨-, ⟨d, hd, hd0, -⟩, -⟩
    · rw [hi]; rfl
    · exact absurd (hz d hd) hd0
  · rcases hchar with ⟨hz, -⟩ | ⟨-, ⟨d, hd, hd0, he⟩, hmin⟩
    · obtain ⟨d, hd, hd0⟩ := hex
      exact absurd (hz d hd) hd0
    · refine ⟨⟨d, hd, hd0, by rw [← he]⟩, fun e he he0 => ?_⟩
      have := hmin e he he0
      omega
  · rcases hchar with ⟨hz, -⟩ | ⟨h1, -, hmin⟩
    · exact absurd (hz d hd) hd0
    · have := hmin d hd hd0
      have hm : max (d - now) 1 = 1 := by omega
      rw [hm] at this
      have : w.deadlines.foldl (nextInterval now) 0 = 1 := by omega
      rw [this]; rfl
  · rw [Worker.setWorkTimer_foldl, nextInterval_foldl_perm now _ _ hp]

/-- C24 (witness): at time 2 the retry wake time 1 has passed: the timer is armed to one
second although the wait deadline 12 is ten seconds away. -/
theorem setWorkTimer_minimum_witness :
    (workerTwoDeadlines.setWorkTimer 2 false).workTimer = 1000000 :=
  (setWorkTimer_minimum workerTwoDeadlines 2).2.2.1 1 (by decide) (by decide) (by decide)

/-- The loop of `onTimer` over the pending-reset list in closed form: `reset()` is called on
the leading entries that are due, the rest is left, and the first entry left sets
`reset_next_time`. An entry is due when its disconnect time plus `reconnect_interval` is
before `current`. -/
theorem Worker.resetWalk_spec (current : Int) (conns : List (Option Nat)) :
    ∀ w : Worker,
      (w.resetWalk current conns).2 = conns.dropWhile
        (fun c => decide (w.getDisconnectedTime c + w.reconnect_interval < current)) ∧
      (w.resetWalk current conns).1 =
        { w with
          resetCalls := w.resetCalls ++ conns.takeWhile
            (fun c => decide (w.getDisconnectedTime c + w.reconnect_interval < current)),
          reset_next_time :=
            match conns.dropWhile
              (fun c => decide (w.getDisconnectedTime c + w.reconnect_interval < current)) with
            | [] => w.reset_next_time
            | c :: _ => current - w.getDisconnectedTime c + w.reconnect_interval } := by
  induction conns with
  | nil => intro w; simp [Worker.resetWalk]
  | cons c tl ih =>
    intro w
    by_cases hd : w.getDisconnectedTime c + w.reconnect_interval < current
    · have hg : ∀ x, Worker.getDisconnectedTime
          { w with resetCalls := w.resetCalls ++ [c] } x = w.getDisconnectedTime x :=
        fun x => Worker.getDisconnectedTime_congr rfl rfl x
      have := ih { w with resetCalls := w.resetCalls ++ [c] }
      simp only [hg] at this
      simp only [Worker.resetWalk, hd, if_true, List.dropWhile_cons, List.takeWhile_cons,
        decide_True, this]
      simp
    · simp [Worker.resetWalk, hd, List.dropWhile_cons, List.takeWhile_cons]

/-- C25 (counterexample): the only pending connection is down since 95 and
`reconnect_interval` is 5, so it falls due exactly at 100. The tick at time 100 does not call
`reset()` on it and leaves it in the list. -/
theorem reset_not_called_when_due_now :
    (workerPendingReset 95).getDisconnectedTime (some 100) +
      (workerPendingReset 95).reconnect_interval = 100 ∧
    ((workerPendingReset 95).onTimerResets 100).resetCalls = [] ∧
    ((workerPendingReset 95).onTimerResets 100).resetConnections = [some 100] := by
  decide

/-- C25: the reset walk of `Worker::onTimer`. `reset()` is called, in list order, on every
leading entry of the pending-reset list whose disconnect time plus `reconnect_interval` is
strictly before `now`; these entries leave the list. The walk stops at the first entry for
which this is not so (an entry due exactly at `now` included): it stays in the list together
with all later entries, in their original order. -/
theorem onTimer_reset_walk (w : Worker) (now : Int) :
    (w.onTimerResets now).resetCalls = w.resetCalls ++ w.resetConnections.takeWhile
      (fun c => decide (w.getDisconnectedTime c + w.reconnect_interval < now)) ∧
    (w.onTimerResets now).resetConnections = w.resetConnections.dropWhile
      (fun c => decide (w.getDisconnectedTime c + w.reconnect_interval < now)) ∧
    (∀ c tl, w.resetConnections.dropWhile
        (fun c => decide (w.getDisconnectedTime c + w.reconnect_interval < now)) = c :: tl →
      now ≤ w.getDisconnectedTime c + w.reconnect_interval) := by
  have hg : ∀ x, Worker.getDisconnectedTime
      { w with deleted := w.deleted ++ w.erased, erased := [], resetConnections := [],
               reset_next_time := 0 } x = w.getDisconnectedTime x :=
    fun x => Worker.getDisconnectedTime_congr rfl rfl x
  have h := Worker.resetWalk_spec now w.resetConnections
    { w with deleted := w.deleted ++ w.erased, erased := [], resetConnections := [],
             reset_next_time := 0 }
  simp only [hg] at h
  refine ⟨?_, ?_, fun c tl hc => ?_⟩
  · simp only [Worker.onTimerResets]
    rw [h.2]
  · simp only [Worker.onTimerResets]
    rw [h.1, h.2]
    simp
  · have := List.head_dropWhile_not
      (fun c => decide (w.getDisconnectedTime c + w.reconnect_interval < now))
      w.resetConnections (by rw [hc]; simp)
    simp only [hc, List.head_cons] at this
    simpa using this

/-- C25 (witness): a connection down since 90 is due before 100 and is reset by the tick. -/
theorem onTimer_reset_walk_witness :
    ((workerPendingReset 90).onTimerResets 100).resetCalls =
      (workerPendingReset 90).resetCalls ++ (workerPendingReset 90).resetConnections.takeWhile
        (fun c => decide ((workerPendingReset 90).getDisconnectedTime c +
          (workerPendingReset 90).reconnect_interval < 100)) :=
  (onTimer_reset_walk (workerPendingReset 90) 100).1

/-- The value the reset walk of `onTimer` leaves in `reset_next_time`: zero when every
pending entry was reset, and `now` minus the disconnect time plus `reconnect_interval` of the
entry the walk stopped at. -/
theorem Worker.onTimerResets_reset_next_time (w : Worker) (now : Int) :
    (w.onTimerResets now).reset_next_time =
      match w.resetConnections.dropWhile
        (fun c => decide (w.getDisconnectedTime c + w.reconnect_interval < now)) with
      | [] => 0
      | c :: _ => now - w.getDisconnectedTime c + w.reconnect_interval := by
  have hg : ∀ x, Worker.getDisconnectedTime
      { w with deleted := w.deleted ++ w.erased, erased := [], resetConnections := [],
               reset_next_time := 0 } x = w.getDisconnectedTime x :=
    fun x => Worker.getDisconnectedTime_congr rfl rfl x
  have h := Worker.resetWalk_spec now w.resetConnections
    { w with deleted := w.deleted ++ w.erased, erased := [], resetConnections := [],
             reset_next_time := 0 }
  simp only [hg] at h
  simp only [Worker.onTimerResets]
  rw [h.2]

/-- C26: the only pending connection is down since 98 and `reconnect_interval` is 5, so it
falls due at 103. The tick at time 100 stops at it and leaves `reset_next_time = 7`, which is
`100 - 98 + 5`, not the time 103 at which the entry falls due. -/
theorem reset_wake_time_is_not_due_time :
    (workerPendingReset 98).getDisconnectedTime (some 100) +
      (workerPendingReset 98).reconnect_interval = 103 ∧
    ((workerPendingReset 98).onTimerResets 100).resetConnections = [some 100] ∧
    ((workerPendingReset 98).onTimerResets 100).resetCalls = [] ∧
    ((workerPendingReset 98).onTimerResets 100).reset_next_time = 7 := by
  decide

/-- C27: two transactions are active. The first was dispatched at time 0 and fired at time
12, and is still Canceling; the second was dispatched at time 12 and runs. At time 25 the
second is older than `trans_wait_time` (10) and not Canceling, so it is due to be fired. The
walk of `onTimer` never gets to it: it stays at the first record, which is Canceling and
older than twice the wait time. For every bound on the number of iterations nothing was
cancelled and nothing was posted. -/
theorem timed_out_record_behind_wedged_not_fired (fuel : Nat) :
    ((workerTwoConns.run mergeAll wedgedThenLate).transactions.map
      (fun r => (r.trans.id, r.createdTime, r.trans.status, r.sender_id))) =
        [(10, 0, .CANCELING, "producer"), (11, 12, .RUNNING, "producer")] ∧
    ((workerTwoConns.run mergeAll wedgedThenLate).onTimer mergeAll fuel 25).2 = false ∧
    ((workerTwoConns.run mergeAll wedgedThenLate).onTimer mergeAll fuel 25).1.cancelled =
      (workerTwoConns.run mergeAll wedgedThenLate).cancelled ∧
    ((workerTwoConns.run mergeAll wedgedThenLate).onTimer mergeAll fuel 25).1.posted =
      (workerTwoConns.run mergeAll wedgedThenLate).posted ∧
    (((workerTwoConns.run mergeAll wedgedThenLate).onTimer mergeAll fuel 25).1.transactions.map
      (fun r => (r.trans.id, r.trans.status))) = [(10, .CANCELING), (11, .RUNNING)] := by
  have hstate : (((workerTwoConns.run mergeAll wedgedThenLate).onTimerResets
      25).transactions.get? 0).map (fun r => (r.trans.status, r.createdTime)) =
      some (.CANCELING, 0) := by
    decide
  cases hget : ((workerTwoConns.run mergeAll wedgedThenLate).onTimerResets
      25).transactions.get? 0 with
  | none => rw [hget] at hstate; cases hstate
  | some tr =>
    rw [hget] at hstate
    simp only [Option.map_some', Option.some.injEq, Prod.mk.injEq] at hstate
    have hwalk := Worker.timerWalk_stuck 25 0 tr fuel _ hget hstate.1
      (by rw [hstate.2]; decide)
    have hc : ((workerTwoConns.run mergeAll wedgedThenLate).onTimerResets 25).cancelled =
        (workerTwoConns.run mergeAll wedgedThenLate).cancelled := by decide
    have hp : ((workerTwoConns.run mergeAll wedgedThenLate).onTimerResets 25).posted =
        (workerTwoConns.run mergeAll wedgedThenLate).posted := by decide
    have ht : (((workerTwoConns.run mergeAll wedgedThenLate).onTimerResets
        25).transactions.map (fun r => (r.trans.id, r.trans.status))) =
        [(10, .CANCELING), (11, .RUNNING)] := by decide
    simp only [Worker.onTimer, hwalk, Bool.false_eq_true, if_false]
    exact ⟨by decide, trivial, hc, hp, ht⟩

/-- C28: two transactions are active, created at times 0 and 5, and `trans_wait_time` is 10;
at time 6 neither is timed out. The walk of `onTimer` over the active table ends and leaves
`wait_next_time = 15`, the deadline of the record it visited last, and not the earliest
deadline 10; `onTimer` as a whole leaves the same value. -/
theorem wait_wake_time_is_last_deadline :
    ((workerTwoConns.run mergeAll twoDispatches).transactions.map
      (fun r => (r.trans.id, r.createdTime, r.trans.status))) =
        [(10, 0, .RUNNING), (11, 5, .RUNNING)] ∧
    (workerTwoConns.run mergeAll twoDispatches).trans_wait_time = 10 ∧
    ((((workerTwoConns.run mergeAll twoDispatches).onTimerResets 6).timerWalk 10 6 0).2 =
      true) ∧
    ((((workerTwoConns.run mergeAll twoDispatches).onTimerResets 6).timerWalk 10 6
      0).1.wait_next_time = 15) ∧
    ((workerTwoConns.run mergeAll twoDispatches).onTimer mergeAll 10 6).1.wait_next_time = 15 ∧
    ((workerTwoConns.run mergeAll twoDispatches).onTimer mergeAll 10 6).1.workTimer =
      9000000 := by
  decide

/-- C29: the retry queue holds a record created at 0 whose last pool is the primary, retry is
enabled with an interval of 5, and the admission queue holds one record. In `checkQueue` at
time 2 the retry record is left in place because it is within its interval (result 1, and
the call sets `retransmit_next_time = 5`); the dispatch of the queued record that follows
starts with `retransmit_next_time = 0`, so when `checkQueue` returns the retry record is
still queued and the retry wake time is 0. -/
theorem retry_wake_time_cleared_by_later_dispatch :
    (workerRetryAndQueue.retransmitTransaction 2 primaryRetryRecord).1 = 1 ∧
    (workerRetryAndQueue.retransmitTransaction 2 primaryRetryRecord).2.1.retransmit_next_time
      = 5 ∧
    (workerRetryAndQueue.checkQueue mergeAll 2).retransmit_q = [primaryRetryRecord] ∧
    handles (workerRetryAndQueue.checkQueue mergeAll 2).transactions = [6] ∧
    (workerRetryAndQueue.checkQueue mergeAll 2).retransmit_next_time = 0 := by
  decide

/-- A call on a record with no pool recorded returns at recursion depth one, that is, without
a recursive call. -/
theorem Worker.retransmitAux_noPool_returns (w : Worker) (now : Int) (t : TransContainer)
    (h : t.currentPool = none) :
    w.retransmitTransactionAux 1 now t = some (w.retransmitTransaction now t) := by
  have h1 := Worker.retransmitAux_recurse 0 w now t h
  rwa [Worker.retransmitAux_noPool_eq 0 0 w 0 now t h] at h1

/-- C30: `Worker::retransmitTransaction` is total. For every Worker state, time and record
the call returns at every recursion depth of two or more, so after at most one recursive
call; the recursive call, which runs on the record with its pool cleared, returns at depth
one, without recursing; the result is -1, 0 or 1; and for a record with no pool recorded the
result is not 1. -/
theorem retransmitTransaction_total (w : Worker) (now : Int) (t : TransContainer) :
    (∀ n, w.retransmitTransactionAux (n + 2) now t = some (w.retransmitTransaction now t)) ∧
    (∀ w1 : Worker, w1.retransmitTransactionAux 1 now { t with currentPool := none } =
      some (w1.retransmitTransaction now { t with currentPool := none })) ∧
    ((w.retransmitTransaction now t).1 = -1 ∨ (w.retransmitTransaction now t).1 = 0 ∨
      (w.retransmitTransaction now t).1 = 1) ∧
    (t.currentPool = none →
      (w.retransmitTransaction now t).1 = -1 ∨ (w.retransmitTransaction now t).1 = 0) := by
  refine ⟨fun n => ?_, fun w1 => Worker.retransmitAux_noPool_returns w1 now _ rfl, ?_, ?_⟩
  · obtain ⟨r, hr, -⟩ := Worker.retransmitAux_outcome 0 w now t
    rw [Worker.retransmitAux_fuel n w now t, Worker.retransmitTransaction]
    rw [show (0 : Nat) + 2 = 2 from rfl] at hr
    rw [hr]
  · have ho := Worker.retransmit_outcome w now t
    generalize w.retransmitTransaction now t = r at ho
    cases ho with
    | noConnection => exact Or.inl rfl
    | discarded => exact Or.inr (Or.inl rfl)
    | started => exact Or.inr (Or.inl rfl)
    | deferred => exact Or.inr (Or.inr rfl)
  · intro h
    have h1 := Worker.retransmitAux_noPool_returns w now t h
    simp only [Worker.retransmitTransactionAux, h, Option.isNone_none, if_true] at h1
    cases hc : ((w.setRetransmitNextTime 0).getFreeConnection none).conn with
    | none =>
      rw [hc] at h1
      left
      rw [← Option.some.inj h1]
    | some c =>
      rw [hc] at h1
      right
      rw [← Option.some.inj h1]

/-- C30 (witness): a record with no pool on a Worker whose primary connection is busy gets
the result -1. -/
theorem retransmitTransaction_total_witness :
    (workerPrimaryBusy.retransmitTransaction 0
        (TransContainer.create 0 (idleTrans 3 .TR_NON ["select 1"]) none "" "tok")).1 = -1 ∨
    (workerPrimaryBusy.retransmitTransaction 0
        (TransContainer.create 0 (idleTrans 3 .TR_NON ["select 1"]) none "" "tok")).1 = 0 :=
  (retransmitTransaction_total workerPrimaryBusy 0
    (TransContainer.create 0 (idleTrans 3 .TR_NON ["select 1"]) none "" "tok")).2.2.2 rfl

end PgPool
